import Mathlib

/-!
# Numerical calculus core of `frontend/script.js`

A shallow embedding of the numerical routines of the front end: the
finite-difference differentiator (`numericPartialsAt`, `numericHessianAt`), the
range selector (`pickSafeRangeForExpr`), the grid generator (`createRange`), the
critical point locator (`findCriticalPointsLocal`), the midpoint-rule integrator
(`numericDoubleIntegralRect`) and the local Lagrange solver
(`solveLagrangeLocal`).

## Number models

The routines are embedded on two models of the JavaScript numbers.

`JSNum` is the idealisation with exact arithmetic: a number is either a finite
value, held as an exact rational, or `NaN`.  Arithmetic on finite values is exact
(no rounding and no overflow), every operation absorbs `NaN`, and every comparison
with `NaN` is false, as in JavaScript.  The infinities are not represented: the
source turns a non-finite value of the evaluator into `NaN`
(`evaluateLocalAtPoint`) or rejects it with `Number.isFinite` before any other use
(`solveLagrangeLocal`), and exact arithmetic never overflows.  A division by zero
yields `NaN`; in the source a zero divisor only meets a zero or `NaN` numerator
(step `h = 0`), or its quotient is used by no loop iteration or only multiplied by
zero (`nx = 0`, `steps = 1`), and in each of those places JavaScript yields `NaN`
or an unused value as well.  The statements made on `JSNum` are about the
structure of the routines: which formula is computed, which values are visited,
kept, rejected or labelled.

`Double` is the IEEE 754 binary64 arithmetic that the code runs in: a number is a
finite value, an infinity or `NaN`, and every operation returns the exact result
rounded to the nearest double, ties to even, with overflow to an infinity and
gradual underflow.  The statements about the values that the grid generator, the
integrator, the differentiator and the Newton loop compute are made on `Double`:
there the results are close to the exact ones, not equal to them.

`Math.hypot(a, b)` is irrational in general; the source only ever compares it with
a positive constant `t`, so the models keep its square and compare it with `t * t`.
-/

/-- A JavaScript number: finite (an exact rational) or NaN. -/
inductive JSNum where
  | fin (q : ℚ)
  | nan
deriving DecidableEq

namespace JSNum

/-- The JavaScript test `Number.isFinite`. -/
def isFinite : JSNum → Bool
  | fin _ => true
  | nan => false

/-- The JavaScript operator `+` on numbers. -/
def add : JSNum → JSNum → JSNum
  | fin a, fin b => fin (a + b)
  | _, _ => nan

/-- The JavaScript binary operator `-`. -/
def sub : JSNum → JSNum → JSNum
  | fin a, fin b => fin (a - b)
  | _, _ => nan

/-- The JavaScript operator `*`. -/
def mul : JSNum → JSNum → JSNum
  | fin a, fin b => fin (a * b)
  | _, _ => nan

/-- The JavaScript operator `/`; a zero divisor gives NaN (see the file header). -/
def div : JSNum → JSNum → JSNum
  | fin a, fin b => if b = 0 then nan else fin (a / b)
  | _, _ => nan

/-- The JavaScript unary operator `-`. -/
def neg : JSNum → JSNum
  | fin a => fin (-a)
  | nan => nan

/-- The JavaScript function `Math.abs`. -/
def abs : JSNum → JSNum
  | fin a => fin |a|
  | nan => nan

/-- The JavaScript comparison `a < b`: false when an operand is NaN. -/
def lt : JSNum → JSNum → Bool
  | fin a, fin b => decide (a < b)
  | _, _ => false

/-- The JavaScript comparison `a <= b`: false when an operand is NaN. -/
def le : JSNum → JSNum → Bool
  | fin a, fin b => decide (a ≤ b)
  | _, _ => false

/-- The JavaScript comparison `a > b`. -/
def gt (a b : JSNum) : Bool := lt b a

/-- The JavaScript comparison `a === b` on numbers: false when an operand is NaN. -/
def strictEq : JSNum → JSNum → Bool
  | fin a, fin b => decide (a = b)
  | _, _ => false

instance : Add JSNum := ⟨add⟩
instance : Sub JSNum := ⟨sub⟩
instance : Mul JSNum := ⟨mul⟩
instance : Div JSNum := ⟨div⟩
instance : Neg JSNum := ⟨neg⟩
instance (n : Nat) : OfNat JSNum n := ⟨fin (n : ℚ)⟩
instance : OfScientific JSNum := ⟨fun m s e => fin (OfScientific.ofScientific m s e)⟩
instance : Inhabited JSNum := ⟨nan⟩

/-- The square of `Math.hypot(a, b)`. -/
def hypotSq (a b : JSNum) : JSNum := a * a + b * b

/-- The test `Number.isFinite(g) && g < t` for `g = Math.hypot(a, b)` and a
positive constant `t`. -/
def hypotFiniteLt (a b t : JSNum) : Bool :=
  (hypotSq a b).isFinite && (hypotSq a b).lt (t * t)

/-- The test `Math.hypot(a, b) < t` for a positive constant `t`. -/
def hypotLt (a b t : JSNum) : Bool := (hypotSq a b).lt (t * t)

end JSNum

open JSNum

/-- An expression as the routines receive it: its source text, read by the range
selector, and what math.js makes of it.  `eval x y` is the number the evaluator
yields for the expression at `(x, y)`, NaN when it is not finite or when the
evaluation throws; `evalDx` and `evalDy` are the same for the symbolic partial
derivatives `math.derivative(node, 'x')` and `math.derivative(node, 'y')`. -/
structure Expression where
  text : String
  eval : JSNum → JSNum → JSNum
  evalDx : JSNum → JSNum → JSNum
  evalDy : JSNum → JSNum → JSNum

/-- `createRange(min, max, steps)` with `steps` a whole number, in exact arithmetic;
`Double.createRange` is the same loop on doubles. -/
def createRange (min max : JSNum) (steps : Nat) : List JSNum :=
  let step := (max - min) / fin ((steps : ℚ) - 1)
  (List.range steps).map (fun (i : ℕ) => min + fin (i : ℚ) * step)

/-- `evaluateLocalAtPoint(expression, x, y)`: the evaluator's number when it is
finite, NaN otherwise. -/
def evaluateLocalAtPoint (expression : Expression) (x y : JSNum) : JSNum :=
  let num := expression.eval x y
  if num.isFinite then num else nan

/-- The record `{ fx, fy }` returned by `numericPartialsAt`. -/
structure Gradient where
  fx : JSNum
  fy : JSNum
deriving DecidableEq

/-- The record `{ fxx, fyy, fxy }` returned by `numericHessianAt`. -/
structure Hessian where
  fxx : JSNum
  fyy : JSNum
  fxy : JSNum
deriving DecidableEq

/-- The default finite-difference step `h = 1e-4`. -/
def defaultH : JSNum := 1e-4

/-- `numericPartialsAt(expression, x, y, h)`. -/
def numericPartialsAt (expression : Expression) (x y : JSNum) (h : JSNum) : Gradient :=
  let f := fun xi yi => evaluateLocalAtPoint expression xi yi
  let fx := (f (x + h) y - f (x - h) y) / (2 * h)
  let fy := (f x (y + h) - f x (y - h)) / (2 * h)
  { fx := fx, fy := fy }

/-- `numericHessianAt(expression, x, y, h)`. -/
def numericHessianAt (expression : Expression) (x y : JSNum) (h : JSNum) : Hessian :=
  let f := fun xx yy => evaluateLocalAtPoint expression xx yy
  let fxx := (f (x + h) y - 2 * f x y + f (x - h) y) / (h * h)
  let fyy := (f x (y + h) - 2 * f x y + f x (y - h)) / (h * h)
  let fxy := (f (x + h) (y + h) - f (x + h) (y - h) - f (x - h) (y + h) + f (x - h) (y - h))
    / (4 * h * h)
  { fxx := fxx, fyy := fyy, fxy := fxy }

/-! ## Range selector -/

/-- The regular-expression class of word characters: ASCII letters, digits, underscore. -/
def isWordChar (c : Char) : Bool := c.isAlphanum || c == '_'

/-- The regular-expression class of white space, by code point. -/
def isJsSpace (c : Char) : Bool :=
  let n := c.toNat
  n == 9 || n == 10 || n == 11 || n == 12 || n == 13 || n == 32 || n == 160 ||
  n == 5760 || (8192 ≤ n && n ≤ 8202) || n == 8232 || n == 8233 || n == 8239 ||
  n == 8287 || n == 12288 || n == 65279

/-- Lower-casing of one character as far as the selector can observe it: ASCII
letters are lowered, the Kelvin sign becomes k, the dotted capital I becomes i
followed by a combining dot; every other character is neither an ASCII word
character nor white space before and after lower-casing, and is kept. -/
def lowerChar (c : Char) : List Char :=
  if c.toNat == 8490 then ['k']
  else if c.toNat == 304 then ['i', Char.ofNat 775]
  else [c.toLower]

/-- The method `toLowerCase` on the characters of a string. -/
def toLowerCase (s : List Char) : List Char := s.flatMap lowerChar

/-- Whether the input starts with the name, then any white space, then an opening
parenthesis: the pattern after its word boundary. -/
def matchesCallHere (name : List Char) (s : List Char) : Bool :=
  name.isPrefixOf s && ((s.drop name.length).dropWhile isJsSpace).head? == some '('

/-- The search of the pattern, a word boundary followed by a call of the name,
through the input; the flag tells whether the previous character is a word
character. -/
def testCallFrom (name : List Char) : Bool → List Char → Bool
  | _, [] => false
  | prevIsWord, c :: cs =>
    (!prevIsWord && matchesCallHere name (c :: cs)) || testCallFrom name (isWordChar c) cs

/-- The test of a word boundary followed by a call of the name against a string,
for a name that starts with a word character. -/
def testCall (name : String) (s : List Char) : Bool := testCallFrom name.toList false s

/-- The record `{ min, max }` of a sampling range. -/
structure Range where
  min : JSNum
  max : JSNum
deriving DecidableEq

/-- The JavaScript function `Math.min` on two numbers. -/
def jsMin : JSNum → JSNum → JSNum
  | fin a, fin b => fin (min a b)
  | _, _ => nan

/-- `pickSafeRangeForExpr(expression)`. -/
def pickSafeRangeForExpr (expression : String) : Range :=
  let lowered := toLowerCase expression.toList
  let limit : JSNum := 5
  let limit := if testCall "tan" lowered then jsMin limit 1.2 else limit
  let limit := if testCall "log" lowered then jsMin limit 5 else limit
  let limit := if testCall "sqrt" lowered then jsMin limit 4 else limit
  { min := -limit, max := limit }

/-! ## Critical point locator -/

/-- One entry of the list returned by `findCriticalPointsLocal`. -/
structure CriticalPoint where
  x : JSNum
  y : JSNum
  f : JSNum
  classification : String
  color : String
  determinant : JSNum
  fxx : JSNum
  fyy : JSNum
  fxy : JSNum
deriving DecidableEq

/-- The seed scan: the grid points whose numeric gradient is finite with norm below
the threshold `1e-2`, in scan order. -/
def seedCandidates (expression : Expression) (xs ys : List JSNum) : List (JSNum × JSNum) :=
  let threshold : JSNum := 1e-2
  xs.foldl (fun cand xv =>
    ys.foldl (fun cand yv =>
      let g := numericPartialsAt expression xv yv defaultH
      if hypotFiniteLt g.fx g.fy threshold then cand ++ [(xv, yv)] else cand) cand) []

/-- The Newton loop of one candidate with `n` iterations left: it stops on a
non-finite or near-singular determinant, keeping the point reached, and after a
step of norm below `1e-6`. -/
def newtonRefine (expression : Expression) : Nat → JSNum → JSNum → JSNum × JSNum
  | 0, px, py => (px, py)
  | n + 1, px, py =>
    let g := numericPartialsAt expression px py defaultH
    let hs := numericHessianAt expression px py defaultH
    let detH := hs.fxx * hs.fyy - hs.fxy * hs.fxy
    if !detH.isFinite || (JSNum.abs detH).lt 1e-12 then (px, py)
    else
      let inv00 := hs.fyy / detH
      let inv01 := -hs.fxy / detH
      let inv10 := -hs.fxy / detH
      let inv11 := hs.fxx / detH
      let dx := inv00 * g.fx + inv01 * g.fy
      let dy := inv10 * g.fx + inv11 * g.fy
      let px := px - dx
      let py := py - dy
      if hypotLt dx dy 1e-6 then (px, py) else newtonRefine expression n px py

/-- The closure `near`: whether a kept point lies at distance below `1e-2`. -/
def near (uniq : List (JSNum × JSNum)) (ax ay : JSNum) : Bool :=
  let distTol : JSNum := 1e-2
  uniq.any (fun u => hypotLt (ax - u.1) (ay - u.2) distTol)

/-- The refinement loop: each candidate is refined by at most six Newton steps and
kept when it is finite and not near a point kept before. -/
def refineAll (expression : Expression) (cand : List (JSNum × JSNum)) : List (JSNum × JSNum) :=
  cand.foldl (fun uniq c =>
    let p := newtonRefine expression 6 c.1 c.2
    if p.1.isFinite && p.2.isFinite && !near uniq p.1 p.2 then uniq ++ [p] else uniq) []

/-- The body of the classification loop for one kept point. -/
def classifyPoint (expression : Expression) (p : JSNum × JSNum) : CriticalPoint :=
  let hs := numericHessianAt expression p.1 p.2 defaultH
  let D := hs.fxx * hs.fyy - hs.fxy * hs.fxy
  let fval := evaluateLocalAtPoint expression p.1 p.2
  let label : String × String :=
    if D.gt 1e-6 && hs.fxx.gt 0 then ("Mínimo local", "green")
    else if D.gt 1e-6 && hs.fxx.lt 0 then ("Máximo local", "blue")
    else if (JSNum.abs D).le 1e-6 then ("Prueba inconclusa", "orange")
    else ("Punto de silla", "red")
  { x := p.1, y := p.2, f := fval, classification := label.1, color := label.2,
    determinant := D, fxx := hs.fxx, fyy := hs.fyy, fxy := hs.fxy }

/-- `findCriticalPointsLocal(expression)`. -/
def findCriticalPointsLocal (expression : Expression) : List CriticalPoint :=
  let range := pickSafeRangeForExpr expression.text
  let xs := createRange range.min range.max 21
  let ys := createRange range.min range.max 21
  let cand := seedCandidates expression xs ys
  let uniq := refineAll expression cand
  uniq.map (classifyPoint expression)

/-! ## Double integral estimator -/

/-- `numericDoubleIntegralRect(expression, x0, x1, y0, y1, nx, ny)` with whole
numbers `nx`, `ny`; a loop whose bound is not positive runs no iteration. -/
def numericDoubleIntegralRect (expression : Expression) (x0 x1 y0 y1 : JSNum)
    (nx ny : Int) : JSNum :=
  let dx := (x1 - x0) / fin (nx : ℚ)
  let dy := (y1 - y0) / fin (ny : ℚ)
  (List.range ny.toNat).foldl (fun (sum : JSNum) (j : ℕ) =>
    let y := y0 + (fin (j : ℚ) + 0.5) * dy
    (List.range nx.toNat).foldl (fun (sum : JSNum) (i : ℕ) =>
      let x := x0 + (fin (i : ℚ) + 0.5) * dx
      let val := evaluateLocalAtPoint expression x y
      if val.isFinite then sum + val * dx * dy else sum) sum) 0

/-! ## Local Lagrange solver -/

/-- A point `{ x, y }` of the plane. -/
structure Point where
  x : JSNum
  y : JSNum
deriving DecidableEq

/-- A candidate `{ x, y, f }` returned by `solveLagrangeLocal`. -/
structure Candidate where
  x : JSNum
  y : JSNum
  f : JSNum
deriving DecidableEq

/-- The bisection loop shared by `refineOnSegment` (tolerance `1e-6`) and
`refineCOnSegment` (tolerance `1e-8`), with `n` iterations left, and its final
`return {x:ax,y:ay}`. -/
def bisectLoop (evalFun : JSNum → JSNum → JSNum) (tol : JSNum) :
    Nat → JSNum → JSNum → JSNum → JSNum → JSNum → JSNum → Point
  | 0, ax, ay, _, _, _, _ => { x := ax, y := ay }
  | n + 1, ax, ay, bx, by', fa, fb =>
    let mx := 0.5 * (ax + bx)
    let my := 0.5 * (ay + by')
    let fm := evalFun mx my
    if !fm.isFinite then { x := ax, y := ay }
    else if (JSNum.abs fm).lt tol then { x := mx, y := my }
    else if (fa * fm).le 0 then bisectLoop evalFun tol n ax ay mx my fa fm
    else bisectLoop evalFun tol n mx my bx by' fm fb

/-- The closure `refineOnSegment(x1, y1, x2, y2, evalFun)`; `none` is its `null`. -/
def refineOnSegment (x1 y1 x2 y2 : JSNum) (evalFun : JSNum → JSNum → JSNum) : Option Point :=
  let fa := evalFun x1 y1
  let fb := evalFun x2 y2
  if !fa.isFinite || !fb.isFinite then none
  else if fa.strictEq 0 then some { x := x1, y := y1 }
  else if fb.strictEq 0 then some { x := x2, y := y2 }
  else if (fa * fb).gt 0 then none
  else some (bisectLoop evalFun 1e-6 22 x1 y1 x2 y2 fa fb)

/-- The pairs of neighbours `(l[k], l[k+1])` of a list, in order. -/
def adjacentPairs {α : Type} (l : List α) : List (α × α) := l.zip l.tail

/-- The column scan: for each `x` of the grid, the segments between neighbouring
`y` values. -/
def scanColumns (evalG : JSNum → JSNum → JSNum) (xs ys : List JSNum)
    (curvePts : List Point) : List Point :=
  xs.foldl (fun pts x =>
    (adjacentPairs ys).foldl (fun pts yy =>
      match refineOnSegment x yy.1 x yy.2 evalG with
      | some hint => pts ++ [hint]
      | none => pts) pts) curvePts

/-- The row scan: for each `y` of the grid, the segments between neighbouring
`x` values. -/
def scanRows (evalG : JSNum → JSNum → JSNum) (xs ys : List JSNum)
    (curvePts : List Point) : List Point :=
  ys.foldl (fun pts y =>
    (adjacentPairs xs).foldl (fun pts xx =>
      match refineOnSegment xx.1 y xx.2 y evalG with
      | some hint => pts ++ [hint]
      | none => pts) pts) curvePts

/-- The comparator of the sort, `a.x===b.x ? a.y-b.y : a.x-b.x`. -/
def curveCompare (a b : Point) : JSNum :=
  if a.x.strictEq b.x then a.y - b.y else a.x - b.x

/-- Whether the comparator puts `a` no later than `b` (its value is at most zero). -/
def curveLe (a b : Point) : Prop := (curveCompare a b).le 0 = true

instance : DecidableRel curveLe := fun _ _ => inferInstanceAs (Decidable (_ = true))

/-- The call `curvePts.sort(...)`: a stable sort by the comparator. -/
def sortCurve (curvePts : List Point) : List Point := curvePts.insertionSort curveLe

/-- The closure `evalC`: the cross product `fx*gy - fy*gx` of the two gradients. -/
def evalC (fExpr gExpr : Expression) (x y : JSNum) : JSNum :=
  let fx := fExpr.evalDx x y
  let fy := fExpr.evalDy x y
  let gx := gExpr.evalDx x y
  let gy := gExpr.evalDy x y
  fx * gy - fy * gx

/-- The closure `refineCOnSegment(p, q)`; `none` is its `null`. -/
def refineCOnSegment (evalCFun : JSNum → JSNum → JSNum) (p q : Point) : Option Point :=
  let fa := evalCFun p.x p.y
  let fb := evalCFun q.x q.y
  if !fa.isFinite || !fb.isFinite then none
  else if (JSNum.abs fa).lt 1e-8 then some { x := p.x, y := p.y }
  else if (fa * fb).gt 0 then none
  else some (bisectLoop evalCFun 1e-8 24 p.x p.y q.x q.y fa fb)

/-- The candidate loop over the neighbouring pairs of the sorted curve points. -/
def collectCandidates (fExpr gExpr : Expression) (curvePts : List Point) : List Candidate :=
  (adjacentPairs curvePts).foldl (fun candidates pq =>
    match refineCOnSegment (evalC fExpr gExpr) pq.1 pq.2 with
    | some cp =>
      let z := fExpr.eval cp.x cp.y
      if z.isFinite then candidates ++ [{ x := cp.x, y := cp.y, f := z }] else candidates
    | none => candidates) []

/-- The final loop: a candidate is kept unless a kept one lies at distance below
`1e-3`. -/
def dedupCandidates (candidates : List Candidate) : List Candidate :=
  candidates.foldl (fun uniq c =>
    if !uniq.any (fun u => hypotLt (u.x - c.x) (u.y - c.y) 1e-3) then uniq ++ [c] else uniq) []

/-- The curve points gathered by the two scans, before sorting. -/
def traceCurve (fExpr gExpr : Expression) : List Point :=
  let range := pickSafeRangeForExpr fExpr.text
  let xs := createRange range.min range.max 60
  let ys := createRange range.min range.max 60
  scanRows gExpr.eval xs ys (scanColumns gExpr.eval xs ys [])

/-- `solveLagrangeLocal(fExpr, gExpr)` for expressions that math.js parses and
differentiates. -/
def solveLagrangeLocal (fExpr gExpr : Expression) : List Candidate :=
  let curvePts := traceCurve fExpr gExpr
  if curvePts.isEmpty then []
  else dedupCandidates (collectCandidates fExpr gExpr (sortCurve curvePts))

/-- The contribution of the cell `(i, j)` to the midpoint sum as the specification
words it: `f(x0+(i+0.5)dx, y0+(j+0.5)dy)*dx*dy` where `f` evaluates to a finite
number, zero where it does not. -/
def midpointCell (expression : Expression) (x0 y0 dx dy : ℚ) (i j : ℕ) : ℚ :=
  match evaluateLocalAtPoint expression (fin (x0 + (i + 1 / 2) * dx)) (fin (y0 + (j + 1 / 2) * dy)) with
  | fin v => v * dx * dy
  | nan => 0

/-- The midpoint sum as the specification words it: the sum of the cell
contributions over all `i` in `[0, nx)` and `j` in `[0, ny)`, with
`dx = (x1-x0)/nx` and `dy = (y1-y0)/ny`. -/
def midpointSum (expression : Expression) (x0 x1 y0 y1 : ℚ) (nx ny : ℕ) : ℚ :=
  ∑ j ∈ Finset.range ny, ∑ i ∈ Finset.range nx,
    midpointCell expression x0 y0 ((x1 - x0) / nx) ((y1 - y0) / ny) i j

/-! ## Domain mask sampler -/

/-- The grids and the mask that `plotDomain2D` hands to the heat map: `mask[i][j]`
is `some 1` for the JavaScript value `1` and `none` for `null`. -/
structure DomainPlot where
  xVals : List JSNum
  yVals : List JSNum
  mask : List (List (Option Nat))
deriving DecidableEq

/-- The computation of `plotDomain2D(expression)` up to the plot call. -/
def plotDomain2D (expression : Expression) : DomainPlot :=
  let range : Range := { min := -10, max := 10 }
  let xVals := createRange range.min range.max 121
  let yVals := createRange range.min range.max 121
  let mask := xVals.map (fun x =>
    yVals.map (fun y =>
      let z := expression.eval x y
      let ok := z.isFinite
      if ok then some 1 else none))
  { xVals := xVals, yVals := yVals, mask := mask }

/-! ## Labelling of the constrained candidates -/

/-- The JavaScript function `Math.max` on two numbers. -/
def jsMax : JSNum → JSNum → JSNum
  | fin a, fin b => fin (max a b)
  | _, _ => nan

/-- The value `vals.length ? Math.max(...vals) : null`; `none` is `null`. -/
def maxOrNull : List JSNum → Option JSNum
  | [] => none
  | v :: vs => some (vs.foldl jsMax v)

/-- The value `vals.length ? Math.min(...vals) : null`; `none` is `null`. -/
def minOrNull : List JSNum → Option JSNum
  | [] => none
  | v :: vs => some (vs.foldl jsMin v)

/-- The record `{ label, color }` returned by the closure `classify`. -/
structure Label where
  label : String
  color : String
deriving DecidableEq

/-- The test `ext !== null && Math.abs(fv - ext) < tol` against an extreme value. -/
def nearExtreme (ext : Option JSNum) (fv tol : JSNum) : Bool :=
  match ext with
  | some m => (JSNum.abs (fv - m)).lt tol
  | none => false

/-- The closure `classify` of `getLagrange`, for the `f` values of the whole list and
the `f` value of one candidate; the two paths differ in the tie tolerance only. -/
def classifyLagrange (tol : JSNum) (fs : List JSNum) (f : JSNum) : Label :=
  let vals := fs.filter JSNum.isFinite
  let maxF := maxOrNull vals
  let minF := minOrNull vals
  let fv := f
  if !fv.isFinite then { label := "Candidato", color := "#ffc107" }
  else if nearExtreme maxF fv tol then { label := "Máximo", color := "#28a745" }
  else if nearExtreme minF fv tol then { label := "Mínimo", color := "#007bff" }
  else { label := "Candidato", color := "#ffc107" }

/-- The closure `classify` of the local path (tolerance `1e-8`). -/
def classifyLocal (candidates : List Candidate) (p : Candidate) : Label :=
  classifyLagrange 1e-8 (candidates.map (fun c => c.f)) p.f

/-- The closure `classify` of the backend path (tolerance `1e-10`), on the numbers
`Number(p.f)` of the points received. -/
def classifyBackend (fs : List JSNum) (f : JSNum) : Label :=
  classifyLagrange 1e-10 fs f

/-! ## Sanitizing of LaTeX strings -/

/-- The character `$`. -/
def dollar : Char := Char.ofNat 36

/-- The replacement text of `String.prototype.replace`: in a replacement string the
pattern `$$` stands for one dollar sign.  The other dollar patterns do not occur in
the replacement strings of `sanitizeLatex`. -/
def substitution : List Char → List Char
  | [] => []
  | [c] => [c]
  | c :: d :: rest =>
    if c == dollar && d == dollar then dollar :: substitution rest
    else c :: substitution (d :: rest)

/-- The call `.replace(/\u000c|\f/g, '')`: every form feed is removed. -/
def removeFormFeeds (s : List Char) : List Char := s.filter (fun c => c.toNat != 12)

/-- The call `.replace(/\\\\/g, '\\')`: from left to right, each pair of backslashes
becomes the replacement text, one backslash. -/
def collapseBackslashes : List Char → List Char
  | [] => []
  | [c] => [c]
  | c :: d :: rest =>
    if c.toNat == 92 && d.toNat == 92 then
      substitution [Char.ofNat 92] ++ collapseBackslashes rest
    else c :: collapseBackslashes (d :: rest)

/-- The call `.replace(/\{\s*/g, '{')`: an opening brace and the white space after
it become the replacement text; the flag tells that a match is being extended. -/
def trimAfterOpenBrace : Bool → List Char → List Char
  | _, [] => []
  | inMatch, c :: rest =>
    if inMatch && isJsSpace c then trimAfterOpenBrace true rest
    else if c.toNat == 123 then substitution [Char.ofNat 123] ++ trimAfterOpenBrace true rest
    else c :: trimAfterOpenBrace false rest

/-- The call `.replace(/\s*\}/g, '}')`: a closing brace and the white space before it
become the replacement text; the first argument holds the white space read since the
last other character. -/
def trimBeforeCloseBrace : List Char → List Char → List Char
  | pending, [] => pending
  | pending, c :: rest =>
    if isJsSpace c then trimBeforeCloseBrace (pending ++ [c]) rest
    else if c.toNat == 125 then substitution [Char.ofNat 125] ++ trimBeforeCloseBrace [] rest
    else pending ++ c :: trimBeforeCloseBrace [] rest

/-- The call `.replace(/\$\$/g, '$$')`: from left to right, each pair of dollar signs
becomes the replacement text of the string `$$`. -/
def replaceDollarPairs : List Char → List Char
  | [] => []
  | [c] => [c]
  | c :: d :: rest =>
    if c == dollar && d == dollar then
      substitution [dollar, dollar] ++ replaceDollarPairs rest
    else c :: replaceDollarPairs (d :: rest)

/-- `sanitizeLatex(str)` for a string argument. -/
def sanitizeLatex (str : String) : String :=
  if str.isEmpty then ""
  else String.mk (replaceDollarPairs (trimBeforeCloseBrace [] (trimAfterOpenBrace false
    (collapseBackslashes (removeFormFeeds str.toList)))))

/-! ## Bisection: runs and brackets -/

/-- How a run of the bisection loop ends: on the tolerance test, on a midpoint where
the function is not finite, or after the last iteration. -/
inductive BisectStop where
  | tolerance
  | nonFinite
  | exhausted
deriving DecidableEq

/-- A run of the bisection loop: the point returned, how the loop ended and the
number of iterations started. -/
structure BisectRun where
  point : Point
  stop : BisectStop
  iterations : Nat
deriving DecidableEq

/-- The bisection loop of `bisectLoop`, recording how it ends and after how many
iterations. -/
def bisectRun (evalFun : JSNum → JSNum → JSNum) (tol : JSNum) :
    Nat → JSNum → JSNum → JSNum → JSNum → JSNum → JSNum → BisectRun
  | 0, ax, ay, _, _, _, _ =>
    { point := { x := ax, y := ay }, stop := BisectStop.exhausted, iterations := 0 }
  | n + 1, ax, ay, bx, by', fa, fb =>
    let mx := 0.5 * (ax + bx)
    let my := 0.5 * (ay + by')
    let fm := evalFun mx my
    if !fm.isFinite then
      { point := { x := ax, y := ay }, stop := BisectStop.nonFinite, iterations := 1 }
    else if (JSNum.abs fm).lt tol then
      { point := { x := mx, y := my }, stop := BisectStop.tolerance, iterations := 1 }
    else
      let r := if (fa * fm).le 0 then bisectRun evalFun tol n ax ay mx my fa fm
        else bisectRun evalFun tol n mx my bx by' fm fb
      { point := r.point, stop := r.stop, iterations := r.iterations + 1 }

/-- The variables `ax, ay, bx, by, fa, fb` of the bisection loop. -/
structure BisectBracket where
  ax : JSNum
  ay : JSNum
  bx : JSNum
  by' : JSNum
  fa : JSNum
  fb : JSNum
deriving DecidableEq

/-- One completed iteration of the bisection loop on the bracket; `none` when the
iteration leaves the loop (`break`) instead. -/
def bisectStep (evalFun : JSNum → JSNum → JSNum) (tol : JSNum) (s : BisectBracket) : Option BisectBracket :=
  let mx := 0.5 * (s.ax + s.bx)
  let my := 0.5 * (s.ay + s.by')
  let fm := evalFun mx my
  if !fm.isFinite then none
  else if (JSNum.abs fm).lt tol then none
  else if (s.fa * fm).le 0 then
    some { ax := s.ax, ay := s.ay, bx := mx, by' := my, fa := s.fa, fb := fm }
  else some { ax := mx, ay := my, bx := s.bx, by' := s.by', fa := fm, fb := s.fb }

/-- The bracket after `k` completed iterations, `none` when the loop has left
before. -/
def bracketAfter (evalFun : JSNum → JSNum → JSNum) (tol : JSNum) : Nat → BisectBracket → Option BisectBracket
  | 0, s => some s
  | k + 1, s => (bracketAfter evalFun tol k s).bind (bisectStep evalFun tol)

/-! ## Sample expressions -/

/-- The expression `x^2 + y^2` with its math.js semantics. -/
def paraboloid : Expression :=
  { text := "x^2 + y^2"
    eval := fun x y => x * x + y * y
    evalDx := fun x _ => 2 * x
    evalDy := fun _ y => 2 * y }

/-- The expression `x^2 - y^2` with its math.js semantics. -/
def saddle : Expression :=
  { text := "x^2 - y^2"
    eval := fun x y => x * x - y * y
    evalDx := fun x _ => 2 * x
    evalDy := fun _ y => -(2 * y) }

/-- The objective `x + y` with its math.js semantics. -/
def planeObjective : Expression :=
  { text := "x + y"
    eval := fun x y => x + y
    evalDx := fun _ _ => 1
    evalDy := fun _ _ => 1 }

/-- The constraint `x^2 + y^2 - 8` with its math.js semantics. -/
def circleConstraint : Expression :=
  { text := "x^2 + y^2 - 8"
    eval := fun x y => x * x + y * y - 8
    evalDx := fun x _ => 2 * x
    evalDy := fun _ y => 2 * y }

/-- An expression defined only on the half plane `y < 1`, where it is `x + y`: the
comparison is `1` there and `0` elsewhere, and `0/0` is NaN.  The symbolic derivative
with respect to `x` is `1`; math.js has no derivative of a comparison, so the one with
respect to `y` is undefined. -/
def halfPlane : Expression :=
  { text := "x + y + 0/(y < 1)"
    eval := fun x y => if y.lt 1 then x + y else nan
    evalDx := fun _ _ => 1
    evalDy := fun _ _ => nan }

/-- An expression that is zero on the strip `x <= -4.9` and `x` elsewhere. -/
def leftStrip : Expression :=
  { text := "x*(x > -4.9)"
    eval := fun x _ => if x.gt (-4.9) then x else x * 0
    evalDx := fun x _ => if x.gt (-4.9) then 1 else x * 0
    evalDy := fun x _ => x * 0 }

/-- A constant expression of value `c`, for instance the text `1`. -/
def constantExpr (text : String) (c : ℚ) : Expression :=
  { text := text
    eval := fun _ _ => fin c
    evalDx := fun _ _ => 0
    evalDy := fun _ _ => 0 }

/-- The expression `x^2 + y^2 + 0/(x^2 + y^2)`: it is `x^2 + y^2` away from the
origin and undefined (`0/0`) at the origin. -/
def puncturedParaboloid : Expression :=
  { text := "x^2 + y^2 + 0/(x^2 + y^2)"
    eval := fun x y => x * x + y * y + 0 / (x * x + y * y)
    evalDx := fun x y => 2 * x + 0 / (x * x + y * y)
    evalDy := fun x y => 2 * y + 0 / (x * x + y * y) }

/-- The body of the refinement loop of the locator: the kept list after one more raw
candidate. -/
def refineStep (expression : Expression) (uniq : List (JSNum × JSNum)) (c : JSNum × JSNum) :
    List (JSNum × JSNum) :=
  let p := newtonRefine expression 6 c.1 c.2
  if p.1.isFinite && p.2.isFinite && !near uniq p.1 p.2 then uniq ++ [p] else uniq

/-- The record that the classification loop builds at a point where the function has
the finite value `c` and the numeric Hessian vanishes. -/
def flatPoint (c : ℚ) (p : JSNum × JSNum) : CriticalPoint :=
  { x := p.1, y := p.2, f := fin c, classification := "Prueba inconclusa", color := "orange",
    determinant := fin 0, fxx := fin 0, fyy := fin 0, fxy := fin 0 }

/-- The candidate, if any, that the candidate loop adds for one pair of neighbouring
curve points: the body of the loop as a function of the pair. -/
def candidateOnPair (fExpr gExpr : Expression) (pq : Point × Point) : Option Candidate :=
  match refineCOnSegment (evalC fExpr gExpr) pq.1 pq.2 with
  | some cp =>
    let z := fExpr.eval cp.x cp.y
    if z.isFinite then some { x := cp.x, y := cp.y, f := z } else none
  | none => none

/-- The body of the final loop of the solver: the kept list after one more candidate. -/
def dedupStep (uniq : List Candidate) (c : Candidate) : List Candidate :=
  if !uniq.any (fun u => hypotLt (u.x - c.x) (u.y - c.y) 1e-3) then uniq ++ [c] else uniq

/-- The candidate `{ x, y, f }` with the given finite coordinates and value. -/
def candidateOf (x y f : ℚ) : Candidate := { x := fin x, y := fin y, f := fin f }

/-- The point `{ x, y }` with the given finite coordinates. -/
def pointOf (x y : ℚ) : Point := { x := fin x, y := fin y }

/-! ### Trace of the solver on the circle

The values below are the intermediate results of `solveLagrangeLocal` for the
objective `x + y` under the constraint `x^2 + y^2 - 8`; each is proved to be the
value of the corresponding stage further down. -/

/-- The 60 grid values of the range [-5, 5]. -/
def grid60 : List JSNum :=
  [fin (-5), fin (-285 / 59), fin (-275 / 59), fin (-265 / 59), fin (-255 / 59), fin (-245 / 59), fin (-235 / 59), fin (-225 / 59), fin (-215 / 59), fin (-205 / 59), fin (-195 / 59), fin (-185 / 59), fin (-175 / 59), fin (-165 / 59), fin (-155 / 59), fin (-145 / 59), fin (-135 / 59), fin (-125 / 59), fin (-115 / 59), fin (-105 / 59), fin (-95 / 59), fin (-85 / 59), fin (-75 / 59), fin (-65 / 59), fin (-55 / 59), fin (-45 / 59), fin (-35 / 59), fin (-25 / 59), fin (-15 / 59), fin (-5 / 59), fin (5 / 59), fin (15 / 59), fin (25 / 59), fin (35 / 59), fin (45 / 59), fin (55 / 59), fin (65 / 59), fin (75 / 59), fin (85 / 59), fin (95 / 59), fin (105 / 59), fin (115 / 59), fin (125 / 59), fin (135 / 59), fin (145 / 59), fin (155 / 59), fin (165 / 59), fin (175 / 59), fin (185 / 59), fin (195 / 59), fin (205 / 59), fin (215 / 59), fin (225 / 59), fin (235 / 59), fin (245 / 59), fin (255 / 59), fin (265 / 59), fin (275 / 59), fin (285 / 59), fin 5]

/-- The curve points that the column scan finds on the circle. -/
def circleColumns : List Point :=
  [ pointOf (-165 / 59) (-408945 / 966656)
  , pointOf (-165 / 59) (408945 / 966656)
  , pointOf (-155 / 59) (-8104235 / 7733248)
  , pointOf (-155 / 59) (8104235 / 7733248)
  , pointOf (-145 / 59) (-2706685 / 1933312)
  , pointOf (-145 / 59) (2706685 / 1933312)
  , pointOf (-135 / 59) (-12857755 / 7733248)
  , pointOf (-135 / 59) (12857755 / 7733248)
  , pointOf (-125 / 59) (-14491015 / 7733248)
  , pointOf (-125 / 59) (14491015 / 7733248)
  , pointOf (-115 / 59) (-1981245 / 966656)
  , pointOf (-115 / 59) (1981245 / 966656)
  , pointOf (-105 / 59) (-34000995 / 15466496)
  , pointOf (-105 / 59) (34000995 / 15466496)
  , pointOf (-95 / 59) (-35965355 / 15466496)
  , pointOf (-95 / 59) (35965355 / 15466496)
  , pointOf (-85 / 59) (-9411435 / 3866624)
  , pointOf (-85 / 59) (9411435 / 3866624)
  , pointOf (-75 / 59) (-39078805 / 15466496)
  , pointOf (-75 / 59) (39078805 / 15466496)
  , pointOf (-65 / 59) (-40290945 / 15466496)
  , pointOf (-65 / 59) (40290945 / 15466496)
  , pointOf (-55 / 59) (-41301615 / 15466496)
  , pointOf (-55 / 59) (41301615 / 15466496)
  , pointOf (-45 / 59) (-42125325 / 15466496)
  , pointOf (-45 / 59) (42125325 / 15466496)
  , pointOf (-35 / 59) (-21386435 / 7733248)
  , pointOf (-35 / 59) (21386435 / 7733248)
  , pointOf (-25 / 59) (-21626085 / 7733248)
  , pointOf (-25 / 59) (21626085 / 7733248)
  , pointOf (-15 / 59) (-43568775 / 15466496)
  , pointOf (-15 / 59) (43568775 / 15466496)
  , pointOf (-5 / 59) (-43726215 / 15466496)
  , pointOf (-5 / 59) (43726215 / 15466496)
  , pointOf (5 / 59) (-43726215 / 15466496)
  , pointOf (5 / 59) (43726215 / 15466496)
  , pointOf (15 / 59) (-43568775 / 15466496)
  , pointOf (15 / 59) (43568775 / 15466496)
  , pointOf (25 / 59) (-21626085 / 7733248)
  , pointOf (25 / 59) (21626085 / 7733248)
  , pointOf (35 / 59) (-21386435 / 7733248)
  , pointOf (35 / 59) (21386435 / 7733248)
  , pointOf (45 / 59) (-42125325 / 15466496)
  , pointOf (45 / 59) (42125325 / 15466496)
  , pointOf (55 / 59) (-41301615 / 15466496)
  , pointOf (55 / 59) (41301615 / 15466496)
  , pointOf (65 / 59) (-40290945 / 15466496)
  , pointOf (65 / 59) (40290945 / 15466496)
  , pointOf (75 / 59) (-39078805 / 15466496)
  , pointOf (75 / 59) (39078805 / 15466496)
  , pointOf (85 / 59) (-9411435 / 3866624)
  , pointOf (85 / 59) (9411435 / 3866624)
  , pointOf (95 / 59) (-35965355 / 15466496)
  , pointOf (95 / 59) (35965355 / 15466496)
  , pointOf (105 / 59) (-34000995 / 15466496)
  , pointOf (105 / 59) (34000995 / 15466496)
  , pointOf (115 / 59) (-1981245 / 966656)
  , pointOf (115 / 59) (1981245 / 966656)
  , pointOf (125 / 59) (-14491015 / 7733248)
  , pointOf (125 / 59) (14491015 / 7733248)
  , pointOf (135 / 59) (-12857755 / 7733248)
  , pointOf (135 / 59) (12857755 / 7733248)
  , pointOf (145 / 59) (-2706685 / 1933312)
  , pointOf (145 / 59) (2706685 / 1933312)
  , pointOf (155 / 59) (-8104235 / 7733248)
  , pointOf (155 / 59) (8104235 / 7733248)
  , pointOf (165 / 59) (-408945 / 966656)
  , pointOf (165 / 59) (408945 / 966656)
  ]

/-- The curve points that the row scan finds on the circle. -/
def circleRows : List Point :=
  [ pointOf (-408945 / 966656) (-165 / 59)
  , pointOf (408945 / 966656) (-165 / 59)
  , pointOf (-8104235 / 7733248) (-155 / 59)
  , pointOf (8104235 / 7733248) (-155 / 59)
  , pointOf (-2706685 / 1933312) (-145 / 59)
  , pointOf (2706685 / 1933312) (-145 / 59)
  , pointOf (-12857755 / 7733248) (-135 / 59)
  , pointOf (12857755 / 7733248) (-135 / 59)
  , pointOf (-14491015 / 7733248) (-125 / 59)
  , pointOf (14491015 / 7733248) (-125 / 59)
  , pointOf (-1981245 / 966656) (-115 / 59)
  , pointOf (1981245 / 966656) (-115 / 59)
  , pointOf (-34000995 / 15466496) (-105 / 59)
  , pointOf (34000995 / 15466496) (-105 / 59)
  , pointOf (-35965355 / 15466496) (-95 / 59)
  , pointOf (35965355 / 15466496) (-95 / 59)
  , pointOf (-9411435 / 3866624) (-85 / 59)
  , pointOf (9411435 / 3866624) (-85 / 59)
  , pointOf (-39078805 / 15466496) (-75 / 59)
  , pointOf (39078805 / 15466496) (-75 / 59)
  , pointOf (-40290945 / 15466496) (-65 / 59)
  , pointOf (40290945 / 15466496) (-65 / 59)
  , pointOf (-41301615 / 15466496) (-55 / 59)
  , pointOf (41301615 / 15466496) (-55 / 59)
  , pointOf (-42125325 / 15466496) (-45 / 59)
  , pointOf (42125325 / 15466496) (-45 / 59)
  , pointOf (-21386435 / 7733248) (-35 / 59)
  , pointOf (21386435 / 7733248) (-35 / 59)
  , pointOf (-21626085 / 7733248) (-25 / 59)
  , pointOf (21626085 / 7733248) (-25 / 59)
  , pointOf (-43568775 / 15466496) (-15 / 59)
  , pointOf (43568775 / 15466496) (-15 / 59)
  , pointOf (-43726215 / 15466496) (-5 / 59)
  , pointOf (43726215 / 15466496) (-5 / 59)
  , pointOf (-43726215 / 15466496) (5 / 59)
  , pointOf (43726215 / 15466496) (5 / 59)
  , pointOf (-43568775 / 15466496) (15 / 59)
  , pointOf (43568775 / 15466496) (15 / 59)
  , pointOf (-21626085 / 7733248) (25 / 59)
  , pointOf (21626085 / 7733248) (25 / 59)
  , pointOf (-21386435 / 7733248) (35 / 59)
  , pointOf (21386435 / 7733248) (35 / 59)
  , pointOf (-42125325 / 15466496) (45 / 59)
  , pointOf (42125325 / 15466496) (45 / 59)
  , pointOf (-41301615 / 15466496) (55 / 59)
  , pointOf (41301615 / 15466496) (55 / 59)
  , pointOf (-40290945 / 15466496) (65 / 59)
  , pointOf (40290945 / 15466496) (65 / 59)
  , pointOf (-39078805 / 15466496) (75 / 59)
  , pointOf (39078805 / 15466496) (75 / 59)
  , pointOf (-9411435 / 3866624) (85 / 59)
  , pointOf (9411435 / 3866624) (85 / 59)
  , pointOf (-35965355 / 15466496) (95 / 59)
  , pointOf (35965355 / 15466496) (95 / 59)
  , pointOf (-34000995 / 15466496) (105 / 59)
  , pointOf (34000995 / 15466496) (105 / 59)
  , pointOf (-1981245 / 966656) (115 / 59)
  , pointOf (1981245 / 966656) (115 / 59)
  , pointOf (-14491015 / 7733248) (125 / 59)
  , pointOf (14491015 / 7733248) (125 / 59)
  , pointOf (-12857755 / 7733248) (135 / 59)
  , pointOf (12857755 / 7733248) (135 / 59)
  , pointOf (-2706685 / 1933312) (145 / 59)
  , pointOf (2706685 / 1933312) (145 / 59)
  , pointOf (-8104235 / 7733248) (155 / 59)
  , pointOf (8104235 / 7733248) (155 / 59)
  , pointOf (-408945 / 966656) (165 / 59)
  , pointOf (408945 / 966656) (165 / 59)
  ]

/-- The curve points of the circle in sorted order. -/
def circleSorted : List Point :=
  [ pointOf (-43726215 / 15466496) (-5 / 59)
  , pointOf (-43726215 / 15466496) (5 / 59)
  , pointOf (-43568775 / 15466496) (-15 / 59)
  , pointOf (-43568775 / 15466496) (15 / 59)
  , pointOf (-165 / 59) (-408945 / 966656)
  , pointOf (-165 / 59) (408945 / 966656)
  , pointOf (-21626085 / 7733248) (-25 / 59)
  , pointOf (-21626085 / 7733248) (25 / 59)
  , pointOf (-21386435 / 7733248) (-35 / 59)
  , pointOf (-21386435 / 7733248) (35 / 59)
  , pointOf (-42125325 / 15466496) (-45 / 59)
  , pointOf (-42125325 / 15466496) (45 / 59)
  , pointOf (-41301615 / 15466496) (-55 / 59)
  , pointOf (-41301615 / 15466496) (55 / 59)
  , pointOf (-155 / 59) (-8104235 / 7733248)
  , pointOf (-155 / 59) (8104235 / 7733248)
  , pointOf (-40290945 / 15466496) (-65 / 59)
  , pointOf (-40290945 / 15466496) (65 / 59)
  , pointOf (-39078805 / 15466496) (-75 / 59)
  , pointOf (-39078805 / 15466496) (75 / 59)
  , pointOf (-145 / 59) (-2706685 / 1933312)
  , pointOf (-145 / 59) (2706685 / 1933312)
  , pointOf (-9411435 / 3866624) (-85 / 59)
  , pointOf (-9411435 / 3866624) (85 / 59)
  , pointOf (-35965355 / 15466496) (-95 / 59)
  , pointOf (-35965355 / 15466496) (95 / 59)
  , pointOf (-135 / 59) (-12857755 / 7733248)
  , pointOf (-135 / 59) (12857755 / 7733248)
  , pointOf (-34000995 / 15466496) (-105 / 59)
  , pointOf (-34000995 / 15466496) (105 / 59)
  , pointOf (-125 / 59) (-14491015 / 7733248)
  , pointOf (-125 / 59) (14491015 / 7733248)
  , pointOf (-1981245 / 966656) (-115 / 59)
  , pointOf (-1981245 / 966656) (115 / 59)
  , pointOf (-115 / 59) (-1981245 / 966656)
  , pointOf (-115 / 59) (1981245 / 966656)
  , pointOf (-14491015 / 7733248) (-125 / 59)
  , pointOf (-14491015 / 7733248) (125 / 59)
  , pointOf (-105 / 59) (-34000995 / 15466496)
  , pointOf (-105 / 59) (34000995 / 15466496)
  , pointOf (-12857755 / 7733248) (-135 / 59)
  , pointOf (-12857755 / 7733248) (135 / 59)
  , pointOf (-95 / 59) (-35965355 / 15466496)
  , pointOf (-95 / 59) (35965355 / 15466496)
  , pointOf (-85 / 59) (-9411435 / 3866624)
  , pointOf (-85 / 59) (9411435 / 3866624)
  , pointOf (-2706685 / 1933312) (-145 / 59)
  , pointOf (-2706685 / 1933312) (145 / 59)
  , pointOf (-75 / 59) (-39078805 / 15466496)
  , pointOf (-75 / 59) (39078805 / 15466496)
  , pointOf (-65 / 59) (-40290945 / 15466496)
  , pointOf (-65 / 59) (40290945 / 15466496)
  , pointOf (-8104235 / 7733248) (-155 / 59)
  , pointOf (-8104235 / 7733248) (155 / 59)
  , pointOf (-55 / 59) (-41301615 / 15466496)
  , pointOf (-55 / 59) (41301615 / 15466496)
  , pointOf (-45 / 59) (-42125325 / 15466496)
  , pointOf (-45 / 59) (42125325 / 15466496)
  , pointOf (-35 / 59) (-21386435 / 7733248)
  , pointOf (-35 / 59) (21386435 / 7733248)
  , pointOf (-25 / 59) (-21626085 / 7733248)
  , pointOf (-25 / 59) (21626085 / 7733248)
  , pointOf (-408945 / 966656) (-165 / 59)
  , pointOf (-408945 / 966656) (165 / 59)
  , pointOf (-15 / 59) (-43568775 / 15466496)
  , pointOf (-15 / 59) (43568775 / 15466496)
  , pointOf (-5 / 59) (-43726215 / 15466496)
  , pointOf (-5 / 59) (43726215 / 15466496)
  , pointOf (5 / 59) (-43726215 / 15466496)
  , pointOf (5 / 59) (43726215 / 15466496)
  , pointOf (15 / 59) (-43568775 / 15466496)
  , pointOf (15 / 59) (43568775 / 15466496)
  , pointOf (408945 / 966656) (-165 / 59)
  , pointOf (408945 / 966656) (165 / 59)
  , pointOf (25 / 59) (-21626085 / 7733248)
  , pointOf (25 / 59) (21626085 / 7733248)
  , pointOf (35 / 59) (-21386435 / 7733248)
  , pointOf (35 / 59) (21386435 / 7733248)
  , pointOf (45 / 59) (-42125325 / 15466496)
  , pointOf (45 / 59) (42125325 / 15466496)
  , pointOf (55 / 59) (-41301615 / 15466496)
  , pointOf (55 / 59) (41301615 / 15466496)
  , pointOf (8104235 / 7733248) (-155 / 59)
  , pointOf (8104235 / 7733248) (155 / 59)
  , pointOf (65 / 59) (-40290945 / 15466496)
  , pointOf (65 / 59) (40290945 / 15466496)
  , pointOf (75 / 59) (-39078805 / 15466496)
  , pointOf (75 / 59) (39078805 / 15466496)
  , pointOf (2706685 / 1933312) (-145 / 59)
  , pointOf (2706685 / 1933312) (145 / 59)
  , pointOf (85 / 59) (-9411435 / 3866624)
  , pointOf (85 / 59) (9411435 / 3866624)
  , pointOf (95 / 59) (-35965355 / 15466496)
  , pointOf (95 / 59) (35965355 / 15466496)
  , pointOf (12857755 / 7733248) (-135 / 59)
  , pointOf (12857755 / 7733248) (135 / 59)
  , pointOf (105 / 59) (-34000995 / 15466496)
  , pointOf (105 / 59) (34000995 / 15466496)
  , pointOf (14491015 / 7733248) (-125 / 59)
  , pointOf (14491015 / 7733248) (125 / 59)
  , pointOf (115 / 59) (-1981245 / 966656)
  , pointOf (115 / 59) (1981245 / 966656)
  , pointOf (1981245 / 966656) (-115 / 59)
  , pointOf (1981245 / 966656) (115 / 59)
  , pointOf (125 / 59) (-14491015 / 7733248)
  , pointOf (125 / 59) (14491015 / 7733248)
  , pointOf (34000995 / 15466496) (-105 / 59)
  , pointOf (34000995 / 15466496) (105 / 59)
  , pointOf (135 / 59) (-12857755 / 7733248)
  , pointOf (135 / 59) (12857755 / 7733248)
  , pointOf (35965355 / 15466496) (-95 / 59)
  , pointOf (35965355 / 15466496) (95 / 59)
  , pointOf (9411435 / 3866624) (-85 / 59)
  , pointOf (9411435 / 3866624) (85 / 59)
  , pointOf (145 / 59) (-2706685 / 1933312)
  , pointOf (145 / 59) (2706685 / 1933312)
  , pointOf (39078805 / 15466496) (-75 / 59)
  , pointOf (39078805 / 15466496) (75 / 59)
  , pointOf (40290945 / 15466496) (-65 / 59)
  , pointOf (40290945 / 15466496) (65 / 59)
  , pointOf (155 / 59) (-8104235 / 7733248)
  , pointOf (155 / 59) (8104235 / 7733248)
  , pointOf (41301615 / 15466496) (-55 / 59)
  , pointOf (41301615 / 15466496) (55 / 59)
  , pointOf (42125325 / 15466496) (-45 / 59)
  , pointOf (42125325 / 15466496) (45 / 59)
  , pointOf (21386435 / 7733248) (-35 / 59)
  , pointOf (21386435 / 7733248) (35 / 59)
  , pointOf (21626085 / 7733248) (-25 / 59)
  , pointOf (21626085 / 7733248) (25 / 59)
  , pointOf (165 / 59) (-408945 / 966656)
  , pointOf (165 / 59) (408945 / 966656)
  , pointOf (43568775 / 15466496) (-15 / 59)
  , pointOf (43568775 / 15466496) (15 / 59)
  , pointOf (43726215 / 15466496) (-5 / 59)
  , pointOf (43726215 / 15466496) (5 / 59)
  ]

/-- The candidates found on the neighbouring pairs of the sorted curve points. -/
def circleCollected : List Candidate :=
  [ candidateOf (-31650866961575 / 16217796509696) (-31650865800025 / 16217796509696) (-1931815575 / 494927872)
  , candidateOf (-115 / 59) (-7902740524875 / 4054449127424) (-15805480349515 / 4054449127424)
  , candidateOf (-243682396047265 / 129742372077568) (-30460295495675 / 16217796509696) (-487364760012665 / 129742372077568)
  , candidateOf (-14491015 / 7733248) (-115928125 / 61865984) (-231856245 / 61865984)
  , candidateOf (-116028739369585 / 64871186038784) (-232057475007115 / 129742372077568) (-464114953746285 / 129742372077568)
  , candidateOf (-105 / 59) (-230897458948485 / 129742372077568) (-461794900781445 / 129742372077568)
  , candidateOf (-54444962596115 / 32435593019392) (-108889918042395 / 64871186038784) (-217779843234625 / 64871186038784)
  , candidateOf (-12857755 / 7733248) (-822896415 / 494927872) (-1645792735 / 494927872)
  , candidateOf (-104975531363465 / 64871186038784) (-209951055200455 / 129742372077568) (-419902117927385 / 129742372077568)
  , candidateOf (-95 / 59) (-26113401270205 / 16217796509696) (-52226802429885 / 16217796509696)
  , candidateOf (-729937635 / 494927872) (-382697539545695 / 259484744155136) (-765395082324575 / 259484744155136)
  , candidateOf (-85 / 59) (-46729252370295 / 32435593019392) (-93458496550775 / 32435593019392)
  , candidateOf (-45693379292785 / 32435593019392) (-91386742835095 / 64871186038784) (-182773501420665 / 64871186038784)
  , candidateOf (-2706685 / 1933312) (-173227875 / 123731968) (-346455715 / 123731968)
  , candidateOf (-2641112043465 / 2027224563712) (-21128892924415 / 16217796509696) (-42257789272135 / 16217796509696)
  , candidateOf (-75 / 59) (-41231695446255 / 32435593019392) (-82463381487855 / 32435593019392)
  , candidateOf (-284524235 / 247463936) (-74586321064155 / 64871186038784) (-149172642123995 / 64871186038784)
  , candidateOf (-65 / 59) (-142936519100505 / 129742372077568) (-285873030711385 / 129742372077568)
  , candidateOf (-17256096824675 / 16217796509696) (-34512188088105 / 32435593019392) (-69024381737455 / 32435593019392)
  , candidateOf (-8104235 / 7733248) (-518671075 / 494927872) (-1037342115 / 494927872)
  , candidateOf (-125769230227535 / 129742372077568) (-4263363082855 / 4398046511104) (-503076882343515 / 259484744155136)
  , candidateOf (-55 / 59) (-120946286412705 / 129742372077568) (-241892565468065 / 129742372077568)
  , candidateOf (-407054075 / 494927872) (-53353391233695 / 64871186038784) (-106706782952095 / 64871186038784)
  , candidateOf (-45 / 59) (-98956053328275 / 129742372077568) (-197912099828115 / 129742372077568)
  , candidateOf (-162902115 / 247463936) (-85407606597435 / 129742372077568) (-170815230666555 / 129742372077568)
  , candidateOf (-35 / 59) (-2405182639405 / 4054449127424) (-4810364325165 / 4054449127424)
  , candidateOf (-244443025 / 494927872) (-8009905725695 / 16217796509696) (-16019814768895 / 16217796509696)
  , candidateOf (-25 / 59) (-3435974010885 / 8108898254848) (-6871947847685 / 8108898254848)
  , candidateOf (-1716405370465 / 4054449127424) (-13731239650965 / 32435593019392) (-27462482614685 / 32435593019392)
  , candidateOf (-408945 / 966656) (-209379885 / 494927872) (-418759725 / 494927872)
  , candidateOf (-1334136910725 / 4054449127424) (-21346190123565 / 64871186038784) (-42692380695165 / 64871186038784)
  , candidateOf (-15 / 59) (-32985353158425 / 129742372077568) (-65970701991705 / 129742372077568)
  , candidateOf (-81513895 / 494927872) (-21368337807075 / 129742372077568) (-42736716297955 / 129742372077568)
  , candidateOf (-5 / 59) (-5497565833305 / 64871186038784) (-10995123972185 / 64871186038784)
  , candidateOf 0 0 0
  , candidateOf (5 / 59) (10995087940395 / 129742372077568) (21990204218155 / 129742372077568)
  , candidateOf (40756945 / 247463936) (10684190727285 / 64871186038784) (21368379317365 / 64871186038784)
  , candidateOf (15 / 59) (16492654794825 / 64871186038784) (32985329211465 / 64871186038784)
  , candidateOf (5336547479715 / 16217796509696) (85384847316795 / 259484744155136) (170769606992235 / 259484744155136)
  , candidateOf (408945 / 966656) (26172465 / 61865984) (52344945 / 61865984)
  , candidateOf (6865621481205 / 16217796509696) (54925001856825 / 129742372077568) (109849973706465 / 129742372077568)
  , candidateOf (25 / 59) (27487770460995 / 64871186038784) (54975561155395 / 64871186038784)
  , candidateOf (61110755 / 123731968) (2002477775565 / 4054449127424) (4004954995405 / 4054449127424)
  , candidateOf (35 / 59) (38482900844045 / 64871186038784) (76965807816205 / 64871186038784)
  , candidateOf (325804225 / 494927872) (170815298093065 / 259484744155136) (341630543609865 / 259484744155136)
  , candidateOf (45 / 59) (49478005601475 / 64871186038784) (98956028851395 / 64871186038784)
  , candidateOf (203527035 / 247463936) (26676706045215 / 32435593019392) (53353401576735 / 32435593019392)
  , candidateOf (55 / 59) (60473122555545 / 64871186038784) (120946262083225 / 64871186038784)
  , candidateOf (31442307333065 / 32435593019392) (62884625955595 / 64871186038784) (125769240621725 / 64871186038784)
  , candidateOf (8104235 / 7733248) (64833865 / 61865984) (129667745 / 61865984)
  , candidateOf (138048774181955 / 129742372077568) (276097585628105 / 259484744155136) (552195133992015 / 259484744155136)
  , candidateOf (65 / 59) (17867059851195 / 16217796509696) (35734123802555 / 16217796509696)
  , candidateOf (284524235 / 247463936) (74586321064155 / 64871186038784) (149172642123995 / 64871186038784)
  , candidateOf (75 / 59) (164926742706215 / 129742372077568) (329853486872615 / 129742372077568)
  , candidateOf (42257792446355 / 32435593019392) (338062363880325 / 259484744155136) (676124703451165 / 259484744155136)
  , candidateOf (2706685 / 1933312) (692911355 / 494927872) (1385822715 / 494927872)
  , candidateOf (22846689607095 / 16217796509696) (45693380874625 / 32435593019392) (91386760088815 / 32435593019392)
  , candidateOf (85 / 59) (11682310739715 / 8108898254848) (23364621784835 / 8108898254848)
  , candidateOf (364968815 / 247463936) (191348806578395 / 129742372077568) (382697576657115 / 129742372077568)
  , candidateOf (95 / 59) (208907174196285 / 129742372077568) (417814383473725 / 129742372077568)
  , candidateOf (209951062321015 / 129742372077568) (419902181755705 / 259484744155136) (839804306397735 / 259484744155136)
  , candidateOf (12857755 / 7733248) (102862035 / 61865984) (205724075 / 61865984)
  , candidateOf (217779849479655 / 129742372077568) (435559741560015 / 259484744155136) (871119440519325 / 259484744155136)
  , candidateOf (105 / 59) (115448712473745 / 64871186038784) (230897433390225 / 64871186038784)
  , candidateOf (232057478010715 / 129742372077568) (464115016783225 / 259484744155136) (928229972804655 / 259484744155136)
  , candidateOf (14491015 / 7733248) (927424875 / 494927872) (1854849835 / 494927872)
  , candidateOf (30460299433125 / 16217796509696) (3807537440615 / 2027224563712) (60920598958045 / 16217796509696)
  , candidateOf (115 / 59) (15805479068505 / 8108898254848) (31610958717785 / 8108898254848)
  , candidateOf (15825433432245 / 8108898254848) (15825434832715 / 8108898254848) (965907845 / 247463936)
  ]

/-- The candidates that the local Lagrange solver returns for the objective
`x + y` under the constraint `x^2 + y^2 - 8` (see `solveLagrangeLocal_circle`). -/
def circleCandidates : List Candidate :=
  [ candidateOf (-31650866961575 / 16217796509696) (-31650865800025 / 16217796509696) (-1931815575 / 494927872)
  , candidateOf (-115 / 59) (-7902740524875 / 4054449127424) (-15805480349515 / 4054449127424)
  , candidateOf (-243682396047265 / 129742372077568) (-30460295495675 / 16217796509696) (-487364760012665 / 129742372077568)
  , candidateOf (-14491015 / 7733248) (-115928125 / 61865984) (-231856245 / 61865984)
  , candidateOf (-116028739369585 / 64871186038784) (-232057475007115 / 129742372077568) (-464114953746285 / 129742372077568)
  , candidateOf (-105 / 59) (-230897458948485 / 129742372077568) (-461794900781445 / 129742372077568)
  , candidateOf (-54444962596115 / 32435593019392) (-108889918042395 / 64871186038784) (-217779843234625 / 64871186038784)
  , candidateOf (-12857755 / 7733248) (-822896415 / 494927872) (-1645792735 / 494927872)
  , candidateOf (-104975531363465 / 64871186038784) (-209951055200455 / 129742372077568) (-419902117927385 / 129742372077568)
  , candidateOf (-95 / 59) (-26113401270205 / 16217796509696) (-52226802429885 / 16217796509696)
  , candidateOf (-729937635 / 494927872) (-382697539545695 / 259484744155136) (-765395082324575 / 259484744155136)
  , candidateOf (-85 / 59) (-46729252370295 / 32435593019392) (-93458496550775 / 32435593019392)
  , candidateOf (-45693379292785 / 32435593019392) (-91386742835095 / 64871186038784) (-182773501420665 / 64871186038784)
  , candidateOf (-2706685 / 1933312) (-173227875 / 123731968) (-346455715 / 123731968)
  , candidateOf (-2641112043465 / 2027224563712) (-21128892924415 / 16217796509696) (-42257789272135 / 16217796509696)
  , candidateOf (-75 / 59) (-41231695446255 / 32435593019392) (-82463381487855 / 32435593019392)
  , candidateOf (-284524235 / 247463936) (-74586321064155 / 64871186038784) (-149172642123995 / 64871186038784)
  , candidateOf (-65 / 59) (-142936519100505 / 129742372077568) (-285873030711385 / 129742372077568)
  , candidateOf (-17256096824675 / 16217796509696) (-34512188088105 / 32435593019392) (-69024381737455 / 32435593019392)
  , candidateOf (-8104235 / 7733248) (-518671075 / 494927872) (-1037342115 / 494927872)
  , candidateOf (-125769230227535 / 129742372077568) (-4263363082855 / 4398046511104) (-503076882343515 / 259484744155136)
  , candidateOf (-55 / 59) (-120946286412705 / 129742372077568) (-241892565468065 / 129742372077568)
  , candidateOf (-407054075 / 494927872) (-53353391233695 / 64871186038784) (-106706782952095 / 64871186038784)
  , candidateOf (-45 / 59) (-98956053328275 / 129742372077568) (-197912099828115 / 129742372077568)
  , candidateOf (-162902115 / 247463936) (-85407606597435 / 129742372077568) (-170815230666555 / 129742372077568)
  , candidateOf (-35 / 59) (-2405182639405 / 4054449127424) (-4810364325165 / 4054449127424)
  , candidateOf (-244443025 / 494927872) (-8009905725695 / 16217796509696) (-16019814768895 / 16217796509696)
  , candidateOf (-25 / 59) (-3435974010885 / 8108898254848) (-6871947847685 / 8108898254848)
  , candidateOf (-1334136910725 / 4054449127424) (-21346190123565 / 64871186038784) (-42692380695165 / 64871186038784)
  , candidateOf (-15 / 59) (-32985353158425 / 129742372077568) (-65970701991705 / 129742372077568)
  , candidateOf (-81513895 / 494927872) (-21368337807075 / 129742372077568) (-42736716297955 / 129742372077568)
  , candidateOf (-5 / 59) (-5497565833305 / 64871186038784) (-10995123972185 / 64871186038784)
  , candidateOf (0) (0) (0)
  , candidateOf (5 / 59) (10995087940395 / 129742372077568) (21990204218155 / 129742372077568)
  , candidateOf (40756945 / 247463936) (10684190727285 / 64871186038784) (21368379317365 / 64871186038784)
  , candidateOf (15 / 59) (16492654794825 / 64871186038784) (32985329211465 / 64871186038784)
  , candidateOf (5336547479715 / 16217796509696) (85384847316795 / 259484744155136) (170769606992235 / 259484744155136)
  , candidateOf (408945 / 966656) (26172465 / 61865984) (52344945 / 61865984)
  , candidateOf (61110755 / 123731968) (2002477775565 / 4054449127424) (4004954995405 / 4054449127424)
  , candidateOf (35 / 59) (38482900844045 / 64871186038784) (76965807816205 / 64871186038784)
  , candidateOf (325804225 / 494927872) (170815298093065 / 259484744155136) (341630543609865 / 259484744155136)
  , candidateOf (45 / 59) (49478005601475 / 64871186038784) (98956028851395 / 64871186038784)
  , candidateOf (203527035 / 247463936) (26676706045215 / 32435593019392) (53353401576735 / 32435593019392)
  , candidateOf (55 / 59) (60473122555545 / 64871186038784) (120946262083225 / 64871186038784)
  , candidateOf (31442307333065 / 32435593019392) (62884625955595 / 64871186038784) (125769240621725 / 64871186038784)
  , candidateOf (8104235 / 7733248) (64833865 / 61865984) (129667745 / 61865984)
  , candidateOf (138048774181955 / 129742372077568) (276097585628105 / 259484744155136) (552195133992015 / 259484744155136)
  , candidateOf (65 / 59) (17867059851195 / 16217796509696) (35734123802555 / 16217796509696)
  , candidateOf (284524235 / 247463936) (74586321064155 / 64871186038784) (149172642123995 / 64871186038784)
  , candidateOf (75 / 59) (164926742706215 / 129742372077568) (329853486872615 / 129742372077568)
  , candidateOf (42257792446355 / 32435593019392) (338062363880325 / 259484744155136) (676124703451165 / 259484744155136)
  , candidateOf (2706685 / 1933312) (692911355 / 494927872) (1385822715 / 494927872)
  , candidateOf (22846689607095 / 16217796509696) (45693380874625 / 32435593019392) (91386760088815 / 32435593019392)
  , candidateOf (85 / 59) (11682310739715 / 8108898254848) (23364621784835 / 8108898254848)
  , candidateOf (364968815 / 247463936) (191348806578395 / 129742372077568) (382697576657115 / 129742372077568)
  , candidateOf (95 / 59) (208907174196285 / 129742372077568) (417814383473725 / 129742372077568)
  , candidateOf (209951062321015 / 129742372077568) (419902181755705 / 259484744155136) (839804306397735 / 259484744155136)
  , candidateOf (12857755 / 7733248) (102862035 / 61865984) (205724075 / 61865984)
  , candidateOf (217779849479655 / 129742372077568) (435559741560015 / 259484744155136) (871119440519325 / 259484744155136)
  , candidateOf (105 / 59) (115448712473745 / 64871186038784) (230897433390225 / 64871186038784)
  , candidateOf (232057478010715 / 129742372077568) (464115016783225 / 259484744155136) (928229972804655 / 259484744155136)
  , candidateOf (14491015 / 7733248) (927424875 / 494927872) (1854849835 / 494927872)
  , candidateOf (30460299433125 / 16217796509696) (3807537440615 / 2027224563712) (60920598958045 / 16217796509696)
  , candidateOf (115 / 59) (15805479068505 / 8108898254848) (31610958717785 / 8108898254848)
  , candidateOf (15825433432245 / 8108898254848) (15825434832715 / 8108898254848) (965907845 / 247463936)
  ]

/-! ## Double-precision number model

The grid generator, the evaluator wrapper, the differentiator, the Newton loop and the
integrator once more, on numbers on which every arithmetic operation is rounded as
IEEE 754 binary64 rounds it. -/

/-- A JavaScript number as an IEEE 754 double: a finite value, held as the rational it
denotes, an infinity with its sign, or NaN.  The sign of zero is not represented: it
is observable only through a division by zero, and the routines modelled on this type
divide by step counts (a count of zero is `+0`), by `2*h`, `h*h` and `4*h*h`, and by a
determinant whose magnitude is at least `1e-12`. -/
inductive Double where
  | num (q : ℚ)
  | inf (negative : Bool)
  | nan
deriving DecidableEq

namespace Double

/-- The power `2^k` as a rational. -/
def pow2 (k : ℤ) : ℚ :=
  if 0 ≤ k then ((2 ^ k.toNat : ℕ) : ℚ) else 1 / ((2 ^ (-k).toNat : ℕ) : ℚ)

/-- The position of the leading bit of a whole number, by halving; the first argument
bounds the number of halvings. -/
def leadingBit : ℕ → ℕ → ℕ
  | 0, _ => 0
  | fuel + 1, n => if n < 2 then 0 else leadingBit fuel (n / 2) + 1

/-- The binary exponent of a non-zero rational: the `e` with `2^e <= |x| < 2^(e+1)`. -/
def floorLog2 (x : ℚ) : ℤ :=
  let e0 : ℤ := (leadingBit x.num.natAbs x.num.natAbs : ℤ) - (leadingBit x.den x.den : ℤ)
  if pow2 e0 ≤ |x| then e0 else e0 - 1

/-- The nearest integer, a tie going to the even one. -/
def roundHalfEven (y : ℚ) : ℤ :=
  let f := ⌊y⌋
  let r := y - f
  if r < 1 / 2 then f else if 1 / 2 < r then f + 1 else if f % 2 = 0 then f else f + 1

/-- The spacing of the doubles around a non-zero rational: `2^(e-52)` in the binade of
exponent `e`, and `2^(-1074)` below the normal range. -/
def quantum (x : ℚ) : ℚ := pow2 (max (floorLog2 x) (-1022) - 52)

/-- Round to nearest, ties to even: the double that an operation with the exact
result `x` returns; a result that rounds to `2^1024` or beyond is an infinity. -/
def round (x : ℚ) : Double :=
  if x = 0 then num 0
  else
    let r : ℚ := (roundHalfEven (x / quantum x) : ℚ) * quantum x
    if pow2 1024 ≤ |r| then inf (decide (x < 0)) else num r

/-- The JavaScript test `Number.isFinite`. -/
def isFinite : Double → Bool
  | num _ => true
  | _ => false

/-- The JavaScript operator `+`. -/
def add : Double → Double → Double
  | num a, num b => round (a + b)
  | num _, inf s => inf s
  | inf s, num _ => inf s
  | inf s, inf t => if s = t then inf s else nan
  | _, _ => nan

/-- The JavaScript unary operator `-`. -/
def neg : Double → Double
  | num a => num (-a)
  | inf s => inf (!s)
  | nan => nan

/-- The JavaScript binary operator `-`. -/
def sub : Double → Double → Double
  | num a, num b => round (a - b)
  | num _, inf s => inf (!s)
  | inf s, num _ => inf s
  | inf s, inf t => if s = t then nan else inf s
  | _, _ => nan

/-- The JavaScript operator `*`. -/
def mul : Double → Double → Double
  | num a, num b => round (a * b)
  | num a, inf s => if a = 0 then nan else inf (s != decide (a < 0))
  | inf s, num b => if b = 0 then nan else inf (s != decide (b < 0))
  | inf s, inf t => inf (s != t)
  | _, _ => nan

/-- The JavaScript operator `/`; a zero divisor is taken as `+0`. -/
def div : Double → Double → Double
  | num a, num b =>
    if b = 0 then (if a = 0 then nan else inf (decide (a < 0))) else round (a / b)
  | num _, inf _ => num 0
  | inf s, num b => inf (s != decide (b < 0))
  | inf _, inf _ => nan
  | _, _ => nan

/-- The JavaScript function `Math.abs`. -/
def abs : Double → Double
  | num a => num |a|
  | inf _ => inf false
  | nan => nan

/-- The JavaScript comparison `a < b`: false when an operand is NaN. -/
def lt : Double → Double → Bool
  | num a, num b => decide (a < b)
  | num _, inf s => !s
  | inf s, num _ => s
  | inf s, inf t => s && !t
  | _, _ => false

instance : Add Double := ⟨add⟩
instance : Sub Double := ⟨sub⟩
instance : Mul Double := ⟨mul⟩
instance : Div Double := ⟨div⟩
instance : Neg Double := ⟨neg⟩
instance (n : Nat) : OfNat Double n := ⟨round (n : ℚ)⟩
instance : OfScientific Double := ⟨fun m s e => round (OfScientific.ofScientific m s e)⟩

/-- An expression as the routines receive it, evaluated in doubles: its source text
and the number math.js yields for it at `(x, y)`, NaN when the evaluation throws. -/
structure Expression where
  text : String
  eval : Double → Double → Double

/-- `createRange(min, max, steps)` with `steps` a whole number. -/
def createRange (min max : Double) (steps : Nat) : List Double :=
  let step := (max - min) / (round (steps : ℚ) - 1)
  (List.range steps).map (fun (i : ℕ) => min + round (i : ℚ) * step)

/-- `evaluateLocalAtPoint(expression, x, y)`: the evaluator's number when it is
finite, NaN otherwise. -/
def evaluateLocalAtPoint (expression : Expression) (x y : Double) : Double :=
  let v := expression.eval x y
  if v.isFinite then v else nan

/-- The record `{ fx, fy }` returned by `numericPartialsAt`. -/
structure Gradient where
  fx : Double
  fy : Double
deriving DecidableEq

/-- The record `{ fxx, fyy, fxy }` returned by `numericHessianAt`. -/
structure Hessian where
  fxx : Double
  fyy : Double
  fxy : Double
deriving DecidableEq

/-- The default finite-difference step `h = 1e-4`, the double nearest to `1/10000`. -/
def defaultH : Double := 1e-4

/-- `numericPartialsAt(expression, x, y, h)`. -/
def numericPartialsAt (expression : Expression) (x y : Double) (h : Double) : Gradient :=
  let f := fun xi yi => evaluateLocalAtPoint expression xi yi
  let fx := (f (x + h) y - f (x - h) y) / (2 * h)
  let fy := (f x (y + h) - f x (y - h)) / (2 * h)
  { fx := fx, fy := fy }

/-- `numericHessianAt(expression, x, y, h)`. -/
def numericHessianAt (expression : Expression) (x y : Double) (h : Double) : Hessian :=
  let f := fun xx yy => evaluateLocalAtPoint expression xx yy
  let fxx := (f (x + h) y - 2 * f x y + f (x - h) y) / (h * h)
  let fyy := (f x (y + h) - 2 * f x y + f x (y - h)) / (h * h)
  let fxy := (f (x + h) (y + h) - f (x + h) (y - h) - f (x - h) (y + h) + f (x - h) (y - h))
    / (4 * h * h)
  { fxx := fxx, fyy := fyy, fxy := fxy }

/-- The test `Math.hypot(a, b) < t` for a positive finite `t`: true only for finite `a`
and `b`, and then decided on the exact squares; the double that `Math.hypot` returns is
within rounding of the exact value, so the two tests can differ only when the exact
value is within rounding of `t`.  The test `Number.isFinite(g) && g < t` has the same
outcome. -/
def hypotLt (a b t : Double) : Bool :=
  match a, b, t with
  | num a, num b, num t => decide (a * a + b * b < t * t)
  | _, _, _ => false

/-- The Newton loop of one candidate with `n` iterations left. -/
def newtonRefine (expression : Expression) : Nat → Double → Double → Double × Double
  | 0, px, py => (px, py)
  | n + 1, px, py =>
    let g := numericPartialsAt expression px py defaultH
    let hs := numericHessianAt expression px py defaultH
    let detH := hs.fxx * hs.fyy - hs.fxy * hs.fxy
    if !detH.isFinite || (abs detH).lt 1e-12 then (px, py)
    else
      let inv00 := hs.fyy / detH
      let inv01 := -hs.fxy / detH
      let inv10 := -hs.fxy / detH
      let inv11 := hs.fxx / detH
      let dx := inv00 * g.fx + inv01 * g.fy
      let dy := inv10 * g.fx + inv11 * g.fy
      let px := px - dx
      let py := py - dy
      if hypotLt dx dy 1e-6 then (px, py) else newtonRefine expression n px py

/-- `numericDoubleIntegralRect(expression, x0, x1, y0, y1, nx, ny)` with whole
numbers `nx`, `ny`; a loop whose bound is not positive runs no iteration. -/
def numericDoubleIntegralRect (expression : Expression) (x0 x1 y0 y1 : Double)
    (nx ny : Int) : Double :=
  let dx := (x1 - x0) / round (nx : ℚ)
  let dy := (y1 - y0) / round (ny : ℚ)
  (List.range ny.toNat).foldl (fun (sum : Double) (j : ℕ) =>
    let y := y0 + (round (j : ℚ) + 0.5) * dy
    (List.range nx.toNat).foldl (fun (sum : Double) (i : ℕ) =>
      let x := x0 + (round (i : ℚ) + 0.5) * dx
      let val := evaluateLocalAtPoint expression x y
      if val.isFinite then sum + val * dx * dy else sum) sum) 0

/-- A constant expression of value `c`, for instance the text `1`. -/
def constantExpr (text : String) (c : ℚ) : Expression :=
  { text := text, eval := fun _ _ => num c }

/-- The expression `x + y`: one rounded addition. -/
def planeObjective : Expression :=
  { text := "x + y", eval := fun x y => x + y }

/-- The expression `x*x + y*y`: two rounded products and a rounded sum. -/
def paraboloid : Expression :=
  { text := "x*x + y*y", eval := fun x y => x * x + y * y }

/-- The quadratic `x*x + x*y + y*y - 3*x`, evaluated from left to right; its stationary
point is `(2, -1)`. -/
def tiltedBowl : Expression :=
  { text := "x*x + x*y + y*y - 3*x", eval := fun x y => x * x + x * y + y * y - 3 * x }

/-- The quadratic `x*x + 2.000001*x*y + y*y`, evaluated from left to right; its
stationary point is `(0, 0)` and `4ac - b^2` is about `-4e-6`. -/
def nearlySingular : Expression :=
  { text := "x*x + 2.000001*x*y + y*y"
    eval := fun x y => x * x + 2.000001 * x * y + y * y }

end Double

/-! ## Arithmetic of `JSNum` -/

namespace JSNum

@[simp] theorem fin_add_fin (a b : ℚ) : fin a + fin b = fin (a + b) := rfl
@[simp] theorem fin_sub_fin (a b : ℚ) : fin a - fin b = fin (a - b) := rfl
@[simp] theorem fin_mul_fin (a b : ℚ) : fin a * fin b = fin (a * b) := rfl
@[simp] theorem neg_fin (a : ℚ) : -fin a = fin (-a) := rfl
@[simp] theorem abs_fin (a : ℚ) : JSNum.abs (fin a) = fin |a| := rfl
@[simp] theorem fin_div_fin (a b : ℚ) (hb : b ≠ 0) : fin a / fin b = fin (a / b) := by
  show JSNum.div (fin a) (fin b) = _
  simp [JSNum.div, hb]
@[simp] theorem fin_div_zero (a : ℚ) : fin a / fin 0 = nan := by
  show JSNum.div (fin a) (fin 0) = _
  simp [JSNum.div]

@[simp] theorem nan_add (a : JSNum) : nan + a = nan := rfl
@[simp] theorem add_nan (a : JSNum) : a + nan = nan := by cases a <;> rfl
@[simp] theorem nan_sub (a : JSNum) : nan - a = nan := rfl
@[simp] theorem sub_nan (a : JSNum) : a - nan = nan := by cases a <;> rfl
@[simp] theorem nan_mul (a : JSNum) : nan * a = nan := rfl
@[simp] theorem mul_nan (a : JSNum) : a * nan = nan := by cases a <;> rfl
@[simp] theorem nan_div (a : JSNum) : nan / a = nan := rfl
@[simp] theorem div_nan (a : JSNum) : a / nan = nan := by cases a <;> rfl
@[simp] theorem neg_nan : -nan = nan := rfl
@[simp] theorem abs_nan : JSNum.abs nan = nan := rfl

@[simp] theorem isFinite_fin (a : ℚ) : (fin a).isFinite = true := rfl
@[simp] theorem isFinite_nan : nan.isFinite = false := rfl
@[simp] theorem lt_fin (a b : ℚ) : (fin a).lt (fin b) = decide (a < b) := rfl
@[simp] theorem le_fin (a b : ℚ) : (fin a).le (fin b) = decide (a ≤ b) := rfl
@[simp] theorem gt_fin (a b : ℚ) : (fin a).gt (fin b) = decide (b < a) := rfl
@[simp] theorem nan_lt (a : JSNum) : nan.lt a = false := rfl
@[simp] theorem lt_nan (a : JSNum) : a.lt nan = false := by cases a <;> rfl
@[simp] theorem nan_le (a : JSNum) : nan.le a = false := rfl
@[simp] theorem le_nan (a : JSNum) : a.le nan = false := by cases a <;> rfl
@[simp] theorem nan_gt (a : JSNum) : nan.gt a = false := by cases a <;> rfl
@[simp] theorem gt_nan (a : JSNum) : a.gt nan = false := rfl

theorem isFinite_iff (a : JSNum) : a.isFinite = true ↔ ∃ q, a = fin q := by
  cases a <;> simp

theorem eq_nan_iff (a : JSNum) : a = nan ↔ a.isFinite = false := by
  cases a <;> simp

theorem ofNat_eq (n : ℕ) : (OfNat.ofNat n : JSNum) = fin (n : ℚ) := rfl

@[simp] theorem zero_eq : (0 : JSNum) = fin 0 := by
  rw [ofNat_eq]; norm_num
@[simp] theorem one_eq : (1 : JSNum) = fin 1 := by
  rw [ofNat_eq]; norm_num
@[simp] theorem two_eq : (2 : JSNum) = fin 2 := by
  rw [ofNat_eq]; norm_num
@[simp] theorem four_eq : (4 : JSNum) = fin 4 := by
  rw [ofNat_eq]; norm_num
@[simp] theorem five_eq : (5 : JSNum) = fin 5 := by
  rw [ofNat_eq]; norm_num

theorem ofScientific_eq (m : ℕ) (s : Bool) (e : ℕ) :
    (OfScientific.ofScientific m s e : JSNum) = fin (OfScientific.ofScientific m s e) := rfl

@[simp] theorem half_eq : (0.5 : JSNum) = fin (1 / 2) := by
  rw [ofScientific_eq]; norm_num
@[simp] theorem defaultH_eq : defaultH = fin (1 / 10000) := by
  unfold defaultH; rw [ofScientific_eq]; norm_num
@[simp] theorem tol6_eq : (1e-6 : JSNum) = fin (1 / 1000000) := by
  rw [ofScientific_eq]; norm_num

end JSNum

@[simp] theorem evaluateLocalAtPoint_eq (expression : Expression) (x y : JSNum) :
    evaluateLocalAtPoint expression x y = expression.eval x y := by
  unfold evaluateLocalAtPoint
  cases expression.eval x y <;> simp

/-! ## Critical point locator: classification -/

/-- Every entry of the result is the classification record of some kept point. -/
theorem mem_findCriticalPointsLocal (expression : Expression) (r : CriticalPoint)
    (hr : r ∈ findCriticalPointsLocal expression) :
    ∃ p : JSNum × JSNum, classifyPoint expression p = r := by
  unfold findCriticalPointsLocal at hr
  obtain ⟨p, -, hp⟩ := List.mem_map.1 hr
  exact ⟨p, hp⟩

/-- C1: for every point returned by findCriticalPointsLocal whose recorded Hessian
entries fxx, fyy, fxy are finite, the entries are the numeric Hessian at the point,
the determinant field is D = fxx*fyy - fxy^2, and the classification is
Mínimo local if D > 1e-6 and fxx > 0, Máximo local if D > 1e-6 and fxx < 0,
Prueba inconclusa if |D| <= 1e-6, and Punto de silla in every other case. -/
theorem findCriticalPointsLocal_classification (expression : Expression)
    (r : CriticalPoint) (a b c : ℚ) (hr : r ∈ findCriticalPointsLocal expression)
    (hxx : r.fxx = fin a) (hyy : r.fyy = fin b) (hxy : r.fxy = fin c) :
    numericHessianAt expression r.x r.y defaultH = { fxx := fin a, fyy := fin b, fxy := fin c } ∧
    r.determinant = fin (a * b - c * c) ∧
    (a * b - c * c > 1e-6 ∧ a > 0 → r.classification = "Mínimo local") ∧
    (a * b - c * c > 1e-6 ∧ a < 0 → r.classification = "Máximo local") ∧
    (|a * b - c * c| ≤ 1e-6 → r.classification = "Prueba inconclusa") ∧
    (¬ (a * b - c * c > 1e-6 ∧ a > 0) ∧ ¬ (a * b - c * c > 1e-6 ∧ a < 0) ∧
      ¬ (|a * b - c * c| ≤ 1e-6) → r.classification = "Punto de silla") := by
  obtain ⟨p, rfl⟩ := mem_findCriticalPointsLocal expression r hr
  simp only [classifyPoint] at hxx hyy hxy ⊢
  generalize numericHessianAt expression p.1 p.2 defaultH = hs at hxx hyy hxy ⊢
  obtain ⟨fxx, fyy, fxy⟩ := hs
  simp only at hxx hyy hxy
  subst hxx hyy hxy
  have h6 : (1e-6 : ℚ) = 1 / 1000000 := by norm_num
  simp only [fin_mul_fin, fin_sub_fin, gt_fin, lt_fin, le_fin, abs_fin, tol6_eq, zero_eq, h6]
  generalize (1 / 1000000 : ℚ) = t
  refine ⟨trivial, trivial, ?_, ?_, ?_, ?_⟩
  · rintro ⟨h1, h2⟩
    simp [h1, h2]
  · rintro ⟨h1, h2⟩
    have h3 : ¬ (0 < a) := not_lt.2 h2.le
    simp [h1, h2, h3]
  · intro h1
    have h2 : ¬ (t < a * b - c * c) := not_lt.2 ((le_abs_self _).trans h1)
    simp [h1, h2]
  · rintro ⟨h1, h2, h3⟩
    by_cases hD : t < a * b - c * c
    · have ha1 : ¬ (0 < a) := fun h => h1 ⟨hD, h⟩
      have ha2 : ¬ (a < 0) := fun h => h2 ⟨hD, h⟩
      simp [hD, ha1, ha2, h3]
    · simp [hD, h3]

/-! ## Critical point locator: dependence on the expression

The locator reads an expression only through its evaluator and, for the range,
through its text. -/

theorem numericPartialsAt_congr (e e' : Expression) (h : e.eval = e'.eval) :
    numericPartialsAt e = numericPartialsAt e' := by
  funext x y s
  simp only [numericPartialsAt, evaluateLocalAtPoint, h]

theorem numericHessianAt_congr (e e' : Expression) (h : e.eval = e'.eval) :
    numericHessianAt e = numericHessianAt e' := by
  funext x y s
  simp only [numericHessianAt, evaluateLocalAtPoint, h]

theorem newtonRefine_congr (e e' : Expression) (h : e.eval = e'.eval) (n : ℕ)
    (px py : JSNum) : newtonRefine e n px py = newtonRefine e' n px py := by
  induction n generalizing px py with
  | zero => rfl
  | succ n ih =>
    simp only [newtonRefine, numericPartialsAt_congr e e' h, numericHessianAt_congr e e' h, ih]

theorem findCriticalPointsLocal_congr (e e' : Expression) (h : e.eval = e'.eval)
    (hr : pickSafeRangeForExpr e.text = pickSafeRangeForExpr e'.text) :
    findCriticalPointsLocal e = findCriticalPointsLocal e' := by
  have h1 : seedCandidates e = seedCandidates e' := by
    funext xs ys
    simp only [seedCandidates, numericPartialsAt_congr e e' h]
  have h2 : refineAll e = refineAll e' := by
    funext cand
    simp only [refineAll, newtonRefine_congr e e' h]
  have h3 : classifyPoint e = classifyPoint e' := by
    funext p
    simp only [classifyPoint, numericHessianAt_congr e e' h, evaluateLocalAtPoint, h]
  simp only [findCriticalPointsLocal, h1, h2, h3, hr]

theorem pickSafeRangeForExpr_paraboloid :
    pickSafeRangeForExpr paraboloid.text = { min := fin (-5), max := fin 5 } := by
  decide!

theorem pickSafeRangeForExpr_saddle :
    pickSafeRangeForExpr saddle.text = { min := fin (-5), max := fin 5 } := by
  decide!

theorem findCriticalPointsLocal_paraboloid :
    findCriticalPointsLocal paraboloid =
      [{ x := fin 0, y := fin 0, f := fin 0, classification := "Mínimo local", color := "green",
         determinant := fin 4, fxx := fin 2, fyy := fin 2, fxy := fin 0 }] := by
  decide!

theorem findCriticalPointsLocal_saddle :
    findCriticalPointsLocal saddle =
      [{ x := fin 0, y := fin 0, f := fin 0, classification := "Punto de silla", color := "red",
         determinant := fin (-4), fxx := fin 2, fyy := fin (-2), fxy := fin 0 }] := by
  decide!

/-- C2: for an expression that evaluates as x^2 + y^2 and for which the range
selector gives [-5, 5], findCriticalPointsLocal (21 x 21 seeds, h = 1e-4) returns
exactly one point; that point is (0, 0), hence within 1e-2 of (0, 0), its f value
is 0, hence within 1e-2 of 0, and its classification is Mínimo local. -/
theorem findCriticalPointsLocal_sum_of_squares (expression : Expression)
    (heval : ∀ x y : JSNum, expression.eval x y = x * x + y * y)
    (hrange : pickSafeRangeForExpr expression.text = { min := fin (-5), max := fin 5 }) :
    ∃ px py fv : ℚ, ∃ r : CriticalPoint,
      findCriticalPointsLocal expression = [r] ∧
      r.x = fin px ∧ r.y = fin py ∧ r.f = fin fv ∧
      px * px + py * py < 1e-2 * 1e-2 ∧ |fv - 0| < 1e-2 ∧
      r.classification = "Mínimo local" ∧
      px = 0 ∧ py = 0 ∧ fv = 0 := by
  have h : expression.eval = paraboloid.eval := by
    funext x y
    exact heval x y
  have key := findCriticalPointsLocal_congr expression paraboloid h
    (hrange.trans pickSafeRangeForExpr_paraboloid.symm)
  rw [findCriticalPointsLocal_paraboloid] at key
  exact ⟨0, 0, 0, _, key, rfl, rfl, rfl, by norm_num, by norm_num, rfl, rfl, rfl, rfl⟩

/-- C2 at the expression text x^2 + y^2 itself. -/
theorem findCriticalPointsLocal_sum_of_squares_witness :
    ∃ px py fv : ℚ, ∃ r : CriticalPoint,
      findCriticalPointsLocal paraboloid = [r] ∧
      r.x = fin px ∧ r.y = fin py ∧ r.f = fin fv ∧
      px * px + py * py < 1e-2 * 1e-2 ∧ |fv - 0| < 1e-2 ∧
      r.classification = "Mínimo local" ∧
      px = 0 ∧ py = 0 ∧ fv = 0 :=
  findCriticalPointsLocal_sum_of_squares paraboloid (fun _ _ => rfl) (by decide!)

/-- C3: for an expression that evaluates as x^2 - y^2 and for which the range
selector gives [-5, 5], findCriticalPointsLocal returns one point; it is (0, 0),
hence within 1e-2 of (0, 0), it is classified Punto de silla, and its determinant
field is -4, which is negative. -/
theorem findCriticalPointsLocal_difference_of_squares (expression : Expression)
    (heval : ∀ x y : JSNum, expression.eval x y = x * x - y * y)
    (hrange : pickSafeRangeForExpr expression.text = { min := fin (-5), max := fin 5 }) :
    ∃ px py d : ℚ, ∃ r : CriticalPoint,
      findCriticalPointsLocal expression = [r] ∧
      r.x = fin px ∧ r.y = fin py ∧ r.determinant = fin d ∧
      px * px + py * py < 1e-2 * 1e-2 ∧
      r.classification = "Punto de silla" ∧ d < 0 ∧
      px = 0 ∧ py = 0 ∧ d = -4 := by
  have h : expression.eval = saddle.eval := by
    funext x y
    exact heval x y
  have key := findCriticalPointsLocal_congr expression saddle h
    (hrange.trans pickSafeRangeForExpr_saddle.symm)
  rw [findCriticalPointsLocal_saddle] at key
  exact ⟨0, 0, -4, _, key, rfl, rfl, rfl, by norm_num, rfl, by norm_num, rfl, rfl, rfl⟩

/-- C3 at the expression text x^2 - y^2 itself. -/
theorem findCriticalPointsLocal_difference_of_squares_witness :
    ∃ px py d : ℚ, ∃ r : CriticalPoint,
      findCriticalPointsLocal saddle = [r] ∧
      r.x = fin px ∧ r.y = fin py ∧ r.determinant = fin d ∧
      px * px + py * py < 1e-2 * 1e-2 ∧
      r.classification = "Punto de silla" ∧ d < 0 ∧
      px = 0 ∧ py = 0 ∧ d = -4 :=
  findCriticalPointsLocal_difference_of_squares saddle (fun _ _ => rfl) (by decide!)

/-- C1 at the point found for x^2 + y^2: its Hessian entries 2, 2, 0 give
D = 4 > 1e-6 with fxx > 0, so the theorem yields the label Mínimo local. -/
theorem findCriticalPointsLocal_classification_witness :
    ({ x := fin 0, y := fin 0, f := fin 0, classification := "Mínimo local", color := "green",
       determinant := fin 4, fxx := fin 2, fyy := fin 2, fxy := fin 0 } : CriticalPoint)
      ∈ findCriticalPointsLocal paraboloid ∧
    (2 * 2 - 0 * 0 > (1e-6 : ℚ) ∧ (2 : ℚ) > 0) ∧
    ({ x := fin 0, y := fin 0, f := fin 0, classification := "Mínimo local", color := "green",
       determinant := fin 4, fxx := fin 2, fyy := fin 2, fxy := fin 0 } : CriticalPoint).determinant
      = fin (2 * 2 - 0 * 0) :=
  ⟨by rw [findCriticalPointsLocal_paraboloid]; exact List.mem_singleton.2 rfl, by norm_num,
    (findCriticalPointsLocal_classification paraboloid _ 2 2 0
      (by rw [findCriticalPointsLocal_paraboloid]; exact List.mem_singleton.2 rfl)
      rfl rfl rfl).2.1⟩

/-! ## Local Lagrange solver on the circle `x^2 + y^2 = 8` -/

/-- The column scan appends, column by column, the curve points of the segments
between neighbouring grid values. -/
theorem scanColumns_eq (evalG : JSNum → JSNum → JSNum) (xs ys : List JSNum)
    (curvePts : List Point) :
    scanColumns evalG xs ys curvePts =
      curvePts ++ xs.flatMap (fun x =>
        (adjacentPairs ys).filterMap (fun yy => refineOnSegment x yy.1 x yy.2 evalG)) := by
  have inner : ∀ (x : JSNum) (l : List (JSNum × JSNum)) (acc : List Point),
      l.foldl (fun pts yy =>
        match refineOnSegment x yy.1 x yy.2 evalG with
        | some hint => pts ++ [hint]
        | none => pts) acc =
      acc ++ l.filterMap (fun yy => refineOnSegment x yy.1 x yy.2 evalG) := by
    intro x l
    induction l with
    | nil => intro acc; simp
    | cons a l ih =>
      intro acc
      rw [List.foldl_cons, ih]
      cases h : refineOnSegment x a.1 x a.2 evalG <;> simp [List.filterMap_cons, h]
  unfold scanColumns
  induction xs generalizing curvePts with
  | nil => simp
  | cons x xs ih => rw [List.foldl_cons, ih, inner]; simp [List.flatMap_cons]

/-- The row scan appends, row by row, the curve points of the segments between
neighbouring grid values. -/
theorem scanRows_eq (evalG : JSNum → JSNum → JSNum) (xs ys : List JSNum)
    (curvePts : List Point) :
    scanRows evalG xs ys curvePts =
      curvePts ++ ys.flatMap (fun y =>
        (adjacentPairs xs).filterMap (fun xx => refineOnSegment xx.1 y xx.2 y evalG)) := by
  have inner : ∀ (y : JSNum) (l : List (JSNum × JSNum)) (acc : List Point),
      l.foldl (fun pts xx =>
        match refineOnSegment xx.1 y xx.2 y evalG with
        | some hint => pts ++ [hint]
        | none => pts) acc =
      acc ++ l.filterMap (fun xx => refineOnSegment xx.1 y xx.2 y evalG) := by
    intro y l
    induction l with
    | nil => intro acc; simp
    | cons a l ih =>
      intro acc
      rw [List.foldl_cons, ih]
      cases h : refineOnSegment a.1 y a.2 y evalG <;> simp [List.filterMap_cons, h]
  unfold scanRows
  induction ys generalizing curvePts with
  | nil => simp
  | cons y ys ih => rw [List.foldl_cons, ih, inner]; simp [List.flatMap_cons]

/-- The candidate loop keeps, in order, the candidates of the neighbouring pairs. -/
theorem collectCandidates_eq (fExpr gExpr : Expression) (curvePts : List Point) :
    collectCandidates fExpr gExpr curvePts =
      (adjacentPairs curvePts).filterMap (candidateOnPair fExpr gExpr) := by
  have inner : ∀ (l : List (Point × Point)) (acc : List Candidate),
      l.foldl (fun candidates pq =>
        match refineCOnSegment (evalC fExpr gExpr) pq.1 pq.2 with
        | some cp =>
          let z := fExpr.eval cp.x cp.y
          if z.isFinite then candidates ++ [{ x := cp.x, y := cp.y, f := z }] else candidates
        | none => candidates) acc =
      acc ++ l.filterMap (candidateOnPair fExpr gExpr) := by
    intro l
    induction l with
    | nil => intro acc; simp
    | cons a l ih =>
      intro acc
      rw [List.foldl_cons, ih]
      cases h : refineCOnSegment (evalC fExpr gExpr) a.1 a.2 with
      | none => simp [List.filterMap_cons, candidateOnPair, h]
      | some cp =>
        by_cases hz : (fExpr.eval cp.x cp.y).isFinite = true <;>
          simp [List.filterMap_cons, candidateOnPair, h, hz]
  unfold collectCandidates
  rw [inner]
  simp

theorem dedupCandidates_eq (candidates : List Candidate) :
    dedupCandidates candidates = candidates.foldl dedupStep [] := rfl

theorem flatMap_take_drop {α β : Type} (n : ℕ) (l : List α) (f : α → List β) :
    l.flatMap f = (l.take n).flatMap f ++ (l.drop n).flatMap f := by
  conv_lhs => rw [← List.take_append_drop n l]
  rw [List.flatMap_append]

theorem filterMap_take_drop {α β : Type} (n : ℕ) (l : List α) (f : α → Option β) :
    l.filterMap f = (l.take n).filterMap f ++ (l.drop n).filterMap f := by
  conv_lhs => rw [← List.take_append_drop n l]
  rw [List.filterMap_append]

theorem foldl_take_drop {α β : Type} (n : ℕ) (l : List α) (f : β → α → β) (b : β) :
    l.foldl f b = (l.drop n).foldl f ((l.take n).foldl f b) := by
  conv_lhs => rw [← List.take_append_drop n l]
  rw [List.foldl_append]

/-! ### The stages of the solver on the circle, evaluated -/

theorem circle_stage_grid :
    createRange (pickSafeRangeForExpr planeObjective.text).min
      (pickSafeRangeForExpr planeObjective.text).max 60 = grid60 := by
  decide!

theorem circle_stage_columns_1 :
    (grid60.take 15).flatMap 
      (fun x => (adjacentPairs grid60).filterMap (fun yy => refineOnSegment x yy.1 x yy.2 circleConstraint.eval)) = circleColumns.take 4 := by
  decide!

theorem circle_stage_columns_2 :
    ((grid60.drop 15).take 15).flatMap 
      (fun x => (adjacentPairs grid60).filterMap (fun yy => refineOnSegment x yy.1 x yy.2 circleConstraint.eval)) = (circleColumns.drop 4).take 30 := by
  decide!

theorem circle_stage_columns_3 :
    (((grid60.drop 15).drop 15).take 15).flatMap 
      (fun x => (adjacentPairs grid60).filterMap (fun yy => refineOnSegment x yy.1 x yy.2 circleConstraint.eval)) =
      ((circleColumns.drop 4).drop 30).take 30 := by
  decide!

theorem circle_stage_columns_4 :
    (((grid60.drop 15).drop 15).drop 15).flatMap 
      (fun x => (adjacentPairs grid60).filterMap (fun yy => refineOnSegment x yy.1 x yy.2 circleConstraint.eval)) =
      ((circleColumns.drop 4).drop 30).drop 30 := by
  decide!

theorem circle_stage_rows_1 :
    (grid60.take 15).flatMap 
      (fun y => (adjacentPairs grid60).filterMap (fun xx => refineOnSegment xx.1 y xx.2 y circleConstraint.eval)) = circleRows.take 4 := by
  decide!

theorem circle_stage_rows_2 :
    ((grid60.drop 15).take 15).flatMap 
      (fun y => (adjacentPairs grid60).filterMap (fun xx => refineOnSegment xx.1 y xx.2 y circleConstraint.eval)) = (circleRows.drop 4).take 30 := by
  decide!

theorem circle_stage_rows_3 :
    (((grid60.drop 15).drop 15).take 15).flatMap 
      (fun y => (adjacentPairs grid60).filterMap (fun xx => refineOnSegment xx.1 y xx.2 y circleConstraint.eval)) =
      ((circleRows.drop 4).drop 30).take 30 := by
  decide!

theorem circle_stage_rows_4 :
    (((grid60.drop 15).drop 15).drop 15).flatMap 
      (fun y => (adjacentPairs grid60).filterMap (fun xx => refineOnSegment xx.1 y xx.2 y circleConstraint.eval)) =
      ((circleRows.drop 4).drop 30).drop 30 := by
  decide!

theorem circle_stage_sort : sortCurve (circleColumns ++ circleRows) = circleSorted := by
  decide!

theorem circle_stage_collect_1 :
    ((adjacentPairs circleSorted).take 45).filterMap
      (candidateOnPair planeObjective circleConstraint) = circleCollected.take 12 := by
  decide!

theorem circle_stage_collect_2 :
    (((adjacentPairs circleSorted).drop 45).take 45).filterMap
      (candidateOnPair planeObjective circleConstraint) =
      (circleCollected.drop 12).take 45 := by
  decide!

theorem circle_stage_collect_3 :
    (((adjacentPairs circleSorted).drop 45).drop 45).filterMap
      (candidateOnPair planeObjective circleConstraint) =
      (circleCollected.drop 12).drop 45 := by
  decide!

theorem circle_stage_dedup_1 :
    (circleCollected.take 23).foldl dedupStep [] = circleCandidates.take 23 := by
  decide!

theorem circle_stage_dedup_2 :
    ((circleCollected.drop 23).take 23).foldl dedupStep (circleCandidates.take 23) =
      circleCandidates.take 42 := by
  decide!

theorem circle_stage_dedup_3 :
    ((circleCollected.drop 23).drop 23).foldl dedupStep (circleCandidates.take 42) =
      circleCandidates := by
  decide!

theorem traceCurve_circle :
    traceCurve planeObjective circleConstraint = circleColumns ++ circleRows := by
  have hc : grid60.flatMap 
      (fun x => (adjacentPairs grid60).filterMap (fun yy => refineOnSegment x yy.1 x yy.2 circleConstraint.eval)) = circleColumns := by
    rw [flatMap_take_drop 15 grid60, flatMap_take_drop 15 (grid60.drop 15),
      flatMap_take_drop 15 ((grid60.drop 15).drop 15), circle_stage_columns_1,
      circle_stage_columns_2, circle_stage_columns_3, circle_stage_columns_4,
      List.take_append_drop, List.take_append_drop, List.take_append_drop]
  have hr : grid60.flatMap 
      (fun y => (adjacentPairs grid60).filterMap (fun xx => refineOnSegment xx.1 y xx.2 y circleConstraint.eval)) = circleRows := by
    rw [flatMap_take_drop 15 grid60, flatMap_take_drop 15 (grid60.drop 15),
      flatMap_take_drop 15 ((grid60.drop 15).drop 15), circle_stage_rows_1,
      circle_stage_rows_2, circle_stage_rows_3, circle_stage_rows_4,
      List.take_append_drop, List.take_append_drop, List.take_append_drop]
  simp only [traceCurve]
  rw [circle_stage_grid, scanRows_eq, scanColumns_eq, hc, hr, List.nil_append]

theorem collectCandidates_circle :
    collectCandidates planeObjective circleConstraint circleSorted = circleCollected := by
  rw [collectCandidates_eq, filterMap_take_drop 45 (adjacentPairs circleSorted),
    filterMap_take_drop 45 ((adjacentPairs circleSorted).drop 45), circle_stage_collect_1,
    circle_stage_collect_2, circle_stage_collect_3, List.take_append_drop,
    List.take_append_drop]

theorem dedupCandidates_circle : dedupCandidates circleCollected = circleCandidates := by
  rw [dedupCandidates_eq, foldl_take_drop 23 circleCollected,
    foldl_take_drop 23 (circleCollected.drop 23), circle_stage_dedup_1, circle_stage_dedup_2,
    circle_stage_dedup_3]

theorem solveLagrangeLocal_circle :
    solveLagrangeLocal planeObjective circleConstraint = circleCandidates := by
  have hne : (circleColumns ++ circleRows).isEmpty = false := by decide!
  simp only [solveLagrangeLocal]
  rw [traceCurve_circle, hne, circle_stage_sort, collectCandidates_circle,
    dedupCandidates_circle]
  rfl

/-- C4 (code defect): for f = x + y and g = x^2 + y^2 - 8 the list returned by
solveLagrangeLocal contains the candidate (0, 0) with f = 0, where g is -8, and
every candidate of the list has |g| above 0.38: no candidate lies on the
constraint curve. -/
theorem solveLagrangeLocal_circle_candidates_off_curve :
    ({ x := fin 0, y := fin 0, f := fin 0 } : Candidate)
      ∈ solveLagrangeLocal planeObjective circleConstraint ∧
    circleConstraint.eval (fin 0) (fin 0) = fin (-8) ∧
    ∀ c ∈ solveLagrangeLocal planeObjective circleConstraint,
      (fin 0.38).lt (JSNum.abs (circleConstraint.eval c.x c.y)) = true := by
  rw [solveLagrangeLocal_circle]
  decide!

/-- C5 (code defect): for f = x + y and g = x^2 + y^2 - 8 every candidate returned
by solveLagrangeLocal has a finite f strictly between -3.91 and 3.91, and lies
at distance 0.06 or more from (2, 2) and from (-2, -2): the list holds no candidate
within 1e-2 of either optimum, and none whose f is within 1e-2 of 4 or of -4. -/
theorem solveLagrangeLocal_circle_misses_optima :
    solveLagrangeLocal planeObjective circleConstraint ≠ [] ∧
    ∀ c ∈ solveLagrangeLocal planeObjective circleConstraint,
      c.f.lt (fin 3.91) = true ∧ (fin (-3.91)).lt c.f = true ∧
      hypotLt (c.x - fin 2) (c.y - fin 2) (fin 0.06) = false ∧
      hypotLt (c.x - fin (-2)) (c.y - fin (-2)) (fin 0.06) = false := by
  rw [solveLagrangeLocal_circle]
  decide!

/-! ## Finite-difference differentiator -/

/-- C8: with a non-zero step h, numericPartialsAt computes each gradient component
from its own two samples only: fx = (f(x+h,y) - f(x-h,y))/(2h) when both of those
samples are defined, and fx is NaN exactly when one of them is undefined, whatever
f(x,y+h) and f(x,y-h) are; symmetrically fy = (f(x,y+h) - f(x,y-h))/(2h), and fy is
NaN exactly when one of its own two samples is undefined. -/
theorem numericPartialsAt_componentwise (expression : Expression) (x y h : ℚ) (hh : h ≠ 0) :
    (∀ u v : ℚ, evaluateLocalAtPoint expression (fin (x + h)) (fin y) = fin u →
      evaluateLocalAtPoint expression (fin (x - h)) (fin y) = fin v →
      (numericPartialsAt expression (fin x) (fin y) (fin h)).fx = fin ((u - v) / (2 * h))) ∧
    ((numericPartialsAt expression (fin x) (fin y) (fin h)).fx = nan ↔
      evaluateLocalAtPoint expression (fin (x + h)) (fin y) = nan ∨
      evaluateLocalAtPoint expression (fin (x - h)) (fin y) = nan) ∧
    (∀ u v : ℚ, evaluateLocalAtPoint expression (fin x) (fin (y + h)) = fin u →
      evaluateLocalAtPoint expression (fin x) (fin (y - h)) = fin v →
      (numericPartialsAt expression (fin x) (fin y) (fin h)).fy = fin ((u - v) / (2 * h))) ∧
    ((numericPartialsAt expression (fin x) (fin y) (fin h)).fy = nan ↔
      evaluateLocalAtPoint expression (fin x) (fin (y + h)) = nan ∨
      evaluateLocalAtPoint expression (fin x) (fin (y - h)) = nan) := by
  have h2 : (2 : ℚ) * h ≠ 0 := mul_ne_zero two_ne_zero hh
  simp only [numericPartialsAt, fin_add_fin, fin_sub_fin, two_eq, fin_mul_fin]
  refine ⟨?_, ?_, ?_, ?_⟩
  · intro u v hu hv
    rw [hu, hv, fin_sub_fin, fin_div_fin _ _ h2]
  · cases evaluateLocalAtPoint expression (fin (x + h)) (fin y) <;>
      cases evaluateLocalAtPoint expression (fin (x - h)) (fin y) <;>
      simp [h2, hh]
  · intro u v hu hv
    rw [hu, hv, fin_sub_fin, fin_div_fin _ _ h2]
  · cases evaluateLocalAtPoint expression (fin x) (fin (y + h)) <;>
      cases evaluateLocalAtPoint expression (fin x) (fin (y - h)) <;>
      simp [h2, hh]

/-- C8 at the point (0, 3/4) with h = 1/2 for an expression undefined where
y >= 1: the sample f(0, 5/4) is undefined, so fy is NaN, and yet fx is the quotient
of its own two samples. -/
theorem numericPartialsAt_componentwise_witness :
    evaluateLocalAtPoint halfPlane (fin 0) (fin (3 / 4 + 1 / 2)) = nan ∧
    (numericPartialsAt halfPlane (fin 0) (fin (3 / 4)) (fin (1 / 2))).fx
      = fin ((5 / 4 - 1 / 4) / (2 * (1 / 2))) ∧
    (numericPartialsAt halfPlane (fin 0) (fin (3 / 4)) (fin (1 / 2))).fy = nan :=
  ⟨by decide!,
   (numericPartialsAt_componentwise halfPlane 0 (3 / 4) (1 / 2) (by norm_num)).1
     (5 / 4) (1 / 4) (by decide!) (by decide!),
   (numericPartialsAt_componentwise halfPlane 0 (3 / 4) (1 / 2) (by norm_num)).2.2.2.2
     (Or.inl (by decide!))⟩

/-- C9: numericHessianAt is a total function of the expression, the point and the
step (the model has no failure case: an undefined sample is the value NaN); an
entry is NaN as soon as one of the samples it reads is undefined; and when the
nine samples on the 3 x 3 stencil around (x, y) are defined, with values s, and
the step is not zero, it returns fxx = (s(x+h,y) - 2 s(x,y) + s(x-h,y))/h^2,
fyy = (s(x,y+h) - 2 s(x,y) + s(x,y-h))/h^2 and
fxy = (s(x+h,y+h) - s(x+h,y-h) - s(x-h,y+h) + s(x-h,y-h))/(4 h^2). -/
theorem numericHessianAt_total_formulas (expression : Expression) :
    (∀ x y h : JSNum, ∃ r : Hessian, numericHessianAt expression x y h = r) ∧
    (∀ x y h : JSNum,
      (evaluateLocalAtPoint expression (x + h) y = nan ∨
        evaluateLocalAtPoint expression x y = nan ∨
        evaluateLocalAtPoint expression (x - h) y = nan →
        (numericHessianAt expression x y h).fxx = nan) ∧
      (evaluateLocalAtPoint expression x (y + h) = nan ∨
        evaluateLocalAtPoint expression x y = nan ∨
        evaluateLocalAtPoint expression x (y - h) = nan →
        (numericHessianAt expression x y h).fyy = nan) ∧
      (evaluateLocalAtPoint expression (x + h) (y + h) = nan ∨
        evaluateLocalAtPoint expression (x + h) (y - h) = nan ∨
        evaluateLocalAtPoint expression (x - h) (y + h) = nan ∨
        evaluateLocalAtPoint expression (x - h) (y - h) = nan →
        (numericHessianAt expression x y h).fxy = nan)) ∧
    (∀ (x y h : ℚ) (s : ℚ → ℚ → ℚ), h ≠ 0 →
      (∀ a ∈ [x - h, x, x + h], ∀ b ∈ [y - h, y, y + h],
        evaluateLocalAtPoint expression (fin a) (fin b) = fin (s a b)) →
      numericHessianAt expression (fin x) (fin y) (fin h) =
        { fxx := fin ((s (x + h) y - 2 * s x y + s (x - h) y) / (h * h))
          fyy := fin ((s x (y + h) - 2 * s x y + s x (y - h)) / (h * h))
          fxy := fin ((s (x + h) (y + h) - s (x + h) (y - h) - s (x - h) (y + h)
            + s (x - h) (y - h)) / (4 * h * h)) }) := by
  refine ⟨fun x y h => ⟨_, rfl⟩, ?_, ?_⟩
  · intro x y h
    simp only [numericHessianAt]
    refine ⟨?_, ?_, ?_⟩
    · rintro (h1 | h1 | h1) <;> rw [evaluateLocalAtPoint_eq] at h1 <;> simp [h1]
    · rintro (h1 | h1 | h1) <;> rw [evaluateLocalAtPoint_eq] at h1 <;> simp [h1]
    · rintro (h1 | h1 | h1 | h1) <;> rw [evaluateLocalAtPoint_eq] at h1 <;> simp [h1]
  · intro x y h s hh hs
    have hhh : h * h ≠ 0 := mul_ne_zero hh hh
    have h4 : 4 * h * h ≠ 0 := by
      rw [mul_assoc]
      exact mul_ne_zero (by norm_num) hhh
    have e (a b : ℚ) (ha : a ∈ [x - h, x, x + h]) (hb : b ∈ [y - h, y, y + h]) :
        evaluateLocalAtPoint expression (fin a) (fin b) = fin (s a b) := hs a ha b hb
    simp only [numericHessianAt, fin_add_fin, fin_sub_fin, two_eq, four_eq, fin_mul_fin]
    rw [e (x + h) y (by simp) (by simp), e x y (by simp) (by simp),
      e (x - h) y (by simp) (by simp), e x (y + h) (by simp) (by simp),
      e x (y - h) (by simp) (by simp), e (x + h) (y + h) (by simp) (by simp),
      e (x + h) (y - h) (by simp) (by simp), e (x - h) (y + h) (by simp) (by simp),
      e (x - h) (y - h) (by simp) (by simp)]
    simp only [fin_add_fin, fin_sub_fin, fin_mul_fin, fin_div_fin _ _ hhh, fin_div_fin _ _ h4]

/-- C9 at x^2 + y^2, the point (1, 1) and the step 1/2: the nine samples are
defined and the three difference quotients are returned. -/
theorem numericHessianAt_total_formulas_witness :
    numericHessianAt paraboloid (fin 1) (fin 1) (fin (1 / 2)) =
      { fxx := fin ((((1 + 1 / 2) ^ 2 + 1 ^ 2) - 2 * (1 ^ 2 + 1 ^ 2)
          + ((1 - 1 / 2) ^ 2 + 1 ^ 2)) / (1 / 2 * (1 / 2)))
        fyy := fin (((1 ^ 2 + (1 + 1 / 2) ^ 2) - 2 * (1 ^ 2 + 1 ^ 2)
          + (1 ^ 2 + (1 - 1 / 2) ^ 2)) / (1 / 2 * (1 / 2)))
        fxy := fin ((((1 + 1 / 2) ^ 2 + (1 + 1 / 2) ^ 2) - ((1 + 1 / 2) ^ 2 + (1 - 1 / 2) ^ 2)
          - ((1 - 1 / 2) ^ 2 + (1 + 1 / 2) ^ 2)
          + ((1 - 1 / 2) ^ 2 + (1 - 1 / 2) ^ 2)) / (4 * (1 / 2) * (1 / 2))) } :=
  (numericHessianAt_total_formulas paraboloid).2.2 1 1 (1 / 2) (fun a b => a ^ 2 + b ^ 2)
    (by norm_num) (by
      intro a _ b _
      simp only [evaluateLocalAtPoint_eq, paraboloid, fin_mul_fin, fin_add_fin]
      congr 1
      ring)

/-! ## Double integral estimator -/

/-- A loop over `0, ..., n-1` whose body adds a finite term to a finite accumulator
ends with the accumulator plus the sum of the terms. -/
theorem foldl_range_fin (step : JSNum → ℕ → JSNum) (t : ℕ → ℚ)
    (hstep : ∀ (s : ℚ) (i : ℕ), step (fin s) i = fin (s + t i)) (n : ℕ) (s : ℚ) :
    (List.range n).foldl step (fin s) = fin (s + ∑ i ∈ Finset.range n, t i) := by
  induction n with
  | zero => simp
  | succ n ih =>
    rw [List.range_succ, List.foldl_append, ih, Finset.sum_range_succ]
    simp [hstep, add_assoc]

/-- The body of the inner loop on a finite accumulator. -/
theorem cell_step (v : JSNum) (dx dy s : ℚ) :
    (if v.isFinite = true then fin s + v * fin dx * fin dy else fin s) =
      fin (s + match v with
        | fin q => q * dx * dy
        | nan => 0) := by
  cases v <;> simp

/-- The estimator returns the midpoint sum of the specification. -/
theorem numericDoubleIntegralRect_eq_midpointSum (expression : Expression)
    (x0 x1 y0 y1 : ℚ) (nx ny : ℕ) (hnx : 0 < nx) (hny : 0 < ny) :
    numericDoubleIntegralRect expression (fin x0) (fin x1) (fin y0) (fin y1) nx ny =
      fin (midpointSum expression x0 x1 y0 y1 nx ny) := by
  have hx : (nx : ℚ) ≠ 0 := by exact_mod_cast hnx.ne'
  have hy : (ny : ℚ) ≠ 0 := by exact_mod_cast hny.ne'
  have hdx : fin (x1 - x0) / fin (((nx : ℕ) : ℤ) : ℚ) = fin ((x1 - x0) / nx) := by
    rw [Int.cast_natCast, fin_div_fin _ _ hx]
  have hdy : fin (y1 - y0) / fin (((ny : ℕ) : ℤ) : ℚ) = fin ((y1 - y0) / ny) := by
    rw [Int.cast_natCast, fin_div_fin _ _ hy]
  simp only [numericDoubleIntegralRect, fin_sub_fin, hdx, hdy, Int.toNat_ofNat, half_eq,
    fin_add_fin, fin_mul_fin, zero_eq]
  rw [foldl_range_fin _
    (fun j => ∑ i ∈ Finset.range nx,
      midpointCell expression x0 y0 ((x1 - x0) / nx) ((y1 - y0) / ny) i j)]
  · simp [midpointSum]
  · intro s j
    rw [foldl_range_fin _
      (fun i => midpointCell expression x0 y0 ((x1 - x0) / nx) ((y1 - y0) / ny) i j)]
    intro s i
    simp only [midpointCell, ← fin_mul_fin]
    exact cell_step _ _ _ _

/-- C6: for every expression, finite bounds x0, x1, y0, y1 and positive integers
nx, ny, numericDoubleIntegralRect returns the sum over all i in [0,nx), j in [0,ny)
of f(x0+(i+0.5)dx, y0+(j+0.5)dy)*dx*dy taken over the cells where f evaluates to a
finite number, with dx = (x1-x0)/nx and dy = (y1-y0)/ny; a cell where f is undefined
contributes zero, so the result is 0 when f is undefined at every midpoint. -/
theorem numericDoubleIntegralRect_midpoint_rule (expression : Expression)
    (x0 x1 y0 y1 : ℚ) (nx ny : ℕ) (hnx : 0 < nx) (hny : 0 < ny) :
    numericDoubleIntegralRect expression (fin x0) (fin x1) (fin y0) (fin y1) nx ny =
      fin (∑ j ∈ Finset.range ny, ∑ i ∈ Finset.range nx,
        midpointCell expression x0 y0 ((x1 - x0) / nx) ((y1 - y0) / ny) i j) ∧
    (∀ i j : ℕ,
      evaluateLocalAtPoint expression (fin (x0 + (i + 1 / 2) * ((x1 - x0) / nx)))
        (fin (y0 + (j + 1 / 2) * ((y1 - y0) / ny))) = nan →
      midpointCell expression x0 y0 ((x1 - x0) / nx) ((y1 - y0) / ny) i j = 0) ∧
    (∀ (i j : ℕ) (v : ℚ),
      evaluateLocalAtPoint expression (fin (x0 + (i + 1 / 2) * ((x1 - x0) / nx)))
        (fin (y0 + (j + 1 / 2) * ((y1 - y0) / ny))) = fin v →
      midpointCell expression x0 y0 ((x1 - x0) / nx) ((y1 - y0) / ny) i j =
        v * ((x1 - x0) / nx) * ((y1 - y0) / ny)) ∧
    ((∀ i < nx, ∀ j < ny,
      evaluateLocalAtPoint expression (fin (x0 + (i + 1 / 2) * ((x1 - x0) / nx)))
        (fin (y0 + (j + 1 / 2) * ((y1 - y0) / ny))) = nan) →
      numericDoubleIntegralRect expression (fin x0) (fin x1) (fin y0) (fin y1) nx ny = fin 0) := by
  have key := numericDoubleIntegralRect_eq_midpointSum expression x0 x1 y0 y1 nx ny hnx hny
  refine ⟨key, ?_, ?_, ?_⟩
  · intro i j h
    simp only [midpointCell, h]
  · intro i j v h
    simp only [midpointCell, h]
  · intro h
    rw [key, midpointSum]
    congr 1
    apply Finset.sum_eq_zero
    intro j hj
    apply Finset.sum_eq_zero
    intro i hi
    simp only [midpointCell, h i (Finset.mem_range.1 hi) j (Finset.mem_range.1 hj)]

/-- C6 on the half plane y < 1 over the rectangle [0,2] x [0,2] with one cell per
row and two rows: the cell centred at (1, 3/2) is undefined and contributes zero,
the cell centred at (1, 1/2) contributes (1 + 1/2) * 2 * 1. -/
theorem numericDoubleIntegralRect_midpoint_rule_witness :
    numericDoubleIntegralRect halfPlane (fin 0) (fin 2) (fin 0) (fin 2) ((1 : ℕ) : ℤ) ((2 : ℕ) : ℤ) =
      fin (∑ j ∈ Finset.range 2, ∑ i ∈ Finset.range 1,
        midpointCell halfPlane 0 0 ((2 - 0) / (1 : ℕ)) ((2 - 0) / (2 : ℕ)) i j) ∧
    numericDoubleIntegralRect halfPlane (fin 0) (fin 2) (fin 0) (fin 2) 1 2 = fin 3 :=
  ⟨(numericDoubleIntegralRect_midpoint_rule halfPlane 0 2 0 2 1 2 (by decide) (by decide)).1,
   by decide!⟩

/-! ## Range selector -/

/-- C11: pickSafeRangeForExpr returns a range symmetric about 0, from -L to L, where
L = 1.2 if the lower-cased expression contains a call of tan at a word boundary,
otherwise L = 4 if it contains a call of sqrt, otherwise L = 5 (a call of log never
tightens the default).  Hence an expression with a call of tan yields max <= 1.2
whatever else it contains, and an expression with no call of tan, log or sqrt
yields exactly [-5, 5]. -/
theorem pickSafeRangeForExpr_tightest_cap (expression : String) :
    pickSafeRangeForExpr expression =
      { min := fin (-(if testCall "tan" (toLowerCase expression.toList) = true then 6 / 5
                      else if testCall "sqrt" (toLowerCase expression.toList) = true then 4
                      else 5)),
        max := fin (if testCall "tan" (toLowerCase expression.toList) = true then 6 / 5
                      else if testCall "sqrt" (toLowerCase expression.toList) = true then 4
                      else 5) } ∧
    (testCall "tan" (toLowerCase expression.toList) = true →
      ∃ m : ℚ, (pickSafeRangeForExpr expression).max = fin m ∧ m ≤ 1.2) ∧
    (testCall "tan" (toLowerCase expression.toList) = false →
      testCall "log" (toLowerCase expression.toList) = false →
      testCall "sqrt" (toLowerCase expression.toList) = false →
      pickSafeRangeForExpr expression = { min := fin (-5), max := fin 5 }) := by
  have h12 : (1.2 : JSNum) = fin (6 / 5) := by
    rw [ofScientific_eq]; norm_num
  have key : pickSafeRangeForExpr expression =
      { min := fin (-(if testCall "tan" (toLowerCase expression.toList) = true then 6 / 5
                      else if testCall "sqrt" (toLowerCase expression.toList) = true then 4
                      else 5)),
        max := fin (if testCall "tan" (toLowerCase expression.toList) = true then 6 / 5
                      else if testCall "sqrt" (toLowerCase expression.toList) = true then 4
                      else 5) } := by
    simp only [pickSafeRangeForExpr, h12, five_eq, four_eq]
    cases testCall "tan" (toLowerCase expression.toList) <;>
      cases testCall "log" (toLowerCase expression.toList) <;>
      cases testCall "sqrt" (toLowerCase expression.toList) <;>
      simp [jsMin] <;> norm_num
  refine ⟨key, ?_, ?_⟩
  · intro h
    rw [key]
    exact ⟨6 / 5, by rw [if_pos h], by norm_num⟩
  · intro h1 _ h3
    rw [key, if_neg (by rw [h1]; decide), if_neg (by rw [h3]; decide)]

/-- C11 on three expressions: a call of tan next to a call of sqrt gives max = 6/5,
a call of tanh is not a call of tan, and an expression without any of the three
calls gives [-5, 5]. -/
theorem pickSafeRangeForExpr_tightest_cap_witness :
    testCall "tan" (toLowerCase "Tan (x) + sqrt(y)".toList) = true ∧
    (∃ m : ℚ, (pickSafeRangeForExpr "Tan (x) + sqrt(y)").max = fin m ∧ m ≤ 1.2) ∧
    pickSafeRangeForExpr "tanh(x)*y" = { min := fin (-5), max := fin 5 } :=
  ⟨by decide,
   (pickSafeRangeForExpr_tightest_cap "Tan (x) + sqrt(y)").2.1 (by decide),
   (pickSafeRangeForExpr_tightest_cap "tanh(x)*y").2.2 (by decide) (by decide) (by decide)⟩

/-! ## Grid generator -/

/-- The grid of finite bounds, for a number of steps other than one. -/
theorem createRange_fin (a b : ℚ) (steps : ℕ) (h : steps ≠ 1) :
    createRange (fin a) (fin b) steps =
      (List.range steps).map (fun (i : ℕ) => fin (a + i * ((b - a) / ((steps : ℚ) - 1)))) := by
  have h1 : (steps : ℚ) - 1 ≠ 0 := by
    intro h0
    apply h
    have : (steps : ℚ) = 1 := by linarith
    exact_mod_cast this
  simp only [createRange, fin_sub_fin, fin_div_fin _ _ h1, fin_mul_fin, fin_add_fin]

/-! ## Deduplication of the refined points -/

/-- A property of the accumulator that holds at the start of a loop and is kept by
its body holds at the end. -/
theorem foldl_invariant {α β : Type} (Inv : β → Prop) (f : β → α → β) (l : List α) (b : β)
    (h0 : Inv b) (hstep : ∀ b a, Inv b → Inv (f b a)) : Inv (l.foldl f b) := by
  induction l generalizing b with
  | nil => exact h0
  | cons a l ih => exact ih (f b a) (hstep b a h0)

theorem tol2_eq : (1e-2 : JSNum) = fin (1 / 100) := by
  rw [ofScientific_eq]; norm_num

theorem tol3_eq : (1e-3 : JSNum) = fin (1 / 1000) := by
  rw [ofScientific_eq]; norm_num

/-- The distance test on finite points. -/
theorem hypotLt_fin (a b t : ℚ) :
    hypotLt (fin a) (fin b) (fin t) = decide (a * a + b * b < t * t) := by
  simp [hypotLt, hypotSq]

/-- The points kept by the refinement loop are finite and any two of them, the
earlier `u` and the later `p`, are at distance at least `1e-2`. -/
theorem refineAll_separated (expression : Expression) (cand : List (JSNum × JSNum)) :
    (∀ p ∈ refineAll expression cand, ∃ a b : ℚ, p = (fin a, fin b)) ∧
    (refineAll expression cand).Pairwise (fun u p => ∃ a b c d : ℚ,
      u = (fin a, fin b) ∧ p = (fin c, fin d) ∧
      1 / 100 * (1 / 100) ≤ (c - a) * (c - a) + (d - b) * (d - b)) := by
  unfold refineAll
  apply foldl_invariant (fun uniq : List (JSNum × JSNum) =>
    (∀ p ∈ uniq, ∃ a b : ℚ, p = (fin a, fin b)) ∧
    uniq.Pairwise (fun u p => ∃ a b c d : ℚ,
      u = (fin a, fin b) ∧ p = (fin c, fin d) ∧
      1 / 100 * (1 / 100) ≤ (c - a) * (c - a) + (d - b) * (d - b)))
  · exact ⟨by simp, List.Pairwise.nil⟩
  · intro uniq c ⟨hfin, hpw⟩
    simp only
    generalize newtonRefine expression 6 c.1 c.2 = p
    obtain ⟨px, py⟩ := p
    split
    · rename_i hcond
      simp only [Bool.and_eq_true, Bool.not_eq_true'] at hcond
      obtain ⟨⟨hx, hy⟩, hnear⟩ := hcond
      obtain ⟨c1, rfl⟩ := (isFinite_iff px).1 hx
      obtain ⟨d1, rfl⟩ := (isFinite_iff py).1 hy
      refine ⟨?_, ?_⟩
      · intro q hq
        rcases List.mem_append.1 hq with hq | hq
        · exact hfin q hq
        · rw [List.mem_singleton.1 hq]
          exact ⟨c1, d1, rfl⟩
      · rw [List.pairwise_append]
        refine ⟨hpw, List.pairwise_singleton _ _, ?_⟩
        intro u hu q hq
        rw [List.mem_singleton.1 hq]
        obtain ⟨a, b, rfl⟩ := hfin u hu
        refine ⟨a, b, c1, d1, rfl, rfl, ?_⟩
        have h1 := (List.any_eq_false.1 hnear) (fin a, fin b) hu
        simp only [fin_sub_fin, tol2_eq, hypotLt_fin, decide_eq_true_eq] at h1
        exact not_lt.1 h1
    · exact ⟨hfin, hpw⟩

/-- C12: the list returned by findCriticalPointsLocal is deduplicated: for every
expression, any two entries at different positions of the result have finite
coordinates and are at Euclidean distance at least 1e-2 from each other (the square
of their distance is at least the square of 1e-2). -/
theorem findCriticalPointsLocal_deduplicated (expression : Expression) :
    ∀ (i j : ℕ) (r r' : CriticalPoint), i ≠ j →
      (findCriticalPointsLocal expression)[i]? = some r →
      (findCriticalPointsLocal expression)[j]? = some r' →
      ∃ x y x' y' : ℚ, r.x = fin x ∧ r.y = fin y ∧ r'.x = fin x' ∧ r'.y = fin y' ∧
        1e-2 * 1e-2 ≤ (x - x') * (x - x') + (y - y') * (y - y') := by
  have hpw : (findCriticalPointsLocal expression).Pairwise (fun r r' =>
      ∃ x y x' y' : ℚ, r.x = fin x ∧ r.y = fin y ∧ r'.x = fin x' ∧ r'.y = fin y' ∧
        1e-2 * 1e-2 ≤ (x - x') * (x - x') + (y - y') * (y - y')) := by
    unfold findCriticalPointsLocal
    rw [List.pairwise_map]
    refine (refineAll_separated expression _).2.imp ?_
    rintro u p ⟨a, b, c, d, rfl, rfl, h⟩
    refine ⟨a, b, c, d, rfl, rfl, rfl, rfl, ?_⟩
    have e : (1e-2 : ℚ) = 1 / 100 := by norm_num
    rw [e]
    nlinarith [h]
  have hsymm : ∀ r r' : CriticalPoint,
      (∃ x y x' y' : ℚ, r.x = fin x ∧ r.y = fin y ∧ r'.x = fin x' ∧ r'.y = fin y' ∧
        1e-2 * 1e-2 ≤ (x - x') * (x - x') + (y - y') * (y - y')) →
      ∃ x y x' y' : ℚ, r'.x = fin x ∧ r'.y = fin y ∧ r.x = fin x' ∧ r.y = fin y' ∧
        1e-2 * 1e-2 ≤ (x - x') * (x - x') + (y - y') * (y - y') := by
    rintro r r' ⟨x, y, x', y', h1, h2, h3, h4, h⟩
    exact ⟨x', y', x, y, h3, h4, h1, h2, by nlinarith [h]⟩
  rw [List.pairwise_iff_getElem] at hpw
  intro i j r r' hij hi hj
  obtain ⟨hil, hir⟩ := List.getElem?_eq_some.1 hi
  obtain ⟨hjl, hjr⟩ := List.getElem?_eq_some.1 hj
  rcases Nat.lt_or_gt_of_ne hij with hlt | hgt
  · have := hpw i j hil hjl hlt
    rwa [hir, hjr] at this
  · have := hpw j i hjl hil hgt
    rw [hir, hjr] at this
    exact hsymm _ _ this

/-- C12 on an expression that is zero on the strip x <= -4.9: the first two
entries of the result are the seeds (-5, -5) and (-5, -9/2). -/
theorem findCriticalPointsLocal_deduplicated_witness :
    ∃ x y x' y' : ℚ, (fin (-5) : JSNum) = fin x ∧ (fin (-5) : JSNum) = fin y ∧
      (fin (-5) : JSNum) = fin x' ∧ (fin (-9 / 2) : JSNum) = fin y' ∧
      1e-2 * 1e-2 ≤ (x - x') * (x - x') + (y - y') * (y - y') :=
  findCriticalPointsLocal_deduplicated leftStrip 0 1
    { x := fin (-5), y := fin (-5), f := fin 0, classification := "Prueba inconclusa",
      color := "orange", determinant := fin 0, fxx := fin 0, fyy := fin 0, fxy := fin 0 }
    { x := fin (-5), y := fin (-9 / 2), f := fin 0, classification := "Prueba inconclusa",
      color := "orange", determinant := fin 0, fxx := fin 0, fyy := fin 0, fxy := fin 0 }
    (by decide) (by decide!) (by decide!)

/-! ## Bisection stays on the segment -/

/-- The midpoint of two points of a segment, in the parametrisation of the segment. -/
theorem midpoint_on_segment (u v s t : ℚ) :
    (0.5 : JSNum) * (fin (u + s * (v - u)) + fin (u + t * (v - u))) =
      fin (u + (s + t) / 2 * (v - u)) := by
  simp only [half_eq, fin_add_fin, fin_mul_fin]
  congr 1
  ring

/-- Started on two points of the segment from `(x1, y1)` to `(x2, y2)`, with
parameters `s <= t`, the bisection loop returns a point of the segment with a
parameter between `s` and `t`. -/
theorem bisectLoop_on_segment (evalFun : JSNum → JSNum → JSNum) (tol : JSNum)
    (x1 y1 x2 y2 : ℚ) (n : ℕ) :
    ∀ (s t : ℚ) (fa fb : JSNum), s ≤ t →
      ∃ r : ℚ, s ≤ r ∧ r ≤ t ∧
        bisectLoop evalFun tol n (fin (x1 + s * (x2 - x1))) (fin (y1 + s * (y2 - y1)))
          (fin (x1 + t * (x2 - x1))) (fin (y1 + t * (y2 - y1))) fa fb =
          { x := fin (x1 + r * (x2 - x1)), y := fin (y1 + r * (y2 - y1)) } := by
  induction n with
  | zero =>
    intro s t fa fb hst
    exact ⟨s, le_refl s, hst, rfl⟩
  | succ n ih =>
    intro s t fa fb hst
    have hs : s ≤ (s + t) / 2 := by linarith
    have ht : (s + t) / 2 ≤ t := by linarith
    simp only [bisectLoop, midpoint_on_segment]
    split
    · exact ⟨s, le_refl s, hst, rfl⟩
    · split
      · exact ⟨(s + t) / 2, hs, ht, rfl⟩
      · split
        · obtain ⟨r, h1, h2, h3⟩ := ih s ((s + t) / 2) fa
            (evalFun (fin (x1 + (s + t) / 2 * (x2 - x1))) (fin (y1 + (s + t) / 2 * (y2 - y1)))) hs
          exact ⟨r, h1, h2.trans ht, h3⟩
        · obtain ⟨r, h1, h2, h3⟩ := ih ((s + t) / 2) t
            (evalFun (fin (x1 + (s + t) / 2 * (x2 - x1))) (fin (y1 + (s + t) / 2 * (y2 - y1))))
            fb ht
          exact ⟨r, hs.trans h1, h2, h3⟩

/-- The loop started on the two end points of a segment. -/
theorem bisectLoop_from_ends (evalFun : JSNum → JSNum → JSNum) (tol : JSNum)
    (x1 y1 x2 y2 : ℚ) (n : ℕ) (fa fb : JSNum) :
    ∃ r : ℚ, 0 ≤ r ∧ r ≤ 1 ∧
      bisectLoop evalFun tol n (fin x1) (fin y1) (fin x2) (fin y2) fa fb =
        { x := fin (x1 + r * (x2 - x1)), y := fin (y1 + r * (y2 - y1)) } := by
  have h := bisectLoop_on_segment evalFun tol x1 y1 x2 y2 n 0 1 fa fb (by norm_num)
  have e1 : x1 + 0 * (x2 - x1) = x1 := by ring
  have e2 : y1 + 0 * (y2 - y1) = y1 := by ring
  have e3 : x1 + 1 * (x2 - x1) = x2 := by ring
  have e4 : y1 + 1 * (y2 - y1) = y2 := by ring
  rw [e1, e2, e3, e4] at h
  exact h

/-- A point returned by `refineOnSegment` for finite end points lies on the closed
segment joining them. -/
theorem refineOnSegment_on_segment (evalFun : JSNum → JSNum → JSNum) (x1 y1 x2 y2 : ℚ)
    (p : Point) (h : refineOnSegment (fin x1) (fin y1) (fin x2) (fin y2) evalFun = some p) :
    ∃ r : ℚ, 0 ≤ r ∧ r ≤ 1 ∧
      p = { x := fin (x1 + r * (x2 - x1)), y := fin (y1 + r * (y2 - y1)) } := by
  unfold refineOnSegment at h
  simp only at h
  split at h
  · exact absurd h (by simp)
  · split at h
    · refine ⟨0, le_refl 0, by norm_num, ?_⟩
      rw [← Option.some.inj h]
      congr 2 <;> ring
    · split at h
      · refine ⟨1, by norm_num, le_refl 1, ?_⟩
        rw [← Option.some.inj h]
        congr 2 <;> ring
      · split at h
        · exact absurd h (by simp)
        · obtain ⟨r, h0, h1, hr⟩ := bisectLoop_from_ends evalFun 1e-6 x1 y1 x2 y2 22
            (evalFun (fin x1) (fin y1)) (evalFun (fin x2) (fin y2))
          exact ⟨r, h0, h1, by rw [← Option.some.inj h, hr]⟩

/-- A point returned by `refineCOnSegment` for finite end points lies on the closed
segment joining them. -/
theorem refineCOnSegment_on_segment (evalCFun : JSNum → JSNum → JSNum) (x1 y1 x2 y2 : ℚ)
    (p : Point)
    (h : refineCOnSegment evalCFun { x := fin x1, y := fin y1 } { x := fin x2, y := fin y2 }
      = some p) :
    ∃ r : ℚ, 0 ≤ r ∧ r ≤ 1 ∧
      p = { x := fin (x1 + r * (x2 - x1)), y := fin (y1 + r * (y2 - y1)) } := by
  unfold refineCOnSegment at h
  simp only at h
  split at h
  · exact absurd h (by simp)
  · split at h
    · refine ⟨0, le_refl 0, by norm_num, ?_⟩
      rw [← Option.some.inj h]
      congr 2 <;> ring
    · split at h
      · exact absurd h (by simp)
      · obtain ⟨r, h0, h1, hr⟩ := bisectLoop_from_ends evalCFun 1e-8 x1 y1 x2 y2 24
          (evalCFun (fin x1) (fin y1)) (evalCFun (fin x2) (fin y2))
        exact ⟨r, h0, h1, by rw [← Option.some.inj h, hr]⟩

/-! ## Local Lagrange solver: the points it handles are finite -/

/-- The range selector returns finite bounds `-L` and `L`. -/
theorem pickSafeRangeForExpr_fin (expression : String) :
    ∃ L : ℚ, pickSafeRangeForExpr expression = { min := fin (-L), max := fin L } := by
  have h12 : (1.2 : JSNum) = fin (6 / 5) := by
    rw [ofScientific_eq]; norm_num
  simp only [pickSafeRangeForExpr, h12, five_eq, four_eq]
  cases testCall "tan" (toLowerCase expression.toList) <;>
    cases testCall "log" (toLowerCase expression.toList) <;>
    cases testCall "sqrt" (toLowerCase expression.toList) <;>
    simp [jsMin]

/-- The values of a grid with finite bounds are finite. -/
theorem createRange_mem_fin (a b : ℚ) (steps : ℕ) (h : steps ≠ 1) (v : JSNum)
    (hv : v ∈ createRange (fin a) (fin b) steps) : ∃ q : ℚ, v = fin q := by
  rw [createRange_fin a b steps h] at hv
  obtain ⟨i, -, rfl⟩ := List.mem_map.1 hv
  exact ⟨_, rfl⟩

/-- The two members of a pair of neighbours belong to the list. -/
theorem mem_of_mem_adjacentPairs {α : Type} (l : List α) (a b : α)
    (h : (a, b) ∈ adjacentPairs l) : a ∈ l ∧ b ∈ l := by
  unfold adjacentPairs at h
  obtain ⟨h1, h2⟩ := List.of_mem_zip h
  exact ⟨h1, List.mem_of_mem_tail h2⟩

/-- Every curve point found by the two scans of a grid of finite values lies on a
grid segment and is finite. -/
theorem scan_mem_fin (evalG : JSNum → JSNum → JSNum) (xs ys : List JSNum)
    (hxs : ∀ v ∈ xs, ∃ q : ℚ, v = fin q) (hys : ∀ v ∈ ys, ∃ q : ℚ, v = fin q) (p : Point)
    (hp : p ∈ scanRows evalG xs ys (scanColumns evalG xs ys [])) :
    ∃ a b : ℚ, p = { x := fin a, y := fin b } := by
  rw [scanRows_eq, scanColumns_eq, List.nil_append] at hp
  rcases List.mem_append.1 hp with h | h
  · obtain ⟨x, hx, hmem⟩ := List.mem_flatMap.1 h
    obtain ⟨yy, hyy, hseg⟩ := List.mem_filterMap.1 hmem
    obtain ⟨h1, h2⟩ := mem_of_mem_adjacentPairs _ yy.1 yy.2 hyy
    obtain ⟨qx, rfl⟩ := hxs x hx
    obtain ⟨q1, e1⟩ := hys yy.1 h1
    obtain ⟨q2, e2⟩ := hys yy.2 h2
    rw [e1, e2] at hseg
    obtain ⟨r, -, -, hr⟩ := refineOnSegment_on_segment evalG qx q1 qx q2 p hseg
    exact ⟨_, _, hr⟩
  · obtain ⟨y, hy, hmem⟩ := List.mem_flatMap.1 h
    obtain ⟨xx, hxx, hseg⟩ := List.mem_filterMap.1 hmem
    obtain ⟨h1, h2⟩ := mem_of_mem_adjacentPairs _ xx.1 xx.2 hxx
    obtain ⟨qy, rfl⟩ := hys y hy
    obtain ⟨q1, e1⟩ := hxs xx.1 h1
    obtain ⟨q2, e2⟩ := hxs xx.2 h2
    rw [e1, e2] at hseg
    obtain ⟨r, -, -, hr⟩ := refineOnSegment_on_segment evalG q1 qy q2 qy p hseg
    exact ⟨_, _, hr⟩

/-- Every curve point of the trace is finite. -/
theorem traceCurve_mem_fin (fExpr gExpr : Expression) (p : Point)
    (hp : p ∈ traceCurve fExpr gExpr) : ∃ a b : ℚ, p = { x := fin a, y := fin b } := by
  obtain ⟨L, hL⟩ := pickSafeRangeForExpr_fin fExpr.text
  simp only [traceCurve, hL] at hp
  exact scan_mem_fin gExpr.eval _ _
    (fun v hv => createRange_mem_fin (-L) L 60 (by norm_num) v hv)
    (fun v hv => createRange_mem_fin (-L) L 60 (by norm_num) v hv) p hp

/-- Sorting keeps the curve points. -/
theorem mem_sortCurve (curvePts : List Point) (p : Point) :
    p ∈ sortCurve curvePts ↔ p ∈ curvePts :=
  (List.perm_insertionSort curveLe curvePts).mem_iff

/-- Every candidate collected on curve points with finite coordinates lies on the
segment joining two of them; its coordinates and its value are finite. -/
theorem collectCandidates_mem (fExpr gExpr : Expression) (curvePts : List Point)
    (hfin : ∀ p ∈ curvePts, ∃ a b : ℚ, p = { x := fin a, y := fin b }) (c : Candidate)
    (hc : c ∈ collectCandidates fExpr gExpr curvePts) :
    ∃ x1 y1 x2 y2 r z : ℚ,
      ({ x := fin x1, y := fin y1 } : Point) ∈ curvePts ∧
      ({ x := fin x2, y := fin y2 } : Point) ∈ curvePts ∧ 0 ≤ r ∧ r ≤ 1 ∧
      c = { x := fin (x1 + r * (x2 - x1)), y := fin (y1 + r * (y2 - y1)), f := fin z } := by
  rw [collectCandidates_eq] at hc
  obtain ⟨pq, hpq, hcand⟩ := List.mem_filterMap.1 hc
  obtain ⟨h1, h2⟩ := mem_of_mem_adjacentPairs _ pq.1 pq.2 hpq
  obtain ⟨x1, y1, e1⟩ := hfin pq.1 h1
  obtain ⟨x2, y2, e2⟩ := hfin pq.2 h2
  unfold candidateOnPair at hcand
  split at hcand
  · rename_i cp hcp
    rw [e1, e2] at hcp
    obtain ⟨r, h0, h1', hr⟩ := refineCOnSegment_on_segment _ x1 y1 x2 y2 cp hcp
    simp only at hcand
    split at hcand
    · rename_i hz
      obtain ⟨z, hzq⟩ := (isFinite_iff _).1 hz
      refine ⟨x1, y1, x2, y2, r, z, e1 ▸ h1, e2 ▸ h2, h0, h1', ?_⟩
      rw [← Option.some.inj hcand, hzq, hr]
    · exact absurd hcand (by simp)
  · exact absurd hcand (by simp)

/-- The candidates collected by the solver on its sorted trace have finite
coordinates. -/
theorem collected_fin (fExpr gExpr : Expression) (c : Candidate)
    (hc : c ∈ collectCandidates fExpr gExpr (sortCurve (traceCurve fExpr gExpr))) :
    ∃ x y z : ℚ, c = { x := fin x, y := fin y, f := fin z } := by
  obtain ⟨x1, y1, x2, y2, r, z, -, -, -, -, h⟩ := collectCandidates_mem fExpr gExpr _
    (fun p hp => traceCurve_mem_fin fExpr gExpr p ((mem_sortCurve _ p).1 hp)) c hc
  exact ⟨_, _, z, h⟩

/-! ## Deduplication of the candidates -/

/-- The final loop keeps candidates of the input only; of two kept candidates the
later is not within `1e-3` of the earlier; and each input candidate is kept or is
within `1e-3` of a kept one. -/
theorem dedupCandidates_spec (candidates : List Candidate) :
    (∀ u ∈ dedupCandidates candidates, u ∈ candidates) ∧
    (dedupCandidates candidates).Pairwise
      (fun u c => hypotLt (u.x - c.x) (u.y - c.y) 1e-3 = false) ∧
    (∀ c ∈ candidates, ∃ u ∈ dedupCandidates candidates,
      u = c ∨ hypotLt (u.x - c.x) (u.y - c.y) 1e-3 = true) := by
  have gen : ∀ (l done : List Candidate) (uniq : List Candidate),
      ((∀ u ∈ uniq, u ∈ done) ∧
        uniq.Pairwise (fun u c => hypotLt (u.x - c.x) (u.y - c.y) 1e-3 = false) ∧
        (∀ c ∈ done, ∃ u ∈ uniq, u = c ∨ hypotLt (u.x - c.x) (u.y - c.y) 1e-3 = true)) →
      ((∀ u ∈ l.foldl dedupStep uniq, u ∈ done ++ l) ∧
        (l.foldl dedupStep uniq).Pairwise
          (fun u c => hypotLt (u.x - c.x) (u.y - c.y) 1e-3 = false) ∧
        (∀ c ∈ done ++ l, ∃ u ∈ l.foldl dedupStep uniq,
          u = c ∨ hypotLt (u.x - c.x) (u.y - c.y) 1e-3 = true)) := by
    intro l
    induction l with
    | nil => intro done uniq h; simpa using h
    | cons a l ih =>
      intro done uniq ⟨h1, h2, h3⟩
      have key := ih (done ++ [a]) (dedupStep uniq a) (by
        unfold dedupStep
        split
        · rename_i hcond
          simp only [Bool.not_eq_true'] at hcond
          refine ⟨?_, ?_, ?_⟩
          · intro u hu
            rcases List.mem_append.1 hu with hu | hu
            · exact List.mem_append_left _ (h1 u hu)
            · exact List.mem_append_right _ hu
          · rw [List.pairwise_append]
            refine ⟨h2, List.pairwise_singleton _ _, ?_⟩
            intro u hu c hc
            rw [List.mem_singleton.1 hc]
            have := (List.any_eq_false.1 hcond) u hu
            simpa using this
          · intro c hc
            rcases List.mem_append.1 hc with hc | hc
            · obtain ⟨u, hu, h⟩ := h3 c hc
              exact ⟨u, List.mem_append_left _ hu, h⟩
            · rw [List.mem_singleton.1 hc]
              exact ⟨a, List.mem_append_right _ (List.mem_singleton.2 rfl), Or.inl rfl⟩
        · rename_i hcond
          simp only [Bool.not_eq_true', Bool.not_eq_false] at hcond
          refine ⟨fun u hu => List.mem_append_left _ (h1 u hu), h2, ?_⟩
          intro c hc
          rcases List.mem_append.1 hc with hc | hc
          · exact h3 c hc
          · rw [List.mem_singleton.1 hc]
            obtain ⟨u, hu, h⟩ := List.any_eq_true.1 hcond
            exact ⟨u, hu, Or.inr h⟩)
      simpa [List.append_assoc] using key
  have := gen candidates [] [] ⟨by simp, List.Pairwise.nil, by simp⟩
  simpa [dedupCandidates_eq] using this

/-- C13: the list returned by solveLagrangeLocal is deduplicated: for every f and
g, any two candidates at different positions of the result have finite coordinates
and are at Euclidean distance at least 1e-3 from each other, and every candidate
found before deduplication is within 1e-3 of some returned candidate. -/
theorem solveLagrangeLocal_deduplicated (fExpr gExpr : Expression) :
    (∀ (i j : ℕ) (c c' : Candidate), i ≠ j →
      (solveLagrangeLocal fExpr gExpr)[i]? = some c →
      (solveLagrangeLocal fExpr gExpr)[j]? = some c' →
      ∃ x y x' y' : ℚ, c.x = fin x ∧ c.y = fin y ∧ c'.x = fin x' ∧ c'.y = fin y' ∧
        1e-3 * 1e-3 ≤ (x - x') * (x - x') + (y - y') * (y - y')) ∧
    (∀ c ∈ collectCandidates fExpr gExpr (sortCurve (traceCurve fExpr gExpr)),
      ∃ u ∈ solveLagrangeLocal fExpr gExpr,
        ∃ x y x' y' : ℚ, c.x = fin x ∧ c.y = fin y ∧ u.x = fin x' ∧ u.y = fin y' ∧
          (x' - x) * (x' - x) + (y' - y) * (y' - y) < 1e-3 * 1e-3) := by
  have e3 : (1e-3 : ℚ) = 1 / 1000 := by norm_num
  obtain ⟨hsub, hpw, hcov⟩ :=
    dedupCandidates_spec (collectCandidates fExpr gExpr (sortCurve (traceCurve fExpr gExpr)))
  have hsolve : solveLagrangeLocal fExpr gExpr =
      dedupCandidates (collectCandidates fExpr gExpr (sortCurve (traceCurve fExpr gExpr))) := by
    unfold solveLagrangeLocal
    simp only
    split
    · rename_i hempty
      rw [List.isEmpty_iff.1 hempty]
      rfl
    · rfl
  rw [hsolve]
  generalize hC : collectCandidates fExpr gExpr (sortCurve (traceCurve fExpr gExpr)) = cands
    at hsub hpw hcov
  have hfin : ∀ c ∈ cands, ∃ x y z : ℚ, c = { x := fin x, y := fin y, f := fin z } := by
    intro c hc
    rw [← hC] at hc
    exact collected_fin fExpr gExpr c hc
  refine ⟨?_, ?_⟩
  · have hpw2 : (dedupCandidates cands).Pairwise (fun c c' =>
        ∃ x y x' y' : ℚ, c.x = fin x ∧ c.y = fin y ∧ c'.x = fin x' ∧ c'.y = fin y' ∧
          1e-3 * 1e-3 ≤ (x - x') * (x - x') + (y - y') * (y - y')) := by
      rw [List.pairwise_iff_forall_sublist] at hpw ⊢
      intro a b hab
      have hfar := hpw hab
      obtain ⟨x, y, z, rfl⟩ := hfin a (hsub a (hab.subset (by simp)))
      obtain ⟨x', y', z', rfl⟩ := hfin b (hsub b (hab.subset (by simp)))
      refine ⟨x, y, x', y', rfl, rfl, rfl, rfl, ?_⟩
      simp only [fin_sub_fin, tol3_eq, hypotLt_fin, decide_eq_false_iff_not, not_lt] at hfar
      rw [e3]
      exact hfar
    rw [List.pairwise_iff_getElem] at hpw2
    intro i j c c' hij hi hj
    obtain ⟨hil, hir⟩ := List.getElem?_eq_some.1 hi
    obtain ⟨hjl, hjr⟩ := List.getElem?_eq_some.1 hj
    rcases Nat.lt_or_gt_of_ne hij with hlt | hgt
    · have := hpw2 i j hil hjl hlt
      rwa [hir, hjr] at this
    · have := hpw2 j i hjl hil hgt
      rw [hir, hjr] at this
      obtain ⟨x, y, x', y', h1, h2, h3, h4, h⟩ := this
      exact ⟨x', y', x, y, h3, h4, h1, h2, by nlinarith [h]⟩
  · intro c hc
    obtain ⟨u, hu, h⟩ := hcov c hc
    obtain ⟨x, y, z, rfl⟩ := hfin c hc
    obtain ⟨x', y', z', rfl⟩ := hfin u (hsub u hu)
    refine ⟨_, hu, x, y, x', y', rfl, rfl, rfl, rfl, ?_⟩
    rw [e3]
    rcases h with h | h
    · have hx : x' = x := by
        have := congrArg Candidate.x h
        simpa using this
      have hy : y' = y := by
        have := congrArg Candidate.y h
        simpa using this
      rw [hx, hy]
      norm_num
    · simpa only [fin_sub_fin, tol3_eq, hypotLt_fin, decide_eq_true_eq] using h

/-- C13 on the circle: the first two returned candidates are more than 1e-3 apart. -/
theorem solveLagrangeLocal_deduplicated_witness :
    ∃ x y x' y' : ℚ,
      (candidateOf (-31650866961575 / 16217796509696) (-31650865800025 / 16217796509696)
        (-1931815575 / 494927872)).x = fin x ∧
      (candidateOf (-31650866961575 / 16217796509696) (-31650865800025 / 16217796509696)
        (-1931815575 / 494927872)).y = fin y ∧
      (candidateOf (-115 / 59) (-7902740524875 / 4054449127424)
        (-15805480349515 / 4054449127424)).x = fin x' ∧
      (candidateOf (-115 / 59) (-7902740524875 / 4054449127424)
        (-15805480349515 / 4054449127424)).y = fin y' ∧
      1e-3 * 1e-3 ≤ (x - x') * (x - x') + (y - y') * (y - y') :=
  (solveLagrangeLocal_deduplicated planeObjective circleConstraint).1 0 1 _ _ (by decide)
    (by rw [solveLagrangeLocal_circle]; rfl) (by rw [solveLagrangeLocal_circle]; rfl)

/-! ## Critical point locator: seeds, degenerate Hessians, empty results -/

/-- A loop that appends `g y` for the values `y` passing a test ends with the
accumulator followed by the images of the values that pass. -/
theorem foldl_push_filter {α β : Type} (P : β → Bool) (g : β → α) (l : List β)
    (acc : List α) :
    l.foldl (fun cand y => if P y = true then cand ++ [g y] else cand) acc =
      acc ++ (l.filter P).map g := by
  induction l generalizing acc with
  | nil => simp
  | cons a l ih =>
    rw [List.foldl_cons, ih]
    by_cases h : P a = true
    · rw [if_pos h, List.filter_cons_of_pos h, List.map_cons, List.append_assoc]
      rfl
    · rw [if_neg h, List.filter_cons_of_neg h]

/-- A loop that appends a list `f x` for each value `x` ends with the accumulator
followed by all those lists. -/
theorem foldl_append_flatMap {α β : Type} (step : List α → β → List α) (f : β → List α)
    (hstep : ∀ acc x, step acc x = acc ++ f x) (l : List β) (acc : List α) :
    l.foldl step acc = acc ++ l.flatMap f := by
  induction l generalizing acc with
  | nil => simp
  | cons a l ih =>
    rw [List.foldl_cons, ih, hstep, List.flatMap_cons, List.append_assoc]

/-- The seed scan keeps, in scan order, the grid points that pass the gradient
test. -/
theorem seedCandidates_eq (expression : Expression) (xs ys : List JSNum) :
    seedCandidates expression xs ys =
      xs.flatMap (fun xv => (ys.filter (fun yv =>
        hypotFiniteLt (numericPartialsAt expression xv yv defaultH).fx
          (numericPartialsAt expression xv yv defaultH).fy 1e-2)).map (fun yv => (xv, yv))) := by
  unfold seedCandidates
  simp only
  rw [foldl_append_flatMap _ (fun xv => (ys.filter (fun yv =>
        hypotFiniteLt (numericPartialsAt expression xv yv defaultH).fx
          (numericPartialsAt expression xv yv defaultH).fy 1e-2)).map (fun yv => (xv, yv)))]
  · rfl
  · intro acc x
    exact foldl_push_filter _ _ ys acc

/-- One pass of the Newton loop on a finite, near-singular determinant keeps the
point. -/
theorem newtonRefine_singular (expression : Expression) (n : ℕ) (px py : JSNum) (d : ℚ)
    (hdet : (numericHessianAt expression px py defaultH).fxx *
        (numericHessianAt expression px py defaultH).fyy -
      (numericHessianAt expression px py defaultH).fxy *
        (numericHessianAt expression px py defaultH).fxy = fin d)
    (hd : |d| < 1e-12) : newtonRefine expression n px py = (px, py) := by
  cases n with
  | zero => rfl
  | succ n =>
    have e12 : (1e-12 : JSNum) = fin (1e-12) := by rw [ofScientific_eq]
    simp only [newtonRefine, hdet, abs_fin, e12, lt_fin, decide_eq_true hd, Bool.or_true,
      if_true]

/-- The refinement loop keeps every candidate of a list of finite points that are
pairwise at distance `1e-2` or more, when the Newton loop leaves each in place. -/
theorem refineAll_keeps (expression : Expression)
    (hnewton : ∀ px py : JSNum, newtonRefine expression 6 px py = (px, py)) :
    ∀ (l acc : List (JSNum × JSNum)),
      (∀ p ∈ l, ∃ a b : ℚ, p = (fin a, fin b)) →
      (acc ++ l).Pairwise (fun u p => hypotLt (p.1 - u.1) (p.2 - u.2) 1e-2 = false) →
      l.foldl (fun uniq c =>
        if ((newtonRefine expression 6 c.1 c.2).1.isFinite &&
            (newtonRefine expression 6 c.1 c.2).2.isFinite &&
            !near uniq (newtonRefine expression 6 c.1 c.2).1
              (newtonRefine expression 6 c.1 c.2).2) = true
        then uniq ++ [newtonRefine expression 6 c.1 c.2] else uniq) acc = acc ++ l := by
  intro l
  induction l with
  | nil => intro acc _ _; simp
  | cons c l ih =>
    intro acc hfin hpw
    obtain ⟨a, b, rfl⟩ := hfin (c) (List.mem_cons_self _ _)
    have hnear : near acc (fin a) (fin b) = false := by
      unfold near
      rw [List.any_eq_false]
      intro u hu
      have h1 := (List.pairwise_append.1 hpw).2.2 u hu (fin a, fin b) (List.mem_cons_self _ _)
      simpa using h1
    rw [List.foldl_cons]
    simp only [hnewton, isFinite_fin, hnear, Bool.not_false, Bool.and_self, if_true]
    have := ih (acc ++ [(fin a, fin b)]) (fun p hp => hfin p (List.mem_cons_of_mem _ hp))
      (by simpa [List.append_assoc] using hpw)
    simpa [List.append_assoc, hnewton] using this

theorem refineAll_eq_foldl (expression : Expression) (cand : List (JSNum × JSNum)) :
    refineAll expression cand = cand.foldl (refineStep expression) [] := rfl

/-- Two finite points whose abscissas differ by `1e-2` or more fail the distance
test. -/
theorem far_of_x (a1 b1 a2 b2 : ℚ) (h : 1 / 100 ≤ |a2 - a1|) :
    hypotLt (fin a2 - fin a1) (fin b2 - fin b1) 1e-2 = false := by
  simp only [fin_sub_fin, tol2_eq, hypotLt_fin, decide_eq_false_iff_not, not_lt]
  have h1 : (1 / 100 : ℚ) * (1 / 100) ≤ |a2 - a1| * |a2 - a1| :=
    mul_le_mul h h (by norm_num) (le_trans (by norm_num) h)
  rw [abs_mul_abs_self] at h1
  nlinarith [mul_self_nonneg (b2 - b1)]

/-- Two finite points whose ordinates differ by `1e-2` or more fail the distance
test. -/
theorem far_of_y (a1 b1 a2 b2 : ℚ) (h : 1 / 100 ≤ |b2 - b1|) :
    hypotLt (fin a2 - fin a1) (fin b2 - fin b1) 1e-2 = false := by
  simp only [fin_sub_fin, tol2_eq, hypotLt_fin, decide_eq_false_iff_not, not_lt]
  have h1 : (1 / 100 : ℚ) * (1 / 100) ≤ |b2 - b1| * |b2 - b1| :=
    mul_le_mul h h (by norm_num) (le_trans (by norm_num) h)
  rw [abs_mul_abs_self] at h1
  nlinarith [mul_self_nonneg (a2 - a1)]

/-- The points of a square grid whose spacing `d` is `1e-2` or more fail the
distance test two by two, in scan order. -/
theorem gridPairs_separated (a d : ℚ) (n : ℕ) (hd : 1 / 100 ≤ d) :
    (((List.range n).map (fun (i : ℕ) => fin (a + i * d))).flatMap (fun x =>
      ((List.range n).map (fun (i : ℕ) => fin (a + i * d))).map (fun y => (x, y)))).Pairwise
      (fun u p => hypotLt (p.1 - u.1) (p.2 - u.2) 1e-2 = false) := by
  have hgap : ∀ i j : ℕ, i < j → 1 / 100 ≤ |(a + (j : ℚ) * d) - (a + (i : ℚ) * d)| := by
    intro i j hij
    have h1 : (1 : ℚ) ≤ (j : ℚ) - (i : ℚ) := by
      have : (i : ℚ) + 1 ≤ (j : ℚ) := by exact_mod_cast hij
      linarith
    have h2 : (a + (j : ℚ) * d) - (a + (i : ℚ) * d) = ((j : ℚ) - (i : ℚ)) * d := by ring
    rw [h2]
    have h3 : d ≤ ((j : ℚ) - (i : ℚ)) * d := by nlinarith
    exact le_trans (le_trans hd h3) (le_abs_self _)
  rw [List.pairwise_flatMap]
  refine ⟨?_, ?_⟩
  · intro x hx
    obtain ⟨k, -, rfl⟩ := List.mem_map.1 hx
    rw [List.pairwise_map, List.pairwise_map]
    exact (List.pairwise_lt_range n).imp (fun {i j} hij => far_of_y _ _ _ _ (hgap i j hij))
  · rw [List.pairwise_map]
    refine (List.pairwise_lt_range n).imp ?_
    intro i j hij p hp q hq
    obtain ⟨y, hy, rfl⟩ := List.mem_map.1 hp
    obtain ⟨y', hy', rfl⟩ := List.mem_map.1 hq
    obtain ⟨k, -, rfl⟩ := List.mem_map.1 hy
    obtain ⟨k', -, rfl⟩ := List.mem_map.1 hy'
    exact far_of_x _ _ _ _ (hgap i j hij)

/-- The numeric gradient of a constant function vanishes. -/
theorem numericPartialsAt_const (expression : Expression) (c : ℚ)
    (hconst : ∀ x y : JSNum, expression.eval x y = fin c) (x y : JSNum) :
    numericPartialsAt expression x y defaultH = { fx := fin 0, fy := fin 0 } := by
  simp only [numericPartialsAt, evaluateLocalAtPoint_eq, hconst, defaultH_eq, two_eq,
    fin_sub_fin, fin_mul_fin]
  rw [fin_div_fin _ _ (by norm_num)]
  norm_num

/-- The numeric Hessian of a constant function vanishes. -/
theorem numericHessianAt_const (expression : Expression) (c : ℚ)
    (hconst : ∀ x y : JSNum, expression.eval x y = fin c) (x y : JSNum) :
    numericHessianAt expression x y defaultH = { fxx := fin 0, fyy := fin 0, fxy := fin 0 } := by
  simp only [numericHessianAt, evaluateLocalAtPoint_eq, hconst, defaultH_eq, two_eq, four_eq,
    fin_sub_fin, fin_mul_fin, fin_add_fin]
  rw [fin_div_fin _ _ (by norm_num), fin_div_fin _ _ (by norm_num)]
  have e1 : c - 2 * c + c = 0 := by ring
  have e2 : c - c - c + c = 0 := by ring
  rw [e1, e2]
  norm_num

/-- The locator on a constant function, for a selected range from `-L` to `L` whose
21 grid values are `1e-2` or more apart: every grid seed is returned in place, with
the label of the inconclusive test. -/
theorem findCriticalPointsLocal_const (expression : Expression) (c L : ℚ)
    (hconst : ∀ x y : JSNum, expression.eval x y = fin c)
    (hrange : pickSafeRangeForExpr expression.text = { min := fin (-L), max := fin L })
    (hL : 1 / 100 ≤ (L - -L) / ((21 : ℕ) - 1)) :
    findCriticalPointsLocal expression =
      ((createRange (fin (-L)) (fin L) 21).flatMap (fun x =>
        (createRange (fin (-L)) (fin L) 21).map (fun y => (x, y)))).map (flatPoint c) := by
  have hnewton : ∀ px py : JSNum, newtonRefine expression 6 px py = (px, py) := by
    intro px py
    apply newtonRefine_singular expression 6 px py 0
    · rw [numericHessianAt_const expression c hconst]
      simp
    · norm_num
  have hclass : classifyPoint expression = flatPoint c := by
    funext p
    simp only [classifyPoint, numericHessianAt_const expression c hconst,
      evaluateLocalAtPoint_eq, hconst, flatPoint, fin_mul_fin, fin_sub_fin, tol6_eq, zero_eq,
      gt_fin, lt_fin, abs_fin, le_fin]
    norm_num
  have hseeds : seedCandidates expression (createRange (fin (-L)) (fin L) 21)
      (createRange (fin (-L)) (fin L) 21) =
      (createRange (fin (-L)) (fin L) 21).flatMap (fun x =>
        (createRange (fin (-L)) (fin L) 21).map (fun y => (x, y))) := by
    rw [seedCandidates_eq]
    have hall : ∀ xv : JSNum, (fun yv =>
        hypotFiniteLt (numericPartialsAt expression xv yv defaultH).fx
          (numericPartialsAt expression xv yv defaultH).fy 1e-2) = fun _ => true := by
      intro xv
      funext yv
      rw [numericPartialsAt_const expression c hconst]
      simp [hypotFiniteLt, hypotSq, tol2_eq]
    simp only [hall, List.filter_true]
  unfold findCriticalPointsLocal
  rw [hrange]
  dsimp only
  rw [hseeds, hclass]
  refine congrArg (List.map (flatPoint c)) ?_
  rw [refineAll_eq_foldl]
  have hgrid := createRange_fin (-L) L 21 (by norm_num)
  have key := refineAll_keeps expression hnewton
    ((createRange (fin (-L)) (fin L) 21).flatMap (fun x =>
        (createRange (fin (-L)) (fin L) 21).map (fun y => (x, y)))) []
    (by
      intro p hp
      obtain ⟨x, hx, hp⟩ := List.mem_flatMap.1 hp
      obtain ⟨y, hy, rfl⟩ := List.mem_map.1 hp
      obtain ⟨qx, rfl⟩ := createRange_mem_fin (-L) L 21 (by norm_num) x hx
      obtain ⟨qy, rfl⟩ := createRange_mem_fin (-L) L 21 (by norm_num) y hy
      exact ⟨qx, qy, rfl⟩)
    (by
      rw [List.nil_append, hgrid]
      exact gridPairs_separated (-L) ((L - -L) / ((21 : ℕ) - 1)) 21 hL)
  rw [List.nil_append] at key
  exact key

theorem gridPairs_length :
    ((createRange (fin (-5)) (fin 5) 21).flatMap (fun x =>
      (createRange (fin (-5)) (fin 5) 21).map (fun y => (x, y)))).length = 441 := by
  decide!

/-- C14: a near-singular Hessian aborts only that candidate's refinement: if at a
raw candidate seed the numeric Hessian has a finite determinant d with
|d| < 1e-12, the refined location is the seed itself, the seed is kept and the
loop goes on with the remaining seeds.  For a constant function with the range
[-5, 5], findCriticalPointsLocal returns all 441 grid seeds unchanged, in scan
order, each classified Prueba inconclusa. -/
theorem findCriticalPointsLocal_singular_hessian (expression : Expression) :
    (∀ (cx cy d : ℚ) (rest : List (JSNum × JSNum)),
      (numericHessianAt expression (fin cx) (fin cy) defaultH).fxx *
          (numericHessianAt expression (fin cx) (fin cy) defaultH).fyy -
        (numericHessianAt expression (fin cx) (fin cy) defaultH).fxy *
          (numericHessianAt expression (fin cx) (fin cy) defaultH).fxy = fin d →
      |d| < 1e-12 →
      newtonRefine expression 6 (fin cx) (fin cy) = (fin cx, fin cy) ∧
      refineAll expression ((fin cx, fin cy) :: rest) =
        rest.foldl (refineStep expression) [(fin cx, fin cy)]) ∧
    (∀ c : ℚ, (∀ x y : JSNum, expression.eval x y = fin c) →
      pickSafeRangeForExpr expression.text = { min := fin (-5), max := fin 5 } →
      findCriticalPointsLocal expression =
        ((createRange (fin (-5)) (fin 5) 21).flatMap (fun x =>
          (createRange (fin (-5)) (fin 5) 21).map (fun y => (x, y)))).map (flatPoint c) ∧
      (findCriticalPointsLocal expression).length = 441 ∧
      ∀ r ∈ findCriticalPointsLocal expression, r.classification = "Prueba inconclusa") := by
  refine ⟨?_, ?_⟩
  · intro cx cy d rest hdet hd
    have h := newtonRefine_singular expression 6 (fin cx) (fin cy) d hdet hd
    refine ⟨h, ?_⟩
    rw [refineAll_eq_foldl, List.foldl_cons]
    have hstep : refineStep expression [] (fin cx, fin cy) = [(fin cx, fin cy)] := by
      simp [refineStep, h, near]
    rw [hstep]
  · intro c hconst hrange
    have key := findCriticalPointsLocal_const expression c 5 hconst hrange (by norm_num)
    refine ⟨key, ?_, ?_⟩
    · rw [key, List.length_map, gridPairs_length]
    · intro r hr
      rw [key] at hr
      obtain ⟨p, -, rfl⟩ := List.mem_map.1 hr
      rfl

/-- C14 for the constant function 1: the 441 seeds are returned in place. -/
theorem findCriticalPointsLocal_singular_hessian_witness :
    findCriticalPointsLocal (constantExpr "1" 1) =
        ((createRange (fin (-5)) (fin 5) 21).flatMap (fun x =>
          (createRange (fin (-5)) (fin 5) 21).map (fun y => (x, y)))).map (flatPoint 1) ∧
      (findCriticalPointsLocal (constantExpr "1" 1)).length = 441 ∧
      ∀ r ∈ findCriticalPointsLocal (constantExpr "1" 1),
        r.classification = "Prueba inconclusa" :=
  (findCriticalPointsLocal_singular_hessian (constantExpr "1" 1)).2 1 (fun _ _ => rfl)
    (by decide)

/-! ## Double integral estimator: ranges are not validated -/

/-- C15 (the claim fails): on the reversed range x0 = 2 >= x1 = 0 the estimator
returns the number -6 for the integrand 1, and with nx = 0 it returns 0; no error
is raised. -/
theorem numericDoubleIntegralRect_accepts_invalid_range :
    numericDoubleIntegralRect (constantExpr "1" 1) (fin 2) (fin 0) (fin 0) (fin 3) 2 2
      = fin (-6) ∧
    numericDoubleIntegralRect (constantExpr "1" 1) (fin 0) (fin 2) (fin 0) (fin 3) 0 2
      = fin 0 := by
  decide!

/-- With a step count that is not positive no cell is visited and the result is 0. -/
theorem numericDoubleIntegralRect_no_cells (expression : Expression) (x0 x1 y0 y1 : JSNum)
    (nx ny : ℤ) (h : nx ≤ 0 ∨ ny ≤ 0) :
    numericDoubleIntegralRect expression x0 x1 y0 y1 nx ny = fin 0 := by
  unfold numericDoubleIntegralRect
  simp only [zero_eq]
  rcases h with h | h
  · rw [Int.toNat_eq_zero.2 h]
    apply foldl_invariant (fun s : JSNum => s = fin 0)
    · rfl
    · intro b a hb
      simpa using hb
  · rw [Int.toNat_eq_zero.2 h]
    rfl

/-- C15 (amended): numericDoubleIntegralRect validates nothing and always returns
a number for finite bounds: 0 when nx <= 0 or ny <= 0, and for positive nx, ny
the midpoint sum of the cells, also when x0 >= x1 or y0 >= y1. -/
theorem numericDoubleIntegralRect_never_rejects (expression : Expression)
    (x0 x1 y0 y1 : ℚ) (nx ny : ℤ) :
    ∃ r : ℚ,
      numericDoubleIntegralRect expression (fin x0) (fin x1) (fin y0) (fin y1) nx ny = fin r ∧
      (nx ≤ 0 ∨ ny ≤ 0 → r = 0) ∧
      (0 < nx → 0 < ny → r = midpointSum expression x0 x1 y0 y1 nx.toNat ny.toNat) := by
  by_cases h : nx ≤ 0 ∨ ny ≤ 0
  · refine ⟨0, numericDoubleIntegralRect_no_cells expression _ _ _ _ nx ny h, fun _ => rfl, ?_⟩
    intro h1 h2
    rcases h with h | h <;> omega
  · have h1 : 0 < nx := by omega
    have h2 : 0 < ny := by omega
    refine ⟨midpointSum expression x0 x1 y0 y1 nx.toNat ny.toNat, ?_, fun h' => absurd h' h,
      fun _ _ => rfl⟩
    have := numericDoubleIntegralRect_eq_midpointSum expression x0 x1 y0 y1 nx.toNat ny.toNat
      (by omega) (by omega)
    rwa [Int.toNat_of_nonneg h1.le, Int.toNat_of_nonneg h2.le] at this

/-- C15 (amended) on the reversed range [2, 0] x [0, 3] with 2 x 2 cells. -/
theorem numericDoubleIntegralRect_never_rejects_witness :
    ∃ r : ℚ,
      numericDoubleIntegralRect (constantExpr "1" 1) (fin 2) (fin 0) (fin 0) (fin 3) 2 2
        = fin r ∧
      ((2 : ℤ) ≤ 0 ∨ (2 : ℤ) ≤ 0 → r = 0) ∧
      ((0 : ℤ) < 2 → (0 : ℤ) < 2 →
        r = midpointSum (constantExpr "1" 1) 2 0 0 3 (2 : ℤ).toNat (2 : ℤ).toNat) :=
  numericDoubleIntegralRect_never_rejects (constantExpr "1" 1) 2 0 0 3 2 2

/-! ## Empty results -/

/-- A segment at whose ends the function, when finite at both, has a positive
product yields no curve point. -/
theorem refineOnSegment_none (evalFun : JSNum → JSNum → JSNum) (x1 y1 x2 y2 : JSNum)
    (h : ∀ a b : ℚ, evalFun x1 y1 = fin a → evalFun x2 y2 = fin b → 0 < a * b) :
    refineOnSegment x1 y1 x2 y2 evalFun = none := by
  unfold refineOnSegment
  simp only
  cases h1 : evalFun x1 y1 with
  | nan => simp
  | fin a =>
    cases h2 : evalFun x2 y2 with
    | nan => simp
    | fin b =>
      have hab := h a b h1 h2
      have ha : a ≠ 0 := by
        rintro rfl
        simp at hab
      have hb : b ≠ 0 := by
        rintro rfl
        simp at hab
      simp [strictEq, ha, hb, hab]

/-- The two scans of a grid without a crossing segment find no curve point. -/
theorem scan_empty (evalG : JSNum → JSNum → JSNum) (xs ys : List JSNum)
    (hcol : ∀ x ∈ xs, ∀ yy ∈ adjacentPairs ys, ∀ a b : ℚ,
      evalG x yy.1 = fin a → evalG x yy.2 = fin b → 0 < a * b)
    (hrow : ∀ y ∈ ys, ∀ xx ∈ adjacentPairs xs, ∀ a b : ℚ,
      evalG xx.1 y = fin a → evalG xx.2 y = fin b → 0 < a * b) :
    scanRows evalG xs ys (scanColumns evalG xs ys []) = [] := by
  rw [scanRows_eq, scanColumns_eq, List.nil_append, List.append_eq_nil]
  refine ⟨?_, ?_⟩
  · rw [List.flatMap_eq_nil_iff]
    intro x hx
    rw [List.filterMap_eq_nil_iff]
    intro yy hyy
    exact refineOnSegment_none evalG _ _ _ _ (hcol x hx yy hyy)
  · rw [List.flatMap_eq_nil_iff]
    intro y hy
    rw [List.filterMap_eq_nil_iff]
    intro xx hxx
    exact refineOnSegment_none evalG _ _ _ _ (hrow y hy xx hxx)

/-- Without a seed that passes the gradient test the locator returns the empty
list. -/
theorem findCriticalPointsLocal_no_seed (expression : Expression)
    (h : ∀ xv yv : JSNum,
      xv ∈ createRange (pickSafeRangeForExpr expression.text).min
        (pickSafeRangeForExpr expression.text).max 21 →
      yv ∈ createRange (pickSafeRangeForExpr expression.text).min
        (pickSafeRangeForExpr expression.text).max 21 →
      hypotFiniteLt (numericPartialsAt expression xv yv defaultH).fx
        (numericPartialsAt expression xv yv defaultH).fy 1e-2 = false) :
    findCriticalPointsLocal expression = [] := by
  have hseeds : seedCandidates expression
      (createRange (pickSafeRangeForExpr expression.text).min
        (pickSafeRangeForExpr expression.text).max 21)
      (createRange (pickSafeRangeForExpr expression.text).min
        (pickSafeRangeForExpr expression.text).max 21) = [] := by
    rw [seedCandidates_eq, List.flatMap_eq_nil_iff]
    intro x hx
    rw [List.map_eq_nil_iff, List.filter_eq_nil_iff]
    intro y hy
    rw [h x y hx hy]
    simp
  unfold findCriticalPointsLocal
  dsimp only
  rw [hseeds]
  rfl

/-- C16: finding nothing is an empty result, not an error: if no seed of the
21 x 21 grid has a finite gradient of norm < 1e-2 (as for f(x,y) = x + y),
findCriticalPointsLocal returns the empty list; and if on every grid segment g,
when finite at both ends, has neither a zero nor a sign change (as for g = 1),
solveLagrangeLocal returns the empty list. -/
theorem empty_results :
    (∀ expression : Expression,
      (∀ xv yv : JSNum,
        xv ∈ createRange (pickSafeRangeForExpr expression.text).min
          (pickSafeRangeForExpr expression.text).max 21 →
        yv ∈ createRange (pickSafeRangeForExpr expression.text).min
          (pickSafeRangeForExpr expression.text).max 21 →
        hypotFiniteLt (numericPartialsAt expression xv yv defaultH).fx
          (numericPartialsAt expression xv yv defaultH).fy 1e-2 = false) →
      findCriticalPointsLocal expression = []) ∧
    (∀ expression : Expression, (∀ x y : JSNum, expression.eval x y = x + y) →
      findCriticalPointsLocal expression = []) ∧
    (∀ fExpr gExpr : Expression,
      (∀ x ∈ createRange (pickSafeRangeForExpr fExpr.text).min
          (pickSafeRangeForExpr fExpr.text).max 60,
        ∀ yy ∈ adjacentPairs (createRange (pickSafeRangeForExpr fExpr.text).min
          (pickSafeRangeForExpr fExpr.text).max 60),
        ∀ a b : ℚ, gExpr.eval x yy.1 = fin a → gExpr.eval x yy.2 = fin b → 0 < a * b) →
      (∀ y ∈ createRange (pickSafeRangeForExpr fExpr.text).min
          (pickSafeRangeForExpr fExpr.text).max 60,
        ∀ xx ∈ adjacentPairs (createRange (pickSafeRangeForExpr fExpr.text).min
          (pickSafeRangeForExpr fExpr.text).max 60),
        ∀ a b : ℚ, gExpr.eval xx.1 y = fin a → gExpr.eval xx.2 y = fin b → 0 < a * b) →
      solveLagrangeLocal fExpr gExpr = []) ∧
    (∀ fExpr gExpr : Expression, (∀ x y : JSNum, gExpr.eval x y = fin 1) →
      solveLagrangeLocal fExpr gExpr = []) := by
  have hsolve : ∀ fExpr gExpr : Expression,
      (∀ x ∈ createRange (pickSafeRangeForExpr fExpr.text).min
          (pickSafeRangeForExpr fExpr.text).max 60,
        ∀ yy ∈ adjacentPairs (createRange (pickSafeRangeForExpr fExpr.text).min
          (pickSafeRangeForExpr fExpr.text).max 60),
        ∀ a b : ℚ, gExpr.eval x yy.1 = fin a → gExpr.eval x yy.2 = fin b → 0 < a * b) →
      (∀ y ∈ createRange (pickSafeRangeForExpr fExpr.text).min
          (pickSafeRangeForExpr fExpr.text).max 60,
        ∀ xx ∈ adjacentPairs (createRange (pickSafeRangeForExpr fExpr.text).min
          (pickSafeRangeForExpr fExpr.text).max 60),
        ∀ a b : ℚ, gExpr.eval xx.1 y = fin a → gExpr.eval xx.2 y = fin b → 0 < a * b) →
      solveLagrangeLocal fExpr gExpr = [] := by
    intro fExpr gExpr hcol hrow
    have ht : traceCurve fExpr gExpr = [] := by
      unfold traceCurve
      dsimp only
      exact scan_empty gExpr.eval _ _ hcol hrow
    unfold solveLagrangeLocal
    rw [ht]
    rfl
  refine ⟨findCriticalPointsLocal_no_seed, ?_, hsolve, ?_⟩
  · intro expression heval
    apply findCriticalPointsLocal_no_seed
    intro xv yv hx hy
    obtain ⟨L, hL⟩ := pickSafeRangeForExpr_fin expression.text
    rw [hL] at hx hy
    obtain ⟨qx, rfl⟩ := createRange_mem_fin (-L) L 21 (by norm_num) xv hx
    obtain ⟨qy, rfl⟩ := createRange_mem_fin (-L) L 21 (by norm_num) yv hy
    simp only [numericPartialsAt, evaluateLocalAtPoint_eq, heval, defaultH_eq, two_eq,
      fin_add_fin, fin_sub_fin, fin_mul_fin]
    rw [fin_div_fin _ _ (by norm_num), fin_div_fin _ _ (by norm_num)]
    simp only [hypotFiniteLt, hypotSq, tol2_eq, fin_mul_fin, fin_add_fin, isFinite_fin, lt_fin,
      Bool.true_and, decide_eq_false_iff_not, not_lt]
    have e1 : (qx + 1 / 10000 + qy - (qx - 1 / 10000 + qy)) / (2 * (1 / 10000)) = 1 := by
      ring
    have e2 : (qx + (qy + 1 / 10000) - (qx + (qy - 1 / 10000))) / (2 * (1 / 10000)) = 1 := by
      ring
    rw [e1, e2]
    norm_num
  · intro fExpr gExpr hconst
    apply hsolve
    · intro x _ yy _ a b ha hb
      rw [hconst] at ha hb
      have ha' : (1 : ℚ) = a := by simpa using ha
      have hb' : (1 : ℚ) = b := by simpa using hb
      rw [← ha', ← hb']
      norm_num
    · intro y _ xx _ a b ha hb
      rw [hconst] at ha hb
      have ha' : (1 : ℚ) = a := by simpa using ha
      have hb' : (1 : ℚ) = b := by simpa using hb
      rw [← ha', ← hb']
      norm_num

/-- C16 for the objective x + y, which has no critical point, and the constraint 1,
which has no zero. -/
theorem empty_results_witness :
    findCriticalPointsLocal planeObjective = [] ∧
    solveLagrangeLocal planeObjective (constantExpr "1" 1) = [] :=
  ⟨empty_results.2.1 planeObjective (fun _ _ => rfl),
   empty_results.2.2.2 planeObjective (constantExpr "1" 1) (fun _ _ => rfl)⟩

/-! ## Domain mask sampler -/

theorem createRange_length (min max : JSNum) (steps : ℕ) :
    (createRange min max steps).length = steps := by
  simp [createRange]

theorem ten_eq : (10 : JSNum) = fin 10 := by
  rw [ofNat_eq]; norm_num

/-- The grids of the domain plot are those of the fixed range from -10 to 10. -/
theorem plotDomain2D_grids (expression : Expression) :
    (plotDomain2D expression).xVals = createRange (fin (-10)) (fin 10) 121 ∧
    (plotDomain2D expression).yVals = createRange (fin (-10)) (fin 10) 121 := by
  simp only [plotDomain2D, ten_eq, neg_fin, and_self]

/-- C18: the domain mask built in plotDomain2D has one row per x value and one cell
per y value in each row (121 x 121), and the cell [i][j] is 1 exactly when the
evaluation of f at (xVals[i], yVals[j]) is finite, and null when it is not finite or
fails; the cell is a function of that one sample only. -/
theorem plotDomain2D_mask (expression : Expression) :
    (plotDomain2D expression).xVals.length = 121 ∧
    (plotDomain2D expression).yVals.length = 121 ∧
    (plotDomain2D expression).mask.length = 121 ∧
    (∀ row ∈ (plotDomain2D expression).mask, row.length = 121) ∧
    (∀ (i j : ℕ) (x y : JSNum), (plotDomain2D expression).xVals[i]? = some x →
      (plotDomain2D expression).yVals[j]? = some y →
      ((plotDomain2D expression).mask[i]?.bind (fun row => row[j]?) =
          some (if (expression.eval x y).isFinite = true then some 1 else none)) ∧
      ((plotDomain2D expression).mask[i]?.bind (fun row => row[j]?) = some (some 1) ↔
        (expression.eval x y).isFinite = true) ∧
      ((plotDomain2D expression).mask[i]?.bind (fun row => row[j]?) = some none ↔
        (expression.eval x y).isFinite = false)) := by
  have hcell : ∀ (i j : ℕ) (x y : JSNum), (plotDomain2D expression).xVals[i]? = some x →
      (plotDomain2D expression).yVals[j]? = some y →
      (plotDomain2D expression).mask[i]?.bind (fun row => row[j]?) =
        some (if (expression.eval x y).isFinite = true then some 1 else none) := by
    intro i j x y hx hy
    simp only [plotDomain2D] at hx hy ⊢
    rw [List.getElem?_map, hx]
    simp only [Option.map_some', Option.some_bind]
    rw [List.getElem?_map, hy]
    rfl
  refine ⟨?_, ?_, ?_, ?_, ?_⟩
  · simp only [plotDomain2D, createRange_length]
  · simp only [plotDomain2D, createRange_length]
  · simp only [plotDomain2D, List.length_map, createRange_length]
  · intro row hrow
    simp only [plotDomain2D] at hrow
    obtain ⟨x, -, rfl⟩ := List.mem_map.1 hrow
    simp only [List.length_map, createRange_length]
  · intro i j x y hx hy
    have h := hcell i j x y hx hy
    refine ⟨h, ?_, ?_⟩
    · rw [h]
      cases (expression.eval x y).isFinite <;> simp
    · rw [h]
      cases (expression.eval x y).isFinite <;> simp

/-- C18 on the half plane y < 1: the cell of the first grid values x = y = -10 is 1. -/
theorem plotDomain2D_mask_witness :
    (plotDomain2D halfPlane).mask[0]?.bind (fun row => row[0]?) =
      some (if (halfPlane.eval (fin (-10)) (fin (-10))).isFinite = true then some 1 else none) :=
  ((plotDomain2D_mask halfPlane).2.2.2.2 0 0 (fin (-10)) (fin (-10)) (by decide!)
    (by decide!)).1

/-- C22 (the claim fails): for the expression x^2 + y^2 the range selector gives
[-5, 5], while the x grid of the domain plot starts at -10 and ends at 10. -/
theorem plotDomain2D_ignores_safe_range :
    pickSafeRangeForExpr paraboloid.text = { min := fin (-5), max := fin 5 } ∧
    (plotDomain2D paraboloid).xVals[0]? = some (fin (-10)) ∧
    (plotDomain2D paraboloid).xVals[120]? = some (fin 10) ∧
    (plotDomain2D paraboloid).xVals.length = 121 := by
  decide!

/-- C22 (amended): the domain mask sampler does not consult the range selector:
for every expression the x and y sample grids of plotDomain2D are the 121 evenly
spaced values of the fixed range [-10, 10], from -10 to 10. -/
theorem plotDomain2D_fixed_range (expression : Expression) :
    (plotDomain2D expression).xVals = createRange (fin (-10)) (fin 10) 121 ∧
    (plotDomain2D expression).yVals = createRange (fin (-10)) (fin 10) 121 ∧
    (createRange (fin (-10)) (fin 10) 121).length = 121 ∧
    (createRange (fin (-10)) (fin 10) 121)[0]? = some (fin (-10)) ∧
    (createRange (fin (-10)) (fin 10) 121)[120]? = some (fin 10) := by
  refine ⟨(plotDomain2D_grids expression).1, (plotDomain2D_grids expression).2, ?_, ?_, ?_⟩
  · decide!
  · decide!
  · decide!

/-! ## Labelling of the constrained candidates -/

theorem foldl_max_spec (l : List ℚ) (a : ℚ) :
    a ≤ l.foldl max a ∧ (∀ q ∈ l, q ≤ l.foldl max a) ∧
      (l.foldl max a = a ∨ l.foldl max a ∈ l) := by
  induction l generalizing a with
  | nil => simp
  | cons b l ih =>
    obtain ⟨h1, h2, h3⟩ := ih (max a b)
    rw [List.foldl_cons]
    refine ⟨le_trans (le_max_left a b) h1, ?_, ?_⟩
    · intro q hq
      rcases List.mem_cons.1 hq with rfl | hq
      · exact le_trans (le_max_right a q) h1
      · exact h2 q hq
    · rcases h3 with h3 | h3
      · rcases max_choice a b with h | h
        · exact Or.inl (by rw [h3, h])
        · exact Or.inr (by rw [h3, h]; exact List.mem_cons_self _ _)
      · exact Or.inr (List.mem_cons_of_mem _ h3)

theorem foldl_min_spec (l : List ℚ) (a : ℚ) :
    l.foldl min a ≤ a ∧ (∀ q ∈ l, l.foldl min a ≤ q) ∧
      (l.foldl min a = a ∨ l.foldl min a ∈ l) := by
  induction l generalizing a with
  | nil => simp
  | cons b l ih =>
    obtain ⟨h1, h2, h3⟩ := ih (min a b)
    rw [List.foldl_cons]
    refine ⟨le_trans h1 (min_le_left a b), ?_, ?_⟩
    · intro q hq
      rcases List.mem_cons.1 hq with rfl | hq
      · exact le_trans h1 (min_le_right a q)
      · exact h2 q hq
    · rcases h3 with h3 | h3
      · rcases min_choice a b with h | h
        · exact Or.inl (by rw [h3, h])
        · exact Or.inr (by rw [h3, h]; exact List.mem_cons_self _ _)
      · exact Or.inr (List.mem_cons_of_mem _ h3)

theorem foldl_jsMax_fin (l : List ℚ) (a : ℚ) :
    (l.map fin).foldl jsMax (fin a) = fin (l.foldl max a) := by
  induction l generalizing a with
  | nil => rfl
  | cons b l ih => rw [List.map_cons, List.foldl_cons, List.foldl_cons, ← ih]; rfl

theorem foldl_jsMin_fin (l : List ℚ) (a : ℚ) :
    (l.map fin).foldl jsMin (fin a) = fin (l.foldl min a) := by
  induction l generalizing a with
  | nil => rfl
  | cons b l ih => rw [List.map_cons, List.foldl_cons, List.foldl_cons, ← ih]; rfl

theorem filter_isFinite_fin (l : List ℚ) : (l.map fin).filter JSNum.isFinite = l.map fin := by
  induction l with
  | nil => rfl
  | cons b l ih => rw [List.map_cons, List.filter_cons_of_pos (by rfl), ih]

/-- The extreme values that the labelling computes for a non-empty list of finite
values are the largest and the smallest value of the list, and the label of a
value is decided by its distance to them, the maximum first. -/
theorem classifyLagrange_spec (tol : ℚ) (qs : List ℚ) (hne : qs ≠ []) :
    ∃ M m : ℚ, M ∈ qs ∧ (∀ q ∈ qs, q ≤ M) ∧ m ∈ qs ∧ (∀ q ∈ qs, m ≤ q) ∧
      ∀ q : ℚ, classifyLagrange (fin tol) (qs.map fin) (fin q) =
        if |q - M| < tol then { label := "Máximo", color := "#28a745" }
        else if |q - m| < tol then { label := "Mínimo", color := "#007bff" }
        else { label := "Candidato", color := "#ffc107" } := by
  obtain ⟨a, l, rfl⟩ := List.exists_cons_of_ne_nil hne
  obtain ⟨h1, h2, h3⟩ := foldl_max_spec l a
  obtain ⟨k1, k2, k3⟩ := foldl_min_spec l a
  refine ⟨l.foldl max a, l.foldl min a, ?_, ?_, ?_, ?_, ?_⟩
  · rcases h3 with h | h
    · rw [h]; exact List.mem_cons_self _ _
    · exact List.mem_cons_of_mem _ h
  · intro q hq
    rcases List.mem_cons.1 hq with rfl | hq
    · exact h1
    · exact h2 q hq
  · rcases k3 with h | h
    · rw [h]; exact List.mem_cons_self _ _
    · exact List.mem_cons_of_mem _ h
  · intro q hq
    rcases List.mem_cons.1 hq with rfl | hq
    · exact k1
    · exact k2 q hq
  · intro q
    unfold classifyLagrange
    rw [filter_isFinite_fin]
    simp only [List.map_cons, maxOrNull, minOrNull, foldl_jsMax_fin, foldl_jsMin_fin,
      nearExtreme, isFinite_fin, Bool.not_true, fin_sub_fin, abs_fin, lt_fin,
      decide_eq_true_eq]
    simp

/-- C19: constrained-candidate labelling is relative to the discovered set: for a
non-empty candidate list with finite f values, with M the largest and m the
smallest f of the list, a candidate is labelled Máximo iff its f is within the tie
tolerance (1e-8 in the local path, 1e-10 in the backend path) of M, labelled
Mínimo iff it is not labelled Máximo and its f is within the tolerance of m, and
Candidato otherwise; at least one candidate is labelled Máximo. -/
theorem lagrange_labelling (tol : ℚ) (htol : 0 < tol) (qs : List ℚ) (hne : qs ≠ []) :
    ∃ M m : ℚ, M ∈ qs ∧ (∀ q ∈ qs, q ≤ M) ∧ m ∈ qs ∧ (∀ q ∈ qs, m ≤ q) ∧
      (∀ q ∈ qs,
        ((classifyLagrange (fin tol) (qs.map fin) (fin q)).label = "Máximo" ↔
          |q - M| < tol) ∧
        ((classifyLagrange (fin tol) (qs.map fin) (fin q)).label = "Mínimo" ↔
          ¬ |q - M| < tol ∧ |q - m| < tol) ∧
        ((classifyLagrange (fin tol) (qs.map fin) (fin q)).label = "Candidato" ↔
          ¬ |q - M| < tol ∧ ¬ |q - m| < tol)) ∧
      (∃ q ∈ qs, (classifyLagrange (fin tol) (qs.map fin) (fin q)).label = "Máximo") ∧
      (∀ (cands : List Candidate) (p : Candidate),
        classifyLocal cands p = classifyLagrange 1e-8 (cands.map (fun c => c.f)) p.f) ∧
      (∀ (fs : List JSNum) (f : JSNum),
        classifyBackend fs f = classifyLagrange 1e-10 fs f) := by
  obtain ⟨M, m, hM, hMmax, hm, hmmin, hcl⟩ := classifyLagrange_spec tol qs hne
  refine ⟨M, m, hM, hMmax, hm, hmmin, ?_, ?_, fun _ _ => rfl, fun _ _ => rfl⟩
  · intro q _
    rw [hcl q]
    by_cases h1 : |q - M| < tol
    · simp [h1]
    · by_cases h2 : |q - m| < tol
      · simp [h1, h2]
      · simp [h1, h2]
  · refine ⟨M, hM, ?_⟩
    rw [hcl M]
    simp [htol]

/-- C19 on the f values 1, 3, 2 with the tolerance of the local path: the value 3
is labelled Máximo. -/
theorem lagrange_labelling_witness :
    ∃ q ∈ [(1 : ℚ), 3, 2],
      (classifyLagrange (fin 1e-8) ([(1 : ℚ), 3, 2].map fin) (fin q)).label = "Máximo" := by
  obtain ⟨M, m, -, -, -, -, -, h, -⟩ :=
    lagrange_labelling 1e-8 (by norm_num) [1, 3, 2] (by simp)
  exact h

/-- C29: in the local Lagrange labelling, when every candidate's f value is within
1e-8 of the largest one (in particular when there is exactly one candidate), every
candidate is labelled Máximo and none is labelled Mínimo: the maximum test is
applied before the minimum test. -/
theorem local_labelling_all_maximum (cands : List Candidate) (qs : List ℚ) (M : ℚ)
    (hf : cands.map (fun c => c.f) = qs.map fin) (hM : M ∈ qs) (hmax : ∀ q ∈ qs, q ≤ M)
    (hnear : ∀ q ∈ qs, |q - M| < 1e-8) :
    ∀ p ∈ cands, (classifyLocal cands p).label = "Máximo" ∧
      (classifyLocal cands p).label ≠ "Mínimo" := by
  have hne : qs ≠ [] := List.ne_nil_of_mem hM
  obtain ⟨M', m, hM', hMmax', -, -, hcl⟩ := classifyLagrange_spec 1e-8 qs hne
  have hMM : M' = M := le_antisymm (hmax M' hM') (hMmax' M hM)
  have e8 : (1e-8 : JSNum) = fin 1e-8 := by rw [ofScientific_eq]
  intro p hp
  have hpf : p.f ∈ qs.map fin := by
    rw [← hf]
    exact List.mem_map.2 ⟨p, hp, rfl⟩
  obtain ⟨q, hq, hqf⟩ := List.mem_map.1 hpf
  have hlabel : (classifyLocal cands p).label = "Máximo" := by
    unfold classifyLocal
    rw [hf, ← hqf, e8, hcl q, hMM, if_pos (hnear q hq)]
  exact ⟨hlabel, by rw [hlabel]; decide⟩

/-- C29 for a single candidate. -/
theorem local_labelling_all_maximum_witness :
    (classifyLocal [candidateOf 2 2 4] (candidateOf 2 2 4)).label = "Máximo" ∧
      (classifyLocal [candidateOf 2 2 4] (candidateOf 2 2 4)).label ≠ "Mínimo" :=
  local_labelling_all_maximum [candidateOf 2 2 4] [4] 4 rfl (by simp) (by simp) (by
    intro q hq
    rw [List.mem_singleton.1 hq]
    norm_num) (candidateOf 2 2 4) (List.mem_singleton.2 rfl)

/-! ## Bisection: iterations, tolerance and entry test -/

/-- The recorded run returns the point of the loop, starts at most as many
iterations as allowed, ends before the last allowed iteration only on the tolerance
test or on a midpoint where the function is not finite, and a run ended by the
tolerance test returns a point where the function is below the tolerance. -/
theorem bisectRun_spec (evalFun : JSNum → JSNum → JSNum) (tol : JSNum) (n : ℕ) :
    ∀ (ax ay bx by' fa fb : JSNum),
      (bisectRun evalFun tol n ax ay bx by' fa fb).point =
        bisectLoop evalFun tol n ax ay bx by' fa fb ∧
      (bisectRun evalFun tol n ax ay bx by' fa fb).iterations ≤ n ∧
      ((bisectRun evalFun tol n ax ay bx by' fa fb).iterations < n →
        (bisectRun evalFun tol n ax ay bx by' fa fb).stop ≠ BisectStop.exhausted) ∧
      ((bisectRun evalFun tol n ax ay bx by' fa fb).stop = BisectStop.tolerance →
        (JSNum.abs (evalFun (bisectRun evalFun tol n ax ay bx by' fa fb).point.x
          (bisectRun evalFun tol n ax ay bx by' fa fb).point.y)).lt tol = true) := by
  induction n with
  | zero =>
    intro ax ay bx by' fa fb
    simp [bisectRun, bisectLoop]
  | succ n ih =>
    intro ax ay bx by' fa fb
    simp only [bisectRun, bisectLoop]
    split
    · exact ⟨rfl, Nat.succ_le_succ (Nat.zero_le n), fun _ => by simp, fun h => by simp at h⟩
    · split
      · rename_i h1 h2
        exact ⟨rfl, Nat.succ_le_succ (Nat.zero_le n), fun _ => by simp, fun _ => h2⟩
      · split
        · obtain ⟨h1, h2, h3, h4⟩ := ih ax ay (0.5 * (ax + bx)) (0.5 * (ay + by')) fa
            (evalFun (0.5 * (ax + bx)) (0.5 * (ay + by')))
          exact ⟨h1, Nat.succ_le_succ h2, fun h => h3 (Nat.lt_of_succ_lt_succ h), h4⟩
        · obtain ⟨h1, h2, h3, h4⟩ := ih (0.5 * (ax + bx)) (0.5 * (ay + by')) bx by'
            (evalFun (0.5 * (ax + bx)) (0.5 * (ay + by'))) fb
          exact ⟨h1, Nat.succ_le_succ h2, fun h => h3 (Nat.lt_of_succ_lt_succ h), h4⟩

/-- C20 (the claim fails): on the segment from (0, -1) to (0, 1) with
g(x, y) = y + 1e-7 the bisection of refineOnSegment stops at its first midpoint
(0, 0) on the tolerance test, and there |g| = 1e-7 is not below 1e-10. -/
theorem refineOnSegment_stops_above_1e10 :
    refineOnSegment (fin 0) (fin (-1)) (fin 0) (fin 1) (fun _ y => y + 1e-7) =
      some { x := fin 0, y := fin 0 } ∧
    bisectRun (fun _ y => y + 1e-7) 1e-6 22 (fin 0) (fin (-1)) (fin 0) (fin 1)
        (fin (-1) + 1e-7) (fin 1 + 1e-7) =
      { point := { x := fin 0, y := fin 0 }, stop := BisectStop.tolerance, iterations := 1 } ∧
    (JSNum.abs ((fun (_ : JSNum) (y : JSNum) => y + 1e-7) (fin 0) (fin 0))).lt 1e-10 = false := by
  decide!

/-- C20 (amended): in the curve-tracing stage of solveLagrangeLocal, the bisection
on a grid segment starts at most 22 iterations; it ends before the 22nd only when
the midpoint m satisfies |g(m)| < 1e-6 or when g(m) is not finite; and whenever it
ends on the tolerance test, the curve point it yields has |g| < 1e-6. -/
theorem refineOnSegment_bisection (x1 y1 x2 y2 : JSNum) (evalFun : JSNum → JSNum → JSNum) :
    (refineOnSegment x1 y1 x2 y2 evalFun = none ∨
      refineOnSegment x1 y1 x2 y2 evalFun = some { x := x1, y := y1 } ∨
      refineOnSegment x1 y1 x2 y2 evalFun = some { x := x2, y := y2 } ∨
      refineOnSegment x1 y1 x2 y2 evalFun =
        some (bisectRun evalFun 1e-6 22 x1 y1 x2 y2 (evalFun x1 y1) (evalFun x2 y2)).point) ∧
    (bisectRun evalFun 1e-6 22 x1 y1 x2 y2 (evalFun x1 y1) (evalFun x2 y2)).iterations ≤ 22 ∧
    ((bisectRun evalFun 1e-6 22 x1 y1 x2 y2 (evalFun x1 y1) (evalFun x2 y2)).iterations < 22 →
      (bisectRun evalFun 1e-6 22 x1 y1 x2 y2 (evalFun x1 y1) (evalFun x2 y2)).stop
          = BisectStop.tolerance ∨
        (bisectRun evalFun 1e-6 22 x1 y1 x2 y2 (evalFun x1 y1) (evalFun x2 y2)).stop
          = BisectStop.nonFinite) ∧
    ((bisectRun evalFun 1e-6 22 x1 y1 x2 y2 (evalFun x1 y1) (evalFun x2 y2)).stop
        = BisectStop.tolerance →
      (JSNum.abs (evalFun
        (bisectRun evalFun 1e-6 22 x1 y1 x2 y2 (evalFun x1 y1) (evalFun x2 y2)).point.x
        (bisectRun evalFun 1e-6 22 x1 y1 x2 y2 (evalFun x1 y1) (evalFun x2 y2)).point.y)).lt
        1e-6 = true) := by
  obtain ⟨h1, h2, h3, h4⟩ := bisectRun_spec evalFun 1e-6 22 x1 y1 x2 y2 (evalFun x1 y1)
    (evalFun x2 y2)
  refine ⟨?_, h2, ?_, h4⟩
  · rw [h1]
    unfold refineOnSegment
    simp only
    split
    · exact Or.inl rfl
    · split
      · exact Or.inr (Or.inl rfl)
      · split
        · exact Or.inr (Or.inr (Or.inl rfl))
        · split
          · exact Or.inl rfl
          · exact Or.inr (Or.inr (Or.inr rfl))
  · intro h
    have := h3 h
    cases hs : (bisectRun evalFun 1e-6 22 x1 y1 x2 y2 (evalFun x1 y1) (evalFun x2 y2)).stop with
    | tolerance => exact Or.inl rfl
    | nonFinite => exact Or.inr rfl
    | exhausted => exact absurd hs this

/-- C20 (amended) on the segment from (0, -1) to (0, 1) with g(x, y) = y + 1e-7:
the run ends on the tolerance test, so |g| < 1e-6 at the point returned. -/
theorem refineOnSegment_bisection_witness :
    (JSNum.abs ((fun (_ : JSNum) (y : JSNum) => y + 1e-7)
      (bisectRun (fun _ y => y + 1e-7) 1e-6 22 (fin 0) (fin (-1)) (fin 0) (fin 1)
        ((fun (_ : JSNum) (y : JSNum) => y + 1e-7) (fin 0) (fin (-1)))
        ((fun (_ : JSNum) (y : JSNum) => y + 1e-7) (fin 0) (fin 1))).point.x
      (bisectRun (fun _ y => y + 1e-7) 1e-6 22 (fin 0) (fin (-1)) (fin 0) (fin 1)
        ((fun (_ : JSNum) (y : JSNum) => y + 1e-7) (fin 0) (fin (-1)))
        ((fun (_ : JSNum) (y : JSNum) => y + 1e-7) (fin 0) (fin 1))).point.y)).lt 1e-6 = true :=
  (refineOnSegment_bisection (fin 0) (fin (-1)) (fin 0) (fin 1) (fun _ y => y + 1e-7)).2.2.2
    (by decide!)

/-- C21 (the claim fails): on the segment from (0, 5e-7) to (0, 1) with g(x, y) = y,
g is within 1e-6 of zero at the first sample and has the same sign at both, and no
curve point is produced. -/
theorem refineOnSegment_ignores_near_zero :
    (fun (_ : JSNum) (y : JSNum) => y) (fin 0) (fin 5e-7) = fin 5e-7 ∧
    (JSNum.abs (fin 5e-7)).lt 1e-6 = true ∧
    refineOnSegment (fin 0) (fin 5e-7) (fin 0) (fin 1) (fun _ y => y) = none := by
  decide!

/-- C21 (amended): an adjacent sample pair at which g is finite yields a curve
point exactly when g is exactly zero at one of the two samples or g changes sign
between them; two values of the same sign yield none, however close to zero; and a
sample where g is not finite yields none. -/
theorem refineOnSegment_entry (x1 y1 x2 y2 : JSNum) (evalFun : JSNum → JSNum → JSNum) :
    (∀ a b : ℚ, evalFun x1 y1 = fin a → evalFun x2 y2 = fin b →
      ((refineOnSegment x1 y1 x2 y2 evalFun).isSome = true ↔ a = 0 ∨ b = 0 ∨ a * b < 0)) ∧
    (evalFun x1 y1 = nan ∨ evalFun x2 y2 = nan → refineOnSegment x1 y1 x2 y2 evalFun = none) := by
  refine ⟨?_, ?_⟩
  · intro a b ha hb
    unfold refineOnSegment
    simp only [ha, hb, isFinite_fin, Bool.not_true, Bool.or_self, Bool.false_eq_true, if_false,
      zero_eq, strictEq, fin_mul_fin, gt_fin, decide_eq_true_eq]
    by_cases h1 : a = 0
    · simp [h1]
    · by_cases h2 : b = 0
      · simp [h1, h2]
      · by_cases h3 : 0 < a * b
        · simp [h1, h2, h3, not_lt.2 h3.le]
        · have h4 : a * b < 0 := lt_of_le_of_ne (not_lt.1 h3) (mul_ne_zero h1 h2)
          simp [h1, h2, h3, h4]
  · intro h
    unfold refineOnSegment
    rcases h with h | h
    · simp [h]
    · cases h1 : evalFun x1 y1 <;> simp [h]

/-- C21 (amended) on the segment from (0, -1) to (0, 1) with g(x, y) = y: the sign
changes, so a curve point is produced. -/
theorem refineOnSegment_entry_witness :
    (refineOnSegment (fin 0) (fin (-1)) (fin 0) (fin 1) (fun _ y => y)).isSome = true :=
  ((refineOnSegment_entry (fin 0) (fin (-1)) (fin 0) (fin 1) (fun _ y => y)).1 (-1) 1 rfl
    rfl).2 (Or.inr (Or.inr (by norm_num)))

/-! ## Bisection: the bracket invariant -/

/-- A completed iteration hands the loop over to the next bracket. -/
theorem bisectLoop_step (evalFun : JSNum → JSNum → JSNum) (tol : JSNum) (n : ℕ)
    (s s' : BisectBracket) (h : bisectStep evalFun tol s = some s') :
    bisectLoop evalFun tol (n + 1) s.ax s.ay s.bx s.by' s.fa s.fb =
      bisectLoop evalFun tol n s'.ax s'.ay s'.bx s'.by' s'.fa s'.fb := by
  unfold bisectStep at h
  simp only at h
  simp only [bisectLoop]
  split at h
  · exact absurd h (by simp)
  · rename_i h1
    split at h
    · exact absurd h (by simp)
    · rename_i h2
      rw [if_neg h1, if_neg h2]
      split at h
      · rename_i h3
        rw [if_pos h3, ← Option.some.inj h]
      · rename_i h3
        rw [if_neg h3, ← Option.some.inj h]

/-- One completed iteration keeps a bracket on the segment, halves its parameter
length and keeps the product of the end values non-positive. -/
theorem bisectStep_invariant (evalFun : JSNum → JSNum → JSNum) (tol : JSNum)
    (x1 y1 x2 y2 s t fa fb : ℚ) (B : BisectBracket) (hst : s ≤ t)
    (hfa : evalFun (fin (x1 + s * (x2 - x1))) (fin (y1 + s * (y2 - y1))) = fin fa)
    (hfb : evalFun (fin (x1 + t * (x2 - x1))) (fin (y1 + t * (y2 - y1))) = fin fb)
    (hsign : fa * fb ≤ 0)
    (h : bisectStep evalFun tol
      { ax := fin (x1 + s * (x2 - x1)), ay := fin (y1 + s * (y2 - y1)),
        bx := fin (x1 + t * (x2 - x1)), by' := fin (y1 + t * (y2 - y1)),
        fa := fin fa, fb := fin fb } = some B) :
    ∃ s' t' fa' fb' : ℚ, s ≤ s' ∧ s' ≤ t' ∧ t' ≤ t ∧ t' - s' = (t - s) / 2 ∧
      B = { ax := fin (x1 + s' * (x2 - x1)), ay := fin (y1 + s' * (y2 - y1)),
            bx := fin (x1 + t' * (x2 - x1)), by' := fin (y1 + t' * (y2 - y1)),
            fa := fin fa', fb := fin fb' } ∧
      evalFun (fin (x1 + s' * (x2 - x1))) (fin (y1 + s' * (y2 - y1))) = fin fa' ∧
      evalFun (fin (x1 + t' * (x2 - x1))) (fin (y1 + t' * (y2 - y1))) = fin fb' ∧
      fa' * fb' ≤ 0 := by
  unfold bisectStep at h
  simp only [midpoint_on_segment] at h
  split at h
  · exact absurd h (by simp)
  · rename_i h1
    simp only [Bool.not_eq_true', Bool.not_eq_false] at h1
    obtain ⟨fm, hfm⟩ := (isFinite_iff _).1 h1
    split at h
    · exact absurd h (by simp)
    · split at h
      · rename_i h3
        rw [hfm] at h3
        simp only [fin_mul_fin, zero_eq, le_fin, decide_eq_true_eq] at h3
        refine ⟨s, (s + t) / 2, fa, fm, le_refl s, by linarith, by linarith, by ring, ?_, hfa,
          hfm, h3⟩
        rw [← Option.some.inj h, hfm]
      · rename_i h3
        rw [hfm] at h3
        simp only [fin_mul_fin, zero_eq, le_fin, decide_eq_true_eq, not_le] at h3
        refine ⟨(s + t) / 2, t, fm, fb, by linarith, by linarith, le_refl t, by ring, ?_, hfm,
          hfb, ?_⟩
        · rw [← Option.some.inj h, hfm]
        · by_contra hpos
          have hpos' : 0 < fm * fb := not_le.1 hpos
          have h5 : 0 < (fa * fm) * (fm * fb) := mul_pos h3 hpos'
          have h6 : (fa * fm) * (fm * fb) = (fa * fb) * (fm * fm) := by ring
          rw [h6] at h5
          nlinarith [mul_self_nonneg fm]

/-- The bracket after `k` completed iterations, started on the two ends of a
segment with a non-positive product of the end values. -/
theorem bracketAfter_invariant (evalFun : JSNum → JSNum → JSNum) (tol : JSNum)
    (x1 y1 x2 y2 fa0 fb0 : ℚ)
    (hfa : evalFun (fin x1) (fin y1) = fin fa0) (hfb : evalFun (fin x2) (fin y2) = fin fb0)
    (hsign : fa0 * fb0 ≤ 0) (k : ℕ) :
    ∀ B : BisectBracket,
      bracketAfter evalFun tol k
        { ax := fin x1, ay := fin y1, bx := fin x2, by' := fin y2,
          fa := fin fa0, fb := fin fb0 } = some B →
      (∃ s t fa fb : ℚ, 0 ≤ s ∧ s ≤ t ∧ t ≤ 1 ∧ t - s = (1 / 2) ^ k ∧
        B = { ax := fin (x1 + s * (x2 - x1)), ay := fin (y1 + s * (y2 - y1)),
              bx := fin (x1 + t * (x2 - x1)), by' := fin (y1 + t * (y2 - y1)),
              fa := fin fa, fb := fin fb } ∧
        evalFun B.ax B.ay = fin fa ∧ evalFun B.bx B.by' = fin fb ∧ fa * fb ≤ 0) ∧
      ∀ n : ℕ, bisectLoop evalFun tol (k + n) (fin x1) (fin y1) (fin x2) (fin y2)
          (fin fa0) (fin fb0) =
        bisectLoop evalFun tol n B.ax B.ay B.bx B.by' B.fa B.fb := by
  induction k with
  | zero =>
    intro B hB
    simp only [bracketAfter, Option.some.injEq] at hB
    subst hB
    refine ⟨⟨0, 1, fa0, fb0, le_refl 0, by norm_num, le_refl 1, by norm_num, ?_, ?_, ?_,
      hsign⟩, ?_⟩
    · simp only [zero_mul, add_zero, one_mul, add_sub_cancel]
    · exact hfa
    · exact hfb
    · intro n
      rw [Nat.zero_add]
  | succ k ih =>
    intro B hB
    simp only [bracketAfter] at hB
    cases hk : bracketAfter evalFun tol k
        { ax := fin x1, ay := fin y1, bx := fin x2, by' := fin y2,
          fa := fin fa0, fb := fin fb0 } with
    | none => rw [hk] at hB; exact absurd hB (by simp)
    | some Bk =>
      rw [hk, Option.some_bind] at hB
      obtain ⟨⟨s, t, fa, fb, h0, hst, h1, hlen, hBk, hea, heb, hsg⟩, hloop⟩ := ih Bk hk
      subst hBk
      obtain ⟨s', t', fa', fb', g1, g2, g3, g4, g5, g6, g7, g8⟩ :=
        bisectStep_invariant evalFun tol x1 y1 x2 y2 s t fa fb B hst hea heb hsg hB
      refine ⟨⟨s', t', fa', fb', le_trans h0 g1, g2, le_trans g3 h1, ?_, g5, ?_, ?_, g8⟩, ?_⟩
      · rw [g4, hlen, pow_succ]
        ring
      · rw [g5]; exact g6
      · rw [g5]; exact g7
      · intro n
        have e : k + 1 + n = k + (n + 1) := by omega
        rw [e, hloop (n + 1)]
        exact bisectLoop_step evalFun tol n _ B hB

/-- C30: bracket invariant of the bisection helpers refineOnSegment and
refineCOnSegment: started on a segment with finite end values of non-positive
product (the only case in which either helper enters its loop), after every
completed iteration k the current pair (a, b) is a sub-segment of the input segment
whose length is the input length halved k times, the stored values are the values
of the traced function at a and b and satisfy F(a)*F(b) <= 0, and the rest of the
loop runs from that bracket; consequently any point the helpers return lies on the
closed segment joining the two input points, and for a column scan its x equals the
grid x exactly and its y lies between y1 and y2. -/
theorem bisection_bracket_invariant (evalFun : JSNum → JSNum → JSNum) (tol : JSNum)
    (x1 y1 x2 y2 : ℚ) :
    (∀ fa0 fb0 : ℚ, evalFun (fin x1) (fin y1) = fin fa0 → evalFun (fin x2) (fin y2) = fin fb0 →
      fa0 * fb0 ≤ 0 → ∀ (k : ℕ) (B : BisectBracket),
      bracketAfter evalFun tol k
        { ax := fin x1, ay := fin y1, bx := fin x2, by' := fin y2,
          fa := fin fa0, fb := fin fb0 } = some B →
      (∃ s t fa fb : ℚ, 0 ≤ s ∧ s ≤ t ∧ t ≤ 1 ∧ t - s = (1 / 2) ^ k ∧
        B = { ax := fin (x1 + s * (x2 - x1)), ay := fin (y1 + s * (y2 - y1)),
              bx := fin (x1 + t * (x2 - x1)), by' := fin (y1 + t * (y2 - y1)),
              fa := fin fa, fb := fin fb } ∧
        evalFun B.ax B.ay = fin fa ∧ evalFun B.bx B.by' = fin fb ∧ fa * fb ≤ 0) ∧
      ∀ n : ℕ, bisectLoop evalFun tol (k + n) (fin x1) (fin y1) (fin x2) (fin y2)
          (fin fa0) (fin fb0) =
        bisectLoop evalFun tol n B.ax B.ay B.bx B.by' B.fa B.fb) ∧
    (∀ fa0 fb0 : ℚ, evalFun (fin x1) (fin y1) = fin fa0 → evalFun (fin x2) (fin y2) = fin fb0 →
      (refineOnSegment (fin x1) (fin y1) (fin x2) (fin y2) evalFun = none ∨
        refineOnSegment (fin x1) (fin y1) (fin x2) (fin y2) evalFun
          = some { x := fin x1, y := fin y1 } ∨
        refineOnSegment (fin x1) (fin y1) (fin x2) (fin y2) evalFun
          = some { x := fin x2, y := fin y2 } ∨
        (fa0 * fb0 ≤ 0 ∧
          refineOnSegment (fin x1) (fin y1) (fin x2) (fin y2) evalFun =
            some (bisectLoop evalFun 1e-6 22 (fin x1) (fin y1) (fin x2) (fin y2)
              (fin fa0) (fin fb0)))) ∧
      (refineCOnSegment evalFun { x := fin x1, y := fin y1 } { x := fin x2, y := fin y2 } = none ∨
        refineCOnSegment evalFun { x := fin x1, y := fin y1 } { x := fin x2, y := fin y2 }
          = some { x := fin x1, y := fin y1 } ∨
        (fa0 * fb0 ≤ 0 ∧
          refineCOnSegment evalFun { x := fin x1, y := fin y1 } { x := fin x2, y := fin y2 } =
            some (bisectLoop evalFun 1e-8 24 (fin x1) (fin y1) (fin x2) (fin y2)
              (fin fa0) (fin fb0))))) ∧
    (∀ p : Point, refineOnSegment (fin x1) (fin y1) (fin x2) (fin y2) evalFun = some p ∨
        refineCOnSegment evalFun { x := fin x1, y := fin y1 } { x := fin x2, y := fin y2 }
          = some p →
      ∃ r : ℚ, 0 ≤ r ∧ r ≤ 1 ∧
        p = { x := fin (x1 + r * (x2 - x1)), y := fin (y1 + r * (y2 - y1)) }) ∧
    (∀ p : Point, x1 = x2 →
      refineOnSegment (fin x1) (fin y1) (fin x2) (fin y2) evalFun = some p →
      ∃ y : ℚ, p = { x := fin x1, y := fin y } ∧ min y1 y2 ≤ y ∧ y ≤ max y1 y2) := by
  have honseg : ∀ p : Point,
      refineOnSegment (fin x1) (fin y1) (fin x2) (fin y2) evalFun = some p ∨
        refineCOnSegment evalFun { x := fin x1, y := fin y1 } { x := fin x2, y := fin y2 }
          = some p →
      ∃ r : ℚ, 0 ≤ r ∧ r ≤ 1 ∧
        p = { x := fin (x1 + r * (x2 - x1)), y := fin (y1 + r * (y2 - y1)) } := by
    intro p hp
    rcases hp with hp | hp
    · exact refineOnSegment_on_segment evalFun x1 y1 x2 y2 p hp
    · exact refineCOnSegment_on_segment evalFun x1 y1 x2 y2 p hp
  refine ⟨?_, ?_, honseg, ?_⟩
  · intro fa0 fb0 hfa hfb hsign k B hB
    exact bracketAfter_invariant evalFun tol x1 y1 x2 y2 fa0 fb0 hfa hfb hsign k B hB
  · intro fa0 fb0 hfa hfb
    refine ⟨?_, ?_⟩
    · unfold refineOnSegment
      simp only [hfa, hfb]
      split
      · exact Or.inl rfl
      · split
        · exact Or.inr (Or.inl rfl)
        · split
          · exact Or.inr (Or.inr (Or.inl rfl))
          · split
            · exact Or.inl rfl
            · rename_i h
              simp only [fin_mul_fin, zero_eq, gt_fin, decide_eq_true_eq, not_lt] at h
              exact Or.inr (Or.inr (Or.inr ⟨h, rfl⟩))
    · unfold refineCOnSegment
      simp only [hfa, hfb]
      split
      · exact Or.inl rfl
      · split
        · exact Or.inr (Or.inl rfl)
        · split
          · exact Or.inl rfl
          · rename_i h
            simp only [fin_mul_fin, zero_eq, gt_fin, decide_eq_true_eq, not_lt] at h
            exact Or.inr (Or.inr ⟨h, rfl⟩)
  · intro p hx hp
    obtain ⟨r, h0, h1, hr⟩ := honseg p (Or.inl hp)
    refine ⟨y1 + r * (y2 - y1), ?_, ?_, ?_⟩
    · rw [hr, ← hx]
      congr 2
      ring
    · rcases le_total y1 y2 with h | h
      · rw [min_eq_left h]
        nlinarith
      · rw [min_eq_right h]
        nlinarith
    · rcases le_total y1 y2 with h | h
      · rw [max_eq_right h]
        nlinarith
      · rw [max_eq_left h]
        nlinarith

/-- C30 for g(x, y) = y on the column segment from (0, -1) to (0, 3): the bracket
after one completed iteration is the half from (0, -1) to (0, 1), of parameter
length 1/2. -/
theorem bisection_bracket_invariant_witness :
    (∃ s t fa fb : ℚ, 0 ≤ s ∧ s ≤ t ∧ t ≤ 1 ∧ t - s = (1 / 2) ^ 1 ∧
      ({ ax := fin 0, ay := fin (-1), bx := fin 0, by' := fin 1,
         fa := fin (-1), fb := fin 1 } : BisectBracket) =
        { ax := fin (0 + s * (0 - 0)), ay := fin (-1 + s * (3 - -1)),
          bx := fin (0 + t * (0 - 0)), by' := fin (-1 + t * (3 - -1)),
          fa := fin fa, fb := fin fb } ∧
      (fun (_ : JSNum) (y : JSNum) => y) (fin 0) (fin (-1)) = fin fa ∧
      (fun (_ : JSNum) (y : JSNum) => y) (fin 0) (fin 1) = fin fb ∧ fa * fb ≤ 0) :=
  ((bisection_bracket_invariant (fun _ y => y) 1e-6 0 (-1) 0 3).1 (-1) 3 rfl rfl
    (by norm_num) 1
    { ax := fin 0, ay := fin (-1), bx := fin 0, by' := fin 1, fa := fin (-1), fb := fin 1 }
    (by decide!)).1

/-! ## Sanitizing of LaTeX strings -/

/-- C23 (the code departs from its own comment, which says that the last
replacement keeps the delimiters double): in a replacement string the pattern of two
dollar signs stands for one dollar sign, so every pair of dollar signs met by the last
replacement of sanitizeLatex leaves one dollar sign, and sanitizeLatex of the string
made of two dollar signs, x and two dollar signs is the string made of one dollar
sign, x and one dollar sign, not the input. -/
theorem sanitizeLatex_halves_dollar_pairs :
    (∀ rest : List Char,
      replaceDollarPairs (dollar :: dollar :: rest) = dollar :: replaceDollarPairs rest) ∧
    sanitizeLatex "$$x$$" = "$x$" ∧ sanitizeLatex "$$x$$" ≠ "$$x$$" := by
  refine ⟨fun rest => ?_, by decide, by decide⟩
  simp [replaceDollarPairs, substitution]

/-! ## Critical point locator: the labels as a partition -/

/-- C24: for a point returned by findCriticalPointsLocal with finite Hessian entries
a = fxx, b = fyy, c = fxy and D = a*b - c*c, the classification is Punto de silla
if and only if D < -1e-6, Mínimo local if and only if D > 1e-6 and a > 0,
Máximo local if and only if D > 1e-6 and a < 0, and Prueba inconclusa if and only
if |D| <= 1e-6; it is always one of these four labels; and D > 1e-6 forces
a*b > c*c >= 0, hence a is not 0, so the case D > 1e-6 with a = 0 does not occur. -/
theorem findCriticalPointsLocal_labels_partition (expression : Expression)
    (r : CriticalPoint) (a b c : ℚ) (hr : r ∈ findCriticalPointsLocal expression)
    (hxx : r.fxx = fin a) (hyy : r.fyy = fin b) (hxy : r.fxy = fin c) :
    (r.classification = "Punto de silla" ↔ a * b - c * c < -1e-6) ∧
    (r.classification = "Mínimo local" ↔ a * b - c * c > 1e-6 ∧ a > 0) ∧
    (r.classification = "Máximo local" ↔ a * b - c * c > 1e-6 ∧ a < 0) ∧
    (r.classification = "Prueba inconclusa" ↔ |a * b - c * c| ≤ 1e-6) ∧
    (r.classification = "Punto de silla" ∨ r.classification = "Mínimo local" ∨
      r.classification = "Máximo local" ∨ r.classification = "Prueba inconclusa") ∧
    (a * b - c * c > 1e-6 → a * b > c * c ∧ c * c ≥ 0 ∧ a ≠ 0) := by
  obtain ⟨p, rfl⟩ := mem_findCriticalPointsLocal expression r hr
  simp only [classifyPoint] at hxx hyy hxy ⊢
  generalize numericHessianAt expression p.1 p.2 defaultH = hs at hxx hyy hxy ⊢
  obtain ⟨fxx, fyy, fxy⟩ := hs
  simp only at hxx hyy hxy
  subst hxx hyy hxy
  have h6 : (1e-6 : ℚ) = 1 / 1000000 := by norm_num
  simp only [fin_mul_fin, fin_sub_fin, gt_fin, lt_fin, le_fin, abs_fin, tol6_eq, zero_eq, h6]
  have ht : (0 : ℚ) < 1 / 1000000 := by norm_num
  have hres : 1 / 1000000 < a * b - c * c → a * b > c * c ∧ c * c ≥ 0 ∧ a ≠ 0 := by
    intro hD
    have h1 : c * c ≥ 0 := mul_self_nonneg c
    have h2 : a * b > c * c := by linarith
    refine ⟨h2, h1, ?_⟩
    rintro rfl
    rw [zero_mul] at h2
    linarith
  generalize (1 / 1000000 : ℚ) = t at ht hres ⊢
  have hne : a * b - c * c > t → a ≠ 0 := fun h => (hres h).2.2
  generalize a * b - c * c = D at hres hne ⊢
  have e1 : ("Mínimo local" = "Punto de silla") = False := by decide
  have e2 : ("Máximo local" = "Punto de silla") = False := by decide
  have e3 : ("Prueba inconclusa" = "Punto de silla") = False := by decide
  have e4 : ("Máximo local" = "Mínimo local") = False := by decide
  have e5 : ("Prueba inconclusa" = "Mínimo local") = False := by decide
  have e6 : ("Punto de silla" = "Mínimo local") = False := by decide
  have e7 : ("Mínimo local" = "Máximo local") = False := by decide
  have e8 : ("Prueba inconclusa" = "Máximo local") = False := by decide
  have e9 : ("Punto de silla" = "Máximo local") = False := by decide
  have e10 : ("Mínimo local" = "Prueba inconclusa") = False := by decide
  have e11 : ("Máximo local" = "Prueba inconclusa") = False := by decide
  have e12 : ("Punto de silla" = "Prueba inconclusa") = False := by decide
  refine ⟨?_, ?_, ?_, ?_, ?_, hres⟩
  all_goals
    by_cases hD : t < D
    · have habs : ¬ (|D| ≤ t) := fun h => absurd ((le_abs_self D).trans h) (not_le.2 hD)
      have hneg : ¬ (D < -t) := by intro h; linarith
      rcases lt_trichotomy a 0 with ha | ha | ha
      · have ha' : ¬ (0 < a) := not_lt.2 ha.le
        simp [hD, ha, ha', habs, hneg, e1, e2, e3, e4, e5, e6, e7, e8, e9, e10, e11, e12]
      · exact absurd ha (hne hD)
      · have ha' : ¬ (a < 0) := not_lt.2 ha.le
        simp [hD, ha, ha', habs, hneg, e1, e2, e3, e4, e5, e6, e7, e8, e9, e10, e11, e12]
    · by_cases habs : |D| ≤ t
      · have hneg : ¬ (D < -t) := by intro h; have := (abs_le.1 habs).1; linarith
        simp [hD, habs, hneg, e1, e2, e3, e4, e5, e6, e7, e8, e9, e10, e11, e12]
      · have hneg : D < -t := by
          by_contra h
          exact habs (abs_le.2 ⟨not_lt.1 h, not_lt.1 hD⟩)
        simp [hD, habs, hneg, e1, e2, e3, e4, e5, e6, e7, e8, e9, e10, e11, e12]

/-- C24 at the saddle x^2 - y^2: the point returned has Hessian entries 2, -2, 0,
so D = -4 < -1e-6, and its label is Punto de silla. -/
theorem findCriticalPointsLocal_labels_partition_witness :
    ({ x := fin 0, y := fin 0, f := fin 0, classification := "Punto de silla", color := "red",
       determinant := fin (-4), fxx := fin 2, fyy := fin (-2), fxy := fin 0 } : CriticalPoint)
      ∈ findCriticalPointsLocal saddle ∧
    (("Punto de silla" : String) = "Punto de silla" ↔ (2 : ℚ) * (-2) - 0 * 0 < -1e-6) :=
  ⟨by rw [findCriticalPointsLocal_saddle]; exact List.mem_singleton.2 rfl,
    (findCriticalPointsLocal_labels_partition saddle _ 2 (-2) 0
      (by rw [findCriticalPointsLocal_saddle]; exact List.mem_singleton.2 rfl) rfl rfl rfl).1⟩

/-! ## Critical point locator: undefined Hessian -/

/-- A determinant with an undefined Hessian entry is undefined. -/
theorem det_nan_of_entry_nan (hs : Hessian)
    (h : hs.fxx = nan ∨ hs.fyy = nan ∨ hs.fxy = nan) :
    hs.fxx * hs.fyy - hs.fxy * hs.fxy = nan := by
  obtain ⟨a, b, c⟩ := hs
  simp only at h ⊢
  rcases h with h | h | h <;> subst h <;> simp

/-- The record built at a point whose numeric Hessian has an undefined entry. -/
theorem classifyPoint_undefined (expression : Expression) (p : JSNum × JSNum)
    (h : (numericHessianAt expression p.1 p.2 defaultH).fxx = nan ∨
      (numericHessianAt expression p.1 p.2 defaultH).fyy = nan ∨
      (numericHessianAt expression p.1 p.2 defaultH).fxy = nan) :
    (classifyPoint expression p).determinant = nan ∧
    (classifyPoint expression p).classification = "Punto de silla" ∧
    (classifyPoint expression p).color = "red" := by
  have hdet := det_nan_of_entry_nan _ h
  simp only [classifyPoint, hdet]
  simp

theorem refineAll_puncturedParaboloid :
    refineAll puncturedParaboloid
      (seedCandidates puncturedParaboloid
        (createRange (pickSafeRangeForExpr puncturedParaboloid.text).min
          (pickSafeRangeForExpr puncturedParaboloid.text).max 21)
        (createRange (pickSafeRangeForExpr puncturedParaboloid.text).min
          (pickSafeRangeForExpr puncturedParaboloid.text).max 21)) = [(fin 0, fin 0)] := by
  decide!

/-- C25: every deduplicated refined point whose numeric Hessian has an undefined
entry (fxx, fyy or fxy is NaN) is still returned by findCriticalPointsLocal, as a
record at the same position whose determinant is NaN and whose label is
Punto de silla (colour red), not Prueba inconclusa; and every returned record with
an undefined Hessian entry has determinant NaN and the label Punto de silla. -/
theorem findCriticalPointsLocal_undefined_hessian (expression : Expression) :
    (∀ p ∈ refineAll expression
        (seedCandidates expression
          (createRange (pickSafeRangeForExpr expression.text).min
            (pickSafeRangeForExpr expression.text).max 21)
          (createRange (pickSafeRangeForExpr expression.text).min
            (pickSafeRangeForExpr expression.text).max 21)),
      ((numericHessianAt expression p.1 p.2 defaultH).fxx = nan ∨
        (numericHessianAt expression p.1 p.2 defaultH).fyy = nan ∨
        (numericHessianAt expression p.1 p.2 defaultH).fxy = nan) →
      ∃ r ∈ findCriticalPointsLocal expression,
        r.x = p.1 ∧ r.y = p.2 ∧ r.determinant = nan ∧
        r.classification = "Punto de silla" ∧ r.color = "red" ∧
        r.classification ≠ "Prueba inconclusa") ∧
    (∀ r ∈ findCriticalPointsLocal expression,
      (r.fxx = nan ∨ r.fyy = nan ∨ r.fxy = nan) →
      r.determinant = nan ∧ r.classification = "Punto de silla" ∧ r.color = "red") := by
  refine ⟨?_, ?_⟩
  · intro p hp hnan
    obtain ⟨h1, h2, h3⟩ := classifyPoint_undefined expression p hnan
    refine ⟨classifyPoint expression p, ?_, rfl, rfl, h1, h2, h3, ?_⟩
    · unfold findCriticalPointsLocal
      exact List.mem_map_of_mem _ hp
    · rw [h2]
      decide
  · intro r hr hnan
    obtain ⟨p, rfl⟩ := mem_findCriticalPointsLocal expression r hr
    exact classifyPoint_undefined expression p hnan

/-- C25 for x^2 + y^2 + 0/(x^2 + y^2), undefined at the origin only: the origin is
the one refined point, fxx there is NaN, and the origin is returned with determinant
NaN and the label Punto de silla. -/
theorem findCriticalPointsLocal_undefined_hessian_witness :
    (numericHessianAt puncturedParaboloid (fin 0) (fin 0) defaultH).fxx = nan ∧
    ∃ r ∈ findCriticalPointsLocal puncturedParaboloid,
      r.x = fin 0 ∧ r.y = fin 0 ∧ r.determinant = nan ∧
      r.classification = "Punto de silla" ∧ r.color = "red" ∧
      r.classification ≠ "Prueba inconclusa" :=
  ⟨by decide!,
    (findCriticalPointsLocal_undefined_hessian puncturedParaboloid).1 (fin 0, fin 0)
      (by rw [refineAll_puncturedParaboloid]; exact List.mem_singleton.2 rfl)
      (Or.inl (by decide!))⟩

/-! ## Sums over cell midpoints -/

/-- The sum of an affine function of the midpoints of `n` equal cells. -/
theorem sum_affine_midpoints (n : ℕ) (p q x0 dx : ℚ) :
    ∑ i ∈ Finset.range n, (p + q * (x0 + ((i : ℚ) + 1 / 2) * dx)) =
      n * p + q * (n * x0 + n * n / 2 * dx) := by
  induction n with
  | zero => simp
  | succ n ih =>
    rw [Finset.sum_range_succ, ih]
    push_cast
    ring

/-! ## Double-precision model: rounding -/

theorem pow2_eq (k : ℤ) : Double.pow2 k = (2 : ℚ) ^ k := by
  unfold Double.pow2
  split
  · rename_i h
    obtain ⟨n, rfl⟩ := Int.eq_ofNat_of_zero_le h
    simp
  · rename_i h
    have h' : 0 ≤ -k := by omega
    obtain ⟨n, hn⟩ := Int.eq_ofNat_of_zero_le h'
    have hk : k = -(n : ℤ) := by omega
    rw [hn, hk]
    simp

theorem pow2_pos (k : ℤ) : 0 < Double.pow2 k := by
  rw [pow2_eq]
  positivity

theorem pow2_add (a b : ℤ) : Double.pow2 (a + b) = Double.pow2 a * Double.pow2 b := by
  rw [pow2_eq, pow2_eq, pow2_eq, zpow_add₀ (by norm_num)]

theorem pow2_le_pow2 {a b : ℤ} (h : a ≤ b) : Double.pow2 a ≤ Double.pow2 b := by
  rw [pow2_eq, pow2_eq]
  exact zpow_le_zpow_right₀ (by norm_num) h

theorem pow2_lt_pow2 {a b : ℤ} (h : a < b) : Double.pow2 a < Double.pow2 b := by
  rw [pow2_eq, pow2_eq]
  exact zpow_lt_zpow_right₀ (by norm_num) h

theorem pow2_lt_pow2_iff {a b : ℤ} : Double.pow2 a < Double.pow2 b ↔ a < b := by
  constructor
  · intro h
    by_contra hn
    exact absurd (pow2_le_pow2 (not_lt.1 hn)) (not_le.2 h)
  · exact pow2_lt_pow2

/-- The leading bit brackets a positive whole number. -/
theorem leadingBit_spec : ∀ (fuel n : ℕ), n ≤ fuel → n ≠ 0 →
    2 ^ Double.leadingBit fuel n ≤ n ∧ n < 2 ^ (Double.leadingBit fuel n + 1) := by
  intro fuel
  induction fuel with
  | zero =>
    intro n hn h0
    exact absurd (Nat.le_zero.1 hn) h0
  | succ fuel ih =>
    intro n hn h0
    unfold Double.leadingBit
    split
    · rename_i h2
      constructor
      · simp only [pow_zero]
        omega
      · simp only [zero_add, pow_one]
        exact h2
    · rename_i h2
      have hhalf : n / 2 ≤ fuel := by omega
      have hne : n / 2 ≠ 0 := by omega
      obtain ⟨g1, g2⟩ := ih (n / 2) hhalf hne
      constructor
      · rw [pow_succ]
        omega
      · rw [pow_succ]
        omega

/-- The binary exponent brackets the magnitude. -/
theorem floorLog2_spec (x : ℚ) (hx : x ≠ 0) :
    Double.pow2 (Double.floorLog2 x) ≤ |x| ∧ |x| < Double.pow2 (Double.floorLog2 x + 1) := by
  have hn : x.num.natAbs ≠ 0 := by
    intro h
    exact hx (Rat.num_eq_zero.1 (Int.natAbs_eq_zero.1 h))
  have hd : x.den ≠ 0 := x.den_nz
  obtain ⟨hn1', hn2'⟩ := leadingBit_spec x.num.natAbs x.num.natAbs (le_refl _) hn
  obtain ⟨hd1', hd2'⟩ := leadingBit_spec x.den x.den (le_refl _) hd
  have hn1 : (2 : ℚ) ^ (Double.leadingBit x.num.natAbs x.num.natAbs) ≤ (x.num.natAbs : ℚ) := by
    exact_mod_cast hn1'
  have hn2 : (x.num.natAbs : ℚ) <
      (2 : ℚ) ^ (Double.leadingBit x.num.natAbs x.num.natAbs + 1) := by
    exact_mod_cast hn2'
  have hd1 : (2 : ℚ) ^ (Double.leadingBit x.den x.den) ≤ (x.den : ℚ) := by
    exact_mod_cast hd1'
  have hd2 : (x.den : ℚ) < (2 : ℚ) ^ (Double.leadingBit x.den x.den + 1) := by
    exact_mod_cast hd2'
  have hdpos : (0 : ℚ) < x.den := by exact_mod_cast Nat.pos_of_ne_zero hd
  have habs : |x| = (x.num.natAbs : ℚ) / x.den := by
    conv_lhs => rw [← Rat.num_div_den x]
    rw [abs_div, abs_of_pos hdpos, Nat.cast_natAbs, Int.cast_abs]
  set a := Double.leadingBit x.num.natAbs x.num.natAbs with ha
  set b := Double.leadingBit x.den x.den with hb
  set n : ℚ := (x.num.natAbs : ℚ) with hnq
  set d : ℚ := (x.den : ℚ) with hdq
  have e0 : Double.pow2 ((a : ℤ) - (b : ℤ)) = (2 : ℚ) ^ a / (2 : ℚ) ^ b := by
    rw [pow2_eq, zpow_sub₀ (by norm_num), zpow_natCast, zpow_natCast]
  have e1 : Double.pow2 ((a : ℤ) - (b : ℤ) + 1) = (2 : ℚ) ^ (a + 1) / (2 : ℚ) ^ b := by
    rw [pow2_add, e0, pow_succ]
    norm_num [pow2_eq]
    ring
  have em : Double.pow2 ((a : ℤ) - (b : ℤ) - 1) = (2 : ℚ) ^ a / (2 : ℚ) ^ (b + 1) := by
    have : ((a : ℤ) - (b : ℤ) - 1) = (a : ℤ) - ((b + 1 : ℕ) : ℤ) := by push_cast; ring
    rw [this, pow2_eq, zpow_sub₀ (by norm_num), zpow_natCast, zpow_natCast]
  have hb0 : (0 : ℚ) < (2 : ℚ) ^ b := by positivity
  have hb1 : (0 : ℚ) < (2 : ℚ) ^ (b + 1) := by positivity
  unfold Double.floorLog2
  simp only
  rw [← ha, ← hb]
  split
  · rename_i h
    refine ⟨h, ?_⟩
    rw [e1, habs, div_lt_div_iff₀ hdpos hb0]
    calc n * 2 ^ b ≤ n * d := by
          apply mul_le_mul_of_nonneg_left hd1
          exact le_trans (by positivity) hn1
      _ < 2 ^ (a + 1) * d := by
          apply mul_lt_mul_of_pos_right hn2 hdpos
  · rename_i h
    rw [sub_add_cancel]
    refine ⟨?_, not_le.1 h⟩
    rw [em, habs, div_le_div_iff₀ hb1 hdpos]
    calc 2 ^ a * d ≤ n * d := by
          apply mul_le_mul_of_nonneg_right hn1 hdpos.le
      _ ≤ n * 2 ^ (b + 1) := by
          apply mul_le_mul_of_nonneg_left hd2.le
          exact le_trans (by positivity) hn1

/-- The exponent is the only integer that brackets the magnitude. -/
theorem floorLog2_unique (x : ℚ) (hx : x ≠ 0) (e : ℤ) (h1 : Double.pow2 e ≤ |x|)
    (h2 : |x| < Double.pow2 (e + 1)) : Double.floorLog2 x = e := by
  obtain ⟨g1, g2⟩ := floorLog2_spec x hx
  have a1 : e < Double.floorLog2 x + 1 := pow2_lt_pow2_iff.1 (lt_of_le_of_lt h1 g2)
  have a2 : Double.floorLog2 x < e + 1 := pow2_lt_pow2_iff.1 (lt_of_le_of_lt g1 h2)
  omega

theorem roundHalfEven_err (y : ℚ) : |((Double.roundHalfEven y : ℤ) : ℚ) - y| ≤ 1 / 2 := by
  unfold Double.roundHalfEven
  simp only
  have h1 : (⌊y⌋ : ℚ) ≤ y := Int.floor_le y
  have h2 : y < ⌊y⌋ + 1 := Int.lt_floor_add_one y
  rw [abs_le]
  split
  · constructor <;> linarith
  · split
    · push_cast; constructor <;> linarith
    · split
      · constructor <;> linarith
      · push_cast; constructor <;> linarith

theorem roundHalfEven_intCast (m : ℤ) : Double.roundHalfEven (m : ℚ) = m := by
  unfold Double.roundHalfEven
  simp

theorem roundHalfEven_mono {y z : ℚ} (h : y ≤ z) :
    Double.roundHalfEven y ≤ Double.roundHalfEven z := by
  by_cases hf : ⌊y⌋ = ⌊z⌋
  · unfold Double.roundHalfEven
    simp only [hf]
    have hr : y - ⌊z⌋ ≤ z - ⌊z⌋ := by linarith
    split_ifs <;> first | omega | (exfalso; linarith)
  · have hlt : ⌊y⌋ < ⌊z⌋ := lt_of_le_of_ne (Int.floor_mono h) hf
    have hy : Double.roundHalfEven y ≤ ⌊y⌋ + 1 := by
      unfold Double.roundHalfEven
      simp only
      split_ifs <;> omega
    have hz : ⌊z⌋ ≤ Double.roundHalfEven z := by
      unfold Double.roundHalfEven
      simp only
      split_ifs <;> omega
    omega

theorem roundHalfEven_neg (y : ℚ) : Double.roundHalfEven (-y) = -Double.roundHalfEven y := by
  by_cases hy : (⌊y⌋ : ℚ) = y
  · rw [← hy, ← Int.cast_neg, roundHalfEven_intCast, roundHalfEven_intCast]
  · have h1 : (⌊y⌋ : ℚ) < y := lt_of_le_of_ne (Int.floor_le y) hy
    have h2 : y < ⌊y⌋ + 1 := Int.lt_floor_add_one y
    have hfl : ⌊-y⌋ = -⌊y⌋ - 1 := by
      rw [Int.floor_eq_iff]
      push_cast
      constructor <;> linarith
    unfold Double.roundHalfEven
    simp only [hfl]
    push_cast
    split_ifs <;> first | omega | (exfalso; linarith)

theorem quantum_pos (x : ℚ) : 0 < Double.quantum x := pow2_pos _

theorem floorLog2_neg (x : ℚ) : Double.floorLog2 (-x) = Double.floorLog2 x := by
  unfold Double.floorLog2
  simp only [Rat.num_neg_eq_neg_num, Int.natAbs_neg, Rat.den_neg_eq_den, abs_neg]

theorem quantum_neg (x : ℚ) : Double.quantum (-x) = Double.quantum x := by
  unfold Double.quantum
  rw [floorLog2_neg]

/-- The rounded value of a non-zero rational before the overflow test: a multiple of
the quantum at distance at most half a quantum. -/
theorem rnd_cases (x : ℚ) (hx : x ≠ 0) :
    |((Double.roundHalfEven (x / Double.quantum x) : ℤ) : ℚ) * Double.quantum x - x|
        ≤ Double.quantum x / 2 ∧
    (Double.round x = Double.num ((Double.roundHalfEven (x / Double.quantum x) : ℚ)
        * Double.quantum x) ∨
      (Double.pow2 1024 ≤
          |((Double.roundHalfEven (x / Double.quantum x) : ℤ) : ℚ) * Double.quantum x| ∧
        Double.round x = Double.inf (decide (x < 0)))) := by
  have hq := quantum_pos x
  constructor
  · have h := roundHalfEven_err (x / Double.quantum x)
    have e : ((Double.roundHalfEven (x / Double.quantum x) : ℤ) : ℚ) * Double.quantum x - x =
        (((Double.roundHalfEven (x / Double.quantum x) : ℤ) : ℚ) - x / Double.quantum x) *
          Double.quantum x := by
      field_simp
    rw [e, abs_mul, abs_of_pos hq]
    calc _ ≤ 1 / 2 * Double.quantum x := mul_le_mul_of_nonneg_right h hq.le
      _ = Double.quantum x / 2 := by ring
  · unfold Double.round
    rw [if_neg hx]
    simp only
    split
    · rename_i h
      exact Or.inr ⟨h, rfl⟩
    · exact Or.inl rfl

theorem rnd_zero : Double.round 0 = Double.num 0 := by
  unfold Double.round
  rw [if_pos rfl]

/-- In the normal range the quantum is at most `2^(-52)` times the magnitude. -/
theorem quantum_le (x : ℚ) (hlo : Double.pow2 (-1022) ≤ |x|) :
    Double.quantum x ≤ Double.pow2 (-52) * |x| := by
  have hx : x ≠ 0 := by
    intro h
    rw [h, abs_zero] at hlo
    exact absurd (pow2_pos (-1022)) (not_lt.2 hlo)
  obtain ⟨g1, g2⟩ := floorLog2_spec x hx
  have he : -1022 ≤ Double.floorLog2 x := by
    have := pow2_lt_pow2_iff.1 (lt_of_le_of_lt hlo g2)
    omega
  unfold Double.quantum
  rw [max_eq_left he, sub_eq_add_neg, pow2_add, mul_comm]
  exact mul_le_mul_of_nonneg_left g1 (pow2_pos _).le

/-- Below the normal range the quantum is `2^(-1074)`. -/
theorem quantum_le_abs (x : ℚ) (hx : x ≠ 0) :
    Double.quantum x ≤ Double.pow2 (-52) * |x| + Double.pow2 (-1074) := by
  by_cases hlo : Double.pow2 (-1022) ≤ |x|
  · have := quantum_le x hlo
    have := pow2_pos (-1074)
    linarith
  · have hq : Double.quantum x = Double.pow2 (-1074) := by
      unfold Double.quantum
      obtain ⟨g1, g2⟩ := floorLog2_spec x hx
      have : Double.floorLog2 x < -1022 :=
        pow2_lt_pow2_iff.1 (lt_of_le_of_lt g1 (not_le.1 hlo))
      rw [max_eq_right this.le]
      rfl
    rw [hq]
    have : 0 ≤ Double.pow2 (-52) * |x| := mul_nonneg (pow2_pos _).le (abs_nonneg x)
    linarith

theorem pow2_half (k : ℤ) : Double.pow2 k / 2 = Double.pow2 (k - 1) := by
  rw [sub_eq_add_neg, pow2_add]
  have : Double.pow2 (-1) = 1 / 2 := by rw [pow2_eq]; norm_num
  rw [this]
  ring

/-- Rounding error: a rational of magnitude at most `2^1023` rounds to a finite double
at relative distance at most `2^(-53)`, up to `2^(-1075)` below the normal range. -/
theorem rnd_near (x : ℚ) (hhi : |x| ≤ Double.pow2 1023) :
    ∃ r : ℚ, Double.round x = Double.num r ∧
      |r - x| ≤ Double.pow2 (-53) * |x| + Double.pow2 (-1075) ∧
      (Double.pow2 (-1022) ≤ |x| → |r - x| ≤ Double.pow2 (-53) * |x|) := by
  by_cases hx : x = 0
  · subst hx
    refine ⟨0, rnd_zero, ?_, ?_⟩
    · simp only [sub_zero, abs_zero, mul_zero, zero_add]
      exact (pow2_pos _).le
    · intro _
      simp
  · obtain ⟨herr, hcase⟩ := rnd_cases x hx
    set r := ((Double.roundHalfEven (x / Double.quantum x) : ℤ) : ℚ) * Double.quantum x with hr
    have hq := quantum_le_abs x hx
    have e53 : Double.pow2 (-52) / 2 = Double.pow2 (-53) := pow2_half (-52)
    have e1075 : Double.pow2 (-1074) / 2 = Double.pow2 (-1075) := pow2_half (-1074)
    have hb1 : |r - x| ≤ Double.pow2 (-53) * |x| + Double.pow2 (-1075) := by
      rw [← e53, ← e1075]
      calc |r - x| ≤ Double.quantum x / 2 := herr
        _ ≤ (Double.pow2 (-52) * |x| + Double.pow2 (-1074)) / 2 := by linarith
        _ = _ := by ring
    have hfin : |r| < Double.pow2 1024 := by
      have h1 : |r| ≤ |r - x| + |x| := by
        have := abs_add (r - x) x
        simpa using this
      have h53 : Double.pow2 (-53) ≤ 1 / 2 := by rw [pow2_eq]; norm_num
      have h1075 : Double.pow2 (-1075) ≤ 1 := by
        rw [pow2_eq]
        exact zpow_le_one_of_nonpos₀ (by norm_num) (by norm_num)
      have h1023 : (4 : ℚ) ≤ Double.pow2 1023 := by
        have : Double.pow2 2 ≤ Double.pow2 1023 := pow2_le_pow2 (by norm_num)
        have e : Double.pow2 2 = 4 := by rw [pow2_eq]; norm_num
        linarith
      have h1024 : Double.pow2 1024 = 2 * Double.pow2 1023 := by
        have : (1024 : ℤ) = 1 + 1023 := by norm_num
        rw [this, pow2_add]
        have e : Double.pow2 1 = 2 := by rw [pow2_eq]; norm_num
        rw [e]
      have hx' : Double.pow2 (-53) * |x| ≤ 1 / 2 * |x| :=
        mul_le_mul_of_nonneg_right h53 (abs_nonneg x)
      rw [h1024]
      have := abs_nonneg x
      linarith
    refine ⟨r, ?_, hb1, ?_⟩
    · rcases hcase with h | ⟨h, -⟩
      · exact h
      · exact absurd h (not_le.2 hfin)
    · intro hlo
      rw [← e53]
      calc |r - x| ≤ Double.quantum x / 2 := herr
        _ ≤ (Double.pow2 (-52) * |x|) / 2 := by linarith [quantum_le x hlo]
        _ = _ := by ring

/-- Rounding commutes with the change of sign. -/
theorem rnd_neg (x : ℚ) : Double.round (-x) = -Double.round x := by
  by_cases hx : x = 0
  · subst hx
    rw [neg_zero, rnd_zero]
    show Double.num 0 = Double.num (-0)
    rw [neg_zero]
  · have hnx : -x ≠ 0 := neg_ne_zero.2 hx
    unfold Double.round
    rw [if_neg hx, if_neg hnx]
    simp only [quantum_neg, neg_div, roundHalfEven_neg, Int.cast_neg, neg_mul, abs_neg]
    split
    · show _ = Double.neg (Double.inf _)
      simp only [Double.neg]
      congr 1
      rcases lt_or_gt_of_ne hx with h | h
      · have h2 : ¬ (0 < x) := not_lt.2 h.le
        simp [h, h2]
      · have h2 : ¬ (x < 0) := not_lt.2 h.le
        simp [h, h2]
    · rfl

/-- A rational `m * 2^k` with `|m| < 2^53`, `k >= -1074` and magnitude below `2^1024`
is a double: rounding leaves it unchanged. -/
theorem rnd_exact (m k : ℤ) (hm : |m| < 2 ^ 53) (hk : -1074 ≤ k)
    (hhi : |(m : ℚ) * Double.pow2 k| < Double.pow2 1024) :
    Double.round ((m : ℚ) * Double.pow2 k) = Double.num ((m : ℚ) * Double.pow2 k) := by
  by_cases hm0 : m = 0
  · subst hm0
    rw [Int.cast_zero, zero_mul]
    exact rnd_zero
  set x : ℚ := (m : ℚ) * Double.pow2 k with hxdef
  have hx : x ≠ 0 := mul_ne_zero (by exact_mod_cast hm0) (pow2_pos k).ne'
  obtain ⟨g1, -⟩ := floorLog2_spec x hx
  have habs : |x| = |(m : ℚ)| * Double.pow2 k := by
    rw [hxdef, abs_mul, abs_of_pos (pow2_pos k)]
  have hmq : |(m : ℚ)| < Double.pow2 53 := by
    have h : ((|m| : ℤ) : ℚ) < ((2 ^ 53 : ℤ) : ℚ) := Int.cast_lt.2 hm
    rw [Int.cast_abs] at h
    rw [pow2_eq]
    norm_num at h ⊢
    exact h
  have he : Double.floorLog2 x < 53 + k := by
    apply pow2_lt_pow2_iff.1
    calc Double.pow2 (Double.floorLog2 x) ≤ |x| := g1
      _ = |(m : ℚ)| * Double.pow2 k := habs
      _ < Double.pow2 53 * Double.pow2 k := mul_lt_mul_of_pos_right hmq (pow2_pos k)
      _ = Double.pow2 (53 + k) := (pow2_add 53 k).symm
  set q : ℤ := max (Double.floorLog2 x) (-1022) - 52 with hq
  have hqk : q ≤ k := by
    rw [hq]
    rcases le_total (Double.floorLog2 x) (-1022) with h | h
    · rw [max_eq_right h]; omega
    · rw [max_eq_left h]; omega
  obtain ⟨n, hn⟩ := Int.eq_ofNat_of_zero_le (sub_nonneg.2 hqk)
  have hkq : Double.pow2 k = (2 : ℚ) ^ n * Double.pow2 q := by
    have : k = (n : ℤ) + q := by omega
    rw [this, pow2_add, pow2_eq (n : ℤ), zpow_natCast]
  have hquant : Double.quantum x = Double.pow2 q := rfl
  have hdiv : x / Double.quantum x = ((m * 2 ^ n : ℤ) : ℚ) := by
    rw [hquant, hxdef, hkq]
    have := (pow2_pos q).ne'
    field_simp
    ring
  unfold Double.round
  rw [if_neg hx]
  simp only
  rw [hdiv, roundHalfEven_intCast]
  have hval : ((m * 2 ^ n : ℤ) : ℚ) * Double.quantum x = x := by
    rw [← hdiv]
    have := (quantum_pos x).ne'
    field_simp
  rw [hval, if_neg (not_le.2 hhi)]

/-- Every whole number below `2^53` is a double. -/
theorem rnd_natCast (n : ℕ) (hn : n < 2 ^ 53) : Double.round (n : ℚ) = Double.num (n : ℚ) := by
  have h := rnd_exact (n : ℤ) 0 (by
    rw [abs_of_nonneg (Int.natCast_nonneg n)]
    exact_mod_cast hn) (by norm_num) (by
    have e0 : Double.pow2 0 = 1 := by rw [pow2_eq]; norm_num
    rw [e0, mul_one, Int.cast_natCast, abs_of_nonneg (Nat.cast_nonneg n)]
    have h53 : ((n : ℕ) : ℚ) < Double.pow2 53 := by
      rw [pow2_eq]
      exact_mod_cast hn
    exact lt_trans h53 (pow2_lt_pow2 (by norm_num)))
  have e0 : Double.pow2 0 = 1 := by rw [pow2_eq]; norm_num
  rw [e0, mul_one, Int.cast_natCast] at h
  exact h

/-! ## Double-precision model: accumulated sums -/

/-- One rounded addition of a term to an accumulator: the distance of the accumulator
to the exact sum grows by at most `2(k+1)uT + 2η` at the step `k`. -/
theorem sum_step (u η T k a A t : ℚ) (hu : 0 ≤ u) (hη : 0 ≤ η) (hT : 0 ≤ T) (hk : 0 ≤ k)
    (hku : 2 * k * u ≤ 1) (hu2 : 2 * u ≤ 1) (hA : |A| ≤ k * T)
    (ha : |a - A| ≤ k * (k + 1) * u * T + 2 * k * η) (ht : |t| ≤ T) :
    |A + t| ≤ (k + 1) * T ∧ |a + t| ≤ (2 * k + 1) * T + 2 * k * η ∧
    (∀ a' : ℚ, |a' - (a + t)| ≤ u * |a + t| + η →
      |a' - (A + t)| ≤ (k + 1) * (k + 1 + 1) * u * T + 2 * (k + 1) * η) := by
  have hAt : |A + t| ≤ (k + 1) * T := by
    have := abs_add A t
    linarith
  have hkT : 0 ≤ k * T := mul_nonneg hk hT
  have huT : 0 ≤ u * T := mul_nonneg hu hT
  have hE1 : k * (k + 1) * u * T ≤ k * T := by
    have h1 : (k + 1) * u ≤ 1 := by linarith
    have := mul_le_mul_of_nonneg_left h1 hkT
    nlinarith
  have hat : |a + t| ≤ k * (k + 1) * u * T + 2 * k * η + (k + 1) * T := by
    have e : a + t = (a - A) + (A + t) := by ring
    rw [e]
    have := abs_add (a - A) (A + t)
    linarith
  refine ⟨hAt, by linarith, ?_⟩
  intro a' ha'
  have e : a' - (A + t) = (a' - (a + t)) + (a - A) := by ring
  rw [e]
  have h1 := abs_add (a' - (a + t)) (a - A)
  have h2 : u * |a + t| ≤ u * (k * (k + 1) * u * T + 2 * k * η + (k + 1) * T) :=
    mul_le_mul_of_nonneg_left hat hu
  have h3 : u * (k * (k + 1) * u * T) ≤ 1 / 2 * ((k + 1) * (u * T)) := by
    have hk1 : 0 ≤ (k + 1) * (u * T) := mul_nonneg (by linarith) huT
    have h : k * u ≤ 1 / 2 := by linarith
    have := mul_le_mul_of_nonneg_right h hk1
    nlinarith
  have h4 : u * (2 * k * η) ≤ η := by
    have := mul_le_mul_of_nonneg_right hku hη
    nlinarith
  nlinarith

/-- A loop over `0, ..., n-1` that adds, with rounding, a term of magnitude at most `T`
to a finite accumulator keeps the accumulator finite and within
`k(k+1)uT + 2kη` of the exact sum, `k` counting the additions made so far. -/
theorem range_sum_loop (f : Double → ℕ → Double) (term : ℕ → ℚ) (T : ℚ) (N : ℕ) (hT : 0 ≤ T)
    (hN : 2 * (N : ℚ) * Double.pow2 (-53) ≤ 1)
    (hbig : (2 * (N : ℚ) + 1) * T + 2 * N * Double.pow2 (-1075) ≤ Double.pow2 1023) :
    ∀ (n k : ℕ) (a A : ℚ), k + n ≤ N →
      (∀ i < n, ∀ s : ℚ, f (Double.num s) i = Double.round (s + term i)) →
      (∀ i < n, |term i| ≤ T) → |A| ≤ k * T →
      |a - A| ≤ k * (k + 1) * Double.pow2 (-53) * T + 2 * k * Double.pow2 (-1075) →
      ∃ a' : ℚ, (List.range n).foldl f (Double.num a) = Double.num a' ∧
        |A + ∑ i ∈ Finset.range n, term i| ≤ ((k + n : ℕ) : ℚ) * T ∧
        |a' - (A + ∑ i ∈ Finset.range n, term i)| ≤
          ((k + n : ℕ) : ℚ) * (((k + n : ℕ) : ℚ) + 1) * Double.pow2 (-53) * T +
            2 * ((k + n : ℕ) : ℚ) * Double.pow2 (-1075) := by
  have hu : 0 ≤ Double.pow2 (-53) := (pow2_pos _).le
  have hη : 0 ≤ Double.pow2 (-1075) := (pow2_pos _).le
  have hu2 : 2 * Double.pow2 (-53) ≤ 1 := by
    rw [pow2_eq]
    norm_num
  intro n
  induction n with
  | zero =>
    intro k a A _ _ _ hA ha
    refine ⟨a, rfl, ?_, ?_⟩
    · simpa using hA
    · simpa using ha
  | succ n ih =>
    intro k a A hkn hf hterm hA ha
    obtain ⟨a1, h1, h2, h3⟩ := ih k a A (by omega)
      (fun i hi => hf i (Nat.lt_succ_of_lt hi)) (fun i hi => hterm i (Nat.lt_succ_of_lt hi)) hA ha
    rw [List.range_succ, List.foldl_append, h1, List.foldl_cons, List.foldl_nil,
      hf n (Nat.lt_succ_self n), Finset.sum_range_succ]
    have hkq : ((k + n : ℕ) : ℚ) ≤ N := by
      have : k + n ≤ N := by omega
      exact_mod_cast this
    have hk0 : (0 : ℚ) ≤ ((k + n : ℕ) : ℚ) := Nat.cast_nonneg _
    have hku : 2 * ((k + n : ℕ) : ℚ) * Double.pow2 (-53) ≤ 1 := by
      have := mul_le_mul_of_nonneg_right hkq hu
      linarith
    obtain ⟨g1, g2, g3⟩ := sum_step (Double.pow2 (-53)) (Double.pow2 (-1075)) T
      ((k + n : ℕ) : ℚ) a1 (A + ∑ i ∈ Finset.range n, term i) (term n) hu hη hT hk0 hku hu2 h2 h3
      (hterm n (Nat.lt_succ_self n))
    have hmag : |a1 + term n| ≤ Double.pow2 1023 := by
      have h5 : (2 * ((k + n : ℕ) : ℚ) + 1) * T ≤ (2 * (N : ℚ) + 1) * T :=
        mul_le_mul_of_nonneg_right (by linarith) hT
      have h6 : 2 * ((k + n : ℕ) : ℚ) * Double.pow2 (-1075) ≤ 2 * N * Double.pow2 (-1075) :=
        mul_le_mul_of_nonneg_right (by linarith) hη
      linarith
    obtain ⟨a', ha', hnear, -⟩ := rnd_near (a1 + term n) hmag
    have hcast : ((k + (n + 1) : ℕ) : ℚ) = ((k + n : ℕ) : ℚ) + 1 := by
      push_cast
      ring
    refine ⟨a', ha', ?_, ?_⟩
    · rw [hcast, ← add_assoc]
      exact g1
    · rw [hcast, ← add_assoc]
      exact g3 a' hnear

/-- The two nested loops of a grid sum: with every cell term of magnitude at most `T`
and `nx * ny` cells, the accumulator ends finite and within
`N(N+1)uT + 2Nη` of the exact double sum, `N = nx * ny`. -/
theorem grid_sum_loop (F : Double → ℕ → ℕ → Double) (term : ℕ → ℕ → ℚ) (T : ℚ) (nx ny : ℕ)
    (hT : 0 ≤ T) (hN : 2 * ((nx * ny : ℕ) : ℚ) * Double.pow2 (-53) ≤ 1)
    (hbig : (2 * ((nx * ny : ℕ) : ℚ) + 1) * T + 2 * ((nx * ny : ℕ) : ℚ) * Double.pow2 (-1075)
      ≤ Double.pow2 1023)
    (hF : ∀ i < nx, ∀ j < ny, ∀ s : ℚ, F (Double.num s) i j = Double.round (s + term i j))
    (hterm : ∀ i < nx, ∀ j < ny, |term i j| ≤ T) :
    ∃ a' : ℚ,
      (List.range ny).foldl (fun s j => (List.range nx).foldl (fun s i => F s i j) s)
        (Double.num 0) = Double.num a' ∧
      |a' - ∑ j ∈ Finset.range ny, ∑ i ∈ Finset.range nx, term i j| ≤
        ((nx * ny : ℕ) : ℚ) * (((nx * ny : ℕ) : ℚ) + 1) * Double.pow2 (-53) * T +
          2 * ((nx * ny : ℕ) : ℚ) * Double.pow2 (-1075) := by
  have key : ∀ m : ℕ, m ≤ ny → ∃ a' : ℚ,
      (List.range m).foldl (fun s j => (List.range nx).foldl (fun s i => F s i j) s)
        (Double.num 0) = Double.num a' ∧
      |∑ j ∈ Finset.range m, ∑ i ∈ Finset.range nx, term i j| ≤ ((m * nx : ℕ) : ℚ) * T ∧
      |a' - ∑ j ∈ Finset.range m, ∑ i ∈ Finset.range nx, term i j| ≤
        ((m * nx : ℕ) : ℚ) * (((m * nx : ℕ) : ℚ) + 1) * Double.pow2 (-53) * T +
          2 * ((m * nx : ℕ) : ℚ) * Double.pow2 (-1075) := by
    intro m
    induction m with
    | zero =>
      intro _
      refine ⟨0, rfl, ?_, ?_⟩ <;> simp
    | succ m ih =>
      intro hm
      obtain ⟨a1, h1, h2, h3⟩ := ih (by omega)
      have hcount : m * nx + nx ≤ nx * ny := by
        calc m * nx + nx = (m + 1) * nx := by ring
          _ ≤ ny * nx := Nat.mul_le_mul_right nx hm
          _ = nx * ny := Nat.mul_comm _ _
      obtain ⟨a', g1, g2, g3⟩ := range_sum_loop (fun s i => F s i m) (fun i => term i m) T
        (nx * ny) hT hN hbig nx (m * nx) a1 _ hcount
        (fun i hi s => hF i hi m (by omega) s) (fun i hi => hterm i hi m (by omega)) h2 h3
      have hcast : (m + 1) * nx = m * nx + nx := by ring
      rw [List.range_succ, List.foldl_append, h1, List.foldl_cons, List.foldl_nil,
        Finset.sum_range_succ, hcast]
      exact ⟨a', g1, g2, g3⟩
  obtain ⟨a', h1, -, h3⟩ := key ny (le_refl ny)
  rw [Nat.mul_comm ny nx] at h3
  exact ⟨a', h1, h3⟩

/-! ## Double-precision model: arithmetic on finite values -/

theorem dnum_add (a b : ℚ) : Double.num a + Double.num b = Double.round (a + b) := rfl
theorem dnum_sub (a b : ℚ) : Double.num a - Double.num b = Double.round (a - b) := rfl
theorem dnum_mul (a b : ℚ) : Double.num a * Double.num b = Double.round (a * b) := rfl
theorem dnum_neg (a : ℚ) : -Double.num a = Double.num (-a) := rfl
theorem dnum_div (a b : ℚ) (hb : b ≠ 0) : Double.num a / Double.num b = Double.round (a / b) := by
  show Double.div _ _ = _
  simp only [Double.div, if_neg hb]

theorem dnum_isFinite (a : ℚ) : (Double.num a).isFinite = true := rfl

theorem dofNat_eq (n : ℕ) : (OfNat.ofNat n : Double) = Double.round (n : ℚ) := rfl

theorem dzero_eq : (0 : Double) = Double.num 0 := by
  rw [dofNat_eq, Nat.cast_zero, rnd_zero]

theorem done_eq : (1 : Double) = Double.num 1 := by
  have h := rnd_natCast 1 (by norm_num)
  rw [Nat.cast_one] at h
  rw [dofNat_eq, Nat.cast_one, h]

theorem dtwo_eq : (2 : Double) = Double.num 2 := by
  have h := rnd_natCast 2 (by norm_num)
  rw [dofNat_eq, h]
  norm_num

theorem pow2_zero : Double.pow2 0 = 1 := by
  rw [pow2_eq]
  norm_num

theorem one_le_pow2 {k : ℤ} (hk : 0 ≤ k) : 1 ≤ Double.pow2 k := by
  rw [← pow2_zero]
  exact pow2_le_pow2 hk

theorem dhalf_eq : (0.5 : Double) = Double.num (1 / 2) := by
  have e : ((1 : ℤ) : ℚ) * Double.pow2 (-1) = 1 / 2 := by
    rw [pow2_eq]
    norm_num
  have h := rnd_exact 1 (-1) (by norm_num) (by norm_num) (by
    rw [e, abs_of_pos (by norm_num)]
    have := one_le_pow2 (show (0 : ℤ) ≤ 1024 by norm_num)
    linarith)
  rw [e] at h
  show Double.round (OfScientific.ofScientific 5 true 1) = _
  have e2 : (OfScientific.ofScientific 5 true 1 : ℚ) = 1 / 2 := by norm_num
  rw [e2, h]

/-- The number `i + 0.5` of the loops, for a whole number `i` below `2^52`. -/
theorem dhalf_step (i : ℕ) (hi : i < 2 ^ 52) :
    Double.round (i : ℚ) + 0.5 = Double.num ((i : ℚ) + 1 / 2) := by
  rw [rnd_natCast i (lt_trans hi (by norm_num)), dhalf_eq, dnum_add]
  have h := rnd_exact (2 * i + 1) (-1) (by
    rw [abs_of_nonneg (by positivity)]
    have : (2 * (i : ℤ) + 1) < 2 * 2 ^ 52 := by
      have : (i : ℤ) < 2 ^ 52 := by exact_mod_cast hi
      omega
    calc (2 * (i : ℤ) + 1) < 2 * 2 ^ 52 := this
      _ = 2 ^ 53 := by norm_num) (by norm_num) (by
    have e : ((2 * (i : ℤ) + 1 : ℤ) : ℚ) * Double.pow2 (-1) = (i : ℚ) + 1 / 2 := by
      rw [pow2_eq]
      push_cast
      norm_num
      ring
    rw [e, abs_of_nonneg (by positivity)]
    have h1 : ((i : ℕ) : ℚ) < 2 ^ 52 := by exact_mod_cast hi
    have h2 : (2 : ℚ) ^ 52 + 1 / 2 ≤ Double.pow2 1024 := by
      have : Double.pow2 53 ≤ Double.pow2 1024 := pow2_le_pow2 (by norm_num)
      rw [pow2_eq 53] at this
      norm_num at this ⊢
      linarith
    linarith)
  have e : ((2 * (i : ℤ) + 1 : ℤ) : ℚ) * Double.pow2 (-1) = (i : ℚ) + 1 / 2 := by
    rw [pow2_eq]
    push_cast
    norm_num
    ring
  rw [e] at h
  exact h

/-! ## Double-precision model: absolute error of the elementary steps -/

theorem pow2_m53 : Double.pow2 (-53) = 1 / 2 ^ 53 := by
  rw [pow2_eq]
  norm_num

theorem pow2_m1075_le : Double.pow2 (-1075) ≤ 1 / 2 ^ 100 := by
  have h : Double.pow2 (-1075) ≤ Double.pow2 (-100) := pow2_le_pow2 (by norm_num)
  have e : Double.pow2 (-100) = 1 / 2 ^ 100 := by
    rw [pow2_eq]
    norm_num
  rw [e] at h
  exact h

theorem le_pow2_1023 : (2 : ℚ) ^ 60 ≤ Double.pow2 1023 := by
  have h : Double.pow2 60 ≤ Double.pow2 1023 := pow2_le_pow2 (by norm_num)
  rw [pow2_eq 60] at h
  exact_mod_cast h

/-- A rational of magnitude at most `M <= 2^60` rounds to a finite double at distance
at most `M / 2^53 + 2^(-100)`. -/
theorem rnd_abs (x M : ℚ) (hM : |x| ≤ M) (hM' : M ≤ 2 ^ 60) :
    ∃ r : ℚ, Double.round x = Double.num r ∧ |r - x| ≤ M / 2 ^ 53 + 1 / 2 ^ 100 := by
  obtain ⟨r, hr, herr, -⟩ := rnd_near x (le_trans hM (le_trans hM' le_pow2_1023))
  refine ⟨r, hr, ?_⟩
  rw [pow2_m53] at herr
  have h1 : 1 / 2 ^ 53 * |x| ≤ M / 2 ^ 53 := by
    rw [div_mul_eq_mul_div, one_mul]
    exact div_le_div_of_nonneg_right hM (by positivity)
  have := pow2_m1075_le
  linarith

/-- The step of a grid of at most 128 cells over a range inside `[-8, 8]`: the double
computed for `(x1 - x0) / n` is within `2^(-47)` of the quotient. -/
theorem step_abs (x0 x1 : ℚ) (n : ℕ) (h0 : |x0| ≤ 8) (h1 : |x1| ≤ 8) (hn1 : 1 ≤ n)
    (hn2 : n ≤ 128) :
    ∃ d : ℚ, (Double.num x1 - Double.num x0) / Double.round (((n : ℕ) : ℤ) : ℚ) = Double.num d ∧
      |d - (x1 - x0) / n| ≤ 1 / 2 ^ 47 ∧ |d| ≤ 17 / n ∧ |(x1 - x0) / n| ≤ 16 / n := by
  have hnq1 : (1 : ℚ) ≤ n := by exact_mod_cast hn1
  have hnq2 : (n : ℚ) ≤ 128 := by exact_mod_cast hn2
  have hnpos : (0 : ℚ) < n := by linarith
  have hΔ : |x1 - x0| ≤ 16 := by
    have := abs_sub x1 x0
    linarith
  obtain ⟨w, hw, hwerr⟩ := rnd_abs (x1 - x0) 16 hΔ (by norm_num)
  have hwabs : |w| ≤ 17 := by
    have e : w = (w - (x1 - x0)) + (x1 - x0) := by ring
    rw [e]
    have := abs_add (w - (x1 - x0)) (x1 - x0)
    have : (16 : ℚ) / 2 ^ 53 + 1 / 2 ^ 100 ≤ 1 := by norm_num
    linarith
  have hwn : |w / n| ≤ 17 := by
    rw [abs_div, abs_of_pos hnpos]
    calc |w| / n ≤ |w| / 1 := div_le_div_of_nonneg_left (abs_nonneg w) (by norm_num) hnq1
      _ = |w| := div_one _
      _ ≤ 17 := hwabs
  obtain ⟨d, hd, hderr⟩ := rnd_abs (w / n) 17 hwn (by norm_num)
  have hquot : |(x1 - x0) / n| ≤ 16 / n := by
    rw [abs_div, abs_of_pos hnpos]
    exact div_le_div_of_nonneg_right hΔ hnpos.le
  have herr : |d - (x1 - x0) / n| ≤ 1 / 2 ^ 47 := by
    have e : d - (x1 - x0) / n = (d - w / n) + (w - (x1 - x0)) / n := by
      field_simp
    rw [e]
    have h2 := abs_add (d - w / n) ((w - (x1 - x0)) / n)
    have h3 : |(w - (x1 - x0)) / n| ≤ |w - (x1 - x0)| := by
      rw [abs_div, abs_of_pos hnpos]
      calc |w - (x1 - x0)| / n ≤ |w - (x1 - x0)| / 1 :=
            div_le_div_of_nonneg_left (abs_nonneg _) (by norm_num) hnq1
        _ = _ := div_one _
    have : (17 : ℚ) / 2 ^ 53 + 1 / 2 ^ 100 + (16 / 2 ^ 53 + 1 / 2 ^ 100) ≤ 1 / 2 ^ 47 := by
      norm_num
    linarith
  refine ⟨d, ?_, herr, ?_, hquot⟩
  · rw [dnum_sub, hw, Int.cast_natCast, rnd_natCast n (lt_of_le_of_lt hn2 (by norm_num)),
      dnum_div _ _ hnpos.ne', hd]
  · have e : d = (d - (x1 - x0) / n) + (x1 - x0) / n := by ring
    rw [e]
    have h2 := abs_add (d - (x1 - x0) / n) ((x1 - x0) / n)
    have h3 : (1 : ℚ) / 2 ^ 47 ≤ 1 / n := by
      rw [div_le_div_iff₀ (by positivity) hnpos]
      norm_num
      linarith
    have h4 : (17 : ℚ) / n = 1 / n + 16 / n := by ring
    linarith

/-- A sample point of the grid: the double computed for `x0 + (i + 0.5) * dx` is within
`2^(-38)` of the midpoint of the cell. -/
theorem midpoint_abs (x0 x1 d : ℚ) (n i : ℕ) (h0 : |x0| ≤ 8) (h1 : |x1| ≤ 8) (hn1 : 1 ≤ n)
    (hn2 : n ≤ 128) (hi : i < n) (hd : |d - (x1 - x0) / n| ≤ 1 / 2 ^ 47) (hd2 : |d| ≤ 17 / n) :
    ∃ ξ : ℚ, Double.num x0 + (Double.round (i : ℚ) + 0.5) * Double.num d = Double.num ξ ∧
      |ξ - (x0 + ((i : ℚ) + 1 / 2) * ((x1 - x0) / n))| ≤ 1 / 2 ^ 38 ∧
      |x0 + ((i : ℚ) + 1 / 2) * ((x1 - x0) / n)| ≤ 8 := by
  have hnq1 : (1 : ℚ) ≤ n := by exact_mod_cast hn1
  have hnq2 : (n : ℚ) ≤ 128 := by exact_mod_cast hn2
  have hnpos : (0 : ℚ) < n := by linarith
  have hiq : (i : ℚ) + 1 ≤ n := by exact_mod_cast hi
  have hi0 : (0 : ℚ) ≤ i := Nat.cast_nonneg i
  have hh : |(i : ℚ) + 1 / 2| ≤ n := by
    rw [abs_of_nonneg (by linarith)]
    linarith
  have hprod : |((i : ℚ) + 1 / 2) * d| ≤ 17 := by
    rw [abs_mul]
    calc |(i : ℚ) + 1 / 2| * |d| ≤ n * (17 / n) :=
          mul_le_mul hh hd2 (abs_nonneg d) hnpos.le
      _ = 17 := by field_simp
  obtain ⟨p, hp, hperr⟩ := rnd_abs (((i : ℚ) + 1 / 2) * d) 17 hprod (by norm_num)
  have hpabs : |p| ≤ 18 := by
    have e : p = (p - ((i : ℚ) + 1 / 2) * d) + ((i : ℚ) + 1 / 2) * d := by ring
    rw [e]
    have := abs_add (p - ((i : ℚ) + 1 / 2) * d) (((i : ℚ) + 1 / 2) * d)
    have : (17 : ℚ) / 2 ^ 53 + 1 / 2 ^ 100 ≤ 1 := by norm_num
    linarith
  have hsum : |x0 + p| ≤ 26 := by
    have := abs_add x0 p
    linarith
  obtain ⟨ξ, hξ, hξerr⟩ := rnd_abs (x0 + p) 26 hsum (by norm_num)
  have hdiff : |((i : ℚ) + 1 / 2) * d - ((i : ℚ) + 1 / 2) * ((x1 - x0) / n)| ≤ 1 / 2 ^ 40 := by
    rw [← mul_sub, abs_mul]
    calc |(i : ℚ) + 1 / 2| * |d - (x1 - x0) / n| ≤ 128 * (1 / 2 ^ 47) :=
          mul_le_mul (le_trans hh hnq2) hd (abs_nonneg _) (by norm_num)
      _ = 1 / 2 ^ 40 := by norm_num
  refine ⟨ξ, ?_, ?_, ?_⟩
  · rw [dhalf_step i (lt_of_lt_of_le hi (le_trans hn2 (by norm_num))), dnum_mul, hp, dnum_add, hξ]
  · have e : ξ - (x0 + ((i : ℚ) + 1 / 2) * ((x1 - x0) / n)) =
        (ξ - (x0 + p)) + (p - ((i : ℚ) + 1 / 2) * d) +
          (((i : ℚ) + 1 / 2) * d - ((i : ℚ) + 1 / 2) * ((x1 - x0) / n)) := by ring
    rw [e]
    have h2 := abs_add ((ξ - (x0 + p)) + (p - ((i : ℚ) + 1 / 2) * d))
      (((i : ℚ) + 1 / 2) * d - ((i : ℚ) + 1 / 2) * ((x1 - x0) / n))
    have h3 := abs_add (ξ - (x0 + p)) (p - ((i : ℚ) + 1 / 2) * d)
    have : (26 : ℚ) / 2 ^ 53 + 1 / 2 ^ 100 + (17 / 2 ^ 53 + 1 / 2 ^ 100) + 1 / 2 ^ 40
        ≤ 1 / 2 ^ 38 := by norm_num
    linarith
  · have e : x0 + ((i : ℚ) + 1 / 2) * ((x1 - x0) / n) =
        (1 - ((i : ℚ) + 1 / 2) / n) * x0 + (((i : ℚ) + 1 / 2) / n) * x1 := by
      field_simp
      ring
    rw [e]
    have ht0 : 0 ≤ ((i : ℚ) + 1 / 2) / n := div_nonneg (by linarith) hnpos.le
    have ht1 : ((i : ℚ) + 1 / 2) / n ≤ 1 := by
      rw [div_le_one hnpos]
      linarith
    have h2 := abs_add ((1 - ((i : ℚ) + 1 / 2) / n) * x0) ((((i : ℚ) + 1 / 2) / n) * x1)
    rw [abs_mul, abs_mul, abs_of_nonneg ht0, abs_of_nonneg (by linarith : 0 ≤ 1 - ((i : ℚ) + 1 / 2) / n)] at h2
    have h3 : (1 - ((i : ℚ) + 1 / 2) / n) * |x0| ≤ (1 - ((i : ℚ) + 1 / 2) / n) * 8 :=
      mul_le_mul_of_nonneg_left h0 (by linarith)
    have h4 : ((i : ℚ) + 1 / 2) / n * |x1| ≤ ((i : ℚ) + 1 / 2) / n * 8 :=
      mul_le_mul_of_nonneg_left h1 ht0
    linarith

/-- The term that a cell adds: the double computed for `val * dx * dy`, for a value of
magnitude at most `V <= 1024` and steps of grids of at most 128 cells inside `[-8, 8]`
(`a = 1/nx`, `b = 1/ny`). -/
theorem term_abs (v d e dx dy a b V : ℚ) (hV : V ≤ 1024) (hv : |v| ≤ V)
    (ha1 : 1 / 128 ≤ a) (ha2 : a ≤ 1) (hb1 : 1 / 128 ≤ b) (hb2 : b ≤ 1)
    (hd : |d| ≤ 17 * a) (hdd : |d - dx| ≤ 1 / 2 ^ 47) (hdx : |dx| ≤ 16 * a)
    (he : |e| ≤ 17 * b) (hee : |e - dy| ≤ 1 / 2 ^ 47) :
    ∃ τ : ℚ, Double.num v * Double.num d * Double.num e = Double.num τ ∧
      |τ| ≤ (V + 1) * (17 * a) * (17 * b) ∧
      |τ - v * dx * dy| ≤ 1 / 2 ^ 33 * (a * b) + 1 / 2 ^ 32 * b + 1 / 2 ^ 33 * a := by
  have hV0 : 0 ≤ V := le_trans (abs_nonneg v) hv
  have ha0 : 0 < a := by linarith
  have hb0 : 0 < b := by linarith
  have hab : 0 < a * b := mul_pos ha0 hb0
  have hab1 : 1 / 128 * (1 / 128) ≤ a * b := mul_le_mul ha1 hb1 (by norm_num) ha0.le
  have hVa : V * a ≤ 1024 * a := mul_le_mul_of_nonneg_right hV ha0.le
  have hvd : |v * d| ≤ 17 * (V * a) := by
    rw [abs_mul]
    calc |v| * |d| ≤ V * (17 * a) := mul_le_mul hv hd (abs_nonneg d) hV0
      _ = 17 * (V * a) := by ring
  obtain ⟨p, hp, hperr⟩ := rnd_abs (v * d) (17 * (V * a)) hvd (by
    have : (17 : ℚ) * (1024 * a) ≤ 17 * (1024 * 1) := by linarith
    linarith)
  have hpabs : |p| ≤ (V + 1 / 2) * (17 * a) := by
    have e1 : p = (p - v * d) + v * d := by ring
    rw [e1]
    have h1 := abs_add (p - v * d) (v * d)
    have h2 : 17 * (V * a) / 2 ^ 53 + 1 / 2 ^ 100 ≤ 1 / 2 * (17 * a) := by
      have : 17 * (V * a) / 2 ^ 53 ≤ 17 * (1024 * a) / 2 ^ 53 :=
        div_le_div_of_nonneg_right (by linarith) (by positivity)
      linarith
    linarith
  have hpe : |p * e| ≤ (V + 1 / 2) * (17 * a) * (17 * b) := by
    rw [abs_mul]
    exact mul_le_mul hpabs he (abs_nonneg e) (by positivity)
  have hVab : V * (a * b) ≤ 1024 * (a * b) := mul_le_mul_of_nonneg_right hV hab.le
  have hab2 : a * b ≤ 1 := by nlinarith
  obtain ⟨τ, hτ, hτerr⟩ := rnd_abs (p * e) ((V + 1 / 2) * (17 * a) * (17 * b)) hpe (by
    have e1 : (V + 1 / 2) * (17 * a) * (17 * b) = 289 * (V * (a * b)) + 289 / 2 * (a * b) := by
      ring
    rw [e1]
    norm_num
    linarith)
  have hround : (V + 1 / 2) * (17 * a) * (17 * b) / 2 ^ 53 + 1 / 2 ^ 100 ≤
      1 / 2 ^ 34 * (a * b) := by
    have e1 : (V + 1 / 2) * (17 * a) * (17 * b) / 2 ^ 53 =
        (289 * (V * (a * b)) + 289 / 2 * (a * b)) / 2 ^ 53 := by ring
    rw [e1]
    have h3 : (289 * (V * (a * b)) + 289 / 2 * (a * b)) / 2 ^ 53 ≤
        (289 * (1024 * (a * b)) + 289 / 2 * (a * b)) / 2 ^ 53 :=
      div_le_div_of_nonneg_right (by linarith) (by positivity)
    linarith
  refine ⟨τ, ?_, ?_, ?_⟩
  · rw [dnum_mul, hp, dnum_mul, hτ]
  · have e1 : τ = (τ - p * e) + p * e := by ring
    rw [e1]
    have h1 := abs_add (τ - p * e) (p * e)
    have e2 : (V + 1) * (17 * a) * (17 * b) =
        (V + 1 / 2) * (17 * a) * (17 * b) + 289 / 2 * (a * b) := by ring
    rw [e2]
    linarith
  · have e1 : τ - v * dx * dy =
        (τ - p * e) + (p - v * d) * e + v * (d - dx) * e + v * dx * (e - dy) := by ring
    rw [e1]
    have t1 : |(p - v * d) * e| ≤ 1 / 2 ^ 34 * (a * b) := by
      rw [abs_mul]
      calc |p - v * d| * |e| ≤ (17 * (V * a) / 2 ^ 53 + 1 / 2 ^ 100) * (17 * b) :=
            mul_le_mul hperr he (abs_nonneg e) (by positivity)
        _ ≤ (17 * (1024 * a) / 2 ^ 53 + 1 / 2 ^ 100) * (17 * b) := by
            apply mul_le_mul_of_nonneg_right _ (by positivity)
            have : 17 * (V * a) / 2 ^ 53 ≤ 17 * (1024 * a) / 2 ^ 53 :=
              div_le_div_of_nonneg_right (by linarith) (by positivity)
            linarith
        _ ≤ 1 / 2 ^ 34 * (a * b) := by nlinarith
    have t2 : |v * (d - dx) * e| ≤ 1 / 2 ^ 32 * b := by
      rw [abs_mul, abs_mul]
      calc |v| * |d - dx| * |e| ≤ 1024 * (1 / 2 ^ 47) * (17 * b) := by
            apply mul_le_mul _ he (abs_nonneg e) (by norm_num)
            exact mul_le_mul (le_trans hv hV) hdd (abs_nonneg _) (by norm_num)
        _ ≤ 1 / 2 ^ 32 * b := by nlinarith
    have t3 : |v * dx * (e - dy)| ≤ 1 / 2 ^ 33 * a := by
      rw [abs_mul, abs_mul]
      calc |v| * |dx| * |e - dy| ≤ 1024 * (16 * a) * (1 / 2 ^ 47) := by
            apply mul_le_mul _ hee (abs_nonneg _) (by positivity)
            exact mul_le_mul (le_trans hv hV) hdx (abs_nonneg _) (by norm_num)
        _ = 1 / 2 ^ 33 * a := by ring
    have h1 := abs_add ((τ - p * e) + (p - v * d) * e + v * (d - dx) * e) (v * dx * (e - dy))
    have h2 := abs_add ((τ - p * e) + (p - v * d) * e) (v * (d - dx) * e)
    have h3 := abs_add (τ - p * e) ((p - v * d) * e)
    linarith

/-- Absolute error of the double-precision midpoint sum: for bounds inside `[-8, 8]`, at
most 128 x 128 cells and an evaluator that, near every cell midpoint, returns a finite
value of magnitude at most `V <= 1024` within `ε` of the cell value `g i j`, the
estimator returns a finite number within `256 ε + (V + 1) / 2^30 + 2^(-24)` of the exact
midpoint sum of `g`. -/
theorem integral_abs (expression : Double.Expression) (g : ℕ → ℕ → ℚ)
    (x0 x1 y0 y1 V ε : ℚ) (nx ny : ℕ)
    (hx0 : |x0| ≤ 8) (hx1 : |x1| ≤ 8) (hy0 : |y0| ≤ 8) (hy1 : |y1| ≤ 8)
    (hnx1 : 1 ≤ nx) (hnx2 : nx ≤ 128) (hny1 : 1 ≤ ny) (hny2 : ny ≤ 128)
    (hV0 : 0 ≤ V) (hV : V ≤ 1024) (hε : 0 ≤ ε)
    (hcell : ∀ i < nx, ∀ j < ny, ∀ ξ ζ : ℚ,
      |ξ - (x0 + ((i : ℚ) + 1 / 2) * ((x1 - x0) / nx))| ≤ 1 / 2 ^ 38 →
      |ζ - (y0 + ((j : ℚ) + 1 / 2) * ((y1 - y0) / ny))| ≤ 1 / 2 ^ 38 →
      ∃ v : ℚ, expression.eval (Double.num ξ) (Double.num ζ) = Double.num v ∧ |v| ≤ V ∧
        |v - g i j| ≤ ε) :
    ∃ r : ℚ,
      Double.numericDoubleIntegralRect expression (Double.num x0) (Double.num x1)
        (Double.num y0) (Double.num y1) nx ny = Double.num r ∧
      |r - ∑ j ∈ Finset.range ny, ∑ i ∈ Finset.range nx,
          g i j * ((x1 - x0) / nx) * ((y1 - y0) / ny)| ≤
        256 * ε + (V + 1) / 2 ^ 30 + 1 / 2 ^ 24 := by
  have hn1 : (1 : ℚ) ≤ nx := by exact_mod_cast hnx1
  have hn2 : (nx : ℚ) ≤ 128 := by exact_mod_cast hnx2
  have hm1 : (1 : ℚ) ≤ ny := by exact_mod_cast hny1
  have hm2 : (ny : ℚ) ≤ 128 := by exact_mod_cast hny2
  have hnpos : (0 : ℚ) < nx := by linarith
  have hmpos : (0 : ℚ) < ny := by linarith
  obtain ⟨a, ha⟩ : ∃ a : ℚ, a = 1 / nx := ⟨_, rfl⟩
  obtain ⟨b, hb⟩ : ∃ b : ℚ, b = 1 / ny := ⟨_, rfl⟩
  have ha1 : 1 / 128 ≤ a := by
    rw [ha, div_le_div_iff₀ (by norm_num) hnpos]
    linarith
  have ha2 : a ≤ 1 := by
    rw [ha, div_le_one hnpos]
    exact hn1
  have hb1 : 1 / 128 ≤ b := by
    rw [hb, div_le_div_iff₀ (by norm_num) hmpos]
    linarith
  have hb2 : b ≤ 1 := by
    rw [hb, div_le_one hmpos]
    exact hm1
  have hna : (nx : ℚ) * a = 1 := by rw [ha]; field_simp
  have hmb : (ny : ℚ) * b = 1 := by rw [hb]; field_simp
  obtain ⟨d, hd, hdd, hd2, hdx⟩ := step_abs x0 x1 nx hx0 hx1 hnx1 hnx2
  obtain ⟨e, he, hee, he2, hdy⟩ := step_abs y0 y1 ny hy0 hy1 hny1 hny2
  have e17a : (17 : ℚ) / nx = 17 * a := by rw [ha]; ring
  have e16a : (16 : ℚ) / nx = 16 * a := by rw [ha]; ring
  have e17b : (17 : ℚ) / ny = 17 * b := by rw [hb]; ring
  have e16b : (16 : ℚ) / ny = 16 * b := by rw [hb]; ring
  -- the cells
  have hcells : ∀ i j : ℕ, i < nx → j < ny → ∃ τ : ℚ,
      (∀ s : ℚ,
        (if (Double.evaluateLocalAtPoint expression
              (Double.num x0 + (Double.round (i : ℚ) + 0.5) * Double.num d)
              (Double.num y0 + (Double.round (j : ℚ) + 0.5) * Double.num e)).isFinite = true
          then Double.num s +
            Double.evaluateLocalAtPoint expression
              (Double.num x0 + (Double.round (i : ℚ) + 0.5) * Double.num d)
              (Double.num y0 + (Double.round (j : ℚ) + 0.5) * Double.num e) *
              Double.num d * Double.num e
          else Double.num s) = Double.round (s + τ)) ∧
      |τ| ≤ (V + 1) * (17 * a) * (17 * b) ∧
      |τ - g i j * ((x1 - x0) / nx) * ((y1 - y0) / ny)| ≤
        1 / 2 ^ 33 * (a * b) + 1 / 2 ^ 32 * b + 1 / 2 ^ 33 * a + ε * (256 * (a * b)) := by
    intro i j hi hj
    obtain ⟨ξ, hξ, hξerr, -⟩ := midpoint_abs x0 x1 d nx i hx0 hx1 hnx1 hnx2 hi hdd hd2
    obtain ⟨ζ, hζ, hζerr, -⟩ := midpoint_abs y0 y1 e ny j hy0 hy1 hny1 hny2 hj hee he2
    obtain ⟨v, hv, hvV, hvg⟩ := hcell i hi j hj ξ ζ hξerr hζerr
    rw [e17a] at hd2
    rw [e16a] at hdx
    rw [e17b] at he2
    obtain ⟨τ, hτ, hτabs, hτerr⟩ := term_abs v d e ((x1 - x0) / nx) ((y1 - y0) / ny) a b V hV hvV
      ha1 ha2 hb1 hb2 hd2 hdd hdx he2 hee
    have hval : Double.evaluateLocalAtPoint expression
        (Double.num x0 + (Double.round (i : ℚ) + 0.5) * Double.num d)
        (Double.num y0 + (Double.round (j : ℚ) + 0.5) * Double.num e) = Double.num v := by
      unfold Double.evaluateLocalAtPoint
      rw [hξ, hζ, hv]
      rfl
    refine ⟨τ, ?_, hτabs, ?_⟩
    · intro s
      rw [hval, if_pos (dnum_isFinite v), hτ, dnum_add]
    · have e1 : τ - g i j * ((x1 - x0) / nx) * ((y1 - y0) / ny) =
          (τ - v * ((x1 - x0) / nx) * ((y1 - y0) / ny)) +
            (v - g i j) * (((x1 - x0) / nx) * ((y1 - y0) / ny)) := by ring
      rw [e1]
      have h1 := abs_add (τ - v * ((x1 - x0) / nx) * ((y1 - y0) / ny))
        ((v - g i j) * (((x1 - x0) / nx) * ((y1 - y0) / ny)))
      have h2 : |(v - g i j) * (((x1 - x0) / nx) * ((y1 - y0) / ny))| ≤ ε * (256 * (a * b)) := by
        rw [abs_mul, abs_mul]
        rw [e16b] at hdy
        calc |v - g i j| * (|(x1 - x0) / nx| * |(y1 - y0) / ny|)
            ≤ ε * ((16 * a) * (16 * b)) := by
              apply mul_le_mul hvg _ (by positivity) hε
              exact mul_le_mul hdx hdy (abs_nonneg _) (by positivity)
          _ = ε * (256 * (a * b)) := by ring
      linarith
  choose! τ hτ using hcells
  have hN : ((nx * ny : ℕ) : ℚ) = nx * ny := by push_cast; ring
  have hNle : (nx : ℚ) * ny ≤ 128 * 128 := mul_le_mul hn2 hm2 (by linarith) (by norm_num)
  have hNpos : (0 : ℚ) < nx * ny := mul_pos hnpos hmpos
  have hNab : (nx : ℚ) * ny * (a * b) = 1 := by
    calc (nx : ℚ) * ny * (a * b) = (nx * a) * (ny * b) := by ring
      _ = 1 := by rw [hna, hmb]; norm_num
  have hT : (nx : ℚ) * ny * ((V + 1) * (17 * a) * (17 * b)) = 289 * (V + 1) := by
    calc (nx : ℚ) * ny * ((V + 1) * (17 * a) * (17 * b)) =
          289 * (V + 1) * (nx * ny * (a * b)) := by ring
      _ = 289 * (V + 1) := by rw [hNab]; ring
  have hTpos : 0 ≤ (V + 1) * (17 * a) * (17 * b) := by
    have : 0 < a := by linarith
    have : 0 < b := by linarith
    positivity
  have hu := pow2_m53
  have hη := pow2_m1075_le
  have hη0 : 0 ≤ Double.pow2 (-1075) := (pow2_pos _).le
  obtain ⟨r, hr, hrerr⟩ := grid_sum_loop
    (fun s i j =>
      if (Double.evaluateLocalAtPoint expression
            (Double.num x0 + (Double.round (i : ℚ) + 0.5) * Double.num d)
            (Double.num y0 + (Double.round (j : ℚ) + 0.5) * Double.num e)).isFinite = true
        then s +
          Double.evaluateLocalAtPoint expression
            (Double.num x0 + (Double.round (i : ℚ) + 0.5) * Double.num d)
            (Double.num y0 + (Double.round (j : ℚ) + 0.5) * Double.num e) *
            Double.num d * Double.num e
        else s)
    τ ((V + 1) * (17 * a) * (17 * b)) nx ny hTpos
    (by
      rw [hN, hu]
      have h1 : (2 : ℚ) * (128 * 128) * (1 / 2 ^ 53) ≤ 1 := by norm_num
      have h2 : 2 * ((nx : ℚ) * ny) * (1 / 2 ^ 53) ≤ 2 * (128 * 128) * (1 / 2 ^ 53) :=
        mul_le_mul_of_nonneg_right (by linarith) (by norm_num)
      linarith)
    (by
      rw [hN]
      have h1 : (2 * ((nx : ℚ) * ny) + 1) * ((V + 1) * (17 * a) * (17 * b)) ≤
          3 * (289 * (V + 1)) := by
        rw [← hT]
        have h0 : (1 : ℚ) ≤ nx * ny := one_le_mul_of_one_le_of_one_le hn1 hm1
        have h3 : (2 * ((nx : ℚ) * ny) + 1) * ((V + 1) * (17 * a) * (17 * b)) ≤
            (3 * ((nx : ℚ) * ny)) * ((V + 1) * (17 * a) * (17 * b)) :=
          mul_le_mul_of_nonneg_right (by linarith) hTpos
        linarith
      have h2 : 2 * ((nx : ℚ) * ny) * Double.pow2 (-1075) ≤ 2 * (128 * 128) * (1 / 2 ^ 100) :=
        mul_le_mul (by linarith) hη hη0 (by norm_num)
      have h3 : 3 * (289 * (V + 1)) + 2 * (128 * 128) * (1 / 2 ^ 100) ≤ (2 : ℚ) ^ 60 := by
        norm_num
        linarith
      exact le_trans (by linarith) le_pow2_1023)
    (fun i hi j hj s => (hτ i j hi hj).1 s) (fun i hi j hj => (hτ i j hi hj).2.1)
  refine ⟨r, ?_, ?_⟩
  · unfold Double.numericDoubleIntegralRect
    simp only [Int.toNat_ofNat]
    rw [hd, he, dzero_eq]
    exact hr
  · have hsum : |∑ j ∈ Finset.range ny, ∑ i ∈ Finset.range nx, τ i j -
        ∑ j ∈ Finset.range ny, ∑ i ∈ Finset.range nx,
          g i j * ((x1 - x0) / nx) * ((y1 - y0) / ny)| ≤
        (nx : ℚ) * ny * (1 / 2 ^ 33 * (a * b) + 1 / 2 ^ 32 * b + 1 / 2 ^ 33 * a +
          ε * (256 * (a * b))) := by
      rw [← Finset.sum_sub_distrib]
      refine le_trans (Finset.abs_sum_le_sum_abs _ _) ?_
      have hrow : ∀ j ∈ Finset.range ny,
          |∑ i ∈ Finset.range nx, τ i j -
            ∑ i ∈ Finset.range nx, g i j * ((x1 - x0) / nx) * ((y1 - y0) / ny)| ≤
          (nx : ℚ) * (1 / 2 ^ 33 * (a * b) + 1 / 2 ^ 32 * b + 1 / 2 ^ 33 * a +
            ε * (256 * (a * b))) := by
        intro j hj
        rw [← Finset.sum_sub_distrib]
        refine le_trans (Finset.abs_sum_le_sum_abs _ _) ?_
        refine le_trans (Finset.sum_le_card_nsmul _ _ _
          (fun i hi => (hτ i j (Finset.mem_range.1 hi) (Finset.mem_range.1 hj)).2.2)) ?_
        rw [Finset.card_range, nsmul_eq_mul]
      refine le_trans (Finset.sum_le_card_nsmul _ _ _ hrow) ?_
      rw [Finset.card_range, nsmul_eq_mul]
      apply le_of_eq
      ring
    have hexp : (nx : ℚ) * ny * (1 / 2 ^ 33 * (a * b) + 1 / 2 ^ 32 * b + 1 / 2 ^ 33 * a +
          ε * (256 * (a * b))) =
        1 / 2 ^ 33 + 1 / 2 ^ 32 * nx + 1 / 2 ^ 33 * ny + 256 * ε := by
      calc (nx : ℚ) * ny * (1 / 2 ^ 33 * (a * b) + 1 / 2 ^ 32 * b + 1 / 2 ^ 33 * a +
            ε * (256 * (a * b)))
          = 1 / 2 ^ 33 * (nx * ny * (a * b)) + 1 / 2 ^ 32 * nx * (ny * b) +
              1 / 2 ^ 33 * ny * (nx * a) + 256 * ε * (nx * ny * (a * b)) := by ring
        _ = _ := by rw [hNab, hna, hmb]; ring
    rw [hexp] at hsum
    rw [hN, hu] at hrerr
    have hE : (nx : ℚ) * ny * (nx * ny + 1) * (1 / 2 ^ 53) * ((V + 1) * (17 * a) * (17 * b)) =
        (nx * ny + 1) * (1 / 2 ^ 53) * (289 * (V + 1)) := by
      rw [← hT]
      ring
    rw [hE] at hrerr
    have hE2 : ((nx : ℚ) * ny + 1) * (1 / 2 ^ 53) * (289 * (V + 1)) ≤ (V + 1) / 2 ^ 30 := by
      have h5 : ((nx : ℚ) * ny + 1) * (1 / 2 ^ 53) * 289 ≤ 1 / 2 ^ 30 := by
        have : ((nx : ℚ) * ny + 1) * (1 / 2 ^ 53) * 289 ≤ (128 * 128 + 1) * (1 / 2 ^ 53) * 289 :=
          mul_le_mul_of_nonneg_right (mul_le_mul_of_nonneg_right (by linarith) (by norm_num))
            (by norm_num)
        have : ((128 : ℚ) * 128 + 1) * (1 / 2 ^ 53) * 289 ≤ 1 / 2 ^ 30 := by norm_num
        linarith
      have h6 := mul_le_mul_of_nonneg_right h5 (by linarith : (0 : ℚ) ≤ V + 1)
      calc ((nx : ℚ) * ny + 1) * (1 / 2 ^ 53) * (289 * (V + 1))
          = ((nx : ℚ) * ny + 1) * (1 / 2 ^ 53) * 289 * (V + 1) := by ring
        _ ≤ 1 / 2 ^ 30 * (V + 1) := h6
        _ = (V + 1) / 2 ^ 30 := by ring
    have hE3 : 2 * ((nx : ℚ) * ny) * Double.pow2 (-1075) ≤ 2 * (128 * 128) * (1 / 2 ^ 100) :=
      mul_le_mul (by linarith) hη hη0 (by norm_num)
    have e1 : r - ∑ j ∈ Finset.range ny, ∑ i ∈ Finset.range nx,
          g i j * ((x1 - x0) / nx) * ((y1 - y0) / ny) =
        (r - ∑ j ∈ Finset.range ny, ∑ i ∈ Finset.range nx, τ i j) +
          (∑ j ∈ Finset.range ny, ∑ i ∈ Finset.range nx, τ i j -
            ∑ j ∈ Finset.range ny, ∑ i ∈ Finset.range nx,
              g i j * ((x1 - x0) / nx) * ((y1 - y0) / ny)) := by ring
    rw [e1]
    have h1 := abs_add (r - ∑ j ∈ Finset.range ny, ∑ i ∈ Finset.range nx, τ i j)
      (∑ j ∈ Finset.range ny, ∑ i ∈ Finset.range nx, τ i j -
        ∑ j ∈ Finset.range ny, ∑ i ∈ Finset.range nx,
          g i j * ((x1 - x0) / nx) * ((y1 - y0) / ny))
    have hnum : (2 : ℚ) * (128 * 128) * (1 / 2 ^ 100) +
        (1 / 2 ^ 33 + 1 / 2 ^ 32 * 128 + 1 / 2 ^ 33 * 128) ≤ 1 / 2 ^ 24 := by norm_num
    linarith

/-! ## Double-precision model: rounding is monotone -/

/-- A finite rounded value of a non-zero rational is its multiple of the quantum. -/
theorem rnd_eq_raw (x a : ℚ) (hx : x ≠ 0) (h : Double.round x = Double.num a) :
    a = ((Double.roundHalfEven (x / Double.quantum x) : ℤ) : ℚ) * Double.quantum x := by
  rcases (rnd_cases x hx).2 with h1 | ⟨-, h1⟩
  · rw [h1] at h
    exact (Double.num.inj h).symm
  · rw [h1] at h
    exact absurd h (by simp)

theorem raw_nonneg (x : ℚ) (hx : 0 ≤ x) :
    0 ≤ ((Double.roundHalfEven (x / Double.quantum x) : ℤ) : ℚ) * Double.quantum x := by
  have h1 : (0 : ℚ) ≤ x / Double.quantum x := div_nonneg hx (quantum_pos x).le
  have h2 := roundHalfEven_mono h1
  have h3 : Double.roundHalfEven 0 = 0 := by
    have := roundHalfEven_intCast 0
    simpa using this
  rw [h3] at h2
  exact mul_nonneg (by exact_mod_cast h2) (quantum_pos x).le

theorem raw_neg (x : ℚ) :
    ((Double.roundHalfEven (-x / Double.quantum (-x)) : ℤ) : ℚ) * Double.quantum (-x) =
      -(((Double.roundHalfEven (x / Double.quantum x) : ℤ) : ℚ) * Double.quantum x) := by
  rw [quantum_neg, neg_div, roundHalfEven_neg, Int.cast_neg, neg_mul]

theorem floorLog2_mono (x y : ℚ) (hx : 0 < x) (h : x ≤ y) :
    Double.floorLog2 x ≤ Double.floorLog2 y := by
  have hy : 0 < y := lt_of_lt_of_le hx h
  obtain ⟨g1, -⟩ := floorLog2_spec x hx.ne'
  obtain ⟨-, k2⟩ := floorLog2_spec y hy.ne'
  rw [abs_of_pos hx] at g1
  rw [abs_of_pos hy] at k2
  have := pow2_lt_pow2_iff.1 (lt_of_le_of_lt (le_trans g1 h) k2)
  omega

theorem pow2_div (a b : ℤ) : Double.pow2 a / Double.pow2 b = Double.pow2 (a - b) := by
  rw [pow2_eq, pow2_eq, pow2_eq, zpow_sub₀ (by norm_num)]

theorem raw_mono_pos (x y : ℚ) (hx : 0 < x) (h : x ≤ y) :
    ((Double.roundHalfEven (x / Double.quantum x) : ℤ) : ℚ) * Double.quantum x ≤
      ((Double.roundHalfEven (y / Double.quantum y) : ℤ) : ℚ) * Double.quantum y := by
  have hy : 0 < y := lt_of_lt_of_le hx h
  have hf := floorLog2_mono x y hx h
  obtain ⟨g1, g2⟩ := floorLog2_spec x hx.ne'
  obtain ⟨k1, k2⟩ := floorLog2_spec y hy.ne'
  rw [abs_of_pos hx] at g1 g2
  rw [abs_of_pos hy] at k1 k2
  by_cases he : max (Double.floorLog2 x) (-1022) = max (Double.floorLog2 y) (-1022)
  · have hq : Double.quantum x = Double.quantum y := by
      unfold Double.quantum
      rw [he]
    rw [hq]
    have h1 : x / Double.quantum y ≤ y / Double.quantum y :=
      div_le_div_of_nonneg_right h (quantum_pos y).le
    have h2 := roundHalfEven_mono h1
    exact mul_le_mul_of_nonneg_right (by exact_mod_cast h2) (quantum_pos y).le
  · have hlt : max (Double.floorLog2 x) (-1022) < max (Double.floorLog2 y) (-1022) := by
      rcases lt_or_gt_of_ne he with h1 | h1
      · exact h1
      · exfalso
        have := max_le_max hf (le_refl (-1022 : ℤ))
        omega
    set ex := max (Double.floorLog2 x) (-1022) with hex
    set ey := max (Double.floorLog2 y) (-1022) with hey
    have hey2 : ey = Double.floorLog2 y := by
      rcases le_total (Double.floorLog2 y) (-1022) with h1 | h1
      · exfalso
        rw [hey, max_eq_right h1] at hlt
        have : (-1022 : ℤ) ≤ ex := le_max_right _ _
        omega
      · rw [hey, max_eq_left h1]
    have hqx : Double.quantum x = Double.pow2 (ex - 52) := rfl
    have hqy : Double.quantum y = Double.pow2 (ey - 52) := rfl
    have hup : ((Double.roundHalfEven (x / Double.quantum x) : ℤ) : ℚ) * Double.quantum x ≤
        Double.pow2 (ex + 1) := by
      have h1 : x ≤ Double.pow2 (ex + 1) := by
        have : Double.floorLog2 x + 1 ≤ ex + 1 := by
          have : Double.floorLog2 x ≤ ex := le_max_left _ _
          omega
        exact le_trans g2.le (pow2_le_pow2 this)
      have h2 : x / Double.quantum x ≤ ((2 ^ 53 : ℤ) : ℚ) := by
        rw [hqx, div_le_iff₀ (pow2_pos _)]
        have e : ((2 ^ 53 : ℤ) : ℚ) * Double.pow2 (ex - 52) = Double.pow2 (ex + 1) := by
          have : ((2 ^ 53 : ℤ) : ℚ) = Double.pow2 53 := by
            rw [pow2_eq]
            norm_num
          rw [this, ← pow2_add]
          congr 1
          ring
        rw [e]
        exact h1
      have h3 := roundHalfEven_mono h2
      rw [roundHalfEven_intCast] at h3
      have e : Double.pow2 (ex + 1) = ((2 ^ 53 : ℤ) : ℚ) * Double.quantum x := by
        have : ((2 ^ 53 : ℤ) : ℚ) = Double.pow2 53 := by
          rw [pow2_eq]
          norm_num
        rw [hqx, this, ← pow2_add]
        congr 1
        ring
      rw [e]
      exact mul_le_mul_of_nonneg_right (by exact_mod_cast h3) (quantum_pos x).le
    have hlo : Double.pow2 ey ≤
        ((Double.roundHalfEven (y / Double.quantum y) : ℤ) : ℚ) * Double.quantum y := by
      have h1 : Double.pow2 ey ≤ y := by
        rw [hey2]
        exact k1
      have h2 : ((2 ^ 52 : ℤ) : ℚ) ≤ y / Double.quantum y := by
        rw [hqy, le_div_iff₀ (pow2_pos _)]
        have e : ((2 ^ 52 : ℤ) : ℚ) * Double.pow2 (ey - 52) = Double.pow2 ey := by
          have : ((2 ^ 52 : ℤ) : ℚ) = Double.pow2 52 := by
            rw [pow2_eq]
            norm_num
          rw [this, ← pow2_add]
          congr 1
          ring
        rw [e]
        exact h1
      have h3 := roundHalfEven_mono h2
      rw [roundHalfEven_intCast] at h3
      have e : Double.pow2 ey = ((2 ^ 52 : ℤ) : ℚ) * Double.quantum y := by
        have : ((2 ^ 52 : ℤ) : ℚ) = Double.pow2 52 := by
          rw [pow2_eq]
          norm_num
        rw [hqy, this, ← pow2_add]
        congr 1
        ring
      rw [e]
      exact mul_le_mul_of_nonneg_right (by exact_mod_cast h3) (quantum_pos y).le
    have hmid : Double.pow2 (ex + 1) ≤ Double.pow2 ey := pow2_le_pow2 (by omega)
    linarith

/-- Rounding is monotone: finite rounded values keep the order of the exact ones. -/
theorem rnd_mono (x y a b : ℚ) (h : x ≤ y) (hx : Double.round x = Double.num a)
    (hy : Double.round y = Double.num b) : a ≤ b := by
  by_cases hx0 : x = 0
  · subst hx0
    rw [rnd_zero] at hx
    have ha : a = 0 := (Double.num.inj hx).symm
    subst ha
    by_cases hy0 : y = 0
    · subst hy0
      rw [rnd_zero] at hy
      exact le_of_eq (Double.num.inj hy)
    · rw [rnd_eq_raw y b hy0 hy]
      exact raw_nonneg y h
  · by_cases hy0 : y = 0
    · subst hy0
      rw [rnd_zero] at hy
      have hb : b = 0 := (Double.num.inj hy).symm
      subst hb
      rw [rnd_eq_raw x a hx0 hx]
      have h1 := raw_nonneg (-x) (by linarith)
      rw [raw_neg] at h1
      linarith
    · rw [rnd_eq_raw x a hx0 hx, rnd_eq_raw y b hy0 hy]
      rcases lt_or_gt_of_ne hx0 with hxn | hxp
      · rcases lt_or_gt_of_ne hy0 with hyn | hyp
        · have h1 := raw_mono_pos (-y) (-x) (by linarith) (by linarith)
          rw [raw_neg, raw_neg] at h1
          linarith
        · have h1 := raw_nonneg (-x) (by linarith)
          rw [raw_neg] at h1
          have h2 := raw_nonneg y hyp.le
          linarith
      · exact raw_mono_pos x y hxp h

/-- The midpoint of a cell lies in the box of the bounds. -/
theorem midpoint_in_box (x0 x1 : ℚ) (n i : ℕ) (h0 : |x0| ≤ 8) (h1 : |x1| ≤ 8) (hi : i < n) :
    |x0 + ((i : ℚ) + 1 / 2) * ((x1 - x0) / n)| ≤ 8 := by
  have hiq : (i : ℚ) + 1 ≤ n := by exact_mod_cast hi
  have hi0 : (0 : ℚ) ≤ i := Nat.cast_nonneg i
  have hnpos : (0 : ℚ) < n := by linarith
  have e : x0 + ((i : ℚ) + 1 / 2) * ((x1 - x0) / n) =
      (1 - ((i : ℚ) + 1 / 2) / n) * x0 + (((i : ℚ) + 1 / 2) / n) * x1 := by
    field_simp
    ring
  rw [e]
  have ht0 : 0 ≤ ((i : ℚ) + 1 / 2) / n := div_nonneg (by linarith) hnpos.le
  have ht1 : ((i : ℚ) + 1 / 2) / n ≤ 1 := by
    rw [div_le_one hnpos]
    linarith
  have h2 := abs_add ((1 - ((i : ℚ) + 1 / 2) / n) * x0) ((((i : ℚ) + 1 / 2) / n) * x1)
  rw [abs_mul, abs_mul, abs_of_nonneg ht0,
    abs_of_nonneg (by linarith : 0 ≤ 1 - ((i : ℚ) + 1 / 2) / n)] at h2
  have h3 : (1 - ((i : ℚ) + 1 / 2) / n) * |x0| ≤ (1 - ((i : ℚ) + 1 / 2) / n) * 8 :=
    mul_le_mul_of_nonneg_left h0 (by linarith)
  have h4 : ((i : ℚ) + 1 / 2) / n * |x1| ≤ ((i : ℚ) + 1 / 2) / n * 8 :=
    mul_le_mul_of_nonneg_left h1 ht0
  linarith

/-- In exact arithmetic the midpoint sum of a bilinear integrand is its integral. -/
theorem midpoint_sum_bilinear (a b c d x0 x1 y0 y1 : ℚ) (nx ny : ℕ) (hnx : 1 ≤ nx)
    (hny : 1 ≤ ny) :
    ∑ j ∈ Finset.range ny, ∑ i ∈ Finset.range nx,
      (a + b * (x0 + ((i : ℚ) + 1 / 2) * ((x1 - x0) / nx)) +
        c * (y0 + ((j : ℚ) + 1 / 2) * ((y1 - y0) / ny)) +
        d * (x0 + ((i : ℚ) + 1 / 2) * ((x1 - x0) / nx)) *
          (y0 + ((j : ℚ) + 1 / 2) * ((y1 - y0) / ny))) *
        ((x1 - x0) / nx) * ((y1 - y0) / ny) =
      (x1 - x0) * (y1 - y0) *
        (a + b * (x0 + x1) / 2 + c * (y0 + y1) / 2 + d * (x0 + x1) * (y0 + y1) / 4) := by
  have hx : (nx : ℚ) ≠ 0 := by exact_mod_cast (Nat.pos_of_ne_zero (by omega)).ne'
  have hy : (ny : ℚ) ≠ 0 := by exact_mod_cast (Nat.pos_of_ne_zero (by omega)).ne'
  generalize hdx : (x1 - x0) / (nx : ℚ) = dx
  generalize hdy : (y1 - y0) / (ny : ℚ) = dy
  have inner : ∀ j : ℕ,
      ∑ i ∈ Finset.range nx,
        (a + b * (x0 + ((i : ℚ) + 1 / 2) * dx) + c * (y0 + ((j : ℚ) + 1 / 2) * dy) +
          d * (x0 + ((i : ℚ) + 1 / 2) * dx) * (y0 + ((j : ℚ) + 1 / 2) * dy)) * dx * dy =
      (nx * a * dx * dy + b * dx * dy * (nx * x0 + nx * nx / 2 * dx)) +
        (nx * c * dx * dy + d * dx * dy * (nx * x0 + nx * nx / 2 * dx)) *
          (y0 + ((j : ℚ) + 1 / 2) * dy) := by
    intro j
    have e : ∀ i : ℕ,
        (a + b * (x0 + ((i : ℚ) + 1 / 2) * dx) + c * (y0 + ((j : ℚ) + 1 / 2) * dy) +
          d * (x0 + ((i : ℚ) + 1 / 2) * dx) * (y0 + ((j : ℚ) + 1 / 2) * dy)) * dx * dy =
        (a + c * (y0 + ((j : ℚ) + 1 / 2) * dy)) * dx * dy +
          ((b + d * (y0 + ((j : ℚ) + 1 / 2) * dy)) * dx * dy) *
            (x0 + ((i : ℚ) + 1 / 2) * dx) := fun i => by ring
    rw [Finset.sum_congr rfl (fun (i : ℕ) _ => e i)]
    rw [sum_affine_midpoints]
    ring
  rw [Finset.sum_congr rfl (fun (j : ℕ) _ => inner j), sum_affine_midpoints, ← hdx, ← hdy]
  field_simp
  ring

/-! ## Double integral estimator in doubles: constant and bilinear integrands -/

/-- C7 (the claim fails): in doubles the estimate for the integrand 1 on
[0,2] x [0,3] is 6 + 2^(-49) (printed 6.000000000000002) with 7 x 5 cells and 6 with
3 x 3 cells: it is not always c*(x1-x0)*(y1-y0) and it depends on (nx, ny). -/
theorem numericDoubleIntegralRect_constant_inexact :
    Double.numericDoubleIntegralRect (Double.constantExpr "1" 1) (Double.num 0) (Double.num 2)
        (Double.num 0) (Double.num 3) 7 5 = Double.num (6 + 1 / 2 ^ 49) ∧
    Double.numericDoubleIntegralRect (Double.constantExpr "1" 1) (Double.num 0) (Double.num 2)
        (Double.num 0) (Double.num 3) 3 3 = Double.num 6 := by
  constructor <;> decide!

/-- C7 (amended): for a constant integrand c with |c| <= 1000, bounds inside [-8, 8]
and 1 <= nx, ny <= 128, the estimate computed in doubles is a finite number within
1e-6 of c*(x1-x0)*(y1-y0) (within (|c| + 1)/2^30 + 2^(-24)); in particular for the
integrand 1 on [0,2] x [0,3] it is within 1e-6 of 6 at every such resolution. -/
theorem numericDoubleIntegralRect_constant_within (expression : Double.Expression) (c : ℚ)
    (hconst : ∀ x y : Double, expression.eval x y = Double.num c) (hc : |c| ≤ 1000)
    (x0 x1 y0 y1 : ℚ) (hx0 : |x0| ≤ 8) (hx1 : |x1| ≤ 8) (hy0 : |y0| ≤ 8) (hy1 : |y1| ≤ 8)
    (nx ny : ℕ) (hnx1 : 1 ≤ nx) (hnx2 : nx ≤ 128) (hny1 : 1 ≤ ny) (hny2 : ny ≤ 128) :
    (∃ r : ℚ,
      Double.numericDoubleIntegralRect expression (Double.num x0) (Double.num x1)
        (Double.num y0) (Double.num y1) nx ny = Double.num r ∧
      |r - c * (x1 - x0) * (y1 - y0)| ≤ (|c| + 1) / 2 ^ 30 + 1 / 2 ^ 24 ∧
      |r - c * (x1 - x0) * (y1 - y0)| < 1e-6) ∧
    (c = 1 → ∃ r : ℚ,
      Double.numericDoubleIntegralRect expression (Double.num 0) (Double.num 2)
        (Double.num 0) (Double.num 3) nx ny = Double.num r ∧ |r - 6| < 1e-6) := by
  have main : ∀ a0 a1 b0 b1 : ℚ, |a0| ≤ 8 → |a1| ≤ 8 → |b0| ≤ 8 → |b1| ≤ 8 →
      ∃ r : ℚ,
        Double.numericDoubleIntegralRect expression (Double.num a0) (Double.num a1)
          (Double.num b0) (Double.num b1) nx ny = Double.num r ∧
        |r - c * (a1 - a0) * (b1 - b0)| ≤ (|c| + 1) / 2 ^ 30 + 1 / 2 ^ 24 ∧
        |r - c * (a1 - a0) * (b1 - b0)| < 1e-6 := by
    intro a0 a1 b0 b1 h0 h1 h2 h3
    have hx : (nx : ℚ) ≠ 0 := by exact_mod_cast (Nat.pos_of_ne_zero (by omega)).ne'
    have hy : (ny : ℚ) ≠ 0 := by exact_mod_cast (Nat.pos_of_ne_zero (by omega)).ne'
    obtain ⟨r, hr, herr⟩ := integral_abs expression (fun _ _ => c) a0 a1 b0 b1 |c| 0 nx ny
      h0 h1 h2 h3 hnx1 hnx2 hny1 hny2 (abs_nonneg c) (by linarith) (le_refl 0)
      (fun i _ j _ ξ ζ _ _ => ⟨c, hconst _ _, le_refl _, by simp⟩)
    have hsum : ∑ j ∈ Finset.range ny, ∑ i ∈ Finset.range nx,
        c * ((a1 - a0) / nx) * ((b1 - b0) / ny) = c * (a1 - a0) * (b1 - b0) := by
      simp only [Finset.sum_const, Finset.card_range, nsmul_eq_mul]
      field_simp
      ring
    rw [hsum] at herr
    have hb : 256 * (0 : ℚ) + (|c| + 1) / 2 ^ 30 + 1 / 2 ^ 24 = (|c| + 1) / 2 ^ 30 + 1 / 2 ^ 24 := by
      ring
    rw [hb] at herr
    refine ⟨r, hr, herr, lt_of_le_of_lt herr ?_⟩
    have : (|c| + 1) / 2 ^ 30 ≤ (1000 + 1) / 2 ^ 30 :=
      div_le_div_of_nonneg_right (by linarith) (by positivity)
    have : ((1000 : ℚ) + 1) / 2 ^ 30 + 1 / 2 ^ 24 < 1e-6 := by norm_num
    linarith
  refine ⟨main x0 x1 y0 y1 hx0 hx1 hy0 hy1, fun hc1 => ?_⟩
  obtain ⟨r, hr, -, herr⟩ := main 0 2 0 3 (by norm_num) (by norm_num) (by norm_num) (by norm_num)
  refine ⟨r, hr, ?_⟩
  rw [hc1] at herr
  norm_num at herr ⊢
  exact herr

/-- C7 (amended) for the integrand 1 on [0,2] x [0,3] with 60 x 60 cells, the default
resolution. -/
theorem numericDoubleIntegralRect_constant_within_witness :
    ∃ r : ℚ,
      Double.numericDoubleIntegralRect (Double.constantExpr "1" 1) (Double.num 0) (Double.num 2)
        (Double.num 0) (Double.num 3) ((60 : ℕ) : ℤ) ((60 : ℕ) : ℤ) = Double.num r ∧
      |r - 6| < 1e-6 :=
  (numericDoubleIntegralRect_constant_within (Double.constantExpr "1" 1) 1 (fun _ _ => rfl)
    (by norm_num) 0 2 0 3 (by norm_num) (by norm_num) (by norm_num) (by norm_num) 60 60
    (by norm_num) (by norm_num) (by norm_num) (by norm_num)).2 rfl

/-- The oracle of `x + y` in doubles is within `2^(-40)` of the sum on `[-9, 9]^2`. -/
theorem planeObjective_accurate (x y : ℚ) (hx : |x| ≤ 9) (hy : |y| ≤ 9) :
    ∃ v : ℚ, Double.planeObjective.eval (Double.num x) (Double.num y) = Double.num v ∧
      |v - (0 + 1 * x + 1 * y + 0 * x * y)| ≤ 1 / 2 ^ 40 := by
  have h : |x + y| ≤ 18 := by
    have := abs_add x y
    linarith
  obtain ⟨v, hv, herr⟩ := rnd_abs (x + y) 18 h (by norm_num)
  refine ⟨v, hv, ?_⟩
  have e : (0 : ℚ) + 1 * x + 1 * y + 0 * x * y = x + y := by ring
  rw [e]
  have : (18 : ℚ) / 2 ^ 53 + 1 / 2 ^ 100 ≤ 1 / 2 ^ 40 := by norm_num
  linarith

/-- C27 (the claim fails): in doubles the estimate for the integrand x + y on
[0,1] x [0,1] is 1 - 2^(-53) (printed 0.9999999999999999) with 3 x 3 cells and 1 with
2 x 2 cells: it is not always the integral 1 and it depends on (nx, ny). -/
theorem numericDoubleIntegralRect_bilinear_inexact :
    Double.numericDoubleIntegralRect Double.planeObjective (Double.num 0) (Double.num 1)
        (Double.num 0) (Double.num 1) 3 3 = Double.num (1 - 1 / 2 ^ 53) ∧
    Double.numericDoubleIntegralRect Double.planeObjective (Double.num 0) (Double.num 1)
        (Double.num 0) (Double.num 1) 2 2 = Double.num 1 := by
  constructor <;> decide!

/-- C27 (amended): the midpoint rule is exact for bilinear integrands up to rounding:
for a + b*x + c*y + d*x*y with coefficients of magnitude at most 8, an evaluator that
is within 2^(-40) of it on [-9, 9]^2, bounds inside [-8, 8] and 1 <= nx, ny <= 128,
the estimate computed in doubles is a finite number within 1e-6 of
(x1-x0)*(y1-y0)*(a + b*(x0+x1)/2 + c*(y0+y1)/2 + d*(x0+x1)*(y0+y1)/4). -/
theorem numericDoubleIntegralRect_bilinear_within (expression : Double.Expression)
    (a b c d : ℚ) (ha : |a| ≤ 8) (hb : |b| ≤ 8) (hc : |c| ≤ 8) (hd : |d| ≤ 8)
    (horacle : ∀ x y : ℚ, |x| ≤ 9 → |y| ≤ 9 →
      ∃ v : ℚ, expression.eval (Double.num x) (Double.num y) = Double.num v ∧
        |v - (a + b * x + c * y + d * x * y)| ≤ 1 / 2 ^ 40)
    (x0 x1 y0 y1 : ℚ) (hx0 : |x0| ≤ 8) (hx1 : |x1| ≤ 8) (hy0 : |y0| ≤ 8) (hy1 : |y1| ≤ 8)
    (nx ny : ℕ) (hnx1 : 1 ≤ nx) (hnx2 : nx ≤ 128) (hny1 : 1 ≤ ny) (hny2 : ny ≤ 128) :
    ∃ r : ℚ,
      Double.numericDoubleIntegralRect expression (Double.num x0) (Double.num x1)
        (Double.num y0) (Double.num y1) nx ny = Double.num r ∧
      |r - (x1 - x0) * (y1 - y0) *
        (a + b * (x0 + x1) / 2 + c * (y0 + y1) / 2 + d * (x0 + x1) * (y0 + y1) / 4)| < 1e-6 := by
  obtain ⟨r, hr, herr⟩ := integral_abs expression
    (fun i j => a + b * (x0 + ((i : ℚ) + 1 / 2) * ((x1 - x0) / nx)) +
        c * (y0 + ((j : ℚ) + 1 / 2) * ((y1 - y0) / ny)) +
        d * (x0 + ((i : ℚ) + 1 / 2) * ((x1 - x0) / nx)) *
          (y0 + ((j : ℚ) + 1 / 2) * ((y1 - y0) / ny)))
    x0 x1 y0 y1 649 (1 / 2 ^ 30) nx ny hx0 hx1 hy0 hy1 hnx1 hnx2 hny1 hny2 (by norm_num)
    (by norm_num) (by norm_num)
    (by
      intro i hi j hj ξ ζ hξ hζ
      dsimp only
      have hm := midpoint_in_box x0 x1 nx i hx0 hx1 hi
      have hm' := midpoint_in_box y0 y1 ny j hy0 hy1 hj
      generalize x0 + ((i : ℚ) + 1 / 2) * ((x1 - x0) / nx) = m at hξ hm ⊢
      generalize y0 + ((j : ℚ) + 1 / 2) * ((y1 - y0) / ny) = m' at hζ hm' ⊢
      have hξ9 : |ξ| ≤ 8 + 1 / 2 ^ 38 := by
        have e : ξ = (ξ - m) + m := by ring
        rw [e]
        have := abs_add (ξ - m) m
        linarith
      have hζ9 : |ζ| ≤ 8 + 1 / 2 ^ 38 := by
        have e : ζ = (ζ - m') + m' := by ring
        rw [e]
        have := abs_add (ζ - m') m'
        linarith
      obtain ⟨v, hv, hverr⟩ := horacle ξ ζ (by linarith) (by linarith)
      have hlip : |(a + b * ξ + c * ζ + d * ξ * ζ) - (a + b * m + c * m' + d * m * m')| ≤
          152 * (1 / 2 ^ 38) + 8 * (1 / 2 ^ 38) := by
        have e : (a + b * ξ + c * ζ + d * ξ * ζ) - (a + b * m + c * m' + d * m * m') =
            b * (ξ - m) + c * (ζ - m') + (d * ((ξ - m) * ζ) + d * (m * (ζ - m'))) := by ring
        rw [e]
        have t1 : |b * (ξ - m)| ≤ 8 * (1 / 2 ^ 38) := by
          rw [abs_mul]
          exact mul_le_mul hb hξ (abs_nonneg _) (by norm_num)
        have t2 : |c * (ζ - m')| ≤ 8 * (1 / 2 ^ 38) := by
          rw [abs_mul]
          exact mul_le_mul hc hζ (abs_nonneg _) (by norm_num)
        have t3 : |d * ((ξ - m) * ζ)| ≤ 8 * (1 / 2 ^ 38 * (8 + 1 / 2 ^ 38)) := by
          rw [abs_mul, abs_mul]
          exact mul_le_mul hd (mul_le_mul hξ hζ9 (abs_nonneg _) (by norm_num))
            (by positivity) (by norm_num)
        have t4 : |d * (m * (ζ - m'))| ≤ 8 * (8 * (1 / 2 ^ 38)) := by
          rw [abs_mul, abs_mul]
          exact mul_le_mul hd (mul_le_mul hm hζ (abs_nonneg _) (by norm_num))
            (by positivity) (by norm_num)
        have h1 := abs_add (b * (ξ - m) + c * (ζ - m')) (d * ((ξ - m) * ζ) + d * (m * (ζ - m')))
        have h2 := abs_add (b * (ξ - m)) (c * (ζ - m'))
        have h3 := abs_add (d * ((ξ - m) * ζ)) (d * (m * (ζ - m')))
        have : (8 : ℚ) * (1 / 2 ^ 38) + 8 * (1 / 2 ^ 38) + (8 * (1 / 2 ^ 38 * (8 + 1 / 2 ^ 38)) +
            8 * (8 * (1 / 2 ^ 38))) ≤ 152 * (1 / 2 ^ 38) + 8 * (1 / 2 ^ 38) := by norm_num
        linarith
      have hval : |a + b * m + c * m' + d * m * m'| ≤ 648 := by
        have t1 : |b * m| ≤ 8 * 8 := by
          rw [abs_mul]
          exact mul_le_mul hb hm (abs_nonneg _) (by norm_num)
        have t2 : |c * m'| ≤ 8 * 8 := by
          rw [abs_mul]
          exact mul_le_mul hc hm' (abs_nonneg _) (by norm_num)
        have t3 : |d * m * m'| ≤ 8 * 8 * 8 := by
          rw [abs_mul, abs_mul]
          exact mul_le_mul (mul_le_mul hd hm (abs_nonneg _) (by norm_num)) hm' (abs_nonneg _)
            (by norm_num)
        have h1 := abs_add (a + b * m + c * m') (d * m * m')
        have h2 := abs_add (a + b * m) (c * m')
        have h3 := abs_add a (b * m)
        linarith
      have hclose : |v - (a + b * m + c * m' + d * m * m')| ≤ 1 / 2 ^ 30 := by
        have e : v - (a + b * m + c * m' + d * m * m') =
            (v - (a + b * ξ + c * ζ + d * ξ * ζ)) +
              ((a + b * ξ + c * ζ + d * ξ * ζ) - (a + b * m + c * m' + d * m * m')) := by ring
        rw [e]
        have h1 := abs_add (v - (a + b * ξ + c * ζ + d * ξ * ζ))
          ((a + b * ξ + c * ζ + d * ξ * ζ) - (a + b * m + c * m' + d * m * m'))
        have : (1 : ℚ) / 2 ^ 40 + (152 * (1 / 2 ^ 38) + 8 * (1 / 2 ^ 38)) ≤ 1 / 2 ^ 30 := by
          norm_num
        linarith
      refine ⟨v, hv, ?_, hclose⟩
      have e : v = (v - (a + b * m + c * m' + d * m * m')) + (a + b * m + c * m' + d * m * m') := by
        ring
      rw [e]
      have h1 := abs_add (v - (a + b * m + c * m' + d * m * m')) (a + b * m + c * m' + d * m * m')
      have : (1 : ℚ) / 2 ^ 30 ≤ 1 := by norm_num
      linarith)
  rw [midpoint_sum_bilinear a b c d x0 x1 y0 y1 nx ny hnx1 hny1] at herr
  refine ⟨r, hr, lt_of_le_of_lt herr ?_⟩
  norm_num

/-- C27 (amended) for the integrand x + y on [0,2] x [0,3] with 3 x 2 cells. -/
theorem numericDoubleIntegralRect_bilinear_within_witness :
    ∃ r : ℚ,
      Double.numericDoubleIntegralRect Double.planeObjective (Double.num 0) (Double.num 2)
        (Double.num 0) (Double.num 3) ((3 : ℕ) : ℤ) ((2 : ℕ) : ℤ) = Double.num r ∧
      |r - (2 - 0) * (3 - 0) *
        (0 + 1 * (0 + 2) / 2 + 1 * (0 + 3) / 2 + 0 * (0 + 2) * (0 + 3) / 4)| < 1e-6 :=
  numericDoubleIntegralRect_bilinear_within Double.planeObjective 0 1 1 0 (by norm_num)
    (by norm_num) (by norm_num) (by norm_num) planeObjective_accurate 0 2 0 3 (by norm_num)
    (by norm_num) (by norm_num) (by norm_num) 3 2 (by norm_num) (by norm_num) (by norm_num)
    (by norm_num)

/-! ## Double integral estimator in doubles: reversed and degenerate ranges -/

/-- Division commutes with the change of sign of the dividend. -/
theorem dneg_div (a b : Double) : (-a) / b = -(a / b) := by
  show Double.div (Double.neg a) b = Double.neg (Double.div a b)
  cases a with
  | num p =>
    cases b with
    | num q =>
      simp only [Double.neg, Double.div]
      by_cases hq : q = 0
      · rw [if_pos hq, if_pos hq]
        by_cases hp : p = 0
        · rw [if_pos hp, if_pos (by rw [hp, neg_zero])]
        · rw [if_neg hp, if_neg (neg_ne_zero.2 hp)]
          simp only [Double.neg]
          congr 1
          rcases lt_or_gt_of_ne hp with h | h
          · have h2 : ¬ (0 < p) := not_lt.2 h.le
            simp [h, h2]
          · have h2 : ¬ (p < 0) := not_lt.2 h.le
            simp [h, h2]
      · rw [if_neg hq, if_neg hq, neg_div, rnd_neg]
        rfl
    | inf t =>
      simp only [Double.neg, Double.div]
      rw [neg_zero]
    | nan => rfl
  | inf s =>
    cases b with
    | num q =>
      simp only [Double.neg, Double.div]
      cases s <;> simp
    | inf t => rfl
    | nan => rfl
  | nan =>
    cases b <;> rfl

/-- Swapping the two bounds of a range changes the sign of the step. -/
theorem step_swap (x0 x1 : ℚ) (n : Double) :
    (Double.num x0 - Double.num x1) / n = -((Double.num x1 - Double.num x0) / n) := by
  rw [← dneg_div, dnum_sub, dnum_sub]
  have e : x0 - x1 = -(x1 - x0) := by ring
  rw [e, rnd_neg]

/-- The value read by the estimator is finite or NaN. -/
theorem evaluateLocalAtPoint_cases (expression : Double.Expression) (x y : Double) :
    (∃ v : ℚ, expression.eval x y = Double.num v ∧
      Double.evaluateLocalAtPoint expression x y = Double.num v) ∨
    Double.evaluateLocalAtPoint expression x y = Double.nan := by
  unfold Double.evaluateLocalAtPoint
  cases h : expression.eval x y with
  | num v => exact Or.inl ⟨v, rfl, rfl⟩
  | inf s => exact Or.inr rfl
  | nan => exact Or.inr rfl

/-- C28 (the claim fails): in doubles the estimate for the integrand x + y with
3 x 2 cells is 15 on [0,2] x [0,3] and -15 - 2^(-49) (printed -15.000000000000002) on
the range reversed in x: swapping x0 with x1 does not negate the result. -/
theorem numericDoubleIntegralRect_swap_inexact :
    Double.numericDoubleIntegralRect Double.planeObjective (Double.num 0) (Double.num 2)
        (Double.num 0) (Double.num 3) 3 2 = Double.num 15 ∧
    Double.numericDoubleIntegralRect Double.planeObjective (Double.num 2) (Double.num 0)
        (Double.num 0) (Double.num 3) 3 2 = Double.num (-15 - 1 / 2 ^ 49) := by
  constructor <;> decide!

/-- Reversed and degenerate ranges in doubles.  Swapping x0 with x1 (or y0 with y1)
changes the sign of the step dx (dy) exactly.  A degenerate rectangle with x0 = x1 gives
0 when the step dy is finite; a degenerate rectangle with y0 = y1 gives 0 or NaN, and 0
when every product val*dx is finite. -/
theorem reversed_degenerate_steps (expression : Double.Expression)
    (x0 x1 y0 y1 : ℚ) (nx ny : ℕ) (hnx1 : 1 ≤ nx) (hnx2 : nx < 2 ^ 53) (hny1 : 1 ≤ ny)
    (hny2 : ny < 2 ^ 53) :
    (Double.num x0 - Double.num x1) / Double.round (((nx : ℕ) : ℤ) : ℚ) =
      -((Double.num x1 - Double.num x0) / Double.round (((nx : ℕ) : ℤ) : ℚ)) ∧
    (Double.num y0 - Double.num y1) / Double.round (((ny : ℕ) : ℤ) : ℚ) =
      -((Double.num y1 - Double.num y0) / Double.round (((ny : ℕ) : ℤ) : ℚ)) ∧
    (((Double.num y1 - Double.num y0) / Double.round (((ny : ℕ) : ℤ) : ℚ)).isFinite = true →
      Double.numericDoubleIntegralRect expression (Double.num x0) (Double.num x0)
        (Double.num y0) (Double.num y1) nx ny = Double.num 0) ∧
    (Double.numericDoubleIntegralRect expression (Double.num x0) (Double.num x1)
        (Double.num y0) (Double.num y0) nx ny = Double.num 0 ∨
      Double.numericDoubleIntegralRect expression (Double.num x0) (Double.num x1)
        (Double.num y0) (Double.num y0) nx ny = Double.nan) ∧
    ((∀ (x y : Double) (v : ℚ), expression.eval x y = Double.num v →
        (Double.num v * ((Double.num x1 - Double.num x0) /
          Double.round (((nx : ℕ) : ℤ) : ℚ))).isFinite = true) →
      Double.numericDoubleIntegralRect expression (Double.num x0) (Double.num x1)
        (Double.num y0) (Double.num y0) nx ny = Double.num 0) := by
  have hnx : Double.round (((nx : ℕ) : ℤ) : ℚ) = Double.num (nx : ℚ) := by
    rw [Int.cast_natCast, rnd_natCast nx hnx2]
  have hny : Double.round (((ny : ℕ) : ℤ) : ℚ) = Double.num (ny : ℚ) := by
    rw [Int.cast_natCast, rnd_natCast ny hny2]
  have hnx0 : (nx : ℚ) ≠ 0 := by exact_mod_cast (Nat.pos_of_ne_zero (by omega)).ne'
  have hny0 : (ny : ℚ) ≠ 0 := by exact_mod_cast (Nat.pos_of_ne_zero (by omega)).ne'
  have hzero_step : ∀ (a : ℚ) (n : ℚ), n ≠ 0 →
      (Double.num a - Double.num a) / Double.num n = Double.num 0 := by
    intro a n hn
    rw [dnum_sub, sub_self, rnd_zero, dnum_div _ _ hn, zero_div, rnd_zero]
  refine ⟨step_swap x0 x1 _, step_swap y0 y1 _, ?_, ?_, ?_⟩
  · intro hfin
    unfold Double.numericDoubleIntegralRect
    simp only [Int.toNat_ofNat]
    rw [hnx, hzero_step x0 nx hnx0, dzero_eq]
    cases hdy : (Double.num y1 - Double.num y0) / Double.round (((ny : ℕ) : ℤ) : ℚ) with
    | num e =>
      apply foldl_invariant (fun s : Double => s = Double.num 0)
      · rfl
      · intro s j hs
        apply foldl_invariant (fun s : Double => s = Double.num 0)
        · exact hs
        · intro s i hs
          subst hs
          rcases evaluateLocalAtPoint_cases expression
            (Double.num x0 + (Double.round (i : ℚ) + 0.5) * Double.num 0)
            (Double.num y0 + (Double.round (j : ℚ) + 0.5) * Double.num e) with ⟨v, -, hv⟩ | hv
          · simp only [hv, dnum_isFinite, if_true, dnum_mul, mul_zero, rnd_zero, zero_mul,
              dnum_add, add_zero]
          · simp only [hv]
            rfl
    | inf s =>
      rw [hdy] at hfin
      exact absurd hfin Bool.false_ne_true
    | nan =>
      rw [hdy] at hfin
      exact absurd hfin Bool.false_ne_true
  · unfold Double.numericDoubleIntegralRect
    simp only [Int.toNat_ofNat]
    rw [hny, hzero_step y0 ny hny0, dzero_eq]
    apply foldl_invariant (fun s : Double => s = Double.num 0 ∨ s = Double.nan)
    · exact Or.inl rfl
    · intro s j hs
      apply foldl_invariant (fun s : Double => s = Double.num 0 ∨ s = Double.nan)
      · exact hs
      · intro s i hs
        split
        · generalize Double.evaluateLocalAtPoint expression _ _ *
            ((Double.num x1 - Double.num x0) / Double.round (((nx : ℕ) : ℤ) : ℚ)) = p
          have hp : p * Double.num 0 = Double.num 0 ∨ p * Double.num 0 = Double.nan := by
            cases p with
            | num q =>
              left
              rw [dnum_mul, mul_zero, rnd_zero]
            | inf t =>
              right
              show Double.mul _ _ = _
              simp [Double.mul]
            | nan => exact Or.inr rfl
          rcases hs with hs | hs <;> rcases hp with hp | hp <;> rw [hs, hp]
          · left
            rw [dnum_add, add_zero, rnd_zero]
          · exact Or.inr rfl
          · exact Or.inr rfl
          · exact Or.inr rfl
        · exact hs
  · intro hprod
    unfold Double.numericDoubleIntegralRect
    simp only [Int.toNat_ofNat]
    rw [hny, hzero_step y0 ny hny0, dzero_eq]
    apply foldl_invariant (fun s : Double => s = Double.num 0)
    · rfl
    · intro s j hs
      apply foldl_invariant (fun s : Double => s = Double.num 0)
      · exact hs
      · intro s i hs
        subst hs
        rcases evaluateLocalAtPoint_cases expression
          (Double.num x0 + (Double.round (i : ℚ) + 0.5) *
            ((Double.num x1 - Double.num x0) / Double.round (((nx : ℕ) : ℤ) : ℚ)))
          (Double.num y0 + (Double.round (j : ℚ) + 0.5) * Double.num 0) with ⟨v, hev, hv⟩ | hv
        · have hfin := hprod _ _ v hev
          simp only [hv, dnum_isFinite, if_true]
          cases hp : Double.num v *
              ((Double.num x1 - Double.num x0) / Double.round (((nx : ℕ) : ℤ) : ℚ)) with
          | num q => rw [dnum_mul, mul_zero, rnd_zero, dnum_add, add_zero, rnd_zero]
          | inf t =>
            rw [hp] at hfin
            exact absurd hfin Bool.false_ne_true
          | nan =>
            rw [hp] at hfin
            exact absurd hfin Bool.false_ne_true
        · simp only [hv]
          rfl

/-- The midpoints of the cells of a reversed range are those of the range, in reverse
order: a sum over them is the same. -/
theorem sum_midpoints_reflect (φ : ℚ → ℚ) (x0 x1 : ℚ) (n : ℕ) :
    ∑ i ∈ Finset.range n, φ (x1 + ((i : ℚ) + 1 / 2) * ((x0 - x1) / n)) =
      ∑ i ∈ Finset.range n, φ (x0 + ((i : ℚ) + 1 / 2) * ((x1 - x0) / n)) := by
  rw [← Finset.sum_range_reflect (fun (i : ℕ) => φ (x0 + ((i : ℚ) + 1 / 2) * ((x1 - x0) / n))) n]
  apply Finset.sum_congr rfl
  intro i hi
  have hi1 : i < n := Finset.mem_range.1 hi
  have hn : (n : ℚ) ≠ 0 := by exact_mod_cast (Nat.pos_of_ne_zero (by omega)).ne'
  congr 1
  have e : ((n - 1 - i : ℕ) : ℚ) = (n : ℚ) - 1 - i := by
    rw [Nat.cast_sub (by omega), Nat.cast_sub (by omega)]
    simp
  rw [e]
  field_simp
  ring

/-- Approximate antisymmetry of the double-precision estimator.  For bounds inside
`[-8, 8]`, at most 128 x 128 cells and an evaluator that, within `2^(-38)` of every point
`(x, y)` of the box, returns a finite value of magnitude at most `V <= 1024` within `ε` of
`F x y`: the estimates on the range, on the range reversed in `x` and on the range
reversed in `y` are finite, and the sum of the first with either of the others is at most
`2 (256 ε + (V + 1) / 2^30 + 2^(-24))` in magnitude. -/
theorem integral_swap_abs (expression : Double.Expression) (F : ℚ → ℚ → ℚ)
    (x0 x1 y0 y1 V ε : ℚ) (nx ny : ℕ)
    (hx0 : |x0| ≤ 8) (hx1 : |x1| ≤ 8) (hy0 : |y0| ≤ 8) (hy1 : |y1| ≤ 8)
    (hnx1 : 1 ≤ nx) (hnx2 : nx ≤ 128) (hny1 : 1 ≤ ny) (hny2 : ny ≤ 128)
    (hV0 : 0 ≤ V) (hV : V ≤ 1024) (hε : 0 ≤ ε)
    (hnear : ∀ x y ξ ζ : ℚ, |x| ≤ 8 → |y| ≤ 8 → |ξ - x| ≤ 1 / 2 ^ 38 → |ζ - y| ≤ 1 / 2 ^ 38 →
      ∃ v : ℚ, expression.eval (Double.num ξ) (Double.num ζ) = Double.num v ∧ |v| ≤ V ∧
        |v - F x y| ≤ ε) :
    ∃ r rx ry : ℚ,
      Double.numericDoubleIntegralRect expression (Double.num x0) (Double.num x1)
        (Double.num y0) (Double.num y1) nx ny = Double.num r ∧
      Double.numericDoubleIntegralRect expression (Double.num x1) (Double.num x0)
        (Double.num y0) (Double.num y1) nx ny = Double.num rx ∧
      Double.numericDoubleIntegralRect expression (Double.num x0) (Double.num x1)
        (Double.num y1) (Double.num y0) nx ny = Double.num ry ∧
      |rx + r| ≤ 2 * (256 * ε + (V + 1) / 2 ^ 30 + 1 / 2 ^ 24) ∧
      |ry + r| ≤ 2 * (256 * ε + (V + 1) / 2 ^ 30 + 1 / 2 ^ 24) := by
  have cell : ∀ a0 a1 b0 b1 : ℚ, |a0| ≤ 8 → |a1| ≤ 8 → |b0| ≤ 8 → |b1| ≤ 8 →
      ∃ r : ℚ,
        Double.numericDoubleIntegralRect expression (Double.num a0) (Double.num a1)
          (Double.num b0) (Double.num b1) nx ny = Double.num r ∧
        |r - ∑ j ∈ Finset.range ny, ∑ i ∈ Finset.range nx,
            F (a0 + ((i : ℚ) + 1 / 2) * ((a1 - a0) / nx))
              (b0 + ((j : ℚ) + 1 / 2) * ((b1 - b0) / ny)) *
              ((a1 - a0) / nx) * ((b1 - b0) / ny)| ≤
          256 * ε + (V + 1) / 2 ^ 30 + 1 / 2 ^ 24 := by
    intro a0 a1 b0 b1 ha0 ha1 hb0 hb1
    exact integral_abs expression
      (fun i j => F (a0 + ((i : ℚ) + 1 / 2) * ((a1 - a0) / nx))
        (b0 + ((j : ℚ) + 1 / 2) * ((b1 - b0) / ny)))
      a0 a1 b0 b1 V ε nx ny ha0 ha1 hb0 hb1 hnx1 hnx2 hny1 hny2 hV0 hV hε
      (fun i hi j hj ξ ζ hξ hζ =>
        hnear _ _ ξ ζ (midpoint_in_box a0 a1 nx i ha0 ha1 hi)
          (midpoint_in_box b0 b1 ny j hb0 hb1 hj) hξ hζ)
  obtain ⟨r, hr, er⟩ := cell x0 x1 y0 y1 hx0 hx1 hy0 hy1
  obtain ⟨rx, hrx, erx⟩ := cell x1 x0 y0 y1 hx1 hx0 hy0 hy1
  obtain ⟨ry, hry, ery⟩ := cell x0 x1 y1 y0 hx0 hx1 hy1 hy0
  have sx : ∑ j ∈ Finset.range ny, ∑ i ∈ Finset.range nx,
      F (x1 + ((i : ℚ) + 1 / 2) * ((x0 - x1) / nx))
        (y0 + ((j : ℚ) + 1 / 2) * ((y1 - y0) / ny)) * ((x0 - x1) / nx) * ((y1 - y0) / ny) =
      -∑ j ∈ Finset.range ny, ∑ i ∈ Finset.range nx,
        F (x0 + ((i : ℚ) + 1 / 2) * ((x1 - x0) / nx))
          (y0 + ((j : ℚ) + 1 / 2) * ((y1 - y0) / ny)) * ((x1 - x0) / nx) * ((y1 - y0) / ny) := by
    rw [← Finset.sum_neg_distrib]
    apply Finset.sum_congr rfl
    intro j _
    rw [sum_midpoints_reflect (fun m => F m (y0 + ((j : ℚ) + 1 / 2) * ((y1 - y0) / ny)) *
      ((x0 - x1) / nx) * ((y1 - y0) / ny)) x0 x1 nx, ← Finset.sum_neg_distrib]
    apply Finset.sum_congr rfl
    intro i _
    ring
  have sy : ∑ j ∈ Finset.range ny, ∑ i ∈ Finset.range nx,
      F (x0 + ((i : ℚ) + 1 / 2) * ((x1 - x0) / nx))
        (y1 + ((j : ℚ) + 1 / 2) * ((y0 - y1) / ny)) * ((x1 - x0) / nx) * ((y0 - y1) / ny) =
      -∑ j ∈ Finset.range ny, ∑ i ∈ Finset.range nx,
        F (x0 + ((i : ℚ) + 1 / 2) * ((x1 - x0) / nx))
          (y0 + ((j : ℚ) + 1 / 2) * ((y1 - y0) / ny)) * ((x1 - x0) / nx) * ((y1 - y0) / ny) := by
    rw [sum_midpoints_reflect (fun m => ∑ i ∈ Finset.range nx,
      F (x0 + ((i : ℚ) + 1 / 2) * ((x1 - x0) / nx)) m * ((x1 - x0) / nx) * ((y0 - y1) / ny))
      y0 y1 ny, ← Finset.sum_neg_distrib]
    apply Finset.sum_congr rfl
    intro j _
    rw [← Finset.sum_neg_distrib]
    apply Finset.sum_congr rfl
    intro i _
    ring
  rw [sx] at erx
  rw [sy] at ery
  refine ⟨r, rx, ry, hr, hrx, hry, ?_, ?_⟩
  · generalize (∑ j ∈ Finset.range ny, ∑ i ∈ Finset.range nx,
        F (x0 + ((i : ℚ) + 1 / 2) * ((x1 - x0) / nx))
          (y0 + ((j : ℚ) + 1 / 2) * ((y1 - y0) / ny)) * ((x1 - x0) / nx) * ((y1 - y0) / ny)) = S
      at er erx
    have e : rx + r = (rx - -S) + (r - S) := by ring
    rw [e]
    have := abs_add (rx - -S) (r - S)
    linarith
  · generalize (∑ j ∈ Finset.range ny, ∑ i ∈ Finset.range nx,
        F (x0 + ((i : ℚ) + 1 / 2) * ((x1 - x0) / nx))
          (y0 + ((j : ℚ) + 1 / 2) * ((y1 - y0) / ny)) * ((x1 - x0) / nx) * ((y1 - y0) / ny)) = S
      at er ery
    have e : ry + r = (ry - -S) + (r - S) := by ring
    rw [e]
    have := abs_add (ry - -S) (r - S)
    linarith

/-- The evaluator of `x + y` in doubles near a point of the box `[-8, 8]²`: finite, of
magnitude at most 17 and within `2^(-36)` of the sum at the point. -/
theorem planeObjective_near (x y ξ ζ : ℚ) (hx : |x| ≤ 8) (hy : |y| ≤ 8)
    (hξ : |ξ - x| ≤ 1 / 2 ^ 38) (hζ : |ζ - y| ≤ 1 / 2 ^ 38) :
    ∃ v : ℚ, Double.planeObjective.eval (Double.num ξ) (Double.num ζ) = Double.num v ∧
      |v| ≤ 17 ∧ |v - (x + y)| ≤ 1 / 2 ^ 36 := by
  have hs : |ξ + ζ| ≤ 16 + 1 / 2 ^ 37 := by
    have e : ξ + ζ = (ξ - x) + (ζ - y) + (x + y) := by ring
    rw [e]
    have a1 := abs_add ((ξ - x) + (ζ - y)) (x + y)
    have a2 := abs_add (ξ - x) (ζ - y)
    have a3 := abs_add x y
    have : (1 : ℚ) / 2 ^ 38 + 1 / 2 ^ 38 = 1 / 2 ^ 37 := by norm_num
    linarith
  obtain ⟨v, hv, herr⟩ := rnd_abs (ξ + ζ) 17 (le_trans hs (by norm_num)) (by norm_num)
  refine ⟨v, hv, ?_, ?_⟩
  · have e : v = (v - (ξ + ζ)) + (ξ + ζ) := by ring
    rw [e]
    have := abs_add (v - (ξ + ζ)) (ξ + ζ)
    have : (17 : ℚ) / 2 ^ 53 + 1 / 2 ^ 100 + (16 + 1 / 2 ^ 37) ≤ 17 := by norm_num
    linarith
  · have e : v - (x + y) = (v - (ξ + ζ)) + (ξ - x) + (ζ - y) := by ring
    rw [e]
    have a1 := abs_add ((v - (ξ + ζ)) + (ξ - x)) (ζ - y)
    have a2 := abs_add (v - (ξ + ζ)) (ξ - x)
    have : (17 : ℚ) / 2 ^ 53 + 1 / 2 ^ 100 + 1 / 2 ^ 38 + 1 / 2 ^ 38 ≤ 1 / 2 ^ 36 := by norm_num
    linarith

/-- C28 (amended): numericDoubleIntegralRect accepts reversed and empty ranges silently,
and in doubles it is antisymmetric in each pair of bounds only up to rounding.  For
1 <= nx, ny < 2^53 and finite bounds: (1) for bounds inside [-8, 8], at most 128 x 128
cells and an evaluator that near every point of the box is finite, of magnitude at most
V <= 1024 and within ε of a function F, the three estimates on the range, on the range
with x0 and x1 swapped and on the range with y0 and y1 swapped are finite, and the sum
of the first with either of the others is at most 2*(256 ε + (V+1)/2^30 + 2^(-24)) in
magnitude; (2) swapping x0 with x1 (or y0 with y1) changes the sign of the step dx (dy)
exactly; (3) a degenerate rectangle with x0 = x1 gives 0 when the step dy is finite, and
one with y0 = y1 gives 0 or NaN, and 0 when every product val*dx is finite. -/
theorem numericDoubleIntegralRect_reversed_degenerate (expression : Double.Expression)
    (x0 x1 y0 y1 : ℚ) (nx ny : ℕ) (hnx1 : 1 ≤ nx) (hnx2 : nx < 2 ^ 53) (hny1 : 1 ≤ ny)
    (hny2 : ny < 2 ^ 53) :
    (∀ (F : ℚ → ℚ → ℚ) (V ε : ℚ), |x0| ≤ 8 → |x1| ≤ 8 → |y0| ≤ 8 → |y1| ≤ 8 →
      nx ≤ 128 → ny ≤ 128 → 0 ≤ V → V ≤ 1024 → 0 ≤ ε →
      (∀ x y ξ ζ : ℚ, |x| ≤ 8 → |y| ≤ 8 → |ξ - x| ≤ 1 / 2 ^ 38 → |ζ - y| ≤ 1 / 2 ^ 38 →
        ∃ v : ℚ, expression.eval (Double.num ξ) (Double.num ζ) = Double.num v ∧ |v| ≤ V ∧
          |v - F x y| ≤ ε) →
      ∃ r rx ry : ℚ,
        Double.numericDoubleIntegralRect expression (Double.num x0) (Double.num x1)
          (Double.num y0) (Double.num y1) nx ny = Double.num r ∧
        Double.numericDoubleIntegralRect expression (Double.num x1) (Double.num x0)
          (Double.num y0) (Double.num y1) nx ny = Double.num rx ∧
        Double.numericDoubleIntegralRect expression (Double.num x0) (Double.num x1)
          (Double.num y1) (Double.num y0) nx ny = Double.num ry ∧
        |rx + r| ≤ 2 * (256 * ε + (V + 1) / 2 ^ 30 + 1 / 2 ^ 24) ∧
        |ry + r| ≤ 2 * (256 * ε + (V + 1) / 2 ^ 30 + 1 / 2 ^ 24)) ∧
    ((Double.num x0 - Double.num x1) / Double.round (((nx : ℕ) : ℤ) : ℚ) =
        -((Double.num x1 - Double.num x0) / Double.round (((nx : ℕ) : ℤ) : ℚ)) ∧
      (Double.num y0 - Double.num y1) / Double.round (((ny : ℕ) : ℤ) : ℚ) =
        -((Double.num y1 - Double.num y0) / Double.round (((ny : ℕ) : ℤ) : ℚ))) ∧
    (((Double.num y1 - Double.num y0) / Double.round (((ny : ℕ) : ℤ) : ℚ)).isFinite = true →
      Double.numericDoubleIntegralRect expression (Double.num x0) (Double.num x0)
        (Double.num y0) (Double.num y1) nx ny = Double.num 0) ∧
    (Double.numericDoubleIntegralRect expression (Double.num x0) (Double.num x1)
        (Double.num y0) (Double.num y0) nx ny = Double.num 0 ∨
      Double.numericDoubleIntegralRect expression (Double.num x0) (Double.num x1)
        (Double.num y0) (Double.num y0) nx ny = Double.nan) ∧
    ((∀ (x y : Double) (v : ℚ), expression.eval x y = Double.num v →
        (Double.num v * ((Double.num x1 - Double.num x0) /
          Double.round (((nx : ℕ) : ℤ) : ℚ))).isFinite = true) →
      Double.numericDoubleIntegralRect expression (Double.num x0) (Double.num x1)
        (Double.num y0) (Double.num y0) nx ny = Double.num 0) := by
  obtain ⟨s1, s2, d1, d2, d3⟩ :=
    reversed_degenerate_steps expression x0 x1 y0 y1 nx ny hnx1 hnx2 hny1 hny2
  refine ⟨?_, ⟨s1, s2⟩, d1, d2, d3⟩
  intro F V ε hx0 hx1 hy0 hy1 hnx3 hny3 hV0 hV hε hnear
  exact integral_swap_abs expression F x0 x1 y0 y1 V ε nx ny hx0 hx1 hy0 hy1 hnx1 hnx3 hny1
    hny3 hV0 hV hε hnear

/-- C28 (amended) for the integrand x + y with 3 x 2 cells: the estimates on
[0,2] x [0,3] and on the ranges reversed in x or in y are finite and opposite up to
2*(256/2^36 + 18/2^30 + 2^(-24)) < 2e-7, and the degenerate rectangle [1,1] x [0,3]
gives 0. -/
theorem numericDoubleIntegralRect_reversed_degenerate_witness :
    (∃ r rx ry : ℚ,
      Double.numericDoubleIntegralRect Double.planeObjective (Double.num 0) (Double.num 2)
        (Double.num 0) (Double.num 3) ((3 : ℕ) : ℤ) ((2 : ℕ) : ℤ) = Double.num r ∧
      Double.numericDoubleIntegralRect Double.planeObjective (Double.num 2) (Double.num 0)
        (Double.num 0) (Double.num 3) ((3 : ℕ) : ℤ) ((2 : ℕ) : ℤ) = Double.num rx ∧
      Double.numericDoubleIntegralRect Double.planeObjective (Double.num 0) (Double.num 2)
        (Double.num 3) (Double.num 0) ((3 : ℕ) : ℤ) ((2 : ℕ) : ℤ) = Double.num ry ∧
      |rx + r| ≤ 2 * (256 * (1 / 2 ^ 36) + (17 + 1) / 2 ^ 30 + 1 / 2 ^ 24) ∧
      |ry + r| ≤ 2 * (256 * (1 / 2 ^ 36) + (17 + 1) / 2 ^ 30 + 1 / 2 ^ 24)) ∧
    Double.numericDoubleIntegralRect Double.planeObjective (Double.num 1) (Double.num 1)
        (Double.num 0) (Double.num 3) ((3 : ℕ) : ℤ) ((2 : ℕ) : ℤ) = Double.num 0 :=
  ⟨(numericDoubleIntegralRect_reversed_degenerate Double.planeObjective 0 2 0 3 3 2
      (by norm_num) (by norm_num) (by norm_num) (by norm_num)).1 (fun x y => x + y) 17
      (1 / 2 ^ 36) (by norm_num) (by norm_num) (by norm_num) (by norm_num) (by norm_num)
      (by norm_num) (by norm_num) (by norm_num) (by norm_num)
      (fun x y ξ ζ hx hy hξ hζ => planeObjective_near x y ξ ζ hx hy hξ hζ),
    (numericDoubleIntegralRect_reversed_degenerate Double.planeObjective 1 2 0 3 3 2
      (by norm_num) (by norm_num) (by norm_num) (by norm_num)).2.2.1 (by decide!)⟩

/-! ## Grid generator in doubles -/

/-- C17 (the claim fails): in doubles the last of the 50 values of createRange(0, 1, 50)
is 1 - 2^(-53) (printed 0.9999999999999999), not max = 1, and createRange(1e16, 1e16 + 2, 3)
is [1e16, 1e16, 1e16 + 2]: its two gaps are 0 and 2 and it is not strictly increasing. -/
theorem createRange_inexact :
    (Double.createRange (Double.num 0) (Double.num 1) 50).getLast? =
      some (Double.num (1 - 1 / 2 ^ 53)) ∧
    Double.createRange (Double.num 10000000000000000) (Double.num 10000000000000002) 3 =
      [Double.num 10000000000000000, Double.num 10000000000000000,
        Double.num 10000000000000002] := by
  constructor <;> decide!

/-- C17 (amended): for doubles min < max of magnitude at most 1024 and
2 <= steps <= 1025, createRange(min, max, steps) computed in doubles returns exactly
steps finite values; the first is min exactly, the sequence is non-decreasing, and the
i-th value is within 2^(-30) of min + i*(max-min)/(steps-1); in particular the last is
within 2^(-30) of max. -/
theorem createRange_rounded (min max : ℚ) (steps : ℕ)
    (hmin : Double.round min = Double.num min) (hmin2 : |min| ≤ 1024) (hmax2 : |max| ≤ 1024)
    (hlt : min < max) (hs1 : 2 ≤ steps) (hs2 : steps ≤ 1025) :
    ∃ v : ℕ → ℚ,
      Double.createRange (Double.num min) (Double.num max) steps =
        (List.range steps).map (fun i => Double.num (v i)) ∧
      (Double.createRange (Double.num min) (Double.num max) steps).length = steps ∧
      v 0 = min ∧
      (∀ i j : ℕ, i ≤ j → j < steps → v i ≤ v j) ∧
      (∀ i : ℕ, i < steps →
        |v i - (min + (i : ℚ) * (max - min) / ((steps : ℚ) - 1))| ≤ 1 / 2 ^ 30) ∧
      |v (steps - 1) - max| ≤ 1 / 2 ^ 30 := by
  obtain ⟨n, hn⟩ : ∃ n : ℕ, steps = n + 1 := ⟨steps - 1, by omega⟩
  subst hn
  have hn1 : 1 ≤ n := by omega
  have hn2 : n ≤ 1024 := by omega
  have hnq1 : (1 : ℚ) ≤ n := by exact_mod_cast hn1
  have hnq2 : (n : ℚ) ≤ 1024 := by exact_mod_cast hn2
  have hnpos : (0 : ℚ) < n := by linarith
  have hcast : (((n + 1 : ℕ) : ℚ) - 1) = n := by push_cast; ring
  have hΔ : |max - min| ≤ 2048 := by
    have := abs_sub max min
    linarith
  have hΔ0 : 0 ≤ max - min := by linarith
  obtain ⟨w, hw, hwerr⟩ := rnd_abs (max - min) 2048 hΔ (by norm_num)
  have hw0 : 0 ≤ w := rnd_mono 0 (max - min) 0 w hΔ0 rnd_zero hw
  have hwabs : |w| ≤ 2049 := by
    have e : w = (w - (max - min)) + (max - min) := by ring
    rw [e]
    have := abs_add (w - (max - min)) (max - min)
    have : (2048 : ℚ) / 2 ^ 53 + 1 / 2 ^ 100 ≤ 1 := by norm_num
    linarith
  have hwn : |w / n| ≤ 2049 := by
    rw [abs_div, abs_of_pos hnpos]
    calc |w| / n ≤ |w| / 1 := div_le_div_of_nonneg_left (abs_nonneg w) (by norm_num) hnq1
      _ = |w| := div_one _
      _ ≤ 2049 := hwabs
  obtain ⟨s, hs, hserr⟩ := rnd_abs (w / n) 2049 hwn (by norm_num)
  have hs0 : 0 ≤ s := rnd_mono 0 (w / n) 0 s (div_nonneg hw0 hnpos.le) rnd_zero hs
  have hstep : (Double.num max - Double.num min) / (Double.round ((n + 1 : ℕ) : ℚ) - 1) =
      Double.num s := by
    rw [dnum_sub, hw, rnd_natCast (n + 1) (lt_of_le_of_lt hs2 (by norm_num)), done_eq, dnum_sub,
      hcast, rnd_natCast n (lt_of_le_of_lt hn2 (by norm_num)), dnum_div _ _ hnpos.ne', hs]
  have hsd : |s - (max - min) / n| ≤ 4098 / 2 ^ 53 := by
    have e : s - (max - min) / n = (s - w / n) + (w - (max - min)) / n := by
      field_simp
    rw [e]
    have h2 := abs_add (s - w / n) ((w - (max - min)) / n)
    have h3 : |(w - (max - min)) / n| ≤ |w - (max - min)| := by
      rw [abs_div, abs_of_pos hnpos]
      calc |w - (max - min)| / n ≤ |w - (max - min)| / 1 :=
            div_le_div_of_nonneg_left (abs_nonneg _) (by norm_num) hnq1
        _ = _ := div_one _
    have : (2049 : ℚ) / 2 ^ 53 + 1 / 2 ^ 100 + (2048 / 2 ^ 53 + 1 / 2 ^ 100) ≤ 4098 / 2 ^ 53 := by
      norm_num
    linarith
  have hsabs : |s| ≤ 2049 / n := by
    have e : s = (s - (max - min) / n) + (max - min) / n := by ring
    rw [e]
    have h2 := abs_add (s - (max - min) / n) ((max - min) / n)
    have h3 : |(max - min) / n| ≤ 2048 / n := by
      rw [abs_div, abs_of_pos hnpos]
      exact div_le_div_of_nonneg_right hΔ hnpos.le
    have h4 : (4098 : ℚ) / 2 ^ 53 ≤ 1 / n := by
      rw [div_le_div_iff₀ (by positivity) hnpos]
      norm_num
      linarith
    have h5 : (2049 : ℚ) / n = 1 / n + 2048 / n := by ring
    linarith
  have hpoints : ∀ i : ℕ, i < n + 1 → ∃ p v : ℚ,
      Double.round ((i : ℚ) * s) = Double.num p ∧ Double.round (min + p) = Double.num v ∧
      |v - (min + (i : ℚ) * (max - min) / n)| ≤ 1 / 2 ^ 30 := by
    intro i hi
    have hiq : (i : ℚ) ≤ n := by exact_mod_cast Nat.lt_succ_iff.1 hi
    have hi0 : (0 : ℚ) ≤ i := Nat.cast_nonneg i
    have hprod : |(i : ℚ) * s| ≤ 2049 := by
      rw [abs_mul, abs_of_nonneg hi0]
      calc (i : ℚ) * |s| ≤ n * (2049 / n) := mul_le_mul hiq hsabs (abs_nonneg s) hnpos.le
        _ = 2049 := by field_simp
    obtain ⟨p, hp, hperr⟩ := rnd_abs ((i : ℚ) * s) 2049 hprod (by norm_num)
    have hpabs : |p| ≤ 2050 := by
      have e : p = (p - (i : ℚ) * s) + (i : ℚ) * s := by ring
      rw [e]
      have := abs_add (p - (i : ℚ) * s) ((i : ℚ) * s)
      have : (2049 : ℚ) / 2 ^ 53 + 1 / 2 ^ 100 ≤ 1 := by norm_num
      linarith
    have hsum : |min + p| ≤ 3074 := by
      have := abs_add min p
      linarith
    obtain ⟨v, hv, hverr⟩ := rnd_abs (min + p) 3074 hsum (by norm_num)
    refine ⟨p, v, hp, hv, ?_⟩
    have hdiff : |(i : ℚ) * s - (i : ℚ) * (max - min) / n| ≤ 1024 * (4098 / 2 ^ 53) := by
      have e : (i : ℚ) * s - (i : ℚ) * (max - min) / n = (i : ℚ) * (s - (max - min) / n) := by
        ring
      rw [e, abs_mul, abs_of_nonneg hi0]
      exact mul_le_mul (le_trans hiq hnq2) hsd (abs_nonneg _) (by norm_num)
    have e : v - (min + (i : ℚ) * (max - min) / n) =
        (v - (min + p)) + (p - (i : ℚ) * s) + ((i : ℚ) * s - (i : ℚ) * (max - min) / n) := by
      ring
    rw [e]
    have h2 := abs_add ((v - (min + p)) + (p - (i : ℚ) * s))
      ((i : ℚ) * s - (i : ℚ) * (max - min) / n)
    have h3 := abs_add (v - (min + p)) (p - (i : ℚ) * s)
    have : (3074 : ℚ) / 2 ^ 53 + 1 / 2 ^ 100 + (2049 / 2 ^ 53 + 1 / 2 ^ 100) +
        1024 * (4098 / 2 ^ 53) ≤ 1 / 2 ^ 30 := by norm_num
    linarith
  choose! p v hp hv hverr using hpoints
  have hmap : Double.createRange (Double.num min) (Double.num max) (n + 1) =
      (List.range (n + 1)).map (fun i => Double.num (v i)) := by
    unfold Double.createRange
    simp only
    rw [hstep]
    apply List.map_congr_left
    intro i hi
    have hi' : i < n + 1 := List.mem_range.1 hi
    rw [rnd_natCast i (lt_of_lt_of_le hi' (le_trans hs2 (by norm_num))), dnum_mul, hp i hi',
      dnum_add, hv i hi']
  refine ⟨v, hmap, ?_, ?_, ?_, ?_, ?_⟩
  · rw [hmap, List.length_map, List.length_range]
  · have h0 := hp 0 (Nat.succ_pos n)
    have h1 := hv 0 (Nat.succ_pos n)
    rw [Nat.cast_zero, zero_mul, rnd_zero] at h0
    rw [← Double.num.inj h0, add_zero, hmin] at h1
    exact (Double.num.inj h1).symm
  · intro i j hij hj
    have hi : i < n + 1 := lt_of_le_of_lt hij hj
    have hijq : (i : ℚ) ≤ j := by exact_mod_cast hij
    have h1 : p i ≤ p j := rnd_mono _ _ _ _ (mul_le_mul_of_nonneg_right hijq hs0) (hp i hi) (hp j hj)
    exact rnd_mono _ _ _ _ (by linarith) (hv i hi) (hv j hj)
  · intro i hi
    rw [hcast]
    exact hverr i hi
  · have h := hverr n (Nat.lt_succ_self n)
    have e : min + (n : ℚ) * (max - min) / n = max := by
      field_simp
    rw [e] at h
    simpa using h

/-- C17 (amended) on the range [-5, 5] with 21 steps. -/
theorem createRange_rounded_witness :
    ∃ v : ℕ → ℚ,
      Double.createRange (Double.num (-5)) (Double.num 5) 21 =
        (List.range 21).map (fun i => Double.num (v i)) ∧
      (Double.createRange (Double.num (-5)) (Double.num 5) 21).length = 21 ∧
      v 0 = -5 ∧
      (∀ i j : ℕ, i ≤ j → j < 21 → v i ≤ v j) ∧
      (∀ i : ℕ, i < 21 →
        |v i - (-5 + (i : ℚ) * (5 - -5) / (((21 : ℕ) : ℚ) - 1))| ≤ 1 / 2 ^ 30) ∧
      |v (21 - 1) - 5| ≤ 1 / 2 ^ 30 :=
  createRange_rounded (-5) 5 21 (by decide!) (by norm_num) (by norm_num) (by norm_num)
    (by norm_num) (by norm_num)

/-! ## Finite differences in doubles -/

theorem defaultH_val :
    Double.defaultH = Double.num (7378697629483821 / 73786976294838206464) := by
  decide!

theorem twoH_val :
    (2 : Double) * Double.defaultH = Double.num (7378697629483821 / 36893488147419103232) := by
  decide!

theorem hSq_val :
    Double.defaultH * Double.defaultH =
      Double.num (3022314549036573 / 302231454903657293676544) := by
  decide!

theorem fourHSq_val :
    (4 : Double) * Double.defaultH * Double.defaultH =
      Double.num (3022314549036573 / 75557863725914323419136) := by
  decide!

/-- The two abscissas of the stencil at a point of magnitude at most 5: the doubles
computed for `x + h` and `x - h` are within `2^(-50)` of `x + 1/10000` and
`x - 1/10000`. -/
theorem shift_abs (x : ℚ) (hx : |x| ≤ 5) :
    ∃ ξp ξm : ℚ, Double.num x + Double.defaultH = Double.num ξp ∧
      Double.num x - Double.defaultH = Double.num ξm ∧
      |ξp - (x + 1 / 10000)| ≤ 1 / 2 ^ 50 ∧ |ξm - (x - 1 / 10000)| ≤ 1 / 2 ^ 50 := by
  have hh : |(7378697629483821 / 73786976294838206464 : ℚ) - 1 / 10000| ≤ 1 / 2 ^ 67 := by
    rw [abs_le]
    constructor <;> norm_num
  have hh0 : |(7378697629483821 / 73786976294838206464 : ℚ)| ≤ 1 := by
    rw [abs_le]
    constructor <;> norm_num
  have h1 : |x + 7378697629483821 / 73786976294838206464| ≤ 6 := by
    have := abs_add x (7378697629483821 / 73786976294838206464)
    linarith
  have h2 : |x - 7378697629483821 / 73786976294838206464| ≤ 6 := by
    have := abs_sub x (7378697629483821 / 73786976294838206464)
    linarith
  obtain ⟨ξp, hp, hperr⟩ := rnd_abs _ 6 h1 (by norm_num)
  obtain ⟨ξm, hm, hmerr⟩ := rnd_abs _ 6 h2 (by norm_num)
  refine ⟨ξp, ξm, ?_, ?_, ?_, ?_⟩
  · rw [defaultH_val, dnum_add, hp]
  · rw [defaultH_val, dnum_sub, hm]
  · have e : ξp - (x + 1 / 10000) = (ξp - (x + 7378697629483821 / 73786976294838206464)) +
        (7378697629483821 / 73786976294838206464 - 1 / 10000) := by ring
    rw [e]
    have := abs_add (ξp - (x + 7378697629483821 / 73786976294838206464))
      (7378697629483821 / 73786976294838206464 - 1 / 10000)
    have : (6 : ℚ) / 2 ^ 53 + 1 / 2 ^ 100 + 1 / 2 ^ 67 ≤ 1 / 2 ^ 50 := by norm_num
    linarith
  · have e : ξm - (x - 1 / 10000) = (ξm - (x - 7378697629483821 / 73786976294838206464)) -
        (7378697629483821 / 73786976294838206464 - 1 / 10000) := by ring
    rw [e]
    have := abs_sub (ξm - (x - 7378697629483821 / 73786976294838206464))
      (7378697629483821 / 73786976294838206464 - 1 / 10000)
    have : (6 : ℚ) / 2 ^ 53 + 1 / 2 ^ 100 + 1 / 2 ^ 67 ≤ 1 / 2 ^ 50 := by norm_num
    linarith

/-- A quadratic with coefficients of magnitude at most 8 varies by at most `304 δ`
between two points of `[-6, 6]^2` whose coordinates differ by at most `δ`, and is of
magnitude at most 968 there. -/
theorem quadratic_lipschitz (a b c d e k ξ ζ x y δ : ℚ) (ha : |a| ≤ 8) (hb : |b| ≤ 8)
    (hc : |c| ≤ 8) (hd : |d| ≤ 8) (he : |e| ≤ 8) (hk : |k| ≤ 8) (hξ : |ξ| ≤ 6) (hζ : |ζ| ≤ 6)
    (hx : |x| ≤ 6) (hy : |y| ≤ 6) (hξx : |ξ - x| ≤ δ) (hζy : |ζ - y| ≤ δ) :
    |(a * ξ * ξ + b * ξ * ζ + c * ζ * ζ + d * ξ + e * ζ + k) -
        (a * x * x + b * x * y + c * y * y + d * x + e * y + k)| ≤ 304 * δ ∧
    |a * x * x + b * x * y + c * y * y + d * x + e * y + k| ≤ 968 := by
  have hδ : 0 ≤ δ := le_trans (abs_nonneg _) hξx
  constructor
  · have e1 : (a * ξ * ξ + b * ξ * ζ + c * ζ * ζ + d * ξ + e * ζ + k) -
        (a * x * x + b * x * y + c * y * y + d * x + e * y + k) =
        a * ((ξ - x) * (ξ + x)) + b * ((ξ - x) * ζ) + b * (x * (ζ - y)) +
          c * ((ζ - y) * (ζ + y)) + d * (ξ - x) + e * (ζ - y) := by ring
    rw [e1]
    have s1 : |ξ + x| ≤ 12 := by
      have := abs_add ξ x
      linarith
    have s2 : |ζ + y| ≤ 12 := by
      have := abs_add ζ y
      linarith
    have t1 : |a * ((ξ - x) * (ξ + x))| ≤ 8 * (δ * 12) := by
      rw [abs_mul, abs_mul]
      exact mul_le_mul ha (mul_le_mul hξx s1 (abs_nonneg _) hδ) (by positivity) (by norm_num)
    have t2 : |b * ((ξ - x) * ζ)| ≤ 8 * (δ * 6) := by
      rw [abs_mul, abs_mul]
      exact mul_le_mul hb (mul_le_mul hξx hζ (abs_nonneg _) hδ) (by positivity) (by norm_num)
    have t3 : |b * (x * (ζ - y))| ≤ 8 * (6 * δ) := by
      rw [abs_mul, abs_mul]
      exact mul_le_mul hb (mul_le_mul hx hζy (abs_nonneg _) (by norm_num)) (by positivity)
        (by norm_num)
    have t4 : |c * ((ζ - y) * (ζ + y))| ≤ 8 * (δ * 12) := by
      rw [abs_mul, abs_mul]
      exact mul_le_mul hc (mul_le_mul hζy s2 (abs_nonneg _) hδ) (by positivity) (by norm_num)
    have t5 : |d * (ξ - x)| ≤ 8 * δ := by
      rw [abs_mul]
      exact mul_le_mul hd hξx (abs_nonneg _) (by norm_num)
    have t6 : |e * (ζ - y)| ≤ 8 * δ := by
      rw [abs_mul]
      exact mul_le_mul he hζy (abs_nonneg _) (by norm_num)
    have h1 := abs_add (a * ((ξ - x) * (ξ + x)) + b * ((ξ - x) * ζ) + b * (x * (ζ - y)) +
      c * ((ζ - y) * (ζ + y)) + d * (ξ - x)) (e * (ζ - y))
    have h2 := abs_add (a * ((ξ - x) * (ξ + x)) + b * ((ξ - x) * ζ) + b * (x * (ζ - y)) +
      c * ((ζ - y) * (ζ + y))) (d * (ξ - x))
    have h3 := abs_add (a * ((ξ - x) * (ξ + x)) + b * ((ξ - x) * ζ) + b * (x * (ζ - y)))
      (c * ((ζ - y) * (ζ + y)))
    have h4 := abs_add (a * ((ξ - x) * (ξ + x)) + b * ((ξ - x) * ζ)) (b * (x * (ζ - y)))
    have h5 := abs_add (a * ((ξ - x) * (ξ + x))) (b * ((ξ - x) * ζ))
    linarith
  · have t1 : |a * x * x| ≤ 8 * 6 * 6 := by
      rw [abs_mul, abs_mul]
      exact mul_le_mul (mul_le_mul ha hx (abs_nonneg _) (by norm_num)) hx (abs_nonneg _)
        (by norm_num)
    have t2 : |b * x * y| ≤ 8 * 6 * 6 := by
      rw [abs_mul, abs_mul]
      exact mul_le_mul (mul_le_mul hb hx (abs_nonneg _) (by norm_num)) hy (abs_nonneg _)
        (by norm_num)
    have t3 : |c * y * y| ≤ 8 * 6 * 6 := by
      rw [abs_mul, abs_mul]
      exact mul_le_mul (mul_le_mul hc hy (abs_nonneg _) (by norm_num)) hy (abs_nonneg _)
        (by norm_num)
    have t4 : |d * x| ≤ 8 * 6 := by
      rw [abs_mul]
      exact mul_le_mul hd hx (abs_nonneg _) (by norm_num)
    have t5 : |e * y| ≤ 8 * 6 := by
      rw [abs_mul]
      exact mul_le_mul he hy (abs_nonneg _) (by norm_num)
    have h1 := abs_add (a * x * x + b * x * y + c * y * y + d * x + e * y) k
    have h2 := abs_add (a * x * x + b * x * y + c * y * y + d * x) (e * y)
    have h3 := abs_add (a * x * x + b * x * y + c * y * y) (d * x)
    have h4 := abs_add (a * x * x + b * x * y) (c * y * y)
    have h5 := abs_add (a * x * x) (b * x * y)
    linarith

/-- The value the differentiator reads at a stencil point: for an evaluator within
`2^(-41)` of a quadratic on `[-6, 6]^2`, the value read at doubles within `2^(-50)` of
a point `(x, y)` is finite, within `2^(-40)` of the quadratic at `(x, y)` and of
magnitude at most 969. -/
theorem sample_abs (expression : Double.Expression) (a b c d e k : ℚ) (ha : |a| ≤ 8)
    (hb : |b| ≤ 8) (hc : |c| ≤ 8) (hd : |d| ≤ 8) (he : |e| ≤ 8) (hk : |k| ≤ 8)
    (horacle : ∀ x y : ℚ, |x| ≤ 6 → |y| ≤ 6 →
      ∃ v : ℚ, expression.eval (Double.num x) (Double.num y) = Double.num v ∧
        |v - (a * x * x + b * x * y + c * y * y + d * x + e * y + k)| ≤ 1 / 2 ^ 41)
    (ξ ζ x y : ℚ) (hx : |x| ≤ 5 + 1 / 10000) (hy : |y| ≤ 5 + 1 / 10000)
    (hξx : |ξ - x| ≤ 1 / 2 ^ 50) (hζy : |ζ - y| ≤ 1 / 2 ^ 50) :
    ∃ v : ℚ, Double.evaluateLocalAtPoint expression (Double.num ξ) (Double.num ζ) =
        Double.num v ∧
      |v - (a * x * x + b * x * y + c * y * y + d * x + e * y + k)| ≤ 1 / 2 ^ 40 ∧
      |v| ≤ 969 := by
  have hξ : |ξ| ≤ 6 := by
    have e1 : ξ = (ξ - x) + x := by ring
    rw [e1]
    have := abs_add (ξ - x) x
    have : (1 : ℚ) / 2 ^ 50 + (5 + 1 / 10000) ≤ 6 := by norm_num
    linarith
  have hζ : |ζ| ≤ 6 := by
    have e1 : ζ = (ζ - y) + y := by ring
    rw [e1]
    have := abs_add (ζ - y) y
    have : (1 : ℚ) / 2 ^ 50 + (5 + 1 / 10000) ≤ 6 := by norm_num
    linarith
  obtain ⟨v, hv, hverr⟩ := horacle ξ ζ hξ hζ
  obtain ⟨hl, hq⟩ := quadratic_lipschitz a b c d e k ξ ζ x y (1 / 2 ^ 50) ha hb hc hd he hk hξ hζ
    (le_trans hx (by norm_num)) (le_trans hy (by norm_num)) hξx hζy
  have hclose : |v - (a * x * x + b * x * y + c * y * y + d * x + e * y + k)| ≤ 1 / 2 ^ 40 := by
    have e1 : v - (a * x * x + b * x * y + c * y * y + d * x + e * y + k) =
        (v - (a * ξ * ξ + b * ξ * ζ + c * ζ * ζ + d * ξ + e * ζ + k)) +
          ((a * ξ * ξ + b * ξ * ζ + c * ζ * ζ + d * ξ + e * ζ + k) -
            (a * x * x + b * x * y + c * y * y + d * x + e * y + k)) := by ring
    rw [e1]
    have := abs_add (v - (a * ξ * ξ + b * ξ * ζ + c * ζ * ζ + d * ξ + e * ζ + k))
      ((a * ξ * ξ + b * ξ * ζ + c * ζ * ζ + d * ξ + e * ζ + k) -
        (a * x * x + b * x * y + c * y * y + d * x + e * y + k))
    have : (1 : ℚ) / 2 ^ 41 + 304 * (1 / 2 ^ 50) ≤ 1 / 2 ^ 40 := by norm_num
    linarith
  refine ⟨v, ?_, hclose, ?_⟩
  · unfold Double.evaluateLocalAtPoint
    rw [hv]
    rfl
  · have e1 : v = (v - (a * x * x + b * x * y + c * y * y + d * x + e * y + k)) +
        (a * x * x + b * x * y + c * y * y + d * x + e * y + k) := by ring
    rw [e1]
    have := abs_add (v - (a * x * x + b * x * y + c * y * y + d * x + e * y + k))
      (a * x * x + b * x * y + c * y * y + d * x + e * y + k)
    have : (1 : ℚ) / 2 ^ 40 ≤ 1 := by norm_num
    linarith

/-- The first central difference quotient in doubles: for two values of magnitude at
most 969, each within `2^(-40)` of its ideal value, and ideal values differing by at
most `1/32`, the quotient by `2*h` is finite and within `2^(-25)` of the ideal
difference times 5000. -/
theorem central1_abs (vp vm Fp Fm : ℚ) (hp : |vp - Fp| ≤ 1 / 2 ^ 40)
    (hm : |vm - Fm| ≤ 1 / 2 ^ 40) (hvp : |vp| ≤ 969) (hvm : |vm| ≤ 969)
    (hF : |Fp - Fm| ≤ 1 / 32) :
    ∃ g : ℚ, (Double.num vp - Double.num vm) / ((2 : Double) * Double.defaultH) = Double.num g ∧
      |g - (Fp - Fm) * 5000| ≤ 1 / 2 ^ 25 := by
  have hdiff : |vp - vm| ≤ 1938 := by
    have := abs_sub vp vm
    linarith
  obtain ⟨N, hN, hNerr⟩ := rnd_abs (vp - vm) 1938 hdiff (by norm_num)
  have hNF : |N - (Fp - Fm)| ≤ 2 / 2 ^ 40 + 1938 / 2 ^ 53 + 1 / 2 ^ 100 := by
    have e : N - (Fp - Fm) = (N - (vp - vm)) + (vp - Fp) - (vm - Fm) := by ring
    rw [e]
    have h1 := abs_sub ((N - (vp - vm)) + (vp - Fp)) (vm - Fm)
    have h2 := abs_add (N - (vp - vm)) (vp - Fp)
    linarith
  have hNabs : |N| ≤ 1 / 16 := by
    have e : N = (N - (Fp - Fm)) + (Fp - Fm) := by ring
    rw [e]
    have := abs_add (N - (Fp - Fm)) (Fp - Fm)
    have : (2 : ℚ) / 2 ^ 40 + 1938 / 2 ^ 53 + 1 / 2 ^ 100 + 1 / 32 ≤ 1 / 16 := by norm_num
    linarith
  have hd2 : (7378697629483821 / 36893488147419103232 : ℚ) ≠ 0 := by norm_num
  have hdiv : N / (7378697629483821 / 36893488147419103232) =
      N * (36893488147419103232 / 7378697629483821) := by
    field_simp
  have hr1 : |(36893488147419103232 / 7378697629483821 : ℚ)| ≤ 5001 := by
    rw [abs_le]
    constructor <;> norm_num
  have hr2 : |(36893488147419103232 / 7378697629483821 : ℚ) - 5000| ≤ 1 / 2 ^ 30 := by
    rw [abs_le]
    constructor <;> norm_num
  have hq : |N * (36893488147419103232 / 7378697629483821)| ≤ 313 := by
    rw [abs_mul]
    calc |N| * |(36893488147419103232 / 7378697629483821 : ℚ)| ≤ 1 / 16 * 5001 :=
          mul_le_mul hNabs hr1 (abs_nonneg _) (by norm_num)
      _ ≤ 313 := by norm_num
  obtain ⟨g, hg, hgerr⟩ := rnd_abs _ 313 hq (by norm_num)
  refine ⟨g, ?_, ?_⟩
  · rw [twoH_val, dnum_sub, hN, dnum_div _ _ hd2, hdiv, hg]
  · have e : g - (Fp - Fm) * 5000 =
        (g - N * (36893488147419103232 / 7378697629483821)) +
          (N - (Fp - Fm)) * (36893488147419103232 / 7378697629483821) +
          (Fp - Fm) * (36893488147419103232 / 7378697629483821 - 5000) := by ring
    rw [e]
    have t1 : |(N - (Fp - Fm)) * (36893488147419103232 / 7378697629483821)| ≤
        (2 / 2 ^ 40 + 1938 / 2 ^ 53 + 1 / 2 ^ 100) * 5001 := by
      rw [abs_mul]
      exact mul_le_mul hNF hr1 (abs_nonneg _) (by norm_num)
    have t2 : |(Fp - Fm) * (36893488147419103232 / 7378697629483821 - 5000)| ≤
        1 / 32 * (1 / 2 ^ 30) := by
      rw [abs_mul]
      exact mul_le_mul hF hr2 (abs_nonneg _) (by norm_num)
    have h1 := abs_add ((g - N * (36893488147419103232 / 7378697629483821)) +
      (N - (Fp - Fm)) * (36893488147419103232 / 7378697629483821))
      ((Fp - Fm) * (36893488147419103232 / 7378697629483821 - 5000))
    have h2 := abs_add (g - N * (36893488147419103232 / 7378697629483821))
      ((N - (Fp - Fm)) * (36893488147419103232 / 7378697629483821))
    have : (313 : ℚ) / 2 ^ 53 + 1 / 2 ^ 100 + (2 / 2 ^ 40 + 1938 / 2 ^ 53 + 1 / 2 ^ 100) * 5001 +
        1 / 32 * (1 / 2 ^ 30) ≤ 1 / 2 ^ 25 := by norm_num
    linarith

/-- The second central difference quotient in doubles: within `2^(-11)` of the ideal
second difference times `10^8`. -/
theorem central2_abs (vp v0 vm Fp F0 Fm : ℚ) (hp : |vp - Fp| ≤ 1 / 2 ^ 40)
    (h0 : |v0 - F0| ≤ 1 / 2 ^ 40) (hm : |vm - Fm| ≤ 1 / 2 ^ 40) (hvp : |vp| ≤ 969)
    (hv0 : |v0| ≤ 969) (hvm : |vm| ≤ 969) (hF : |Fp - 2 * F0 + Fm| ≤ 1 / 2 ^ 20) :
    ∃ g : ℚ, (Double.num vp - (2 : Double) * Double.num v0 + Double.num vm) /
        (Double.defaultH * Double.defaultH) = Double.num g ∧
      |g - (Fp - 2 * F0 + Fm) * 100000000| ≤ 1 / 2 ^ 11 := by
  have h2v : |2 * v0| ≤ 1938 := by
    rw [abs_mul]
    norm_num
    linarith
  obtain ⟨t0, ht0, ht0err⟩ := rnd_abs (2 * v0) 1938 h2v (by norm_num)
  have ht0abs : |t0| ≤ 1939 := by
    have e : t0 = (t0 - 2 * v0) + 2 * v0 := by ring
    rw [e]
    have := abs_add (t0 - 2 * v0) (2 * v0)
    have : (1938 : ℚ) / 2 ^ 53 + 1 / 2 ^ 100 ≤ 1 := by norm_num
    linarith
  have h1 : |vp - t0| ≤ 2908 := by
    have := abs_sub vp t0
    linarith
  obtain ⟨t1, ht1, ht1err⟩ := rnd_abs (vp - t0) 2908 h1 (by norm_num)
  have ht1abs : |t1| ≤ 2909 := by
    have e : t1 = (t1 - (vp - t0)) + (vp - t0) := by ring
    rw [e]
    have := abs_add (t1 - (vp - t0)) (vp - t0)
    have : (2908 : ℚ) / 2 ^ 53 + 1 / 2 ^ 100 ≤ 1 := by norm_num
    linarith
  have h2 : |t1 + vm| ≤ 3878 := by
    have := abs_add t1 vm
    linarith
  obtain ⟨N, hN, hNerr⟩ := rnd_abs (t1 + vm) 3878 h2 (by norm_num)
  have hNF : |N - (Fp - 2 * F0 + Fm)| ≤ 4 / 2 ^ 40 + 8724 / 2 ^ 53 + 3 / 2 ^ 100 := by
    have e : N - (Fp - 2 * F0 + Fm) = (N - (t1 + vm)) + (t1 - (vp - t0)) - (t0 - 2 * v0) +
        (vp - Fp) - 2 * (v0 - F0) + (vm - Fm) := by ring
    rw [e]
    have a1 := abs_add ((N - (t1 + vm)) + (t1 - (vp - t0)) - (t0 - 2 * v0) + (vp - Fp) -
      2 * (v0 - F0)) (vm - Fm)
    have a2 := abs_sub ((N - (t1 + vm)) + (t1 - (vp - t0)) - (t0 - 2 * v0) + (vp - Fp))
      (2 * (v0 - F0))
    have a3 := abs_add ((N - (t1 + vm)) + (t1 - (vp - t0)) - (t0 - 2 * v0)) (vp - Fp)
    have a4 := abs_sub ((N - (t1 + vm)) + (t1 - (vp - t0))) (t0 - 2 * v0)
    have a5 := abs_add (N - (t1 + vm)) (t1 - (vp - t0))
    have a6 : |2 * (v0 - F0)| = 2 * |v0 - F0| := by
      rw [abs_mul]
      norm_num
    linarith
  have hNabs : |N| ≤ 1 / 2 ^ 19 := by
    have e : N = (N - (Fp - 2 * F0 + Fm)) + (Fp - 2 * F0 + Fm) := by ring
    rw [e]
    have := abs_add (N - (Fp - 2 * F0 + Fm)) (Fp - 2 * F0 + Fm)
    have : (4 : ℚ) / 2 ^ 40 + 8724 / 2 ^ 53 + 3 / 2 ^ 100 + 1 / 2 ^ 20 ≤ 1 / 2 ^ 19 := by norm_num
    linarith
  have hd : (3022314549036573 / 302231454903657293676544 : ℚ) ≠ 0 := by norm_num
  have hdiv : N / (3022314549036573 / 302231454903657293676544) =
      N * (302231454903657293676544 / 3022314549036573) := by
    field_simp
  have hr1 : |(302231454903657293676544 / 3022314549036573 : ℚ)| ≤ 100000001 := by
    rw [abs_le]
    constructor <;> norm_num
  have hr2 : |(302231454903657293676544 / 3022314549036573 : ℚ) - 100000000| ≤ 1 / 2 ^ 20 := by
    rw [abs_le]
    constructor <;> norm_num
  have hq : |N * (302231454903657293676544 / 3022314549036573)| ≤ 191 := by
    rw [abs_mul]
    calc |N| * |(302231454903657293676544 / 3022314549036573 : ℚ)| ≤ 1 / 2 ^ 19 * 100000001 :=
          mul_le_mul hNabs hr1 (abs_nonneg _) (by norm_num)
      _ ≤ 191 := by norm_num
  obtain ⟨g, hg, hgerr⟩ := rnd_abs _ 191 hq (by norm_num)
  refine ⟨g, ?_, ?_⟩
  · rw [hSq_val, dtwo_eq, dnum_mul, ht0, dnum_sub, ht1, dnum_add, hN, dnum_div _ _ hd, hdiv, hg]
  · have e : g - (Fp - 2 * F0 + Fm) * 100000000 =
        (g - N * (302231454903657293676544 / 3022314549036573)) +
          (N - (Fp - 2 * F0 + Fm)) * (302231454903657293676544 / 3022314549036573) +
          (Fp - 2 * F0 + Fm) * (302231454903657293676544 / 3022314549036573 - 100000000) := by
      ring
    rw [e]
    have t1 : |(N - (Fp - 2 * F0 + Fm)) * (302231454903657293676544 / 3022314549036573)| ≤
        (4 / 2 ^ 40 + 8724 / 2 ^ 53 + 3 / 2 ^ 100) * 100000001 := by
      rw [abs_mul]
      exact mul_le_mul hNF hr1 (abs_nonneg _) (by norm_num)
    have t2 : |(Fp - 2 * F0 + Fm) *
        (302231454903657293676544 / 3022314549036573 - 100000000)| ≤
        1 / 2 ^ 20 * (1 / 2 ^ 20) := by
      rw [abs_mul]
      exact mul_le_mul hF hr2 (abs_nonneg _) (by norm_num)
    have a1 := abs_add ((g - N * (302231454903657293676544 / 3022314549036573)) +
      (N - (Fp - 2 * F0 + Fm)) * (302231454903657293676544 / 3022314549036573))
      ((Fp - 2 * F0 + Fm) * (302231454903657293676544 / 3022314549036573 - 100000000))
    have a2 := abs_add (g - N * (302231454903657293676544 / 3022314549036573))
      ((N - (Fp - 2 * F0 + Fm)) * (302231454903657293676544 / 3022314549036573))
    have : (191 : ℚ) / 2 ^ 53 + 1 / 2 ^ 100 +
        (4 / 2 ^ 40 + 8724 / 2 ^ 53 + 3 / 2 ^ 100) * 100000001 + 1 / 2 ^ 20 * (1 / 2 ^ 20)
        ≤ 1 / 2 ^ 11 := by norm_num
    linarith

/-- The mixed central difference quotient in doubles: within `2^(-13)` of the ideal
mixed difference times `25 * 10^6`. -/
theorem central4_abs (v1 v2 v3 v4 F1 F2 F3 F4 : ℚ) (h1 : |v1 - F1| ≤ 1 / 2 ^ 40)
    (h2 : |v2 - F2| ≤ 1 / 2 ^ 40) (h3 : |v3 - F3| ≤ 1 / 2 ^ 40) (h4 : |v4 - F4| ≤ 1 / 2 ^ 40)
    (hv1 : |v1| ≤ 969) (hv2 : |v2| ≤ 969) (hv3 : |v3| ≤ 969) (hv4 : |v4| ≤ 969)
    (hF : |F1 - F2 - F3 + F4| ≤ 1 / 2 ^ 20) :
    ∃ g : ℚ, (Double.num v1 - Double.num v2 - Double.num v3 + Double.num v4) /
        ((4 : Double) * Double.defaultH * Double.defaultH) = Double.num g ∧
      |g - (F1 - F2 - F3 + F4) * 25000000| ≤ 1 / 2 ^ 13 := by
  have d1 : |v1 - v2| ≤ 1938 := by
    have := abs_sub v1 v2
    linarith
  obtain ⟨s1, hs1, hs1err⟩ := rnd_abs (v1 - v2) 1938 d1 (by norm_num)
  have hs1abs : |s1| ≤ 1939 := by
    have e : s1 = (s1 - (v1 - v2)) + (v1 - v2) := by ring
    rw [e]
    have := abs_add (s1 - (v1 - v2)) (v1 - v2)
    have : (1938 : ℚ) / 2 ^ 53 + 1 / 2 ^ 100 ≤ 1 := by norm_num
    linarith
  have d2 : |s1 - v3| ≤ 2908 := by
    have := abs_sub s1 v3
    linarith
  obtain ⟨s2, hs2, hs2err⟩ := rnd_abs (s1 - v3) 2908 d2 (by norm_num)
  have hs2abs : |s2| ≤ 2909 := by
    have e : s2 = (s2 - (s1 - v3)) + (s1 - v3) := by ring
    rw [e]
    have := abs_add (s2 - (s1 - v3)) (s1 - v3)
    have : (2908 : ℚ) / 2 ^ 53 + 1 / 2 ^ 100 ≤ 1 := by norm_num
    linarith
  have d3 : |s2 + v4| ≤ 3878 := by
    have := abs_add s2 v4
    linarith
  obtain ⟨N, hN, hNerr⟩ := rnd_abs (s2 + v4) 3878 d3 (by norm_num)
  have hNF : |N - (F1 - F2 - F3 + F4)| ≤ 4 / 2 ^ 40 + 8724 / 2 ^ 53 + 3 / 2 ^ 100 := by
    have e : N - (F1 - F2 - F3 + F4) = (N - (s2 + v4)) + (s2 - (s1 - v3)) + (s1 - (v1 - v2)) +
        (v1 - F1) - (v2 - F2) - (v3 - F3) + (v4 - F4) := by ring
    rw [e]
    have a1 := abs_add ((N - (s2 + v4)) + (s2 - (s1 - v3)) + (s1 - (v1 - v2)) + (v1 - F1) -
      (v2 - F2) - (v3 - F3)) (v4 - F4)
    have a2 := abs_sub ((N - (s2 + v4)) + (s2 - (s1 - v3)) + (s1 - (v1 - v2)) + (v1 - F1) -
      (v2 - F2)) (v3 - F3)
    have a3 := abs_sub ((N - (s2 + v4)) + (s2 - (s1 - v3)) + (s1 - (v1 - v2)) + (v1 - F1))
      (v2 - F2)
    have a4 := abs_add ((N - (s2 + v4)) + (s2 - (s1 - v3)) + (s1 - (v1 - v2))) (v1 - F1)
    have a5 := abs_add ((N - (s2 + v4)) + (s2 - (s1 - v3))) (s1 - (v1 - v2))
    have a6 := abs_add (N - (s2 + v4)) (s2 - (s1 - v3))
    linarith
  have hNabs : |N| ≤ 1 / 2 ^ 19 := by
    have e : N = (N - (F1 - F2 - F3 + F4)) + (F1 - F2 - F3 + F4) := by ring
    rw [e]
    have := abs_add (N - (F1 - F2 - F3 + F4)) (F1 - F2 - F3 + F4)
    have : (4 : ℚ) / 2 ^ 40 + 8724 / 2 ^ 53 + 3 / 2 ^ 100 + 1 / 2 ^ 20 ≤ 1 / 2 ^ 19 := by norm_num
    linarith
  have hd : (3022314549036573 / 75557863725914323419136 : ℚ) ≠ 0 := by norm_num
  have hdiv : N / (3022314549036573 / 75557863725914323419136) =
      N * (75557863725914323419136 / 3022314549036573) := by
    field_simp
  have hr1 : |(75557863725914323419136 / 3022314549036573 : ℚ)| ≤ 25000001 := by
    rw [abs_le]
    constructor <;> norm_num
  have hr2 : |(75557863725914323419136 / 3022314549036573 : ℚ) - 25000000| ≤ 1 / 2 ^ 20 := by
    rw [abs_le]
    constructor <;> norm_num
  have hq : |N * (75557863725914323419136 / 3022314549036573)| ≤ 48 := by
    rw [abs_mul]
    calc |N| * |(75557863725914323419136 / 3022314549036573 : ℚ)| ≤ 1 / 2 ^ 19 * 25000001 :=
          mul_le_mul hNabs hr1 (abs_nonneg _) (by norm_num)
      _ ≤ 48 := by norm_num
  obtain ⟨g, hg, hgerr⟩ := rnd_abs _ 48 hq (by norm_num)
  refine ⟨g, ?_, ?_⟩
  · rw [fourHSq_val, dnum_sub, hs1, dnum_sub, hs2, dnum_add, hN, dnum_div _ _ hd, hdiv, hg]
  · have e : g - (F1 - F2 - F3 + F4) * 25000000 =
        (g - N * (75557863725914323419136 / 3022314549036573)) +
          (N - (F1 - F2 - F3 + F4)) * (75557863725914323419136 / 3022314549036573) +
          (F1 - F2 - F3 + F4) * (75557863725914323419136 / 3022314549036573 - 25000000) := by
      ring
    rw [e]
    have t1 : |(N - (F1 - F2 - F3 + F4)) * (75557863725914323419136 / 3022314549036573)| ≤
        (4 / 2 ^ 40 + 8724 / 2 ^ 53 + 3 / 2 ^ 100) * 25000001 := by
      rw [abs_mul]
      exact mul_le_mul hNF hr1 (abs_nonneg _) (by norm_num)
    have t2 : |(F1 - F2 - F3 + F4) *
        (75557863725914323419136 / 3022314549036573 - 25000000)| ≤
        1 / 2 ^ 20 * (1 / 2 ^ 20) := by
      rw [abs_mul]
      exact mul_le_mul hF hr2 (abs_nonneg _) (by norm_num)
    have a1 := abs_add ((g - N * (75557863725914323419136 / 3022314549036573)) +
      (N - (F1 - F2 - F3 + F4)) * (75557863725914323419136 / 3022314549036573))
      ((F1 - F2 - F3 + F4) * (75557863725914323419136 / 3022314549036573 - 25000000))
    have a2 := abs_add (g - N * (75557863725914323419136 / 3022314549036573))
      ((N - (F1 - F2 - F3 + F4)) * (75557863725914323419136 / 3022314549036573))
    have : (48 : ℚ) / 2 ^ 53 + 1 / 2 ^ 100 +
        (4 / 2 ^ 40 + 8724 / 2 ^ 53 + 3 / 2 ^ 100) * 25000001 + 1 / 2 ^ 20 * (1 / 2 ^ 20)
        ≤ 1 / 2 ^ 13 := by norm_num
    linarith

/-- A linear form `p*x + q*y + r` with coefficients of magnitude at most `P`, `Q`, `R`
on the box `|x|, |y| ≤ 5`. -/
theorem linear_form_bound (p q r x y P Q R : ℚ) (hp : |p| ≤ P) (hq : |q| ≤ Q) (hr : |r| ≤ R)
    (hx : |x| ≤ 5) (hy : |y| ≤ 5) : |p * x + q * y + r| ≤ 5 * P + 5 * Q + R := by
  have hP : 0 ≤ P := le_trans (abs_nonneg _) hp
  have hQ : 0 ≤ Q := le_trans (abs_nonneg _) hq
  have h1 : |p * x| ≤ P * 5 := by
    rw [abs_mul]
    exact mul_le_mul hp hx (abs_nonneg _) hP
  have h2 : |q * y| ≤ Q * 5 := by
    rw [abs_mul]
    exact mul_le_mul hq hy (abs_nonneg _) hQ
  have a1 := abs_add (p * x + q * y) r
  have a2 := abs_add (p * x) (q * y)
  linarith

/-- The central differences of a quadratic in doubles: for coefficients of magnitude at
most 8, an evaluator within `2^(-41)` of the quadratic on `[-6, 6]²` and a point with
`|x|, |y| ≤ 5`, `numericPartialsAt` and `numericHessianAt` with `h = 1e-4` return finite
numbers, the gradient within `2^(-25)` of `(2ax + by + d, bx + 2cy + e)` and the second
derivatives within `2^(-11)` of `2a`, `2c` and `2^(-13)` of `b`. -/
theorem quadratic_differences (expression : Double.Expression) (a b c d e k : ℚ)
    (ha : |a| ≤ 8) (hb : |b| ≤ 8) (hc : |c| ≤ 8) (hd : |d| ≤ 8) (he : |e| ≤ 8) (hk : |k| ≤ 8)
    (horacle : ∀ x y : ℚ, |x| ≤ 6 → |y| ≤ 6 →
      ∃ v : ℚ, expression.eval (Double.num x) (Double.num y) = Double.num v ∧
        |v - (a * x * x + b * x * y + c * y * y + d * x + e * y + k)| ≤ 1 / 2 ^ 41)
    (x y : ℚ) (hx : |x| ≤ 5) (hy : |y| ≤ 5) :
    ∃ gx gy hxx hyy hxy : ℚ,
      Double.numericPartialsAt expression (Double.num x) (Double.num y) Double.defaultH =
        { fx := Double.num gx, fy := Double.num gy } ∧
      Double.numericHessianAt expression (Double.num x) (Double.num y) Double.defaultH =
        { fxx := Double.num hxx, fyy := Double.num hyy, fxy := Double.num hxy } ∧
      |gx - (2 * a * x + b * y + d)| ≤ 1 / 2 ^ 25 ∧
      |gy - (b * x + 2 * c * y + e)| ≤ 1 / 2 ^ 25 ∧
      |hxx - 2 * a| ≤ 1 / 2 ^ 11 ∧ |hyy - 2 * c| ≤ 1 / 2 ^ 11 ∧ |hxy - b| ≤ 1 / 2 ^ 13 := by
  obtain ⟨xp, xm, hxp, hxm, exp, exm⟩ := shift_abs x hx
  obtain ⟨yp, ym, hyp, hym, eyp, eym⟩ := shift_abs y hy
  have bx0 : |x| ≤ 5 + 1 / 10000 := le_trans hx (by norm_num)
  have by0 : |y| ≤ 5 + 1 / 10000 := le_trans hy (by norm_num)
  have bxp : |x + 1 / 10000| ≤ 5 + 1 / 10000 := by
    have := abs_add x (1 / 10000)
    rw [abs_of_pos (by norm_num : (0 : ℚ) < 1 / 10000)] at this
    linarith
  have bxm : |x - 1 / 10000| ≤ 5 + 1 / 10000 := by
    have := abs_sub x (1 / 10000)
    rw [abs_of_pos (by norm_num : (0 : ℚ) < 1 / 10000)] at this
    linarith
  have byp : |y + 1 / 10000| ≤ 5 + 1 / 10000 := by
    have := abs_add y (1 / 10000)
    rw [abs_of_pos (by norm_num : (0 : ℚ) < 1 / 10000)] at this
    linarith
  have bym : |y - 1 / 10000| ≤ 5 + 1 / 10000 := by
    have := abs_sub y (1 / 10000)
    rw [abs_of_pos (by norm_num : (0 : ℚ) < 1 / 10000)] at this
    linarith
  have z0 : ∀ t : ℚ, |t - t| ≤ 1 / 2 ^ 50 := fun t => by
    rw [sub_self, abs_zero]
    norm_num
  obtain ⟨v00, s00, e00, m00⟩ :=
    sample_abs expression a b c d e k ha hb hc hd he hk horacle x y x y bx0 by0 (z0 x) (z0 y)
  obtain ⟨vp0, sp0, ep0, mp0⟩ :=
    sample_abs expression a b c d e k ha hb hc hd he hk horacle xp y _ y bxp by0 exp (z0 y)
  obtain ⟨vm0, sm0, em0, mm0⟩ :=
    sample_abs expression a b c d e k ha hb hc hd he hk horacle xm y _ y bxm by0 exm (z0 y)
  obtain ⟨v0p, s0p, e0p, m0p⟩ :=
    sample_abs expression a b c d e k ha hb hc hd he hk horacle x yp x _ bx0 byp (z0 x) eyp
  obtain ⟨v0m, s0m, e0m, m0m⟩ :=
    sample_abs expression a b c d e k ha hb hc hd he hk horacle x ym x _ bx0 bym (z0 x) eym
  obtain ⟨vpp, spp, epp, mpp⟩ :=
    sample_abs expression a b c d e k ha hb hc hd he hk horacle xp yp _ _ bxp byp exp eyp
  obtain ⟨vpm, spm, epm, mpm⟩ :=
    sample_abs expression a b c d e k ha hb hc hd he hk horacle xp ym _ _ bxp bym exp eym
  obtain ⟨vmp, smp, emp, mmp⟩ :=
    sample_abs expression a b c d e k ha hb hc hd he hk horacle xm yp _ _ bxm byp exm eyp
  obtain ⟨vmm, smm, emm, mmm⟩ :=
    sample_abs expression a b c d e k ha hb hc hd he hk horacle xm ym _ _ bxm bym exm eym
  have twoa : |2 * a| ≤ 16 := by
    rw [abs_mul]
    norm_num
    linarith
  have twoc : |2 * c| ≤ 16 := by
    rw [abs_mul]
    norm_num
    linarith
  have lx := linear_form_bound (2 * a) b d x y 16 8 8 twoa hb hd hx hy
  have ly := linear_form_bound b (2 * c) e x y 8 16 8 hb twoc he hx hy
  -- the ideal differences of the quadratic
  have dx1 : (a * (x + 1 / 10000) * (x + 1 / 10000) + b * (x + 1 / 10000) * y + c * y * y +
      d * (x + 1 / 10000) + e * y + k) -
      (a * (x - 1 / 10000) * (x - 1 / 10000) + b * (x - 1 / 10000) * y + c * y * y +
      d * (x - 1 / 10000) + e * y + k) = (2 * a * x + b * y + d) / 5000 := by ring
  have dy1 : (a * x * x + b * x * (y + 1 / 10000) + c * (y + 1 / 10000) * (y + 1 / 10000) +
      d * x + e * (y + 1 / 10000) + k) -
      (a * x * x + b * x * (y - 1 / 10000) + c * (y - 1 / 10000) * (y - 1 / 10000) +
      d * x + e * (y - 1 / 10000) + k) = (b * x + 2 * c * y + e) / 5000 := by ring
  have dx2 : (a * (x + 1 / 10000) * (x + 1 / 10000) + b * (x + 1 / 10000) * y + c * y * y +
      d * (x + 1 / 10000) + e * y + k) -
      2 * (a * x * x + b * x * y + c * y * y + d * x + e * y + k) +
      (a * (x - 1 / 10000) * (x - 1 / 10000) + b * (x - 1 / 10000) * y + c * y * y +
      d * (x - 1 / 10000) + e * y + k) = 2 * a / 100000000 := by ring
  have dy2 : (a * x * x + b * x * (y + 1 / 10000) + c * (y + 1 / 10000) * (y + 1 / 10000) +
      d * x + e * (y + 1 / 10000) + k) -
      2 * (a * x * x + b * x * y + c * y * y + d * x + e * y + k) +
      (a * x * x + b * x * (y - 1 / 10000) + c * (y - 1 / 10000) * (y - 1 / 10000) +
      d * x + e * (y - 1 / 10000) + k) = 2 * c / 100000000 := by ring
  have dxy : (a * (x + 1 / 10000) * (x + 1 / 10000) + b * (x + 1 / 10000) * (y + 1 / 10000) +
      c * (y + 1 / 10000) * (y + 1 / 10000) + d * (x + 1 / 10000) + e * (y + 1 / 10000) + k) -
      (a * (x + 1 / 10000) * (x + 1 / 10000) + b * (x + 1 / 10000) * (y - 1 / 10000) +
      c * (y - 1 / 10000) * (y - 1 / 10000) + d * (x + 1 / 10000) + e * (y - 1 / 10000) + k) -
      (a * (x - 1 / 10000) * (x - 1 / 10000) + b * (x - 1 / 10000) * (y + 1 / 10000) +
      c * (y + 1 / 10000) * (y + 1 / 10000) + d * (x - 1 / 10000) + e * (y + 1 / 10000) + k) +
      (a * (x - 1 / 10000) * (x - 1 / 10000) + b * (x - 1 / 10000) * (y - 1 / 10000) +
      c * (y - 1 / 10000) * (y - 1 / 10000) + d * (x - 1 / 10000) + e * (y - 1 / 10000) + k) =
      b / 25000000 := by ring
  obtain ⟨gx, hgx, egx⟩ := central1_abs vp0 vm0 _ _ ep0 em0 mp0 mm0 (by
    rw [dx1, abs_div]
    norm_num
    rw [div_le_iff₀ (by norm_num)]
    linarith)
  obtain ⟨gy, hgy, egy⟩ := central1_abs v0p v0m _ _ e0p e0m m0p m0m (by
    rw [dy1, abs_div]
    norm_num
    rw [div_le_iff₀ (by norm_num)]
    linarith)
  obtain ⟨hxx, hhxx, ehxx⟩ := central2_abs vp0 v00 vm0 _ _ _ ep0 e00 em0 mp0 m00 mm0 (by
    rw [dx2, abs_div]
    norm_num
    rw [div_le_iff₀ (by norm_num)]
    linarith)
  obtain ⟨hyy, hhyy, ehyy⟩ := central2_abs v0p v00 v0m _ _ _ e0p e00 e0m m0p m00 m0m (by
    rw [dy2, abs_div]
    norm_num
    rw [div_le_iff₀ (by norm_num)]
    linarith)
  obtain ⟨hxy, hhxy, ehxy⟩ := central4_abs vpp vpm vmp vmm _ _ _ _ epp epm emp emm
    mpp mpm mmp mmm (by
    rw [dxy, abs_div]
    norm_num
    rw [div_le_iff₀ (by norm_num)]
    linarith)
  refine ⟨gx, gy, hxx, hyy, hxy, ?_, ?_, ?_, ?_, ?_, ?_, ?_⟩
  · simp only [Double.numericPartialsAt]
    rw [hxp, hxm, hyp, hym, sp0, sm0, s0p, s0m, hgx, hgy]
  · simp only [Double.numericHessianAt]
    rw [hxp, hxm, hyp, hym, sp0, sm0, s0p, s0m, s00, spp, spm, smp, smm, hhxx, hhyy, hhxy]
  · rw [dx1] at egx
    have e1 : (2 * a * x + b * y + d) / 5000 * 5000 = 2 * a * x + b * y + d := by ring
    rwa [e1] at egx
  · rw [dy1] at egy
    have e1 : (b * x + 2 * c * y + e) / 5000 * 5000 = b * x + 2 * c * y + e := by ring
    rwa [e1] at egy
  · rw [dx2] at ehxx
    have e1 : 2 * a / 100000000 * 100000000 = 2 * a := by ring
    rwa [e1] at ehxx
  · rw [dy2] at ehyy
    have e1 : 2 * c / 100000000 * 100000000 = 2 * c := by ring
    rwa [e1] at ehyy
  · rw [dxy] at ehxy
    have e1 : b / 25000000 * 25000000 = b := by ring
    rwa [e1] at ehxy

/-- A product of two numbers of magnitude at most 6. -/
theorem abs_mul_le_36 (x y : ℚ) (hx : |x| ≤ 6) (hy : |y| ≤ 6) : |x * y| ≤ 36 := by
  rw [abs_mul]
  calc |x| * |y| ≤ 6 * 6 := mul_le_mul hx hy (abs_nonneg _) (by norm_num)
    _ = 36 := by norm_num

/-- The evaluator of `x*x + y*y` in doubles is within `2^(-41)` of the polynomial on
`[-6, 6]²`. -/
theorem paraboloid_accurate (x y : ℚ) (hx : |x| ≤ 6) (hy : |y| ≤ 6) :
    ∃ v : ℚ, Double.paraboloid.eval (Double.num x) (Double.num y) = Double.num v ∧
      |v - (1 * x * x + 0 * x * y + 1 * y * y + 0 * x + 0 * y + 0)| ≤ 1 / 2 ^ 41 := by
  obtain ⟨r1, h1, e1⟩ := rnd_abs (x * x) 36 (abs_mul_le_36 x x hx hx) (by norm_num)
  obtain ⟨r2, h2, e2⟩ := rnd_abs (y * y) 36 (abs_mul_le_36 y y hy hy) (by norm_num)
  have b1 : |r1| ≤ 37 := by
    have e : r1 = (r1 - x * x) + x * x := by ring
    rw [e]
    have := abs_add (r1 - x * x) (x * x)
    have := abs_mul_le_36 x x hx hx
    have : (36 : ℚ) / 2 ^ 53 + 1 / 2 ^ 100 ≤ 1 := by norm_num
    linarith
  have b2 : |r2| ≤ 37 := by
    have e : r2 = (r2 - y * y) + y * y := by ring
    rw [e]
    have := abs_add (r2 - y * y) (y * y)
    have := abs_mul_le_36 y y hy hy
    have : (36 : ℚ) / 2 ^ 53 + 1 / 2 ^ 100 ≤ 1 := by norm_num
    linarith
  have b3 : |r1 + r2| ≤ 74 := by
    have := abs_add r1 r2
    linarith
  obtain ⟨v, h3, e3⟩ := rnd_abs (r1 + r2) 74 b3 (by norm_num)
  refine ⟨v, ?_, ?_⟩
  · show Double.num x * Double.num x + Double.num y * Double.num y = _
    rw [dnum_mul, dnum_mul, h1, h2, dnum_add, h3]
  · have e : v - (1 * x * x + 0 * x * y + 1 * y * y + 0 * x + 0 * y + 0) =
        (v - (r1 + r2)) + (r1 - x * x) + (r2 - y * y) := by ring
    rw [e]
    have a1 := abs_add ((v - (r1 + r2)) + (r1 - x * x)) (r2 - y * y)
    have a2 := abs_add (v - (r1 + r2)) (r1 - x * x)
    have : (74 : ℚ) / 2 ^ 53 + 1 / 2 ^ 100 + (36 / 2 ^ 53 + 1 / 2 ^ 100) +
        (36 / 2 ^ 53 + 1 / 2 ^ 100) ≤ 1 / 2 ^ 41 := by norm_num
    linarith

/-- The constant `3` as a double. -/
theorem dthree_eq : (3 : Double) = Double.num 3 := by
  have h := rnd_natCast 3 (by norm_num)
  rw [dofNat_eq, h]
  norm_num

/-- The evaluator of `x*x + x*y + y*y - 3*x` in doubles is within `2^(-41)` of the
polynomial on `[-6, 6]²`. -/
theorem tiltedBowl_accurate (x y : ℚ) (hx : |x| ≤ 6) (hy : |y| ≤ 6) :
    ∃ v : ℚ, Double.tiltedBowl.eval (Double.num x) (Double.num y) = Double.num v ∧
      |v - (1 * x * x + 1 * x * y + 1 * y * y + (-3) * x + 0 * y + 0)| ≤ 1 / 2 ^ 41 := by
  have hxx := abs_mul_le_36 x x hx hx
  have hxy := abs_mul_le_36 x y hx hy
  have hyy := abs_mul_le_36 y y hy hy
  obtain ⟨r1, h1, e1⟩ := rnd_abs (x * x) 36 hxx (by norm_num)
  obtain ⟨r2, h2, e2⟩ := rnd_abs (x * y) 36 hxy (by norm_num)
  have small : (36 : ℚ) / 2 ^ 53 + 1 / 2 ^ 100 ≤ 1 := by norm_num
  have b1 : |r1| ≤ 37 := by
    have e : r1 = (r1 - x * x) + x * x := by ring
    rw [e]
    have := abs_add (r1 - x * x) (x * x)
    linarith
  have b2 : |r2| ≤ 37 := by
    have e : r2 = (r2 - x * y) + x * y := by ring
    rw [e]
    have := abs_add (r2 - x * y) (x * y)
    linarith
  have b3 : |r1 + r2| ≤ 74 := by
    have := abs_add r1 r2
    linarith
  obtain ⟨r3, h3, e3⟩ := rnd_abs (r1 + r2) 74 b3 (by norm_num)
  have c3 : |r3| ≤ 75 := by
    have e : r3 = (r3 - (r1 + r2)) + (r1 + r2) := by ring
    rw [e]
    have := abs_add (r3 - (r1 + r2)) (r1 + r2)
    have : (74 : ℚ) / 2 ^ 53 + 1 / 2 ^ 100 ≤ 1 := by norm_num
    linarith
  obtain ⟨r4, h4, e4⟩ := rnd_abs (y * y) 36 hyy (by norm_num)
  have b4 : |r4| ≤ 37 := by
    have e : r4 = (r4 - y * y) + y * y := by ring
    rw [e]
    have := abs_add (r4 - y * y) (y * y)
    linarith
  have b5 : |r3 + r4| ≤ 112 := by
    have := abs_add r3 r4
    linarith
  obtain ⟨r5, h5, e5⟩ := rnd_abs (r3 + r4) 112 b5 (by norm_num)
  have c5 : |r5| ≤ 113 := by
    have e : r5 = (r5 - (r3 + r4)) + (r3 + r4) := by ring
    rw [e]
    have := abs_add (r5 - (r3 + r4)) (r3 + r4)
    have : (112 : ℚ) / 2 ^ 53 + 1 / 2 ^ 100 ≤ 1 := by norm_num
    linarith
  have b6 : |3 * x| ≤ 18 := by
    rw [abs_mul]
    norm_num
    linarith
  obtain ⟨r6, h6, e6⟩ := rnd_abs (3 * x) 18 b6 (by norm_num)
  have c6 : |r6| ≤ 19 := by
    have e : r6 = (r6 - 3 * x) + 3 * x := by ring
    rw [e]
    have := abs_add (r6 - 3 * x) (3 * x)
    have : (18 : ℚ) / 2 ^ 53 + 1 / 2 ^ 100 ≤ 1 := by norm_num
    linarith
  have b7 : |r5 - r6| ≤ 132 := by
    have := abs_sub r5 r6
    linarith
  obtain ⟨v, h7, e7⟩ := rnd_abs (r5 - r6) 132 b7 (by norm_num)
  refine ⟨v, ?_, ?_⟩
  · show Double.num x * Double.num x + Double.num x * Double.num y +
        Double.num y * Double.num y - 3 * Double.num x = _
    rw [dthree_eq, dnum_mul, dnum_mul, dnum_mul, dnum_mul, h1, h2, h4, h6, dnum_add, h3,
      dnum_add, h5, dnum_sub, h7]
  · have e : v - (1 * x * x + 1 * x * y + 1 * y * y + (-3) * x + 0 * y + 0) =
        (v - (r5 - r6)) + (r5 - (r3 + r4)) + (r3 - (r1 + r2)) + (r1 - x * x) + (r2 - x * y) +
          (r4 - y * y) - (r6 - 3 * x) := by ring
    rw [e]
    have a1 := abs_sub ((v - (r5 - r6)) + (r5 - (r3 + r4)) + (r3 - (r1 + r2)) + (r1 - x * x) +
      (r2 - x * y) + (r4 - y * y)) (r6 - 3 * x)
    have a2 := abs_add ((v - (r5 - r6)) + (r5 - (r3 + r4)) + (r3 - (r1 + r2)) + (r1 - x * x) +
      (r2 - x * y)) (r4 - y * y)
    have a3 := abs_add ((v - (r5 - r6)) + (r5 - (r3 + r4)) + (r3 - (r1 + r2)) + (r1 - x * x))
      (r2 - x * y)
    have a4 := abs_add ((v - (r5 - r6)) + (r5 - (r3 + r4)) + (r3 - (r1 + r2))) (r1 - x * x)
    have a5 := abs_add ((v - (r5 - r6)) + (r5 - (r3 + r4))) (r3 - (r1 + r2))
    have a6 := abs_add (v - (r5 - r6)) (r5 - (r3 + r4))
    have : (132 : ℚ) / 2 ^ 53 + 1 / 2 ^ 100 + (112 / 2 ^ 53 + 1 / 2 ^ 100) +
        (74 / 2 ^ 53 + 1 / 2 ^ 100) + (36 / 2 ^ 53 + 1 / 2 ^ 100) + (36 / 2 ^ 53 + 1 / 2 ^ 100) +
        (36 / 2 ^ 53 + 1 / 2 ^ 100) + (18 / 2 ^ 53 + 1 / 2 ^ 100) ≤ 1 / 2 ^ 41 := by norm_num
    linarith

/-- C10 (the claim fails): in doubles the central differences of x*x + y*y are not
within 1e-3 of the analytic derivatives at every point, and they are not equal to them
where they are close.  At (100000, 0) the computed fx is 13107200625/65536 =
200000.0095..., more than 1e-3 from 2x = 200000; at (1000, 0) the computed fxx is
16796875/8388608 = 2.0023..., more than 1e-3 from 2; at (1e200, 0) the samples overflow
and fx is NaN; at (1, 1) the computed gradient is (1.9999999999997797...,
1.9999999999997797...), not (2, 2). -/
theorem numeric_derivatives_sum_of_squares_inexact :
    (Double.numericPartialsAt Double.paraboloid 1e5 0 Double.defaultH =
        { fx := Double.num (13107200625 / 65536), fy := Double.num 0 } ∧
      (1e5 : Double) = Double.num 100000 ∧
      (1 : ℚ) / 1000 < |13107200625 / 65536 - 2 * 100000|) ∧
    ((Double.numericHessianAt Double.paraboloid 1000 0 Double.defaultH).fxx =
        Double.num (16796875 / 8388608) ∧
      (1000 : Double) = Double.num 1000 ∧
      (1 : ℚ) / 1000 < |16796875 / 8388608 - 2|) ∧
    (Double.numericPartialsAt Double.paraboloid 1e200 0 Double.defaultH).fx = Double.nan ∧
    Double.numericPartialsAt Double.paraboloid 1 1 Double.defaultH =
      { fx := Double.num (281474976710625 / 140737488355328),
        fy := Double.num (281474976710625 / 140737488355328) } := by
  refine ⟨⟨?_, ?_, ?_⟩, ⟨?_, ?_, ?_⟩, ?_, ?_⟩ <;> decide!

/-- C10 (amended): for f = x*x + y*y evaluated in doubles, h = 1e-4 and every point with
|x| <= 5 and |y| <= 5, numericPartialsAt returns finite components within 1e-3 of
(2x, 2y) and numericHessianAt returns finite fxx, fyy within 1e-3 of 2 and fxy within
1e-3 of 0. -/
theorem numeric_derivatives_sum_of_squares_near (x y : ℚ) (hx : |x| ≤ 5) (hy : |y| ≤ 5) :
    ∃ gx gy hxx hyy hxy : ℚ,
      Double.numericPartialsAt Double.paraboloid (Double.num x) (Double.num y)
          Double.defaultH = { fx := Double.num gx, fy := Double.num gy } ∧
      Double.numericHessianAt Double.paraboloid (Double.num x) (Double.num y)
          Double.defaultH =
        { fxx := Double.num hxx, fyy := Double.num hyy, fxy := Double.num hxy } ∧
      |gx - 2 * x| ≤ 1 / 1000 ∧ |gy - 2 * y| ≤ 1 / 1000 ∧
      |hxx - 2| ≤ 1 / 1000 ∧ |hyy - 2| ≤ 1 / 1000 ∧ |hxy - 0| ≤ 1 / 1000 := by
  obtain ⟨gx, gy, hxx, hyy, hxy, h1, h2, e1, e2, e3, e4, e5⟩ :=
    quadratic_differences Double.paraboloid 1 0 1 0 0 0 (by norm_num) (by norm_num)
      (by norm_num) (by norm_num) (by norm_num) (by norm_num) paraboloid_accurate x y hx hy
  refine ⟨gx, gy, hxx, hyy, hxy, h1, h2, ?_, ?_, ?_, ?_, ?_⟩
  · have e : 2 * (1 : ℚ) * x + 0 * y + 0 = 2 * x := by ring
    rw [e] at e1
    exact le_trans e1 (by norm_num)
  · have e : (0 : ℚ) * x + 2 * 1 * y + 0 = 2 * y := by ring
    rw [e] at e2
    exact le_trans e2 (by norm_num)
  · have e : (2 : ℚ) * 1 = 2 := by norm_num
    rw [e] at e3
    exact le_trans e3 (by norm_num)
  · have e : (2 : ℚ) * 1 = 2 := by norm_num
    rw [e] at e4
    exact le_trans e4 (by norm_num)
  · exact le_trans e5 (by norm_num)

/-- C10 (amended), at the point (1, 1): the gradient is within 1e-3 of (2, 2) and the
Hessian within 1e-3 of (2, 2, 0). -/
theorem numeric_derivatives_sum_of_squares_near_witness :
    |(1 : ℚ)| ≤ 5 ∧
    ∃ gx gy hxx hyy hxy : ℚ,
      Double.numericPartialsAt Double.paraboloid (Double.num 1) (Double.num 1)
          Double.defaultH = { fx := Double.num gx, fy := Double.num gy } ∧
      Double.numericHessianAt Double.paraboloid (Double.num 1) (Double.num 1)
          Double.defaultH =
        { fxx := Double.num hxx, fyy := Double.num hyy, fxy := Double.num hxy } ∧
      |gx - 2 * 1| ≤ 1 / 1000 ∧ |gy - 2 * 1| ≤ 1 / 1000 ∧
      |hxx - 2| ≤ 1 / 1000 ∧ |hyy - 2| ≤ 1 / 1000 ∧ |hxy - 0| ≤ 1 / 1000 :=
  ⟨by norm_num, numeric_derivatives_sum_of_squares_near 1 1 (by norm_num) (by norm_num)⟩

/-- The determinant `fxx*fyy - fxy*fxy` in doubles: for second derivatives within
`2^(-11)` of `2a`, `2c` and `2^(-13)` of `b`, with `|a|, |b|, |c| ≤ 8`, the computed
determinant is finite and within `1/32` of `4ac - b²`. -/
theorem determinant_abs (a b c hxx hyy hxy : ℚ) (ha : |a| ≤ 8) (hb : |b| ≤ 8) (hc : |c| ≤ 8)
    (e1 : |hxx - 2 * a| ≤ 1 / 2 ^ 11) (e2 : |hyy - 2 * c| ≤ 1 / 2 ^ 11)
    (e3 : |hxy - b| ≤ 1 / 2 ^ 13) :
    ∃ det : ℚ, Double.num hxx * Double.num hyy - Double.num hxy * Double.num hxy =
        Double.num det ∧ |det - (4 * a * c - b * b)| ≤ 1 / 32 := by
  have twoa : |2 * a| ≤ 16 := by
    rw [abs_mul]
    norm_num
    linarith
  have twoc : |2 * c| ≤ 16 := by
    rw [abs_mul]
    norm_num
    linarith
  have bxx : |hxx| ≤ 17 := by
    have e : hxx = (hxx - 2 * a) + 2 * a := by ring
    rw [e]
    have := abs_add (hxx - 2 * a) (2 * a)
    have : (1 : ℚ) / 2 ^ 11 ≤ 1 := by norm_num
    linarith
  have byy : |hyy| ≤ 17 := by
    have e : hyy = (hyy - 2 * c) + 2 * c := by ring
    rw [e]
    have := abs_add (hyy - 2 * c) (2 * c)
    have : (1 : ℚ) / 2 ^ 11 ≤ 1 := by norm_num
    linarith
  have bxy : |hxy| ≤ 9 := by
    have e : hxy = (hxy - b) + b := by ring
    rw [e]
    have := abs_add (hxy - b) b
    have : (1 : ℚ) / 2 ^ 13 ≤ 1 := by norm_num
    linarith
  have bxyb : |hxy + b| ≤ 17 := by
    have := abs_add hxy b
    linarith
  have m1 : |hxx * hyy| ≤ 289 := by
    rw [abs_mul]
    calc |hxx| * |hyy| ≤ 17 * 17 := mul_le_mul bxx byy (abs_nonneg _) (by norm_num)
      _ = 289 := by norm_num
  have m2 : |hxy * hxy| ≤ 81 := by
    rw [abs_mul]
    calc |hxy| * |hxy| ≤ 9 * 9 := mul_le_mul bxy bxy (abs_nonneg _) (by norm_num)
      _ = 81 := by norm_num
  obtain ⟨p1, hp1, ep1⟩ := rnd_abs (hxx * hyy) 289 m1 (by norm_num)
  obtain ⟨p2, hp2, ep2⟩ := rnd_abs (hxy * hxy) 81 m2 (by norm_num)
  have bp1 : |p1| ≤ 290 := by
    have e : p1 = (p1 - hxx * hyy) + hxx * hyy := by ring
    rw [e]
    have := abs_add (p1 - hxx * hyy) (hxx * hyy)
    have : (289 : ℚ) / 2 ^ 53 + 1 / 2 ^ 100 ≤ 1 := by norm_num
    linarith
  have bp2 : |p2| ≤ 82 := by
    have e : p2 = (p2 - hxy * hxy) + hxy * hxy := by ring
    rw [e]
    have := abs_add (p2 - hxy * hxy) (hxy * hxy)
    have : (81 : ℚ) / 2 ^ 53 + 1 / 2 ^ 100 ≤ 1 := by norm_num
    linarith
  have bd : |p1 - p2| ≤ 372 := by
    have := abs_sub p1 p2
    linarith
  obtain ⟨det, hdet, edet⟩ := rnd_abs (p1 - p2) 372 bd (by norm_num)
  refine ⟨det, ?_, ?_⟩
  · rw [dnum_mul, dnum_mul, hp1, hp2, dnum_sub, hdet]
  · have t1 : |(hxx - 2 * a) * hyy| ≤ 1 / 2 ^ 11 * 17 := by
      rw [abs_mul]
      exact mul_le_mul e1 byy (abs_nonneg _) (by norm_num)
    have t2 : |2 * a * (hyy - 2 * c)| ≤ 16 * (1 / 2 ^ 11) := by
      rw [abs_mul]
      exact mul_le_mul twoa e2 (abs_nonneg _) (by norm_num)
    have t3 : |(hxy - b) * (hxy + b)| ≤ 1 / 2 ^ 13 * 17 := by
      rw [abs_mul]
      exact mul_le_mul e3 bxyb (abs_nonneg _) (by norm_num)
    have e : det - (4 * a * c - b * b) = (det - (p1 - p2)) + (p1 - hxx * hyy) -
        (p2 - hxy * hxy) + (hxx - 2 * a) * hyy + 2 * a * (hyy - 2 * c) -
        (hxy - b) * (hxy + b) := by ring
    rw [e]
    have a1 := abs_sub ((det - (p1 - p2)) + (p1 - hxx * hyy) - (p2 - hxy * hxy) +
      (hxx - 2 * a) * hyy + 2 * a * (hyy - 2 * c)) ((hxy - b) * (hxy + b))
    have a2 := abs_add ((det - (p1 - p2)) + (p1 - hxx * hyy) - (p2 - hxy * hxy) +
      (hxx - 2 * a) * hyy) (2 * a * (hyy - 2 * c))
    have a3 := abs_add ((det - (p1 - p2)) + (p1 - hxx * hyy) - (p2 - hxy * hxy))
      ((hxx - 2 * a) * hyy)
    have a4 := abs_sub ((det - (p1 - p2)) + (p1 - hxx * hyy)) (p2 - hxy * hxy)
    have a5 := abs_add (det - (p1 - p2)) (p1 - hxx * hyy)
    have : (372 : ℚ) / 2 ^ 53 + 1 / 2 ^ 100 + (289 / 2 ^ 53 + 1 / 2 ^ 100) +
        (81 / 2 ^ 53 + 1 / 2 ^ 100) + 1 / 2 ^ 11 * 17 + 16 * (1 / 2 ^ 11) + 1 / 2 ^ 13 * 17
        ≤ 1 / 32 := by norm_num
    linarith

/-- C26 (the claim fails): in doubles the central differences of a quadratic are not
exact and the Newton loop does not land exactly on the stationary point.  For
x*x + x*y + y*y - 3*x the range selector gives [-5, 5] and the stationary point
(2, -1) is a point of the 21 x 21 grid; the computed gradient at (2, -1) is
(-625/2^48, 0), not (0, 0); the point passes the seed test, and the Newton loop
started there returns (2.00000000000148..., -1.00000000000074...), not (2, -1).  For
x*x + 2.000001*x*y + y*y, with |4ac - b^2| about 4e-6 >= 1e-12 and stationary point
(0, 0), the grid point (-5, 5) passes the seed test and the Newton loop started there
makes no step at all (the computed determinant is below 1e-12 in magnitude): it
returns (-5, 5). -/
theorem newtonRefine_quadratic_inexact :
    (pickSafeRangeForExpr Double.tiltedBowl.text = { min := fin (-5), max := fin 5 } ∧
      (Double.num 2 ∈ Double.createRange (-5) 5 21 ∧
        Double.num (-1) ∈ Double.createRange (-5) 5 21) ∧
      (Double.numericPartialsAt Double.tiltedBowl 2 (-1) Double.defaultH =
          { fx := Double.num (-625 / 281474976710656), fy := Double.num 0 } ∧
        Double.hypotLt (Double.num (-625 / 281474976710656)) (Double.num 0) 1e-2 = true) ∧
      Double.newtonRefine Double.tiltedBowl 6 2 (-1) =
        (Double.num (4503599627373829 / 2251799813685248),
          Double.num (-4503599627373829 / 4503599627370496))) ∧
    (pickSafeRangeForExpr Double.nearlySingular.text = { min := fin (-5), max := fin 5 } ∧
      (Double.num (-5) ∈ Double.createRange (-5) 5 21 ∧
        Double.num 5 ∈ Double.createRange (-5) 5 21) ∧
      (1e-12 : ℚ) ≤ |4 * 1 * 1 - 2.000001 * 2.000001| ∧
      (Double.numericPartialsAt Double.nearlySingular (-5) 5 Double.defaultH =
          { fx := Double.num (1374375 / 274877906944),
            fy := Double.num (-43980625 / 8796093022208) } ∧
        Double.hypotLt (Double.num (1374375 / 274877906944))
          (Double.num (-43980625 / 8796093022208)) 1e-2 = true) ∧
      Double.newtonRefine Double.nearlySingular 6 (-5) 5 = (Double.num (-5), Double.num 5)) := by
  refine ⟨⟨?_, ⟨?_, ?_⟩, ⟨?_, ?_⟩, ?_⟩, ?_, ⟨?_, ?_⟩, ?_, ⟨?_, ?_⟩, ?_⟩ <;> decide!

/-- C26 (amended): for every quadratic a*x^2 + b*x*y + c*y^2 + d*x + e*y + k with
coefficients of magnitude at most 8, an evaluator within 2^(-41) of it on [-6, 6]^2 and
every point with |x| <= 5 and |y| <= 5, the central differences computed in doubles with
h = 1e-4 are finite and close to the analytic derivatives, not equal to them: the
gradient is within 2^(-25) of (2ax + by + d, bx + 2cy + e), fxx and fyy are within
2^(-11) of 2a and 2c, fxy is within 2^(-13) of b, and the determinant
fxx*fyy - fxy*fxy used by the Newton loop is within 1/32 of 4ac - b^2. -/
theorem numeric_derivatives_quadratic_within (expression : Double.Expression)
    (a b c d e k : ℚ)
    (ha : |a| ≤ 8) (hb : |b| ≤ 8) (hc : |c| ≤ 8) (hd : |d| ≤ 8) (he : |e| ≤ 8) (hk : |k| ≤ 8)
    (horacle : ∀ x y : ℚ, |x| ≤ 6 → |y| ≤ 6 →
      ∃ v : ℚ, expression.eval (Double.num x) (Double.num y) = Double.num v ∧
        |v - (a * x * x + b * x * y + c * y * y + d * x + e * y + k)| ≤ 1 / 2 ^ 41)
    (x y : ℚ) (hx : |x| ≤ 5) (hy : |y| ≤ 5) :
    ∃ gx gy hxx hyy hxy det : ℚ,
      Double.numericPartialsAt expression (Double.num x) (Double.num y) Double.defaultH =
        { fx := Double.num gx, fy := Double.num gy } ∧
      Double.numericHessianAt expression (Double.num x) (Double.num y) Double.defaultH =
        { fxx := Double.num hxx, fyy := Double.num hyy, fxy := Double.num hxy } ∧
      Double.num hxx * Double.num hyy - Double.num hxy * Double.num hxy = Double.num det ∧
      |gx - (2 * a * x + b * y + d)| ≤ 1 / 2 ^ 25 ∧
      |gy - (b * x + 2 * c * y + e)| ≤ 1 / 2 ^ 25 ∧
      |hxx - 2 * a| ≤ 1 / 2 ^ 11 ∧ |hyy - 2 * c| ≤ 1 / 2 ^ 11 ∧ |hxy - b| ≤ 1 / 2 ^ 13 ∧
      |det - (4 * a * c - b * b)| ≤ 1 / 32 := by
  obtain ⟨gx, gy, hxx, hyy, hxy, h1, h2, e1, e2, e3, e4, e5⟩ :=
    quadratic_differences expression a b c d e k ha hb hc hd he hk horacle x y hx hy
  obtain ⟨det, hdet, edet⟩ := determinant_abs a b c hxx hyy hxy ha hb hc e3 e4 e5
  exact ⟨gx, gy, hxx, hyy, hxy, det, h1, h2, hdet, e1, e2, e3, e4, e5, edet⟩

/-- C26 (amended), for x*x + x*y + y*y - 3*x at its stationary point (2, -1): the
computed gradient is within 2^(-25) of (0, 0), the Hessian within 2^(-11) of (2, 2, 1)
and the determinant within 1/32 of 3. -/
theorem numeric_derivatives_quadratic_within_witness :
    ∃ gx gy hxx hyy hxy det : ℚ,
      Double.numericPartialsAt Double.tiltedBowl (Double.num 2) (Double.num (-1))
          Double.defaultH = { fx := Double.num gx, fy := Double.num gy } ∧
      Double.numericHessianAt Double.tiltedBowl (Double.num 2) (Double.num (-1))
          Double.defaultH =
        { fxx := Double.num hxx, fyy := Double.num hyy, fxy := Double.num hxy } ∧
      Double.num hxx * Double.num hyy - Double.num hxy * Double.num hxy = Double.num det ∧
      |gx - (2 * 1 * 2 + 1 * (-1) + (-3))| ≤ 1 / 2 ^ 25 ∧
      |gy - (1 * 2 + 2 * 1 * (-1) + 0)| ≤ 1 / 2 ^ 25 ∧
      |hxx - 2 * 1| ≤ 1 / 2 ^ 11 ∧ |hyy - 2 * 1| ≤ 1 / 2 ^ 11 ∧ |hxy - 1| ≤ 1 / 2 ^ 13 ∧
      |det - (4 * 1 * 1 - 1 * 1)| ≤ 1 / 32 :=
  numeric_derivatives_quadratic_within Double.tiltedBowl 1 1 1 (-3) 0 0 (by norm_num)
    (by norm_num) (by norm_num) (by norm_num) (by norm_num) (by norm_num)
    tiltedBowl_accurate 2 (-1) (by norm_num) (by norm_num)
